import Mathlib

/-! # Software scoreboard (SWSB) dependency analysis of the IGA library

A shallow embedding of `visa/iga/IGALibrary/IR/SWSBSetter.hpp`.

* `Bucket` and the constructor of `SWSBAnalyzer` are defined inline in the header and are
  translated from it line by line.
* The member functions of `SWSBAnalyzer` are only declared in the header; their bodies live in
  `SWSBSetter.cpp`, which is not part of the sources at hand.  They are modelled from the design
  document and from the comments that accompany their declarations; each such definition says
  so in its doc comment.

Pointers to `DepSet` are modelled as `Option α` (`none` is `nullptr`); `α` is the type of the
pointee handles.
-/

namespace iga

/-! ## `Bucket` (header lines 38-67) -/

/-- A `Bucket` represents a GRF and maps to all instructions that access it:
`std::vector<DepSet*> dependencies`. -/
structure Bucket (α : Type) where
  dependencies : List (Option α)
deriving DecidableEq, Repr

namespace Bucket

variable {α : Type}

/-- The constructor `Bucket() { dependencies.reserve(5); }`: an empty vector. -/
def empty : Bucket α := ⟨[]⟩

/-- The method `void clearDependency() { dependencies.clear(); }`. -/
def clearDependency (_b : Bucket α) : Bucket α := ⟨[]⟩

/-- The method `bool isEmpty() const { return dependencies.empty(); }`. -/
def isEmpty (b : Bucket α) : Bool := b.dependencies.isEmpty

/-- The method `size_t getNumDependencies() const { return dependencies.size(); }`. -/
def getNumDependencies (b : Bucket α) : Nat := b.dependencies.length

/-- The method `DepSet * getDepSet(uint32_t index) { return dependencies[index]; }`.
The source requires `index < getNumDependencies()`; the result is `none` both for a null
entry and (where the source is undefined) for an index out of range. -/
def getDepSet (b : Bucket α) (index : Nat) : Option α := (b.dependencies.get? index).join

/-- The method `void clearDepSet(uint32_t index) { dependencies[index] = nullptr; }`.
The source requires `index < getNumDependencies()`; `List.set` leaves the vector unchanged
for an index out of range, where the source is undefined. -/
def clearDepSet (b : Bucket α) (index : Nat) : Bucket α := ⟨b.dependencies.set index none⟩

/-- The `for` loop of `addDepSet`: store `dep` in the first null entry and `break`.
The result is `none` when the loop ends with `depSet == false`. -/
def addDepSetLoop (dep : Option α) : List (Option α) → Option (List (Option α))
  | [] => none
  | none :: rest => some (dep :: rest)
  | some d :: rest => (addDepSetLoop dep rest).map (fun r => some d :: r)

/-- The method `void addDepSet(DepSet *dep)`: reuse the first null entry, and
`push_back(dep)` when there is none. -/
def addDepSet (b : Bucket α) (dep : Option α) : Bucket α :=
  match addDepSetLoop dep b.dependencies with
  | some l => ⟨l⟩
  | none => ⟨b.dependencies ++ [dep]⟩

/-- The non-null entries of the bucket, in vector order. -/
def live (b : Bucket α) : List α := b.dependencies.reduceOption

end Bucket

/-- One call of a mutating `Bucket` method. -/
inductive BucketOp (α : Type) where
  | addDepSet (dep : Option α)
  | clearDepSet (index : Nat)
  | clearDependency
deriving DecidableEq, Repr

/-- Apply one method call.  `clearDepSet` with an index that is out of range is undefined in
the source and yields `none`. -/
def Bucket.applyOp {α : Type} (b : Bucket α) : BucketOp α → Option (Bucket α)
  | .addDepSet dep => some (b.addDepSet dep)
  | .clearDepSet index =>
      if index < b.getNumDependencies then some (b.clearDepSet index) else none
  | .clearDependency => some b.clearDependency

/-- Apply a sequence of method calls from left to right. -/
def Bucket.applyOps {α : Type} (b : Bucket α) : List (BucketOp α) → Option (Bucket α)
  | [] => some b
  | op :: ops => (b.applyOp op).bind (fun b1 => b1.applyOps ops)

/-- No `DepSet` has two non-null entries in the bucket. -/
def Bucket.Unique {α : Type} (b : Bucket α) : Prop := b.live.Nodup

instance {α : Type} [DecidableEq α] (b : Bucket α) : Decidable b.Unique :=
  inferInstanceAs (Decidable b.live.Nodup)

/-- Every `addDepSet` of the sequence passes a `DepSet` that has no non-null entry in the
bucket at the time of the call (a null argument is not constrained). -/
def Bucket.FreshAdds {α : Type} (b : Bucket α) : List (BucketOp α) → Prop
  | [] => True
  | op :: ops =>
      (∀ d, op = .addDepSet (some d) → d ∉ b.live) ∧
      (∀ b1, b.applyOp op = some b1 → Bucket.FreshAdds b1 ops)


/-! ## Data model of the analysis

The types below are declared in headers that are not part of the sources at hand
(`Instruction.hpp`, `RegDeps.hpp`, ...).  They are modelled from section 3 of the design
document. -/

/-- Modelled from the spec: the completion class of an instruction, which the design
document gives as `InOrder(pipe)` (completes after a fixed latency, in issue order) or
`OutOfOrder(unit)` (completion time unknown, proven via a token wait). -/
inductive CompletionClass where
  | InOrder (pipe : Nat)
  | OutOfOrder (unit : Nat)
deriving DecidableEq, Repr

/-- Modelled from the spec: an instruction has a read footprint and a write footprint
(bucket indices), a completion class, and is optionally predicated. -/
structure Instruction where
  reads : List Nat
  writes : List Nat
  completion : CompletionClass
  predicated : Bool
deriving DecidableEq, Repr

/-- Modelled from the spec: the access kind of a `DepSet`. -/
inductive DEP_TYPE where
  | READ
  | WRITE
deriving DecidableEq, Repr

/-- Modelled from the spec: (design notes) the tag of a `DepSet`,
`{Normal, PredicatedMayNotExecute}`. -/
inductive DepTag where
  | Normal
  | PredicatedMayNotExecute
deriving DecidableEq, Repr

/-- Modelled from the spec: a `DepSet` identifies one instruction's footprint for one access
kind as a set of bucket indices, with a back-reference to the owning instruction (`instId`,
its global id) and its instruction ids: `issueId` is the value of the counter of its in-order
pipe when it issued, `issuePos` the running in-order position when it issued.  `sbid` is the
token the owning instruction holds. -/
structure DepSet where
  instId : Nat
  depType : DEP_TYPE
  buckets : List Nat
  completion : CompletionClass
  issueId : Nat
  issuePos : Nat
  sbid : Option Nat
  tag : DepTag
deriving DecidableEq, Repr

/-- Modelled from the spec: `DepSet::InstIDs`, the instruction-id counters: the number of
instructions seen (`global`), the running in-order position (`inOrder`) and one counter per
in-order pipe class (`pipe`). -/
structure InstIDs where
  global : Nat
  inOrder : Nat
  pipe : Nat → Nat

/-- Modelled from the spec: a token of the pool, `Free` or `Assigned`; `sbid` is its index. -/
structure SBID where
  sbid : Nat
  isFree : Bool
deriving DecidableEq, Repr

/-- Modelled from the spec: the default-constructed `SBID` that `resize` fills the token list
with is a free token. -/
def SBID.default : SBID := ⟨0, true⟩

/-- Modelled from the spec: the enum `SWSB_ENCODE_MODE`, declared in a header that is not
part of the sources.  `SWSBInvalidMode` is the value the constructor names; the other values
are the encoding modes the design document lists, token-only, distance-only and hybrid. -/
inductive SWSB_ENCODE_MODE where
  | SWSBInvalidMode
  | TokenOnly
  | DistanceOnly
  | Hybrid
deriving DecidableEq, Repr

/-- The part of `Kernel::getModel()` that the constructor reads: `getSWSBMaxValidDistance()`,
`getSWSBEncodeMode()` and the `getTOTAL_BUCKETS()` of the `DepSetBuilder` made from it. -/
structure Model where
  SWSBMaxValidDistance : Int
  SWSBEncodeMode : SWSB_ENCODE_MODE
  TOTAL_BUCKETS : Nat

/-- The struct `distanceTrackerNode` (header lines 189-195). -/
structure distanceTrackerNode where
  input : DepSet
  output : DepSet
deriving DecidableEq, Repr

/-- The data members of `class SWSBAnalyzer` (header lines 159-202).  The array `m_buckets`
of `TOTAL_BUCKETS` buckets is a map from the bucket index; `std::map m_IdToDepSetMap` is a
partial map from the token index. -/
structure SWSBAnalyzer where
  MAX_GRF_BUCKETS : Nat
  m_LatencyInOrderPipe : Nat
  m_SBIDCount : Nat
  m_InstIdCounter : InstIDs
  TOTAL_BUCKETS : Nat
  m_buckets : Nat → Bucket DepSet
  m_freeSBIDList : List SBID
  m_SBIDRRCounter : Nat
  m_IdToDepSetMap : Nat → Option (DepSet × DepSet)
  m_distanceTracker : List distanceTrackerNode
  m_initPoint : Bool
  m_swsbMode : SWSB_ENCODE_MODE
  MAX_VALID_DISTANCE : Int

/-- The conversion of an `int` to `uint32_t`. -/
def toUInt32 (x : Int) : Nat := (x % 4294967296).toNat

/-- The constructor `SWSBAnalyzer(Kernel &k, ErrorHandler &errHandler,
SWSB_ENCODE_MODE encode_mode, int sbid_count)` (header lines 75-99); `model` is
`k.getModel()`.  The members without an initializer (`m_InstIdCounter`, `m_IdToDepSetMap`,
`m_distanceTracker`) are default-constructed: zero counters, an empty map, an empty list. -/
def SWSBAnalyzer.new (model : Model) (encode_mode : SWSB_ENCODE_MODE) (sbid_count : Int) :
    SWSBAnalyzer :=
  let m_swsbMode :=
    if encode_mode ≠ SWSB_ENCODE_MODE.SWSBInvalidMode then encode_mode
    else model.SWSBEncodeMode
  let m_SBIDCount := if sbid_count ≠ 0 then toUInt32 sbid_count else 16
  { MAX_GRF_BUCKETS := 128
    m_LatencyInOrderPipe := 10
    m_SBIDCount := m_SBIDCount
    m_InstIdCounter := ⟨0, 0, fun _ => 0⟩
    TOTAL_BUCKETS := model.TOTAL_BUCKETS
    m_buckets := fun _ => Bucket.empty
    m_freeSBIDList := List.replicate m_SBIDCount SBID.default
    m_SBIDRRCounter := 0
    m_IdToDepSetMap := fun _ => none
    m_distanceTracker := []
    m_initPoint := false
    m_swsbMode := m_swsbMode
    MAX_VALID_DISTANCE := model.SWSBMaxValidDistance }

/-! ## Output of the pass -/

/-- Modelled from the spec: the synchronization fields an instruction carries after
rewriting: at most one distance, at most one token wait, and the token the instruction
itself was assigned. -/
structure SWSB where
  distance : Option Nat
  waitToken : Option Nat
  setToken : Option Nat
deriving DecidableEq, Repr

/-- Modelled from the spec: the standalone synchronization instructions the rewriter inserts:
a wait for one token (reuse stall, shoot-down guard, a token the instruction cannot carry), a
sync that carries a distance, an explicit drain sync (waits for everything still live), and
the `sync.allrd` / `sync.allwr` pair of `insertSyncAllRdWr`. -/
inductive SyncKind where
  | token (t : Nat)
  | distance (d : Nat)
  | drain
  | allRd
  | allWr
deriving DecidableEq, Repr

/-- Modelled from the spec: an element of a rewritten block, an instruction of the input with
its synchronization fields or an inserted standalone sync. -/
inductive OutInst where
  | inst (i : Instruction) (swsb : SWSB)
  | sync (k : SyncKind)
deriving DecidableEq, Repr

/-- Modelled from the spec: a basic block is an ordered list of instructions. -/
abbrev Block := List Instruction

/-- Modelled from the spec: a kernel is an ordered collection of basic blocks. -/
abbrev Kernel := List Block

/-! ## The analysis (bodies modelled from the design document, section 4.2) -/

/-- Modelled from the spec: the SWSB decision per (consumer instruction, hazard) pair,
exactly one of no sync needed, `distance = N`, `token = T`, explicit drain sync. -/
inductive Decision where
  | noSync
  | distance (n : Nat)
  | token (t : Nat)
  | explicitDrainSync
deriving DecidableEq, Repr

/-- Modelled from the spec: what `calculateDependence` accumulates for one instruction: the
minimum distance of its in-order hazards (`distanceDependency`), the tokens it has to wait for
(`activeSBID`), the tokens that need an explicit sync because of a shoot-down
(`needSyncForShootDownInst`), and whether a hazard was escalated to an explicit drain sync. -/
structure DepResult where
  minDist : Option Nat
  activeSBID : List Nat
  shootDown : List Nat
  needDrain : Bool
deriving DecidableEq, Repr

/-- Modelled from the spec: the accumulator before the first hazard. -/
def DepResult.empty : DepResult := ⟨none, [], [], false⟩

/-- Modelled from the spec: `DepSetBuilder::createSrcDepSet`, the read footprint of an
instruction as a `DepSet`, stamped with the current instruction ids. -/
def createSrcDepSet (i : Instruction) (ids : InstIDs) : DepSet :=
  { instId := ids.global
    depType := DEP_TYPE.READ
    buckets := i.reads.dedup
    completion := i.completion
    issueId := match i.completion with
      | CompletionClass.InOrder pipe => ids.pipe pipe
      | CompletionClass.OutOfOrder _ => 0
    issuePos := ids.inOrder
    sbid := none
    tag := if i.predicated then DepTag.PredicatedMayNotExecute else DepTag.Normal }

/-- Modelled from the spec: `DepSetBuilder::createDstDepSet`, the write footprint of an
instruction as a `DepSet`, stamped with the current instruction ids. -/
def createDstDepSet (i : Instruction) (ids : InstIDs) : DepSet :=
  { createSrcDepSet i ids with depType := DEP_TYPE.WRITE, buckets := i.writes.dedup }

/-- Modelled from the spec: `DepSet::setSBID`. -/
def DepSet.setSBID (d : DepSet) (t : Nat) : DepSet := { d with sbid := some t }

/-- Modelled from the spec: a pair of accesses to the same bucket is a true hazard
(write-after-read, read-after-write, write-after-write) unless both are reads. -/
def isTrueHazard (prev cur : DEP_TYPE) : Bool :=
  !(prev == DEP_TYPE.READ && cur == DEP_TYPE.READ)

/-- Modelled from the spec: a `DepSet` is fully superseded by the write footprint of the
instruction when every bucket it touches is written by the instruction. -/
def DepSet.supersededBy (p : DepSet) (i : Instruction) : Bool :=
  p.buckets.all (fun b => decide (b ∈ i.writes))

namespace SWSBAnalyzer

/-- Modelled from the spec: (4.2 step 2) the decision for the consumer `cur` and the
`DepSet` `p` found live in one of its buckets.  No sync is needed when `p` belongs to the
same instruction or the pair is not a true hazard.  An in-order producer gives
`distance = I.issueId - P.issueId` on the counter of the producer's pipe, escalated to an
explicit drain sync when it exceeds the maximum representable distance.  An out-of-order
producer gives a wait for the token it holds (a producer without a token, which the analysis
never records, is escalated to an explicit drain sync).  The `DepSet` `p` is the read or the
write footprint of its instruction: both are registered in the buckets (step 6). -/
def decision (a : SWSBAnalyzer) (cur p : DepSet) : Decision :=
  if p.instId = cur.instId ∨ isTrueHazard p.depType cur.depType = false then Decision.noSync
  else match p.completion with
    | CompletionClass.InOrder pipe =>
        let distance := a.m_InstIdCounter.pipe pipe - p.issueId
        if (distance : Int) ≤ a.MAX_VALID_DISTANCE then Decision.distance distance
        else Decision.explicitDrainSync
    | CompletionClass.OutOfOrder _ =>
        match p.sbid with
        | some t => Decision.token t
        | none => Decision.explicitDrainSync

/-- Modelled from the spec: `setSbidDependency`, called by `calculateDependence` for an
out-of-order producer `p` holding token `t`: add the token to `activeSBID`, and (4.2 step 5)
ask for an explicit sync when `p` is predicated and about to be cleared from its buckets
because the write footprint of the current instruction supersedes it. -/
def setSbidDependency (cur p : DepSet) (currInst : Instruction) (t : Nat) (r : DepResult) :
    DepResult :=
  let guard := decide (cur.depType = DEP_TYPE.WRITE) &&
    decide (p.tag = DepTag.PredicatedMayNotExecute) && p.supersededBy currInst
  { r with
    activeSBID := if t ∈ r.activeSBID then r.activeSBID else r.activeSBID ++ [t]
    shootDown := if guard && !decide (t ∈ r.shootDown) then r.shootDown ++ [t] else r.shootDown }

/-- Modelled from the spec: one iteration of the loop of `calculateDependence`, for the
`DepSet` `p` found in a bucket of `cur`.  Distances collapse to their minimum, since one
distance field serves all in-order waits. -/
def accumulate (a : SWSBAnalyzer) (cur : DepSet) (currInst : Instruction) (r : DepResult)
    (p : DepSet) : DepResult :=
  match a.decision cur p with
  | Decision.noSync => r
  | Decision.distance n =>
      { r with minDist := some (match r.minDist with
          | some m => min m n
          | none => n) }
  | Decision.token t => setSbidDependency cur p currInst t r
  | Decision.explicitDrainSync => { r with needDrain := true }

/-- Modelled from the spec: the `DepSet`s that are live in the buckets `dep` touches, bucket
by bucket (the scan of `calculateDependence`). -/
def producers (a : SWSBAnalyzer) (dep : DepSet) : List DepSet :=
  dep.buckets.flatMap (fun b => (a.m_buckets b).live)

/-- Modelled from the spec: (4.2 steps 1-2) `calculateDependence`.  For each bucket touched
by `dep`, go through the `DepSet`s live in that bucket and accumulate the decisions. -/
def calculateDependence (a : SWSBAnalyzer) (dep : DepSet) (currInst : Instruction)
    (r : DepResult) : DepResult :=
  (a.producers dep).foldl (a.accumulate dep currInst) r

/-- Modelled from the spec: `clearDepBuckets`, "clear dependency of the given dep": in every
bucket `dep` touches, the entries that hold `dep` are set to null (`Bucket::clearDepSet`). -/
def clearDepBuckets (a : SWSBAnalyzer) (dep : DepSet) : SWSBAnalyzer :=
  { a with m_buckets := fun b =>
      if b ∈ dep.buckets then
        ⟨(a.m_buckets b).dependencies.map (fun e => if e = some dep then none else e)⟩
      else a.m_buckets b }

/-- Modelled from the spec: `clearBuckets`, "clear given input and output dependency in the
buckets (for in-order pipes only)". -/
def clearBuckets (a : SWSBAnalyzer) (input output : DepSet) : SWSBAnalyzer :=
  (a.clearDepBuckets input).clearDepBuckets output

/-- Modelled from the spec: (4.2 step 6) register `dep` in every bucket it touches
(`Bucket::addDepSet`). -/
def addToBuckets (a : SWSBAnalyzer) (dep : DepSet) : SWSBAnalyzer :=
  { a with m_buckets := fun b =>
      if b ∈ dep.buckets then (a.m_buckets b).addDepSet (some dep) else a.m_buckets b }

/-- Modelled from the spec: the loop of `assignSBID` that looks for the first free token of
the list. -/
def firstFree : List SBID → Option Nat
  | [] => none
  | s :: rest => if s.isFree then some 0 else (firstFree rest).map (fun i => i + 1)

/-- Modelled from the spec: what `assignSBID` gives back: the analyzer, the `DepSet` pair of
the instruction with the token set, the token, and the sync it inserted at the current
point. -/
structure SBIDAssignment where
  analyzer : SWSBAnalyzer
  input : DepSet
  output : DepSet
  sbid : Nat
  stall : List OutInst

/-- Modelled from the spec: (4.2 step 4) `assignSBID`.  If a free token exists it is
assigned.  Otherwise the token at the round-robin counter is reused: an explicit wait for
that token is inserted at the current point, and the dependency of the instruction that held
the token is cleaned up ("while we're re-using id, we clean up the dependency").  The token
is marked assigned to the `DepSet` pair of the instruction. -/
def assignSBID (a : SWSBAnalyzer) (input output : DepSet) : SBIDAssignment :=
  match firstFree a.m_freeSBIDList with
  | some i =>
      { analyzer :=
          { a with
            m_freeSBIDList := a.m_freeSBIDList.set i ⟨i, false⟩
            m_IdToDepSetMap := fun t =>
              if t = i then some (input.setSBID i, output.setSBID i)
              else a.m_IdToDepSetMap t }
        input := input.setSBID i
        output := output.setSBID i
        sbid := i
        stall := [] }
  | none =>
      let index := a.m_SBIDRRCounter % a.m_SBIDCount
      let a1 := match a.m_IdToDepSetMap index with
        | some old => (a.clearDepBuckets old.1).clearDepBuckets old.2
        | none => a
      { analyzer :=
          { a1 with
            m_SBIDRRCounter := (a.m_SBIDRRCounter + 1) % 4294967296
            m_freeSBIDList := a.m_freeSBIDList.set index ⟨index, false⟩
            m_IdToDepSetMap := fun t =>
              if t = index then some (input.setSBID index, output.setSBID index)
              else a.m_IdToDepSetMap t }
        input := input.setSBID index
        output := output.setSBID index
        sbid := index
        stall := [OutInst.sync (SyncKind.token index)] }

/-- Modelled from the spec: whether the encoding has a single slot for the distance and the
token wait (every mode but the hybrid one). -/
def singleSlot (mode : SWSB_ENCODE_MODE) : Bool := decide (mode ≠ SWSB_ENCODE_MODE.Hybrid)

/-- Modelled from the spec: (4.2 step 3, 4.3) `processActiveSBID`.  The result is the
standalone syncs to insert before the instruction, in order, and the fields the instruction
carries.  An escalated hazard gives an explicit drain sync, a shoot-down a wait for its
token; the instruction carries the first token of `activeSBID` and every other token gets a
sync of its own.  When both a distance and a token are needed and the encoding has a single
slot, the token wait stays on the instruction and the distance goes to a standalone sync
inserted immediately before it. -/
def processActiveSBID (mode : SWSB_ENCODE_MODE) (r : DepResult) : List OutInst × SWSB :=
  let drain := if r.needDrain then [OutInst.sync SyncKind.drain] else []
  let guards := r.shootDown.map (fun t => OutInst.sync (SyncKind.token t))
  match r.activeSBID with
  | [] => (drain ++ guards, ⟨r.minDist, none, none⟩)
  | t :: rest =>
      let others := rest.map (fun u => OutInst.sync (SyncKind.token u))
      match r.minDist with
      | none => (drain ++ guards ++ others, ⟨none, some t, none⟩)
      | some d =>
          if singleSlot mode then
            (drain ++ guards ++ others ++ [OutInst.sync (SyncKind.distance d)],
              ⟨none, some t, none⟩)
          else (drain ++ guards ++ others, ⟨some d, some t, none⟩)

/-- Modelled from the spec: (4.2 step 7) `advanceInorderInstCounter`, advance the counter of
the pipe of an in-order instruction together with the running in-order position. -/
def advanceInorderInstCounter (a : SWSBAnalyzer) (dep_pipe : Nat) : SWSBAnalyzer :=
  { a with m_InstIdCounter :=
      { a.m_InstIdCounter with
        inOrder := a.m_InstIdCounter.inOrder + 1
        pipe := fun p => if p = dep_pipe then a.m_InstIdCounter.pipe p + 1
                         else a.m_InstIdCounter.pipe p } }

/-- Modelled from the spec: whether the latency of the in-order pipe has elapsed for a
tracker node, relative to the running position. -/
def expired (a : SWSBAnalyzer) (n : distanceTrackerNode) : Bool :=
  decide (a.m_LatencyInOrderPipe ≤ a.m_InstIdCounter.inOrder - n.output.issuePos)

/-- Modelled from the spec: (4.2 step 8) drop the nodes of the distance tracker whose latency
has elapsed, clearing their dependency in the buckets (`clearBuckets`). -/
def trimDistanceTracker (a : SWSBAnalyzer) : SWSBAnalyzer :=
  let gone := a.m_distanceTracker.filter a.expired
  let a1 := gone.foldl (fun acc n => acc.clearBuckets n.input n.output) a
  { a1 with m_distanceTracker := a.m_distanceTracker.filter (fun n => !a.expired n) }

/-- Modelled from the spec: (4.2 step 6) remove the `DepSet`s found in the buckets of the
write footprint `output` that the instruction fully supersedes. -/
def clearSuperseded (a : SWSBAnalyzer) (found : List DepSet) (currInst : Instruction) :
    SWSBAnalyzer :=
  (found.filter (fun p => p.supersededBy currInst)).foldl clearDepBuckets a

/-- Modelled from the spec: the global instruction id advances with every instruction of
`run`. -/
def nextInst (a : SWSBAnalyzer) : SWSBAnalyzer :=
  { a with m_InstIdCounter :=
      { a.m_InstIdCounter with global := a.m_InstIdCounter.global + 1 } }

/-- Modelled from the spec: (4.2 step 8) an in-order instruction that has a footprint, which
other instructions may depend on, is appended to the distance tracker as the node of its
`DepSet` pair (`distanceTrackerNode(input, output)`). -/
def trackInst (a : SWSBAnalyzer) (i : Instruction) (input output : DepSet) : SWSBAnalyzer :=
  if i.reads = [] ∧ i.writes = [] then a
  else { a with m_distanceTracker := a.m_distanceTracker ++ [⟨input, output⟩] }

/-- Modelled from the spec: the `DepSet`s (read or write footprints of earlier instructions)
in the buckets of the write footprint `output` that are a hazard for it. -/
def found (a : SWSBAnalyzer) (output : DepSet) : List DepSet :=
  (a.producers output).filter (fun p => decide (a.decision output p ≠ Decision.noSync))

/-- Modelled from the spec: (4.2) the body of the loop of `run` for one instruction.
Steps 1-3 accumulate the decisions for the read and the write footprint; step 4 assigns a
token to an out-of-order instruction that has a footprint other instructions will need to
wait on; step 6 removes the superseded `DepSet`s and registers the `DepSet` pair of the
instruction; step 7 advances the counters; step 8 appends to and trims the distance tracker.
The header keeps the pair `(input, output)` of an instruction wherever it keeps one of them
(`assignSBID(DepSet* input, DepSet* output, ...)`, `m_IdToDepSetMap`,
`distanceTrackerNode(input, output)`), and clears both from the buckets
(`clearBuckets(DepSet* input, DepSet* output)`): the read footprint is registered in the
buckets it touches like the write footprint, which is how a later write finds the
write-after-read hazard of step 1, and the token is assigned to the pair, also when the
instruction only reads.  (The parenthesis of step 6, by which a read leaves nothing behind,
does not go with step 1, with the safety property of section 8, or with these
declarations.)  The result is the analyzer and what the rewriter emits for the instruction:
the inserted syncs followed by the instruction. -/
def processInst (a : SWSBAnalyzer) (i : Instruction) : SWSBAnalyzer × List OutInst :=
  let input := createSrcDepSet i a.m_InstIdCounter
  let output := createDstDepSet i a.m_InstIdCounter
  let r := a.calculateDependence output i (a.calculateDependence input i DepResult.empty)
  let p := processActiveSBID a.m_swsbMode r
  match i.completion with
  | CompletionClass.OutOfOrder _ =>
      if i.reads = [] ∧ i.writes = [] then (a.nextInst, p.1 ++ [OutInst.inst i p.2])
      else
        let s := a.assignSBID input output
        ((((s.analyzer.clearSuperseded (a.found output) i).addToBuckets s.input).addToBuckets
            s.output).nextInst,
          s.stall ++ p.1 ++ [OutInst.inst i { p.2 with setToken := some s.sbid }])
  | CompletionClass.InOrder pipe =>
      (((((((a.clearSuperseded (a.found output) i).addToBuckets input).addToBuckets
          output).advanceInorderInstCounter pipe).trackInst i input output).trimDistanceTracker
          ).nextInst,
        p.1 ++ [OutInst.inst i p.2])

/-- Modelled from the spec: the instructions of a block in program order. -/
def runInsts (a : SWSBAnalyzer) : List Instruction → SWSBAnalyzer × List OutInst
  | [] => (a, [])
  | i :: rest =>
      let r1 := a.processInst i
      let r2 := r1.1.runInsts rest
      (r2.1, r1.2 ++ r2.2)

/-- Modelled from the spec: `insertSyncAllRdWr`, "helper function to insert sync.allrd and
sync.allwr before the given inserPoint of given bb". -/
def insertSyncAllRdWr : List OutInst :=
  [OutInst.sync SyncKind.allRd, OutInst.sync SyncKind.allWr]

/-- Modelled from the spec: the sync with the in-order pipes at the end of a block: a
standalone sync that carries the distance 1, which every in-order instruction issued before
it, on whatever pipe, has reached. -/
def insertSyncAllPipes : List OutInst := [OutInst.sync (SyncKind.distance 1)]

/-- Modelled from the spec: `clearSBIDDependence`, "clear all sbid, set ids to all free and
insert sync to sync with all pipes".  Every token is set free, and the syncs inserted at the
end of the block wait for everything still live (the "Drain" of the glossary): `sync.allrd`
and `sync.allwr` (`insertSyncAllRdWr`) when a token is outstanding, and the sync with the
in-order pipes when the distance tracker still holds an in-order instruction. -/
def clearSBIDDependence (a : SWSBAnalyzer) : SWSBAnalyzer × List OutInst :=
  let sbidInUse := a.m_freeSBIDList.any (fun s => !s.isFree)
  ({ a with m_freeSBIDList := a.m_freeSBIDList.map (fun s => { s with isFree := true }) },
    (if sbidInUse then insertSyncAllRdWr else []) ++
      (if a.m_distanceTracker = [] then [] else insertSyncAllPipes))

/-- Modelled from the spec: (4.2, block exit) the drain.  Insert the syncs that wait for
everything still live (`clearSBIDDependence`), clear every bucket
(`Bucket::clearDependency`) and clear the distance tracker. -/
def drain (a : SWSBAnalyzer) : SWSBAnalyzer × List OutInst :=
  let r := a.clearSBIDDependence
  ({ r.1 with
      m_buckets := fun b => (r.1.m_buckets b).clearDependency
      m_distanceTracker := [] },
    r.2)

/-- Modelled from the spec: one basic block, its instructions and then the drain at block
exit; the syncs of the drain are inserted at the end of the block. -/
def runBlock (a : SWSBAnalyzer) (bb : Block) : SWSBAnalyzer × List OutInst :=
  let r1 := a.runInsts bb
  let r2 := r1.1.drain
  (r2.1, r1.2 ++ r2.2)

/-- Modelled from the spec: the blocks of a kernel in program order. -/
def runBlocks (a : SWSBAnalyzer) : List Block → SWSBAnalyzer × List (List OutInst)
  | [] => (a, [])
  | bb :: rest =>
      let r1 := a.runBlock bb
      let r2 := r1.1.runBlocks rest
      (r2.1, r1.2 :: r2.2)

/-- Modelled from the spec: (section 7) an operand whose storage cannot be resolved to a
bucket of the table is malformed input. -/
def wellFormedInst (a : SWSBAnalyzer) (i : Instruction) : Bool :=
  (i.reads ++ i.writes).all (fun b => decide (b < a.TOTAL_BUCKETS))

/-- Modelled from the spec: `run`.  Malformed input is a fatal configuration error
identifying the instruction (here by its position in the kernel); otherwise the result is
the rewritten blocks. -/
def run (a : SWSBAnalyzer) (k : Kernel) : Except Nat (List (List OutInst)) :=
  match k.flatten.findIdx? (fun i => !a.wellFormedInst i) with
  | some bad => Except.error bad
  | none => Except.ok (a.runBlocks k).2

end SWSBAnalyzer

/-! ## Execution model used to state hazard safety

The design document asks to verify safety "by simulating execution with randomized
out-of-order completion times for `OutOfOrder` instructions and in-order fixed latencies,
confirming no hazard is ever observed".  The definitions below are that simulation, made
independent of completion times: an instruction stays outstanding until the rewritten stream
proves it complete. -/

/-- Modelled from the spec: an instruction that has issued and whose effect is not yet known
to be visible, with the block it belongs to, its issue id on the counter of its pipe, the
running in-order position at which it issued, and the token it set. -/
structure Outstanding where
  inst : Instruction
  block : Nat
  issueId : Nat
  issuePos : Nat
  token : Option Nat
deriving DecidableEq, Repr

/-- Modelled from the spec: the state of the simulated execution, the outstanding
instructions, the running in-order position and the counter of every in-order pipe. -/
structure ExecState where
  pending : List Outstanding
  inOrder : Nat
  pipe : Nat → Nat

/-- Modelled from the spec: the execution state before the first instruction of the
kernel. -/
def ExecState.init : ExecState := ⟨[], 0, fun _ => 0⟩

/-- Modelled from the spec: read-after-write on some bucket, `i` reads a bucket that `q`
writes. -/
def hazardRAW (q : Outstanding) (i : Instruction) : Bool :=
  i.reads.any (fun b => decide (b ∈ q.inst.writes))

/-- Modelled from the spec: write-after-write on some bucket, `i` writes a bucket that `q`
writes. -/
def hazardWAW (q : Outstanding) (i : Instruction) : Bool :=
  i.writes.any (fun b => decide (b ∈ q.inst.writes))

/-- Modelled from the spec: write-after-read on some bucket, `i` writes a bucket that `q`
reads. -/
def hazardWAR (q : Outstanding) (i : Instruction) : Bool :=
  i.writes.any (fun b => decide (b ∈ q.inst.reads))

/-- Modelled from the spec: the conflicts of the safety property as the design document
states it, RAW, WAR or WAW on some bucket, for every pair of instructions of the kernel. -/
def anyConflict (q : Outstanding) (_block : Nat) (i : Instruction) : Bool :=
  hazardRAW q i || hazardWAR q i || hazardWAW q i

/-- Modelled from the spec: a wait for token `t` completes the outstanding instruction that
set `t`. -/
def waitToken (t : Nat) (pending : List Outstanding) : List Outstanding :=
  pending.filter (fun q => decide (q.token ≠ some t))

/-- Modelled from the spec: a distance `d` completes every in-order instruction that issued at
least `d` positions back on the counter of its pipe (in-order instructions complete in issue
order). -/
def waitDistance (pipe : Nat → Nat) (d : Nat) (pending : List Outstanding) :
    List Outstanding :=
  pending.filter (fun q => match q.inst.completion with
    | CompletionClass.InOrder p => decide (pipe p - q.issueId < d)
    | CompletionClass.OutOfOrder _ => true)

/-- Modelled from the spec: the fixed latency of the in-order pipe completes an in-order
instruction once `latency` in-order instructions have issued since it did. -/
def elapse (latency inOrder : Nat) (pending : List Outstanding) : List Outstanding :=
  pending.filter (fun q => match q.inst.completion with
    | CompletionClass.InOrder _ => decide (inOrder - q.issuePos < latency)
    | CompletionClass.OutOfOrder _ => true)

/-- Modelled from the spec: the effect of a standalone sync on the outstanding instructions.
`sync.allrd` waits for the reads of every instruction that holds a token: it completes those
that write nothing.  `sync.allwr` waits for the writes of every instruction that holds a
token: it completes those that write something (an instruction has read its operands when it
writes its result). -/
def applySync (st : ExecState) : SyncKind → ExecState
  | SyncKind.token t => { st with pending := waitToken t st.pending }
  | SyncKind.distance d => { st with pending := waitDistance st.pipe d st.pending }
  | SyncKind.drain => { st with pending := [] }
  | SyncKind.allRd =>
      { st with pending := st.pending.filter (fun q => q.token.isNone || !q.inst.writes.isEmpty) }
  | SyncKind.allWr =>
      { st with pending := st.pending.filter (fun q => q.token.isNone || q.inst.writes.isEmpty) }

/-- Modelled from the spec: the outstanding instructions after the waits an instruction
carries. -/
def afterWaits (st : ExecState) (swsb : SWSB) : List Outstanding :=
  let p1 := match swsb.distance with
    | some d => waitDistance st.pipe d st.pending
    | none => st.pending
  match swsb.waitToken with
  | some t => waitToken t p1
  | none => p1

/-- Modelled from the spec: whether an instruction may issue: after its own waits no
outstanding instruction is in conflict with it, and the token it sets is not held by an
outstanding instruction. -/
def issueOk (conflict : Outstanding → Nat → Instruction → Bool) (block : Nat)
    (st : ExecState) (i : Instruction) (swsb : SWSB) : Bool :=
  (afterWaits st swsb).all (fun q =>
    !conflict q block i && decide (swsb.setToken = none ∨ q.token ≠ swsb.setToken))

/-- Modelled from the spec: the state after an instruction has issued: it becomes outstanding,
an in-order instruction advances the counters, and the latency of the in-order pipe elapses.
-/
def issue (latency block : Nat) (st : ExecState) (i : Instruction) (swsb : SWSB) :
    ExecState :=
  let p := afterWaits st swsb
  match i.completion with
  | CompletionClass.OutOfOrder _ =>
      { st with
        pending := elapse latency st.inOrder (p ++ [⟨i, block, 0, st.inOrder, swsb.setToken⟩]) }
  | CompletionClass.InOrder pp =>
      { pending := elapse latency (st.inOrder + 1)
          (p ++ [⟨i, block, st.pipe pp, st.inOrder, swsb.setToken⟩])
        inOrder := st.inOrder + 1
        pipe := fun x => if x = pp then st.pipe x + 1 else st.pipe x }

/-- Modelled from the spec: execute the elements of one rewritten block; the Boolean says
whether every instruction so far could issue. -/
def execBlock (conflict : Outstanding → Nat → Instruction → Bool) (latency block : Nat) :
    ExecState → List OutInst → Bool × ExecState
  | st, [] => (true, st)
  | st, OutInst.sync k :: rest => execBlock conflict latency block (applySync st k) rest
  | st, OutInst.inst i swsb :: rest =>
      let r := execBlock conflict latency block (issue latency block st i swsb) rest
      (issueOk conflict block st i swsb && r.1, r.2)

/-- Modelled from the spec: execute the rewritten blocks of a kernel in program order,
starting with block number `block`. -/
def execBlocks (conflict : Outstanding → Nat → Instruction → Bool) (latency : Nat) :
    Nat → ExecState → List (List OutInst) → Bool
  | _, _, [] => true
  | block, st, bb :: rest =>
      let r := execBlock conflict latency block st bb
      r.1 && execBlocks conflict latency (block + 1) r.2 rest

/-- Modelled from the spec: no hazard is observed when the rewritten kernel executes. -/
def hazardFree (conflict : Outstanding → Nat → Instruction → Bool) (latency : Nat)
    (out : List (List OutInst)) : Bool :=
  execBlocks conflict latency 0 ExecState.init out

-- Equality of the results of `run` is decidable.
deriving instance DecidableEq for Except

/-! ## Reachable states of the analyzer -/

/-- Modelled from the spec: what `run` does to the analyzer, one step at a time: it processes
an instruction of the current block, or it drains at the exit of the block. -/
inductive Event where
  | inst (i : Instruction)
  | blockExit
deriving DecidableEq, Repr

/-- Modelled from the spec: the analyzer after one step of `run`. -/
def SWSBAnalyzer.step (a : SWSBAnalyzer) : Event → SWSBAnalyzer
  | Event.inst i => (a.processInst i).1
  | Event.blockExit => a.drain.1

/-- Modelled from the spec: the analyzer after a sequence of steps of `run`. -/
def SWSBAnalyzer.steps (a : SWSBAnalyzer) (evs : List Event) : SWSBAnalyzer :=
  evs.foldl SWSBAnalyzer.step a

/-- The invariant of the distance tracker: no node has its latency elapsed relative to the
running position, every node issued before the running position, and the nodes are ordered
by issue position. -/
structure SWSBAnalyzer.TrackerInv (a : SWSBAnalyzer) : Prop where
  live : ∀ n ∈ a.m_distanceTracker,
    a.m_InstIdCounter.inOrder - n.output.issuePos < a.m_LatencyInOrderPipe
  before : ∀ n ∈ a.m_distanceTracker, n.output.issuePos < a.m_InstIdCounter.inOrder
  sorted : a.m_distanceTracker.Pairwise (fun x y => x.output.issuePos < y.output.issuePos)

/-- The invariant of the bucket table and the token pool: a `DepSet` is registered only in
buckets it touches (`own`); a registered `DepSet` that holds a token holds a token that is not
free, and is the input or the output of the pair the token is assigned to (`held`); a
registered `DepSet` belongs to an instruction already counted (`fresh`); the pair a token is
assigned to is the read and the write `DepSet` of one instruction, and both hold that token
(`mapped`); the two `DepSet`s of a tracker node are stamped with the same running position
and the same in-order pipe (`nodes`). -/
structure SWSBAnalyzer.Inv (a : SWSBAnalyzer) : Prop where
  own : ∀ b d, d ∈ (a.m_buckets b).live → b ∈ d.buckets
  held : ∀ b d t, d ∈ (a.m_buckets b).live → d.sbid = some t →
    (∀ s, a.m_freeSBIDList.get? t = some s → s.isFree = false) ∧
      ∃ x y, a.m_IdToDepSetMap t = some (x, y) ∧ (d = x ∨ d = y)
  fresh : ∀ b d, d ∈ (a.m_buckets b).live → d.instId < a.m_InstIdCounter.global
  mapped : ∀ t x y, a.m_IdToDepSetMap t = some (x, y) → x.sbid = some t ∧ y.sbid = some t ∧
    x.depType = DEP_TYPE.READ ∧ y.depType = DEP_TYPE.WRITE ∧ x.instId = y.instId
  nodes : ∀ n ∈ a.m_distanceTracker, n.input.issuePos = n.output.issuePos ∧
    n.input.completion = n.output.completion ∧
    ∃ p, n.output.completion = CompletionClass.InOrder p

/-! ## Tokens in use along a rewritten block -/

/-- The tokens in use after one element of a rewritten block: an instruction that sets a token
puts it in use, an explicit wait for a token takes it out of use. -/
def inUseAfter (busy : List Nat) : OutInst → List Nat
  | OutInst.inst _ swsb =>
      match swsb.setToken with
      | some t => t :: busy
      | none => busy
  | OutInst.sync (SyncKind.token t) => busy.filter (fun u => decide (u ≠ t))
  | OutInst.sync _ => busy

/-- Whether an element of a rewritten block does not set a token that is in use. -/
def setOk (busy : List Nat) : OutInst → Bool
  | OutInst.inst _ swsb =>
      match swsb.setToken with
      | some t => decide (t ∉ busy)
      | none => true
  | OutInst.sync _ => true

/-- Whether no instruction of the block sets a token that is in use: `busy` are the tokens
in use before the first element. -/
def reuseOk : List Nat → List OutInst → Bool
  | _, [] => true
  | busy, e :: rest => setOk busy e && reuseOk (inUseAfter busy e) rest

/-- The tokens in `busy` are not free in the pool of the analyzer. -/
def SWSBAnalyzer.Busy (a : SWSBAnalyzer) (busy : List Nat) : Prop :=
  ∀ t ∈ busy, ∀ s, a.m_freeSBIDList.get? t = some s → s.isFree = false

/-- A list of standalone syncs. -/
def OutInst.allSync (l : List OutInst) : Prop := ∀ e ∈ l, ∃ k, e = OutInst.sync k

/-! ## The relation between the analyzer and the execution model -/

/-- The token pool has `m_SBIDCount` tokens, and at least one. -/
structure SWSBAnalyzer.PoolInv (a : SWSBAnalyzer) : Prop where
  count : a.m_freeSBIDList.length = a.m_SBIDCount
  pos : 0 < a.m_SBIDCount

/-- The footprint of an instruction for one access kind. -/
def Instruction.footprint (i : Instruction) : DEP_TYPE → List Nat
  | DEP_TYPE.READ => i.reads
  | DEP_TYPE.WRITE => i.writes

/-- The `DepSet` `d` of access kind `ty` describes the outstanding instruction `q`. -/
def Describes (q : Outstanding) (ty : DEP_TYPE) (d : DepSet) : Prop :=
  d.depType = ty ∧ d.completion = q.inst.completion ∧ d.issueId = q.issueId ∧
    d.issuePos = q.issuePos ∧ d.sbid = q.token

/-- A decision covers a decision that is not stronger: the accumulated result `r` accounts
for the decision `dec`. -/
def DepResult.Covers (r : DepResult) : Decision → Prop
  | Decision.noSync => True
  | Decision.distance n => ∃ m, r.minDist = some m ∧ m ≤ n
  | Decision.token t => t ∈ r.activeSBID
  | Decision.explicitDrainSync => r.needDrain = true

/-- The syncs `pre` inserted before an instruction and the fields `swsb` it carries enforce
the decision `dec`. -/
def Enforced (pre : List OutInst) (swsb : SWSB) : Decision → Prop
  | Decision.noSync => True
  | Decision.distance n =>
      ∃ m, m ≤ n ∧ (swsb.distance = some m ∨ OutInst.sync (SyncKind.distance m) ∈ pre)
  | Decision.token t => swsb.waitToken = some t ∨ OutInst.sync (SyncKind.token t) ∈ pre
  | Decision.explicitDrainSync => OutInst.sync SyncKind.drain ∈ pre

/-- The execution state after a list of standalone syncs. -/
def ExecState.afterSyncs (st : ExecState) (l : List OutInst) : ExecState :=
  l.foldl (fun s e => match e with
    | OutInst.sync k => applySync s k
    | OutInst.inst _ _ => s) st

/-- The outstanding instruction `q` is still outstanding after the sync `k`. -/
def Survives (pipe : Nat → Nat) (q : Outstanding) : SyncKind → Prop
  | SyncKind.token t => q.token ≠ some t
  | SyncKind.distance d =>
      ∀ p, q.inst.completion = CompletionClass.InOrder p → pipe p - q.issueId < d
  | SyncKind.drain => False
  | SyncKind.allRd => q.token = none ∨ q.inst.writes ≠ []
  | SyncKind.allWr => q.token = none ∨ q.inst.writes = []

/-- The simulation relation between the analyzer and the execution of what it has emitted:
the counters agree; the read and the write footprint of every outstanding instruction are
described by a `DepSet` registered in all the buckets of the footprint (`tracked`); a token
held by an outstanding instruction is not free (`tok`); an outstanding out-of-order
instruction with a footprint holds a token (`hasTok`); an outstanding in-order instruction
with a footprint has its node in the distance tracker (`inTracker`) and issued before the
current value of the counter of its pipe (`issued`). -/
structure Sim (a : SWSBAnalyzer) (st : ExecState) : Prop where
  inOrder : st.inOrder = a.m_InstIdCounter.inOrder
  pipe : st.pipe = a.m_InstIdCounter.pipe
  tracked : ∀ q ∈ st.pending, ∀ ty, q.inst.footprint ty ≠ [] →
    ∃ d, Describes q ty d ∧ ∀ b ∈ q.inst.footprint ty, d ∈ (a.m_buckets b).live
  tok : ∀ q ∈ st.pending, ∀ t, q.token = some t →
    ∃ s, a.m_freeSBIDList.get? t = some s ∧ s.isFree = false
  hasTok : ∀ q ∈ st.pending, (∃ u, q.inst.completion = CompletionClass.OutOfOrder u) →
    ¬ (q.inst.reads = [] ∧ q.inst.writes = []) → q.token ≠ none
  inTracker : ∀ q ∈ st.pending, (∃ p, q.inst.completion = CompletionClass.InOrder p) →
    ¬ (q.inst.reads = [] ∧ q.inst.writes = []) →
    ∃ n ∈ a.m_distanceTracker, n.output.issuePos = q.issuePos
  issued : ∀ q ∈ st.pending, ∀ p, q.inst.completion = CompletionClass.InOrder p →
    q.issueId < st.pipe p
end iga

/-! # Passes of the IGC compiler and the vISA linker driver

Shallow embeddings of `IGC/Compiler/HandleFRemInstructions.cpp`,
`IGC/VISALinkerDriver/VLD.cpp` and
`IGC/Compiler/Optimizer/OpenCLPasses/ScalarArgAsPointer/ScalarArgAsPointer.cpp`.

The LLVM data the code inspects (types, operands, ELF sections) is modelled by plain data
that carries what the code reads off it; the functions of other libraries that the code
calls (the compiler backends, the SPIR-V splitter, the YAML reader) are parameters of the
model.  A failed `IGC_ASSERT` is an error of the model.
-/

namespace IGC

/-! ## `HandleFRemInstructions::visitFRem` -/

/-- The scalar types of LLVM as far as `visitFRem` tells them apart: the floating point
types and the integers. -/
inductive ScalarType where
  | half
  | bfloat
  | float
  | double
  | x86_fp80
  | fp128
  | ppc_fp128
  | integer (bits : Nat)
deriving DecidableEq, Repr

namespace ScalarType

/-- The query `Type::isFloatingPointTy()`. -/
def isFloatingPointTy : ScalarType → Bool
  | integer _ => false
  | _ => true

/-- The query `Type::isHalfTy()`. -/
def isHalfTy : ScalarType → Bool
  | half => true
  | _ => false

/-- The query `Type::isFloatTy()`. -/
def isFloatTy : ScalarType → Bool
  | float => true
  | _ => false

/-- The query `Type::isDoubleTy()`. -/
def isDoubleTy : ScalarType → Bool
  | double => true
  | _ => false

/-- The query `Type::getScalarSizeInBits()` on a scalar type. -/
def getScalarSizeInBits : ScalarType → Nat
  | half => 16
  | bfloat => 16
  | float => 32
  | double => 64
  | x86_fp80 => 80
  | fp128 => 128
  | ppc_fp128 => 128
  | integer bits => bits

end ScalarType

/-- The type of an operand of a binary operator: a scalar or a vector of scalars. -/
inductive ValueType where
  | scalar (s : ScalarType)
  | vector (numElements : Nat) (s : ScalarType)
deriving DecidableEq, Repr

namespace ValueType

/-- The query `Type::getScalarType()`. -/
def getScalarType : ValueType → ScalarType
  | scalar s => s
  | vector _ s => s

/-- The query `Type::isVectorTy()`. -/
def isVectorTy : ValueType → Bool
  | scalar _ => false
  | vector _ _ => true

/-- The query `cast<VectorType>(ValType)->getNumElements()`; only called on a vector type. -/
def getNumElements : ValueType → Nat
  | scalar _ => 0
  | vector n _ => n

end ValueType

/-- An operand of the instruction: an `llvm::Value*` (its identity) with its type. -/
structure Operand where
  id : Nat
  type : ValueType
deriving DecidableEq, Repr

/-- The `llvm::BinaryOperator` handed to `visitFRem`, with its two operands. -/
structure BinaryOperator where
  operand0 : Operand
  operand1 : Operand
deriving DecidableEq, Repr

/-- The result of `FunctionType::get(Result, Params, isVarArg)`. -/
structure FunctionType where
  result : ValueType
  params : List ValueType
  isVarArg : Bool
deriving DecidableEq, Repr

/-- The `FunctionCallee` that `Module::getOrInsertFunction` returns: the function of the given
name, seen at the given function type. -/
structure FunctionCallee where
  name : String
  functionType : FunctionType
deriving DecidableEq, Repr

/-- The result of `CallInst::Create(Callee, Args, NameStr)`. -/
structure CallInst where
  callee : FunctionCallee
  args : List Operand
  nameStr : String
deriving DecidableEq, Repr

/-- The `llvm::Module` as far as the pass touches it: the functions it declares. -/
structure Module where
  functions : List (String × FunctionType)
deriving DecidableEq, Repr

/-- The call `Module::getOrInsertFunction(Name, T)`: the function of that name is looked up
and, if the module has none, declared with type `T`. -/
def Module.getOrInsertFunction (m : Module) (name : String) (t : FunctionType) :
    Module × FunctionCallee :=
  if m.functions.any (fun f => f.1 == name) then (m, ⟨name, t⟩)
  else (⟨m.functions ++ [(name, t)]⟩, ⟨name, t⟩)

/-- The members of the pass `HandleFRemInstructions`; `m_module` is the module being
visited. -/
structure HandleFRemInstructions where
  m_changed : Bool
  m_module : Module
deriving DecidableEq, Repr

/-- The function `HandleFRemInstructions::visitFRem` (lines 38-82).  The result is the state
of the pass and the call that `ReplaceInstWithInst` puts in the place of `I`. -/
def HandleFRemInstructions.visitFRem (p : HandleFRemInstructions) (I : BinaryOperator) :
    Except String (HandleFRemInstructions × CallInst) :=
  let Val1 := I.operand0
  let Val2 := I.operand1
  let ValType := Val1.type
  let ScalarType := ValType.getScalarType
  let ArgsTypes := [ValType, ValType]
  if Val1.type ≠ Val2.type then
    Except.error "Operands of frem instruction must have same type"
  else if ScalarType.isFloatingPointTy = false then
    Except.error "Operands of frem instruction must have floating point type"
  else if (ScalarType.isHalfTy || ScalarType.isFloatTy || ScalarType.isDoubleTy) = false then
    Except.error "Unsupported type"
  else
    let TypeWidth := ScalarType.getScalarSizeInBits
    let FpTypeStr := "f" ++ toString TypeWidth
    let VecCount := ValType.getNumElements
    if ValType.isVectorTy = true ∧
        ¬ (VecCount = 2 ∨ VecCount = 3 ∨ VecCount = 4 ∨ VecCount = 8 ∨ VecCount = 16) then
      Except.error "Unsupported vector size"
    else
      let VecStr := if ValType.isVectorTy = true then "v" ++ toString VecCount else ""
      let TypeStr := "_" ++ VecStr ++ FpTypeStr
      let FuncName := "__builtin_spirv_OpFRem" ++ TypeStr ++ TypeStr
      let FT : FunctionType := ⟨Val1.type, ArgsTypes, false⟩
      let Callee := p.m_module.getOrInsertFunction FuncName FT
      let FuncArgs := [Val1, Val2]
      let Call : CallInst := ⟨Callee.2, FuncArgs, ""⟩
      Except.ok ({ m_changed := true, m_module := Callee.1 }, Call)

/-! ## The vISA linker driver (`VLD.cpp`) -/

namespace VLD

/-- The section types of a zeBinary that the driver looks for (`zebin::SHT_ZEBIN`); `other`
stands for every other value of `sh_type`. -/
inductive SHT_ZEBIN where
  | SHT_ZEBIN_ZEINFO
  | SHT_ZEBIN_VISAASM
  | other (sh_type : Nat)
deriving DecidableEq, Repr

/-- A section of an ELF file: its type and what `getSectionContents` returns for it, the
`sh_size` bytes of the section or an error. -/
structure ElfSection where
  sh_type : SHT_ZEBIN
  contents : Except String String

/-- An ELF object file: what `sections()` returns, the sections or an error. -/
structure ELFFile where
  sections : Except String (List ElfSection)

/-- An `llvm::StringRef` made of a pointer and a size. -/
structure StringRef where
  data : Option String
  size : Nat
deriving DecidableEq, Repr

/-- The struct `zebin::zeInfoExecutionEnv`, as far as it is read. -/
structure zeInfoExecutionEnv where
  simd_size : Int
deriving DecidableEq, Repr

/-- A kernel of `zebin::zeInfoContainer`. -/
structure zeInfoKernel where
  execution_env : zeInfoExecutionEnv
deriving DecidableEq, Repr

/-- A function of `zebin::zeInfoContainer`. -/
structure zeInfoFunction where
  execution_env : zeInfoExecutionEnv
deriving DecidableEq, Repr

/-- The struct `zebin::zeInfoContainer`, as far as it is read. -/
structure zeInfoContainer where
  kernels : List zeInfoKernel
  functions : List zeInfoFunction
deriving DecidableEq, Repr

/-- The struct `TC::STB_TranslateInputArgs`, as far as the driver reads or writes it.
`pInput` holds the elements of the array pointed to; a null pointer is `none`. -/
structure STB_TranslateInputArgs where
  pInput : List Nat
  InputSize : Nat
  pOptions : Option String
  OptionsSize : Nat
  pInternalOptions : Option String
  InternalOptionsSize : Nat
  pVISAAsmToLinkArray : Option (List String)
  NumVISAAsmsToLink : Nat
deriving DecidableEq, Repr

/-- The struct `TC::STB_TranslateOutputArgs`. -/
structure STB_TranslateOutputArgs where
  pOutput : Option String
  OutputSize : Nat
  pErrorString : Option String
  ErrorStringSize : Nat
  pDebugData : Option String
  DebugDataSize : Nat
deriving DecidableEq, Repr

/-- The effect of `CIF::SafeZeroOut` on a `STB_TranslateOutputArgs`. -/
def STB_TranslateOutputArgs.zero : STB_TranslateOutputArgs :=
  ⟨none, 0, none, 0, none, 0⟩

/-- The enumeration `VLD::SPIRVTypeEnum`; `other` stands for every other value. -/
inductive SPIRVTypeEnum where
  | SPIRV_SPMD
  | SPIRV_ESIMD
  | other (value : Nat)
deriving DecidableEq, Repr

/-- The type `SPVTranslationPair`: `std::pair<SPIRVTypeEnum, STB_TranslateInputArgs>`. -/
abbrev SPVTranslationPair := SPIRVTypeEnum × STB_TranslateInputArgs

/-- The enumeration `TC::TB_DATA_FORMAT`, as far as it is tested. -/
inductive TB_DATA_FORMAT where
  | TB_DATA_FORMAT_SPIR_V
  | other (value : Nat)
deriving DecidableEq, Repr

/-- The two backends a module is handed to. -/
inductive Backend where
  | TranslateBuildSPMD
  | TranslateBuildVC
deriving DecidableEq, Repr

/-- The functions of other libraries that the driver calls, and the build flag
`IGC_VC_ENABLED`.  A backend receives the input arguments and the output arguments it is to
fill, and returns its success and the output arguments; the data format, the platform, the
timer resolution and the shader hash are passed on unchanged by every call and are part of the
backend here. -/
structure Env where
  IGC_VC_ENABLED : Bool
  SplitSPMDAndESIMD : List Nat → Nat → Except String (List Nat × List Nat)
  TranslateBuildSPMD :
    STB_TranslateInputArgs → STB_TranslateOutputArgs → Bool × STB_TranslateOutputArgs
  TranslateBuildVC :
    STB_TranslateInputArgs → STB_TranslateOutputArgs → Bool × STB_TranslateOutputArgs
  createELFObjectFile : StringRef → Except String ELFFile
  readZeInfo : String → Option zeInfoContainer

/-- The call of a backend. -/
def Env.translate (env : Env) : Backend → STB_TranslateInputArgs → STB_TranslateOutputArgs →
    Bool × STB_TranslateOutputArgs
  | Backend.TranslateBuildSPMD => env.TranslateBuildSPMD
  | Backend.TranslateBuildVC => env.TranslateBuildVC

/-- The constant `ERROR_VLD` (line 39). -/
def ERROR_VLD : String := "VLD: Failed to compile SPIR-V with following error: \n"

/-- The loop over the sections in `getZeBinSectionsData` (lines 60-73). -/
def getZeBinSectionsDataLoop (SectionType : SHT_ZEBIN) :
    List ElfSection → List String → Except String (List String)
  | [], OutVec => Except.ok OutVec
  | Sect :: rest, OutVec =>
      if Sect.sh_type = SectionType then
        match Sect.contents with
        | Except.error e => Except.error e
        | Except.ok Data => getZeBinSectionsDataLoop SectionType rest (OutVec ++ [Data])
      else getZeBinSectionsDataLoop SectionType rest OutVec

/-- The function `getZeBinSectionsData` (lines 41-76). -/
def getZeBinSectionsData (env : Env) (ZeBinary : StringRef) (SectionType : SHT_ZEBIN) :
    Except String (List String) :=
  match env.createELFObjectFile ZeBinary with
  | Except.error e => Except.error e
  | Except.ok ElfFile =>
      match ElfFile.sections with
      | Except.error e => Except.error e
      | Except.ok ElfSections => getZeBinSectionsDataLoop SectionType ElfSections []

/-- The function `GetVISAAsmFromZEBinary` (lines 80-83). -/
def GetVISAAsmFromZEBinary (env : Env) (ZeBinary : StringRef) : Except String (List String) :=
  getZeBinSectionsData env ZeBinary SHT_ZEBIN.SHT_ZEBIN_VISAASM

/-- The vector `SimdSizes` that `GetSIMDSizeFromZeBinary` fills (lines 105-111): the SIMD
sizes of the kernels, then those of the functions. -/
def SimdSizes (ZeInfo : zeInfoContainer) : List Int :=
  ZeInfo.kernels.map (fun Kernel => Kernel.execution_env.simd_size) ++
    ZeInfo.functions.map (fun Func => Func.execution_env.simd_size)

/-- The function `GetSIMDSizeFromZeBinary` (lines 85-120). -/
def GetSIMDSizeFromZeBinary (env : Env) (ZeBinary : StringRef) : Except String Int :=
  match getZeBinSectionsData env ZeBinary SHT_ZEBIN.SHT_ZEBIN_ZEINFO with
  | Except.error e => Except.error e
  | Except.ok ZeInfoYAMLOrErr =>
      if ZeInfoYAMLOrErr.length ≠ 1 then
        Except.error "ZEBinary expected to contain exactly one .ze_info section!"
      else
        match env.readZeInfo (ZeInfoYAMLOrErr.headD "") with
        | none => Except.error "Failed to parse .ze_info section!"
        | some ZeInfo =>
            if (SimdSizes ZeInfo).length = 0 then
              Except.error "Couldn't find any compiled kernel or function SIMD size!"
            else if ¬ (SimdSizes ZeInfo).all (fun SimdSize =>
                decide (SimdSize = (SimdSizes ZeInfo).headD 0)) then
              Except.error "SIMD sizes in the module are not uniform!"
            else Except.ok ((SimdSizes ZeInfo).headD 0)

/-- What a call of `TranslateBuildSPMDAndESIMD` leaves behind: the value returned, the
contents of `*pOutputArgs` and of `errorMessage`, and the calls of the backends that were
made, in their order. -/
structure TranslateResult where
  ret : Bool
  outputArgs : STB_TranslateOutputArgs
  errorMessage : String
  compiled : List (Backend × STB_TranslateInputArgs)
deriving DecidableEq, Repr

/-- A result with one more call of a backend in front of its calls. -/
def TranslateResult.after (call : Backend × STB_TranslateInputArgs) (r : TranslateResult) :
    TranslateResult :=
  { r with compiled := call :: r.compiled }

/-- The string `NewInternalOptions` built by the `switch` on the flavour of the module
(lines 270-289); `none` is the `default` case. -/
def NewInternalOptions (flavour : SPIRVTypeEnum) (pInternalOptions : Option String)
    (SimdSize : Int) : Option String :=
  match flavour with
  | SPIRVTypeEnum.SPIRV_SPMD =>
      some (pInternalOptions.getD "" ++ " -ze-emit-zebin-visa-sections")
  | SPIRVTypeEnum.SPIRV_ESIMD =>
      some (if SimdSize ≠ 0 then
          pInternalOptions.getD "" ++ " -emit-zebin-visa-sections" ++ " -binary-format=ze" ++
            " -vc-interop-subgroup-size " ++ toString SimdSize
        else pInternalOptions.getD "" ++ " -emit-zebin-visa-sections" ++ " -binary-format=ze")
  | SPIRVTypeEnum.other _ => none

/-- The arguments `NewInputArgs` handed to the backend (lines 269, 291-294). -/
def NewInputArgs (InputArgs : STB_TranslateInputArgs) (visaCStrings : List String)
    (NewInternalOptions : String) : STB_TranslateInputArgs :=
  { InputArgs with
    pVISAAsmToLinkArray := if visaCStrings ≠ [] then some visaCStrings else none
    NumVISAAsmsToLink := visaCStrings.length
    pInternalOptions := some NewInternalOptions
    InternalOptionsSize := NewInternalOptions.length }

/-- The backend that compiles a module of the given flavour (lines 296-305). -/
def backendOf (flavour : SPIRVTypeEnum) : Backend :=
  if flavour = SPIRVTypeEnum.SPIRV_SPMD then Backend.TranslateBuildSPMD
  else Backend.TranslateBuildVC

/-- The update of `SimdSize` after a module that is not the last one (lines 322-337): the
new value, or the error message. -/
def updateSimdSize (env : Env) (flavour : SPIRVTypeEnum) (ZeBinary : StringRef)
    (SimdSize : Int) : Except String Int :=
  if flavour = SPIRVTypeEnum.SPIRV_SPMD then
    match GetSIMDSizeFromZeBinary env ZeBinary with
    | Except.error e => Except.error (ERROR_VLD ++ e)
    | Except.ok SimdSizeOrErr =>
        if SimdSize ≠ 0 ∧ SimdSize ≠ SimdSizeOrErr then
          Except.error
            (ERROR_VLD ++ "Compilation of SPIR-V modules resulted in different SIMD sizes!")
        else if SimdSize = 0 then Except.ok SimdSizeOrErr
        else Except.ok SimdSize
  else Except.ok SimdSize

/-- The loop over `InputModules` of the array overload of `TranslateBuildSPMDAndESIMD`
(lines 256-361), from the module at the head of the list on, with the values of
`visaStrings` and `SimdSize` at that point.  A null `pErrorString` is appended as the empty
string. -/
def translateModules (env : Env) (pOutputArgs : STB_TranslateOutputArgs)
    (errorMessage : String) :
    List SPVTranslationPair → List String → Int → TranslateResult
  | [], _, _ => ⟨true, pOutputArgs, errorMessage, []⟩
  | InputArgsPair :: rest, visaStrings, SimdSize =>
      match NewInternalOptions InputArgsPair.1 InputArgsPair.2.pInternalOptions SimdSize with
      | none => ⟨false, pOutputArgs, "Unsupported SPIR-V flavour detected!", []⟩
      | some options =>
          let args := NewInputArgs InputArgsPair.2 visaStrings options
          let out := env.translate (backendOf InputArgsPair.1) args STB_TranslateOutputArgs.zero
          TranslateResult.after (backendOf InputArgsPair.1, args)
            (if out.1 = false then
              ⟨false, pOutputArgs,
                "VLD: Failed to compile SPIR-V with following error: \n" ++
                  out.2.pErrorString.getD "", []⟩
            else if rest = [] then ⟨true, out.2, errorMessage, []⟩
            else
              match updateSimdSize env InputArgsPair.1 ⟨out.2.pOutput, out.2.OutputSize⟩
                  SimdSize with
              | Except.error e => ⟨false, pOutputArgs, e, []⟩
              | Except.ok SimdSize1 =>
                  match GetVISAAsmFromZEBinary env ⟨out.2.pOutput, out.2.OutputSize⟩ with
                  | Except.error e =>
                      ⟨false, pOutputArgs,
                        "VLD: Failed to compile SPIR-V with following error: \n" ++ e, []⟩
                  | Except.ok VISAAsm =>
                      if VISAAsm = [] then
                        ⟨false, pOutputArgs,
                          "VLD: ZeBinary did not contain any .visaasm sections!", []⟩
                      else translateModules env pOutputArgs errorMessage rest
                        (visaStrings ++ VISAAsm) SimdSize1)

/-- The array overload of `TranslateBuildSPMDAndESIMD` (lines 248-367). -/
def TranslateBuildSPMDAndESIMDArray (env : Env) (InputModules : List SPVTranslationPair)
    (pOutputArgs : STB_TranslateOutputArgs) (errorMessage : String) : TranslateResult :=
  if env.IGC_VC_ENABLED then translateModules env pOutputArgs errorMessage InputModules [] 0
  else
    ⟨false, pOutputArgs,
      "Could not compile ESIMD part of SPIR-V module, as VC is not included in this build.", []⟩

/-- The function `TranslateBuildSPMDAndESIMD` on one SPIR-V module (lines 161-246).  The dump
of the SPIR-V files under `ShaderDumpEnable` writes files only and is left out. -/
def TranslateBuildSPMDAndESIMD (env : Env) (pInputArgs : STB_TranslateInputArgs)
    (pOutputArgs : STB_TranslateOutputArgs) (inputDataFormatTemp : TB_DATA_FORMAT)
    (errorMessage : String) : Except String TranslateResult :=
  if inputDataFormatTemp ≠ TB_DATA_FORMAT.TB_DATA_FORMAT_SPIR_V then
    Except.error "inputDataFormatTemp == TB_DATA_FORMAT_SPIR_V"
  else
    match env.SplitSPMDAndESIMD pInputArgs.pInput pInputArgs.InputSize with
    | Except.error _ =>
        let out := env.TranslateBuildSPMD pInputArgs pOutputArgs
        Except.ok ⟨out.1, out.2, errorMessage, [(Backend.TranslateBuildSPMD, pInputArgs)]⟩
    | Except.ok (spmdProg, esimdProg) =>
        let newOptions := pInputArgs.pOptions.getD ""
        let esimdOptions := newOptions ++ " -vc-codegen"
        if spmdProg = [] ∧ esimdProg = [] then
          Except.error "!spmdProg.empty() || !esimdProg.empty()"
        else if spmdProg = [] then
          if env.IGC_VC_ENABLED then
            let newArgs := { pInputArgs with
              pOptions := some esimdOptions
              OptionsSize := esimdOptions.length }
            let out := env.TranslateBuildVC newArgs pOutputArgs
            Except.ok ⟨out.1, out.2, errorMessage, [(Backend.TranslateBuildVC, newArgs)]⟩
          else
            Except.ok ⟨false, pOutputArgs,
              "ESIMD code detected, but VC not enabled in this build.", []⟩
        else if esimdProg = [] then
          let out := env.TranslateBuildSPMD pInputArgs pOutputArgs
          Except.ok ⟨out.1, out.2, errorMessage, [(Backend.TranslateBuildSPMD, pInputArgs)]⟩
        else
          let newArgsSPMD := { pInputArgs with
            pInput := spmdProg
            InputSize := spmdProg.length * 4 }
          let newArgsESIMD := { pInputArgs with
            pInput := esimdProg
            InputSize := esimdProg.length * 4
            pOptions := some esimdOptions
            OptionsSize := esimdOptions.length }
          Except.ok (TranslateBuildSPMDAndESIMDArray env
            [(SPIRVTypeEnum.SPIRV_ESIMD, newArgsESIMD), (SPIRVTypeEnum.SPIRV_SPMD, newArgsSPMD)]
            pOutputArgs errorMessage)

/-- The SIMD size that the driver reads from the output of the SPMD backend called with the
given arguments (lines 320-324). -/
def Env.simdSizeOfSPMD (env : Env) (args : STB_TranslateInputArgs) : Except String Int :=
  GetSIMDSizeFromZeBinary env
    ⟨(env.TranslateBuildSPMD args STB_TranslateOutputArgs.zero).2.pOutput,
      (env.TranslateBuildSPMD args STB_TranslateOutputArgs.zero).2.OutputSize⟩

/-- An environment for an example: the SPMD backend produces a binary of SIMD size 0 for the
input `[0]` and of SIMD size 16 for every other input; every binary has one `.ze_info` and
one `.visaasm` section. -/
def exampleEnv : Env where
  IGC_VC_ENABLED := true
  SplitSPMDAndESIMD := fun _ _ => Except.error "not split"
  TranslateBuildSPMD := fun args _ =>
    (true, ⟨some (if args.pInput = [0] then "0" else "16"), 2, none, 0, none, 0⟩)
  TranslateBuildVC := fun _ _ => (true, ⟨some "1", 1, none, 0, none, 0⟩)
  createELFObjectFile := fun bin =>
    Except.ok ⟨Except.ok [⟨SHT_ZEBIN.SHT_ZEBIN_ZEINFO, Except.ok (bin.data.getD "")⟩,
      ⟨SHT_ZEBIN.SHT_ZEBIN_VISAASM, Except.ok "visaasm"⟩]⟩
  readZeInfo := fun yaml =>
    some ⟨[⟨⟨if yaml = "0" then 0 else if yaml = "16" then 16 else 1⟩⟩], []⟩

end VLD

/-! ## The analysis of scalar kernel arguments used as pointers (`ScalarArgAsPointer.cpp`)

A pointer to an instruction is the position of the instruction in the function; a null
pointer is `none`.  A call that does not return, because an assertion fails or because a
loop does not end, has the result `none`. -/

namespace ScalarArgAsPointer

/-- The address spaces of a pointer type as far as they are told apart. -/
inductive ADDRESS_SPACE where
  | ADDRESS_SPACE_GLOBAL
  | other (value : Nat)
deriving DecidableEq, Repr

/-- The type of a value (`llvm::Type`) as far as the analysis inspects it. -/
inductive IRType where
  | integer
  | pointer (addressSpace : ADDRESS_SPACE)
  | other
deriving DecidableEq, Repr

/-- A kernel argument (`llvm::Argument`). -/
structure Argument where
  argNo : Nat
  type : IRType
deriving DecidableEq, Repr

/-- The query `arg->getType()->isIntegerTy()`. -/
def Argument.isIntegerTy (a : Argument) : Bool :=
  decide (a.type = IRType.integer)

/-- An operand (`llvm::Value*`): an argument, an instruction of the function, a
`ConstantInt` with its zero-extended value, or any other value. -/
inductive Value where
  | argument (a : Argument)
  | instruction (id : Nat)
  | constantInt (zext : Nat)
  | other (type : IRType)
deriving DecidableEq, Repr

/-- A type as `findStoredArgs` sees it: whether it is an `ArrayType`, and of how many
elements, and its size `DL->getTypeAllocSize`. -/
structure IndexedType where
  arrayNumElements : Option Nat
  allocSize : Nat
deriving DecidableEq, Repr

/-- One position of the `gep_type_iterator` of a GEP: the index operand, the offsets of the
fields of the struct that is indexed (`DL->getStructLayout` of `getStructTypeOrNull()`, if
not null), and the type that results from indexing (`getIndexedType()`). -/
structure GEPStep where
  operand : Value
  structLayout : Option (List Nat)
  indexedType : IndexedType
deriving DecidableEq, Repr

/-- A `GetElementPtrInst`: its pointer operand, the positions of its type iterator, and what
`accumulateConstantOffset` yields (`none` when it returns false). -/
structure GetElementPtrInst where
  pointerOperand : Value
  steps : List GEPStep
  constantOffset : Option Int
deriving DecidableEq, Repr

/-- The kinds of instruction that the analysis tells apart, with their operands. -/
inductive InstKind where
  | alloca (arraySize : Value)
  | bitCast (src : Value)
  | getElementPtr (gep : GetElementPtrInst)
  | load (pointerOperand : Value)
  | store (valueOperand : Value) (pointerOperand : Value)
  | call (isGenIntrinsic : Bool) (operands : List Value)
  | other (operands : List Value)
deriving DecidableEq, Repr

/-- An instruction with the type of its value. -/
structure Instruction where
  kind : InstKind
  type : IRType
deriving DecidableEq, Repr

/-- The operands of an instruction, `getOperand(0)` first. -/
def Instruction.operands (I : Instruction) : List Value :=
  match I.kind with
  | InstKind.alloca arraySize => [arraySize]
  | InstKind.bitCast src => [src]
  | InstKind.getElementPtr gep => gep.pointerOperand :: gep.steps.map (fun s => s.operand)
  | InstKind.load pointerOperand => [pointerOperand]
  | InstKind.store valueOperand pointerOperand => [valueOperand, pointerOperand]
  | InstKind.call _ operands => operands
  | InstKind.other operands => operands

/-- A function (`llvm::Function`): its identity and its instructions in the order in which
`visit` walks them; the instruction with the position `id` is `body[id]`. -/
structure Function where
  key : Nat
  body : List Instruction
deriving DecidableEq, Repr

/-- The cast `dyn_cast<Instruction>(V)`. -/
def Function.asInstruction (F : Function) : Value → Option (Nat × Instruction)
  | Value.instruction id => (F.body.get? id).map (fun I => (id, I))
  | _ => none

/-- The type `V->getType()`. -/
def Function.typeOf (F : Function) : Value → IRType
  | Value.argument a => a.type
  | Value.instruction id => ((F.body.get? id).map (fun I => I.type)).getD IRType.other
  | Value.constantInt _ => IRType.integer
  | Value.other type => type

/-- The type `ArgSet`, a set of arguments. -/
abbrev ArgSet := List Argument

/-- The working sets of the pass: `m_matchingArgs`, the map `m_visitedInst` from an
instruction to its set of arguments (`some none` is an entry that holds a null pointer), and
the map `m_allocas` from an alloca and an offset to the argument stored there. -/
structure ScalarArgAsPointerAnalysis where
  m_matchingArgs : ArgSet
  m_visitedInst : Nat → Option (Option ArgSet)
  m_allocas : Option Nat × Nat → Option Argument

/-- One iteration of the loop of `findAllocaWithOffset` (lines 275-294): the function
returns, with the value returned and the values of `outAI` and `outGEPI`, or the loop goes
on with new values of `tmp` and `outGEPI`. -/
def findAllocaWithOffsetStep (F : Function) (tmp : Value) (outAI : Option Nat)
    (outGEPI : Option (Nat × GetElementPtrInst)) :
    (Bool × Option Nat × Option (Nat × GetElementPtrInst)) ⊕
      (Value × Option (Nat × GetElementPtrInst)) :=
  match F.asInstruction tmp with
  | some (_, ⟨InstKind.bitCast src, _⟩) => Sum.inr (src, outGEPI)
  | some (id, ⟨InstKind.getElementPtr GEPI, _⟩) =>
      if outGEPI.isSome then Sum.inl (false, outAI, outGEPI)
      else Sum.inr (GEPI.pointerOperand, some (id, GEPI))
  | some (id, ⟨InstKind.alloca _, _⟩) => Sum.inl (true, some id, outGEPI)
  | _ => Sum.inl (false, outAI, outGEPI)

/-- The loop of `findAllocaWithOffset` (lines 273-295), with the number of iterations it may
take. -/
def findAllocaWithOffsetLoop (F : Function) :
    Nat → Value → Option Nat → Option (Nat × GetElementPtrInst) →
      Option (Bool × Option Nat × Option (Nat × GetElementPtrInst))
  | 0, _, _, _ => none
  | fuel + 1, tmp, outAI, outGEPI =>
      match findAllocaWithOffsetStep F tmp outAI outGEPI with
      | Sum.inl result => some result
      | Sum.inr (tmp1, outGEPI1) => findAllocaWithOffsetLoop F fuel tmp1 outAI outGEPI1

/-- The values of `tmp` and `outGEPI` after the given number of iterations of the loop of
`findAllocaWithOffset`, if the function has not returned before. -/
def findAllocaWithOffsetIter (F : Function) (outAI : Option Nat) :
    Nat → Value × Option (Nat × GetElementPtrInst) →
      Option (Value × Option (Nat × GetElementPtrInst))
  | 0, state => some state
  | k + 1, state =>
      match findAllocaWithOffsetStep F state.1 outAI state.2 with
      | Sum.inl _ => none
      | Sum.inr state1 => findAllocaWithOffsetIter F outAI k state1

/-- In the words of the description of `findAllocaWithOffset`: following the pointer `V`
backwards through bitcast instructions and the getelementptr instructions `geps` (in the
order in which they are met) reaches the value `W`. -/
inductive CastChain (F : Function) : Value → List (Nat × GetElementPtrInst) → Value → Prop
  | here (V : Value) : CastChain F V [] V
  | bitCast (V src W : Value) (geps : List (Nat × GetElementPtrInst)) (id : Nat)
      (type : IRType) :
      F.asInstruction V = some (id, ⟨InstKind.bitCast src, type⟩) →
      CastChain F src geps W → CastChain F V geps W
  | getElementPtr (V W : Value) (geps : List (Nat × GetElementPtrInst)) (id : Nat)
      (gep : GetElementPtrInst) (type : IRType) :
      F.asInstruction V = some (id, ⟨InstKind.getElementPtr gep, type⟩) →
      CastChain F gep.pointerOperand geps W → CastChain F V ((id, gep) :: geps) W

/-- The function `ScalarArgAsPointerAnalysis::findAllocaWithOffset` (lines 266-296).  A loop
that returns takes at most two iterations for each instruction of the function and one more. -/
def findAllocaWithOffset (F : Function) (V : Value) (outAI : Option Nat) :
    Option (Bool × Option Nat × Option (Nat × GetElementPtrInst)) :=
  match F.typeOf V with
  | IRType.pointer _ => findAllocaWithOffsetLoop F (2 * F.body.length + 1) V outAI none
  | _ => none

/-- One iteration of the loop over the type iterator of the GEP in `findStoredArgs` (lines
215-252): `prevGTI` is `none` at the first index; the result is the new list `offsets`, or
`none` when the function returns false.  The offsets are `uint64_t`. -/
def findStoredArgsOffsetsStep (prevGTI : Option GEPStep) (GTI : GEPStep)
    (offsets : List Nat) : Option (List Nat) :=
  match GTI.operand with
  | Value.constantInt C =>
      if C = 0 then some offsets
      else
        let offset :=
          match GTI.structLayout with
          | some layout => layout.getD C 0
          | none => C * GTI.indexedType.allocSize
        some (offsets.map (fun it => (it + offset) % 18446744073709551616))
  | _ =>
      match prevGTI with
      | none => none
      | some prev =>
          match prev.indexedType.arrayNumElements with
          | none => none
          | some arrayElements =>
              let byteSize := GTI.indexedType.allocSize
              some ((List.range arrayElements).flatMap (fun i =>
                offsets.map (fun it => (it + i * byteSize) % 18446744073709551616)))

/-- The loop over the type iterator of the GEP in `findStoredArgs` (lines 213-253): the list
`offsets` after the loop, or `none` when the function returns false. -/
def findStoredArgsOffsets : Option GEPStep → List GEPStep → List Nat → Option (List Nat)
  | _, [], offsets => some offsets
  | prevGTI, GTI :: rest, offsets =>
      match findStoredArgsOffsetsStep prevGTI GTI offsets with
      | none => none
      | some offsets1 => findStoredArgsOffsets (some GTI) rest offsets1

/-- The last loop of `findStoredArgs` (lines 256-261): the arguments stored at the offsets are
inserted into `args`. -/
def insertStoredArgs (m_allocas : Option Nat × Nat → Option Argument) (AI : Option Nat) :
    List Nat → ArgSet → ArgSet
  | [], args => args
  | it :: rest, args =>
      match m_allocas (AI, it) with
      | some A => insertStoredArgs m_allocas AI rest (args.insert A)
      | none => insertStoredArgs m_allocas AI rest args

/-- The function `ScalarArgAsPointerAnalysis::findStoredArgs` (lines 198-264) on the load of
the given pointer operand: the value returned and the set `args`. -/
def ScalarArgAsPointerAnalysis.findStoredArgs (p : ScalarArgAsPointerAnalysis) (F : Function)
    (pointerOperand : Value) (args : ArgSet) : Option (Bool × ArgSet) :=
  match findAllocaWithOffset F pointerOperand none with
  | none => none
  | some (false, _, _) => some (false, args)
  | some (true, AI, GEPI) =>
      match findStoredArgsOffsets none (GEPI.elim [] (fun g => g.2.steps)) [0] with
      | none => some (false, args)
      | some offsets =>
          some (!(insertStoredArgs p.m_allocas AI offsets args).isEmpty,
            insertStoredArgs p.m_allocas AI offsets args)

/-- The function `ScalarArgAsPointerAnalysis::analyzeStoredArg` (lines 172-196) on the store
of the given value and pointer operands. -/
def ScalarArgAsPointerAnalysis.analyzeStoredArg (p : ScalarArgAsPointerAnalysis)
    (F : Function) (valueOperand : Value) (pointerOperand : Value) :
    Option ScalarArgAsPointerAnalysis :=
  match valueOperand with
  | Value.argument A =>
      match findAllocaWithOffset F pointerOperand none with
      | none => none
      | some (false, _, _) => some p
      | some (true, AI, GEPI) =>
          let totalOffset : Option Nat :=
            match GEPI with
            | some (_, gep) =>
                match gep.constantOffset with
                | none => none
                | some offset => if offset < 0 then none else some offset.toNat
            | none => some 0
          match totalOffset with
          | none => some p
          | some totalOffset =>
              some { p with m_allocas := fun key =>
                if key = (AI, totalOffset) then some A else p.m_allocas key }
  | _ => some p

/-- The entry `m_visitedInst[inst] = value`. -/
def ScalarArgAsPointerAnalysis.setVisited (p : ScalarArgAsPointerAnalysis) (inst : Nat)
    (value : Option ArgSet) : ScalarArgAsPointerAnalysis :=
  { p with m_visitedInst := fun i => if i = inst then some value else p.m_visitedInst i }

/-- The loop over the operands in `findArgs` (lines 139-165), from the given operands on;
`findArgs` is the function called on an operand that is an instruction.  The result is `none`
in the first place when a call does not return, and in the second place when the search
fails. -/
def findArgsOperands (F : Function)
    (findArgs : ScalarArgAsPointerAnalysis → Nat →
      Option (Option ArgSet × ScalarArgAsPointerAnalysis)) :
    List Value → ArgSet → ScalarArgAsPointerAnalysis →
      Option (Option ArgSet × ScalarArgAsPointerAnalysis)
  | [], result, p => some (some result, p)
  | op :: rest, result, p =>
      match op with
      | Value.argument arg =>
          if arg.isIntegerTy then findArgsOperands F findArgs rest (result.insert arg) p
          else some (none, p)
      | _ =>
          match F.asInstruction op with
          | some (opInst, _) =>
              match findArgs p opInst with
              | none => none
              | some (none, p1) => some (none, p1)
              | some (some args, p1) => findArgsOperands F findArgs rest (args ∪ result) p1
          | none => findArgsOperands F findArgs rest result p

/-- The function `ScalarArgAsPointerAnalysis::findArgs` (lines 116-170) on the instruction at
the position `inst`, with a bound on the depth of the recursion. -/
def findArgsFuel (F : Function) :
    Nat → ScalarArgAsPointerAnalysis → Nat →
      Option (Option ArgSet × ScalarArgAsPointerAnalysis)
  | 0, _, _ => none
  | fuel + 1, p, inst =>
      match p.m_visitedInst inst with
      | some visited => some (visited, p)
      | none =>
          let p1 := p.setVisited inst none
          match F.body.get? inst with
          | none => some (none, p1)
          | some I =>
              match I.kind with
              | InstKind.call false _ => some (none, p1)
              | InstKind.load pointerOperand =>
                  match p1.findStoredArgs F pointerOperand [] with
                  | none => none
                  | some (false, _) => some (none, p1)
                  | some (true, result) => some (some result, p1.setVisited inst (some result))
              | _ =>
                  match findArgsOperands F (findArgsFuel F fuel) I.operands [] p1 with
                  | none => none
                  | some (none, p2) => some (none, p2)
                  | some (some result, p2) =>
                      some (some result, p2.setVisited inst (some result))

/-- The number of instructions of the function that have no entry in `m_visitedInst`. -/
def ScalarArgAsPointerAnalysis.unvisited (p : ScalarArgAsPointerAnalysis) (F : Function) :
    Nat :=
  ((List.range F.body.length).filter (fun i => (p.m_visitedInst i).isNone)).length

/-- The function `ScalarArgAsPointerAnalysis::findArgs` (lines 116-170).  Every call that is
not answered from `m_visitedInst` adds an entry to it, so the recursion is not deeper than
the number of instructions without an entry. -/
def ScalarArgAsPointerAnalysis.findArgs (p : ScalarArgAsPointerAnalysis) (F : Function)
    (inst : Nat) : Option (Option ArgSet × ScalarArgAsPointerAnalysis) :=
  findArgsFuel F (p.unvisited F + 1) p inst

/-- The function `ScalarArgAsPointerAnalysis::analyzePointer` (lines 98-114). -/
def ScalarArgAsPointerAnalysis.analyzePointer (p : ScalarArgAsPointerAnalysis) (F : Function)
    (V : Value) : Option ScalarArgAsPointerAnalysis :=
  match F.typeOf V with
  | IRType.pointer addressSpace =>
      if addressSpace ≠ ADDRESS_SPACE.ADDRESS_SPACE_GLOBAL then some p
      else
        match F.asInstruction V with
        | none => some p
        | some (inst, _) =>
            match p.findArgs F inst with
            | none => none
            | some (none, p1) => some p1
            | some (some args, p1) => some { p1 with m_matchingArgs := args ∪ p1.m_matchingArgs }
  | _ => none

/-- The functions `visitStoreInst` and `visitLoadInst` (lines 87-96), as `visit` dispatches
to them; the other instructions are not visited. -/
def ScalarArgAsPointerAnalysis.visitInst (p : ScalarArgAsPointerAnalysis) (F : Function)
    (I : Instruction) : Option ScalarArgAsPointerAnalysis :=
  match I.kind with
  | InstKind.store valueOperand pointerOperand =>
      match p.analyzeStoredArg F valueOperand pointerOperand with
      | none => none
      | some p1 => p1.analyzePointer F pointerOperand
  | InstKind.load pointerOperand => p.analyzePointer F pointerOperand
  | _ => some p

/-- The visit of the instructions of the function from the given ones on. -/
def ScalarArgAsPointerAnalysis.visitInsts (F : Function) :
    List Instruction → ScalarArgAsPointerAnalysis → Option ScalarArgAsPointerAnalysis
  | [], p => some p
  | I :: rest, p =>
      match p.visitInst F I with
      | none => none
      | some p1 => ScalarArgAsPointerAnalysis.visitInsts F rest p1

/-- The call `visit(F)`. -/
def ScalarArgAsPointerAnalysis.visit (p : ScalarArgAsPointerAnalysis) (F : Function) :
    Option ScalarArgAsPointerAnalysis :=
  ScalarArgAsPointerAnalysis.visitInsts F F.body p

/-- The struct `FunctionMetaData`, as far as the analysis writes it. -/
structure FunctionMetaData where
  m_OpenCLArgScalarAsPointers : List Nat
deriving DecidableEq, Repr

/-- The map `FuncMD` of the module metadata, from a function to its metadata; `none` is a
function without an entry. -/
structure ModuleMetaData where
  FuncMD : Nat → Option FunctionMetaData

/-- The three calls of `clear()` on the working sets (lines 70-72). -/
def ScalarArgAsPointerAnalysis.clear (p : ScalarArgAsPointerAnalysis) :
    ScalarArgAsPointerAnalysis :=
  { p with
    m_matchingArgs := []
    m_visitedInst := fun _ => none
    m_allocas := fun _ => none }

/-- The loop that inserts the argument numbers into the metadata (lines 81-82). -/
def insertArgNos : ArgSet → List Nat → List Nat
  | [], set => set
  | it :: rest, set => insertArgNos rest (set.insert it.argNo)

/-- The function `ScalarArgAsPointerAnalysis::analyzeFunction` (lines 68-85): the value
returned, the working sets and the module metadata after the call. -/
def ScalarArgAsPointerAnalysis.analyzeFunction (p : ScalarArgAsPointerAnalysis)
    (md : ModuleMetaData) (F : Function) :
    Option (Bool × ScalarArgAsPointerAnalysis × ModuleMetaData) :=
  match p.clear.visit F with
  | none => none
  | some p1 =>
      if p1.m_matchingArgs.isEmpty then some (false, p1, md)
      else
        let funcMD := (md.FuncMD F.key).getD ⟨[]⟩
        some (true, p1, ⟨fun k =>
          if k = F.key then
            some ⟨insertArgNos p1.m_matchingArgs funcMD.m_OpenCLArgScalarAsPointers⟩
          else md.FuncMD k⟩)

/-- The pointer operand of a load or a store. -/
def Instruction.pointerOperand (I : Instruction) : Option Value :=
  match I.kind with
  | InstKind.load pointerOperand => some pointerOperand
  | InstKind.store _ pointerOperand => some pointerOperand
  | _ => none

/-- In the words of the description of `findStoredArgs`: the offset that a constant index
adds, zero for the constant zero and for an index that is not a constant, else the offset of
the field of the struct, or the index times the alloc size of the element. -/
def constantIndexOffset (GTI : GEPStep) : Nat :=
  match GTI.operand with
  | Value.constantInt C =>
      if C = 0 then 0
      else
        match GTI.structLayout with
        | some layout => layout.getD C 0
        | none => C * GTI.indexedType.allocSize
  | _ => 0

/-- The sum of the offsets of the constant indices of a GEP. -/
def constantOffsetSum (steps : List GEPStep) : Nat :=
  (steps.map constantIndexOffset).sum

/-- The variable indices of a GEP, in their order: for each one the number of elements of
the array that it indexes, `none` when it is the first index of the GEP or indexes a type
that is not an array, and the alloc size of the element. -/
def variableIndices : Option GEPStep → List GEPStep → List (Option Nat × Nat)
  | _, [] => []
  | prevGTI, GTI :: rest =>
      match GTI.operand with
      | Value.constantInt _ => variableIndices (some GTI) rest
      | _ =>
          (prevGTI.bind (fun prev => prev.indexedType.arrayNumElements),
            GTI.indexedType.allocSize) :: variableIndices (some GTI) rest

/-- A choice of one index for each variable index of a GEP, each below the number of elements
of its array. -/
def ValidIndices (idx : List Nat) (dims : List (Option Nat × Nat)) : Prop :=
  List.Forall₂ (fun i d => ∃ N, d.1 = some N ∧ i < N) idx dims

/-- The offset that a choice of indices adds: the sum of the indices times the sizes of the
elements. -/
def variableOffset (idx : List Nat) (dims : List (Option Nat × Nat)) : Nat :=
  (List.zipWith (fun i d => i * d.2) idx dims).sum

/-- In the words of the description of `findArgs`: what the operands contribute, from the
given operands on and up to the first failure.  An argument of integer type contributes
itself, an operand that is an instruction the set that `findArgs` returns for it, a constant
or any other value nothing; an argument of another type and an instruction for which
`findArgs` fails are a failure, `none`.  The result is `none` when a call of `findArgs` does
not return. -/
def operandSets (F : Function)
    (findArgs : ScalarArgAsPointerAnalysis → Nat →
      Option (Option ArgSet × ScalarArgAsPointerAnalysis)) :
    List Value → ScalarArgAsPointerAnalysis → Option (List (Option ArgSet))
  | [], _ => some []
  | op :: rest, p =>
      match op with
      | Value.argument arg =>
          if arg.isIntegerTy then (operandSets F findArgs rest p).map (fun l => some [arg] :: l)
          else some [none]
      | _ =>
          match F.asInstruction op with
          | some (opInst, _) =>
              match findArgs p opInst with
              | none => none
              | some (none, _) => some [none]
              | some (some args, p1) =>
                  (operandSets F findArgs rest p1).map (fun l => some args :: l)
          | none => operandSets F findArgs rest p

/-- The working sets `q` come from the working sets `p` by calls of `findArgs`: the
instructions with an entry in `m_visitedInst` keep one, the other sets are the same. -/
structure Grows (p q : ScalarArgAsPointerAnalysis) : Prop where
  visited : ∀ i, p.m_visitedInst i ≠ none → q.m_visitedInst i ≠ none
  allocas : q.m_allocas = p.m_allocas
  matching : q.m_matchingArgs = p.m_matchingArgs

/-- The pointer operand of every load and store of the function has a pointer type, and the
loop of `findAllocaWithOffset` returns on it. -/
def Function.wellFormed (F : Function) : Prop :=
  ∀ I ∈ F.body, ∀ V, I.pointerOperand = some V → (findAllocaWithOffset F V none).isSome = true

end ScalarArgAsPointer

end IGC

/-! # Theorems -/

namespace iga


/-! ## Lemmas on `Bucket` -/

theorem Bucket.addDepSetLoop_perm {α : Type} (dep : Option α) :
    ∀ (l l1 : List (Option α)), Bucket.addDepSetLoop dep l = some l1 →
      l1.reduceOption.Perm (dep.toList ++ l.reduceOption)
  | [], l1, h => by simp [Bucket.addDepSetLoop] at h
  | none :: rest, l1, h => by
      simp only [Bucket.addDepSetLoop, Option.some.injEq] at h
      subst h
      cases dep <;> simp [List.reduceOption_cons_of_none, List.reduceOption_cons_of_some]
  | some d :: rest, l1, h => by
      simp only [Bucket.addDepSetLoop, Option.map_eq_some'] at h
      obtain ⟨r, hr, rfl⟩ := h
      have ih := Bucket.addDepSetLoop_perm dep rest r hr
      simp only [List.reduceOption_cons_of_some]
      exact (List.Perm.cons d ih).trans List.perm_middle.symm

theorem Bucket.live_addDepSet_perm {α : Type} (b : Bucket α) (dep : Option α) :
    (b.addDepSet dep).live.Perm (dep.toList ++ b.live) := by
  unfold Bucket.addDepSet Bucket.live
  cases h : Bucket.addDepSetLoop dep b.dependencies with
  | some l => exact Bucket.addDepSetLoop_perm dep _ _ h
  | none =>
      simp only [List.reduceOption_append]
      cases dep <;> simp [List.reduceOption_cons_of_none, List.reduceOption_cons_of_some,
        List.perm_append_comm]

theorem Bucket.mem_live_addDepSet {α : Type} (b : Bucket α) (d x : α) :
    x ∈ (b.addDepSet (some d)).live ↔ x = d ∨ x ∈ b.live := by
  rw [(Bucket.live_addDepSet_perm b (some d)).mem_iff]
  simp

theorem Bucket.reduceOption_set_none_sublist {α : Type} :
    ∀ (l : List (Option α)) (i : Nat), (l.set i none).reduceOption.Sublist l.reduceOption
  | [], _ => by simp
  | x :: rest, 0 => by
      cases x <;> simp [List.reduceOption_cons_of_none, List.reduceOption_cons_of_some]
  | x :: rest, i + 1 => by
      have ih := Bucket.reduceOption_set_none_sublist rest i
      cases x <;> simp [List.reduceOption_cons_of_none, List.reduceOption_cons_of_some, ih]

theorem Bucket.unique_applyOp {α : Type} (b b1 : Bucket α) (op : BucketOp α)
    (hu : b.Unique) (hf : ∀ d, op = BucketOp.addDepSet (some d) → d ∉ b.live)
    (h : b.applyOp op = some b1) : b1.Unique := by
  cases op with
  | addDepSet dep =>
      simp only [Bucket.applyOp, Option.some.injEq] at h
      subst h
      unfold Bucket.Unique
      rw [(Bucket.live_addDepSet_perm b dep).nodup_iff]
      cases dep with
      | none => simpa using hu
      | some d => simpa using ⟨hf d rfl, hu⟩
  | clearDepSet index =>
      simp only [Bucket.applyOp] at h
      split at h
      · simp only [Option.some.injEq] at h
        subst h
        exact List.Nodup.sublist (Bucket.reduceOption_set_none_sublist _ _) hu
      · simp at h
  | clearDependency =>
      simp only [Bucket.applyOp, Option.some.injEq] at h
      subst h
      simp [Bucket.Unique, Bucket.live, Bucket.clearDependency]

theorem Bucket.unique_applyOps {α : Type} :
    ∀ (ops : List (BucketOp α)) (b b1 : Bucket α), b.Unique → b.FreshAdds ops →
      b.applyOps ops = some b1 → b1.Unique
  | [], b, b1, hu, _, h => by
      simp only [Bucket.applyOps, Option.some.injEq] at h
      subst h; exact hu
  | op :: ops, b, b1, hu, hf, h => by
      simp only [Bucket.applyOps, Option.bind_eq_some] at h
      obtain ⟨b2, h2, h3⟩ := h
      exact Bucket.unique_applyOps ops b2 b1 (Bucket.unique_applyOp b b2 op hu hf.1 h2)
        (hf.2 b2 h2) h3

/-- C9 (as amended): for every sequence of `addDepSet`, `clearDepSet` and `clearDependency`
calls on a new bucket in which each `addDepSet` passes a `DepSet` that has no non-null entry
in the bucket at the time of the call, the bucket never holds two entries for the same
`DepSet`. -/
theorem Bucket.unique_of_freshAdds {α : Type} (ops : List (BucketOp α)) (b : Bucket α)
    (hf : (Bucket.empty : Bucket α).FreshAdds ops)
    (h : (Bucket.empty : Bucket α).applyOps ops = some b) : b.Unique :=
  Bucket.unique_applyOps ops Bucket.empty b
    (by simp [Bucket.Unique, Bucket.live, Bucket.empty]) hf h

/-- Witness of C9: add `1`, add `2`, clear entry `0`, add `1` again. -/
theorem Bucket.unique_of_freshAdds_witness :
    (⟨[some 1, some 2]⟩ : Bucket Nat).Unique :=
  Bucket.unique_of_freshAdds
    [BucketOp.addDepSet (some 1), BucketOp.addDepSet (some 2), BucketOp.clearDepSet 0,
      BucketOp.addDepSet (some 1)] ⟨[some 1, some 2]⟩
    (by simp [Bucket.FreshAdds, Bucket.applyOp, Bucket.live, Bucket.empty, Bucket.addDepSet,
          Bucket.addDepSetLoop, Bucket.clearDepSet, Bucket.getNumDependencies,
          List.reduceOption])
    (by rfl)

/-- Counterexample to C9 as stated: two `addDepSet` calls with the same `DepSet` leave two
entries for it in the bucket, and neither was cleared. -/
theorem Bucket.addDepSet_twice_not_unique :
    (Bucket.empty : Bucket Nat).applyOps
        [BucketOp.addDepSet (some 7), BucketOp.addDepSet (some 7)] = some ⟨[some 7, some 7]⟩ ∧
      ¬ (⟨[some 7, some 7]⟩ : Bucket Nat).Unique := by
  constructor
  · rfl
  · decide


/-! ## The constructor -/

theorem toUInt32_of_pos (x : Int) (h0 : 0 < x) (h1 : x < 2147483648) :
    (toUInt32 x : Int) = x := by
  unfold toUInt32
  rw [Int.toNat_of_nonneg (Int.emod_nonneg _ (by norm_num))]
  exact Int.emod_eq_of_lt (le_of_lt h0) (by linarith)

/-- C10: a constructed `SWSBAnalyzer` has a token list of exactly `m_SBIDCount` entries, and
`m_SBIDCount` equals the `sbid_count` argument when it is non-zero and is 16 when
`sbid_count` is 0.  The argument is an `int` that is not negative: the list is made by
`m_freeSBIDList.resize(m_SBIDCount)`, which for a negative argument would have to make at
least 2^31 entries. -/
theorem SWSBAnalyzer.new_token_pool_size (model : Model) (encode_mode : SWSB_ENCODE_MODE)
    (sbid_count : Int) (hlo : 0 ≤ sbid_count) (hhi : sbid_count < 2147483648) :
    (SWSBAnalyzer.new model encode_mode sbid_count).m_freeSBIDList.length
        = (SWSBAnalyzer.new model encode_mode sbid_count).m_SBIDCount ∧
      (sbid_count ≠ 0 →
        ((SWSBAnalyzer.new model encode_mode sbid_count).m_SBIDCount : Int) = sbid_count) ∧
      (sbid_count = 0 → (SWSBAnalyzer.new model encode_mode sbid_count).m_SBIDCount = 16) := by
  refine ⟨by simp [SWSBAnalyzer.new], ?_, ?_⟩
  · intro h
    simp only [SWSBAnalyzer.new, h, ne_eq, not_false_eq_true, if_true]
    exact toUInt32_of_pos _ (lt_of_le_of_ne hlo (Ne.symm h)) hhi
  · intro h; simp [SWSBAnalyzer.new, h]

/-- Witness of C10: `sbid_count = 2` gives a list of 2 tokens. -/
theorem SWSBAnalyzer.new_token_pool_size_witness :
    (SWSBAnalyzer.new ⟨7, SWSB_ENCODE_MODE.TokenOnly, 128⟩ SWSB_ENCODE_MODE.SWSBInvalidMode
        2).m_freeSBIDList.length = 2 ∧
      ((SWSBAnalyzer.new ⟨7, SWSB_ENCODE_MODE.TokenOnly, 128⟩ SWSB_ENCODE_MODE.SWSBInvalidMode
        2).m_SBIDCount : Int) = 2 :=
  ⟨((SWSBAnalyzer.new_token_pool_size ⟨7, SWSB_ENCODE_MODE.TokenOnly, 128⟩
      SWSB_ENCODE_MODE.SWSBInvalidMode 2 (by decide) (by decide)).1).trans (by rfl),
    (SWSBAnalyzer.new_token_pool_size ⟨7, SWSB_ENCODE_MODE.TokenOnly, 128⟩
      SWSB_ENCODE_MODE.SWSBInvalidMode 2 (by decide) (by decide)).2.1 (by decide)⟩

/-! ## The drain at block exit -/

/-- C4: after the drain at block exit every bucket satisfies `isEmpty()`, the distance
tracker is empty and every SBID is free; so the scan of `calculateDependence` finds no
`DepSet` for any footprint and leaves the accumulated decisions unchanged: no dependency
recorded in the block is visible when the next block is processed. -/
theorem SWSBAnalyzer.drain_clean (a : SWSBAnalyzer) :
    (∀ b, (a.drain.1.m_buckets b).isEmpty = true) ∧
      a.drain.1.m_distanceTracker = [] ∧
      (∀ s ∈ a.drain.1.m_freeSBIDList, s.isFree = true) ∧
      a.drain.1.m_freeSBIDList.length = a.m_freeSBIDList.length ∧
      (∀ dep, a.drain.1.producers dep = []) ∧
      (∀ dep i r, a.drain.1.calculateDependence dep i r = r) := by
  have hp : ∀ dep, a.drain.1.producers dep = [] := by
    intro dep
    simp [SWSBAnalyzer.producers, SWSBAnalyzer.drain, Bucket.clearDependency, Bucket.live]
  refine ⟨?_, ?_, ?_, ?_, hp, ?_⟩
  · intro b; simp [SWSBAnalyzer.drain, Bucket.clearDependency, Bucket.isEmpty]
  · simp [SWSBAnalyzer.drain]
  · intro s hs
    simp only [SWSBAnalyzer.drain, SWSBAnalyzer.clearSBIDDependence, List.mem_map] at hs
    obtain ⟨s0, _, rfl⟩ := hs
    rfl
  · simp [SWSBAnalyzer.drain, SWSBAnalyzer.clearSBIDDependence]
  · intro dep i r
    simp [SWSBAnalyzer.calculateDependence, hp]

/-! ## The token scenario -/

/-- C5: with a pool of 2 tokens, three consecutive out-of-order instructions A (writes
bucket 5), B (writes bucket 7), C (writes bucket 9) are rewritten to A with token 0, B with
token 1, an explicit wait for token 0, and C with token 0 (followed by the syncs of the
block exit). -/
theorem SWSBAnalyzer.token_scenario :
    (SWSBAnalyzer.new ⟨7, SWSB_ENCODE_MODE.TokenOnly, 128⟩ SWSB_ENCODE_MODE.SWSBInvalidMode
        2).run
        [[⟨[], [5], CompletionClass.OutOfOrder 0, false⟩,
          ⟨[], [7], CompletionClass.OutOfOrder 0, false⟩,
          ⟨[], [9], CompletionClass.OutOfOrder 0, false⟩]]
      = Except.ok
        [[OutInst.inst ⟨[], [5], CompletionClass.OutOfOrder 0, false⟩ ⟨none, none, some 0⟩,
          OutInst.inst ⟨[], [7], CompletionClass.OutOfOrder 0, false⟩ ⟨none, none, some 1⟩,
          OutInst.sync (SyncKind.token 0),
          OutInst.inst ⟨[], [9], CompletionClass.OutOfOrder 0, false⟩ ⟨none, none, some 0⟩,
          OutInst.sync SyncKind.allRd,
          OutInst.sync SyncKind.allWr]] := by
  decide

/-! ## Lemmas on the bucket table -/

theorem Bucket.mem_live_clear {α : Type} [DecidableEq α] (l : List (Option α)) (x d : α) :
    d ∈ (l.map (fun e => if e = some x then none else e)).reduceOption ↔
      d ∈ l.reduceOption ∧ d ≠ x := by
  simp only [List.reduceOption_mem_iff, List.mem_map]
  constructor
  · rintro ⟨e, he, h⟩
    by_cases hx : e = some x
    · simp [hx] at h
    · simp only [hx, if_false] at h
      subst h
      exact ⟨he, fun hd => hx (by rw [hd])⟩
  · rintro ⟨hd, hne⟩
    exact ⟨some d, hd, by simp [hne]⟩

theorem SWSBAnalyzer.mem_live_clearDepBuckets (a : SWSBAnalyzer) (x d : DepSet) (b : Nat) :
    d ∈ ((a.clearDepBuckets x).m_buckets b).live ↔
      d ∈ (a.m_buckets b).live ∧ ¬ (b ∈ x.buckets ∧ d = x) := by
  unfold SWSBAnalyzer.clearDepBuckets
  by_cases hb : b ∈ x.buckets
  · simp only [hb, if_true, Bucket.live, true_and]
    exact Bucket.mem_live_clear _ x d
  · simp [hb]

theorem SWSBAnalyzer.mem_live_foldl_clearDepBuckets (xs : List DepSet) :
    ∀ (a : SWSBAnalyzer) (d : DepSet) (b : Nat),
      d ∈ ((xs.foldl SWSBAnalyzer.clearDepBuckets a).m_buckets b).live ↔
        d ∈ (a.m_buckets b).live ∧ ∀ x ∈ xs, ¬ (b ∈ x.buckets ∧ d = x) := by
  induction xs with
  | nil => intro a d b; simp
  | cons x xs ih =>
      intro a d b
      simp only [List.foldl_cons, ih, SWSBAnalyzer.mem_live_clearDepBuckets, List.mem_cons,
        forall_eq_or_imp]
      tauto

theorem SWSBAnalyzer.mem_live_addToBuckets (a : SWSBAnalyzer) (x d : DepSet) (b : Nat) :
    d ∈ ((a.addToBuckets x).m_buckets b).live ↔
      d ∈ (a.m_buckets b).live ∨ (b ∈ x.buckets ∧ d = x) := by
  unfold SWSBAnalyzer.addToBuckets
  by_cases hb : b ∈ x.buckets
  · simp only [hb, if_true, true_and, Bucket.mem_live_addDepSet]
    tauto
  · simp [hb]

theorem SWSBAnalyzer.mem_live_clearSuperseded (a : SWSBAnalyzer) (found : List DepSet)
    (i : Instruction) (d : DepSet) (b : Nat) :
    d ∈ ((a.clearSuperseded found i).m_buckets b).live ↔
      d ∈ (a.m_buckets b).live ∧
        ¬ (b ∈ d.buckets ∧ d ∈ found ∧ d.supersededBy i = true) := by
  unfold SWSBAnalyzer.clearSuperseded
  rw [SWSBAnalyzer.mem_live_foldl_clearDepBuckets]
  simp only [List.mem_filter]
  constructor
  · rintro ⟨h1, h2⟩
    exact ⟨h1, fun ⟨hb, hf, hs⟩ => h2 d ⟨hf, hs⟩ ⟨hb, rfl⟩⟩
  · rintro ⟨h1, h2⟩
    refine ⟨h1, ?_⟩
    rintro x ⟨hf, hs⟩ ⟨hb, rfl⟩
    exact h2 ⟨hb, hf, hs⟩

theorem SWSBAnalyzer.foldl_clearBuckets_eq (ns : List distanceTrackerNode) :
    ∀ (a : SWSBAnalyzer),
      ns.foldl (fun acc n => acc.clearBuckets n.input n.output) a =
        (ns.flatMap (fun n => [n.input, n.output])).foldl SWSBAnalyzer.clearDepBuckets a := by
  induction ns with
  | nil => intro a; rfl
  | cons n ns ih =>
      intro a
      simp only [List.foldl_cons, List.flatMap_cons, List.cons_append, List.nil_append]
      rw [ih]
      rfl

theorem SWSBAnalyzer.mem_live_trimDistanceTracker (a : SWSBAnalyzer) (d : DepSet) (b : Nat) :
    d ∈ ((a.trimDistanceTracker).m_buckets b).live ↔
      d ∈ (a.m_buckets b).live ∧
        ∀ n ∈ a.m_distanceTracker, a.expired n = true →
          ¬ (b ∈ d.buckets ∧ (d = n.input ∨ d = n.output)) := by
  unfold SWSBAnalyzer.trimDistanceTracker
  simp only [SWSBAnalyzer.foldl_clearBuckets_eq, SWSBAnalyzer.mem_live_foldl_clearDepBuckets,
    List.mem_flatMap, List.mem_filter, List.mem_cons, List.mem_singleton, List.not_mem_nil,
    or_false]
  constructor
  · rintro ⟨h1, h2⟩
    refine ⟨h1, ?_⟩
    rintro n hn he ⟨hb, hd⟩
    rcases hd with hd | hd
    · exact h2 d ⟨n, ⟨hn, he⟩, Or.inl hd⟩ ⟨hb, rfl⟩
    · exact h2 d ⟨n, ⟨hn, he⟩, Or.inr hd⟩ ⟨hb, rfl⟩
  · rintro ⟨h1, h2⟩
    refine ⟨h1, ?_⟩
    rintro x ⟨n, ⟨hn, he⟩, hx⟩ ⟨hb, rfl⟩
    exact h2 n hn he ⟨hb, hx⟩

/-! ## Frame lemmas: what the bucket operations leave unchanged -/

theorem SWSBAnalyzer.foldl_clearDepBuckets_frame (xs : List DepSet) :
    ∀ a : SWSBAnalyzer, xs.foldl SWSBAnalyzer.clearDepBuckets a =
      { a with m_buckets := (xs.foldl SWSBAnalyzer.clearDepBuckets a).m_buckets } := by
  induction xs with
  | nil => intro a; rfl
  | cons x xs ih =>
      intro a
      simp only [List.foldl_cons]
      rw [ih]
      rfl

theorem SWSBAnalyzer.clearSuperseded_frame (a : SWSBAnalyzer) (found : List DepSet)
    (i : Instruction) : a.clearSuperseded found i =
      { a with m_buckets := (a.clearSuperseded found i).m_buckets } :=
  SWSBAnalyzer.foldl_clearDepBuckets_frame _ a

theorem SWSBAnalyzer.trimDistanceTracker_frame (a : SWSBAnalyzer) :
    a.trimDistanceTracker =
      { a with
        m_buckets := a.trimDistanceTracker.m_buckets
        m_distanceTracker := a.m_distanceTracker.filter (fun n => !a.expired n) } := by
  unfold SWSBAnalyzer.trimDistanceTracker
  simp only [SWSBAnalyzer.foldl_clearBuckets_eq]
  rw [SWSBAnalyzer.foldl_clearDepBuckets_frame]

theorem not_decide_le_eq (x l : Nat) : (!decide (l ≤ x)) = decide (x < l) := by
  by_cases h : l ≤ x
  · simp [h, Nat.not_lt.mpr h]
  · simp [h, Nat.lt_of_not_le h]


theorem SWSBAnalyzer.processInst_inOrder (a : SWSBAnalyzer) (i : Instruction) (pipe : Nat)
    (h : i.completion = CompletionClass.InOrder pipe) :
    a.processInst i =
      (((((((a.clearSuperseded (a.found (createDstDepSet i a.m_InstIdCounter)) i).addToBuckets
          (createSrcDepSet i a.m_InstIdCounter)).addToBuckets
          (createDstDepSet i a.m_InstIdCounter)).advanceInorderInstCounter pipe).trackInst i
          (createSrcDepSet i a.m_InstIdCounter)
          (createDstDepSet i a.m_InstIdCounter)).trimDistanceTracker).nextInst,
        (processActiveSBID a.m_swsbMode
          (a.calculateDependence (createDstDepSet i a.m_InstIdCounter) i
            (a.calculateDependence (createSrcDepSet i a.m_InstIdCounter) i
              DepResult.empty))).1 ++
          [OutInst.inst i (processActiveSBID a.m_swsbMode
            (a.calculateDependence (createDstDepSet i a.m_InstIdCounter) i
              (a.calculateDependence (createSrcDepSet i a.m_InstIdCounter) i
                DepResult.empty))).2]) := by
  unfold SWSBAnalyzer.processInst
  simp only [h]

theorem SWSBAnalyzer.trackInst_frame (a : SWSBAnalyzer) (i : Instruction)
    (input output : DepSet) : a.trackInst i input output =
      { a with m_distanceTracker := (a.trackInst i input output).m_distanceTracker } := by
  unfold SWSBAnalyzer.trackInst
  split <;> rfl

/-- The projections of the analyzer after an in-order instruction. -/
theorem SWSBAnalyzer.processInst_inOrder_fields (a : SWSBAnalyzer) (i : Instruction)
    (pipe : Nat) (h : i.completion = CompletionClass.InOrder pipe) :
    (a.processInst i).1.m_LatencyInOrderPipe = a.m_LatencyInOrderPipe ∧
    (a.processInst i).1.m_InstIdCounter.inOrder = a.m_InstIdCounter.inOrder + 1 ∧
    (a.processInst i).1.m_InstIdCounter.global = a.m_InstIdCounter.global + 1 ∧
    (a.processInst i).1.m_InstIdCounter.pipe =
      (fun p => if p = pipe then a.m_InstIdCounter.pipe p + 1 else a.m_InstIdCounter.pipe p) ∧
    (a.processInst i).1.m_freeSBIDList = a.m_freeSBIDList ∧
    (a.processInst i).1.m_IdToDepSetMap = a.m_IdToDepSetMap ∧
    (a.processInst i).1.m_SBIDCount = a.m_SBIDCount ∧
    (a.processInst i).1.m_distanceTracker =
      ((if i.reads = [] ∧ i.writes = [] then a.m_distanceTracker
        else a.m_distanceTracker ++
          [⟨createSrcDepSet i a.m_InstIdCounter, createDstDepSet i a.m_InstIdCounter⟩]).filter
        (fun n => decide (a.m_InstIdCounter.inOrder + 1 - n.output.issuePos
          < a.m_LatencyInOrderPipe))) := by
  rw [SWSBAnalyzer.processInst_inOrder a i pipe h]
  simp only
  rw [SWSBAnalyzer.trimDistanceTracker_frame, SWSBAnalyzer.trackInst_frame,
    SWSBAnalyzer.clearSuperseded_frame]
  refine ⟨rfl, rfl, rfl, rfl, rfl, rfl, rfl, ?_⟩
  simp only [SWSBAnalyzer.nextInst, SWSBAnalyzer.trackInst,
    SWSBAnalyzer.advanceInorderInstCounter, SWSBAnalyzer.addToBuckets, SWSBAnalyzer.expired,
    not_decide_le_eq]
  split <;> rfl

theorem SWSBAnalyzer.processInst_outOfOrder_nowrite (a : SWSBAnalyzer) (i : Instruction)
    (u : Nat) (h : i.completion = CompletionClass.OutOfOrder u)
    (hw : i.reads = [] ∧ i.writes = []) :
    a.processInst i =
      (a.nextInst,
        (processActiveSBID a.m_swsbMode
          (a.calculateDependence (createDstDepSet i a.m_InstIdCounter) i
            (a.calculateDependence (createSrcDepSet i a.m_InstIdCounter) i
              DepResult.empty))).1 ++
          [OutInst.inst i (processActiveSBID a.m_swsbMode
            (a.calculateDependence (createDstDepSet i a.m_InstIdCounter) i
              (a.calculateDependence (createSrcDepSet i a.m_InstIdCounter) i
                DepResult.empty))).2]) := by
  unfold SWSBAnalyzer.processInst
  simp only [h, hw, and_self, if_true]

theorem SWSBAnalyzer.processInst_outOfOrder_write (a : SWSBAnalyzer) (i : Instruction)
    (u : Nat) (h : i.completion = CompletionClass.OutOfOrder u)
    (hw : ¬ (i.reads = [] ∧ i.writes = [])) :
    a.processInst i =
      ((((((a.assignSBID (createSrcDepSet i a.m_InstIdCounter)
            (createDstDepSet i a.m_InstIdCounter)).analyzer.clearSuperseded
            (a.found (createDstDepSet i a.m_InstIdCounter)) i).addToBuckets
          (a.assignSBID (createSrcDepSet i a.m_InstIdCounter)
            (createDstDepSet i a.m_InstIdCounter)).input).addToBuckets
          (a.assignSBID (createSrcDepSet i a.m_InstIdCounter)
            (createDstDepSet i a.m_InstIdCounter)).output).nextInst),
        (a.assignSBID (createSrcDepSet i a.m_InstIdCounter)
            (createDstDepSet i a.m_InstIdCounter)).stall ++
          (processActiveSBID a.m_swsbMode
            (a.calculateDependence (createDstDepSet i a.m_InstIdCounter) i
              (a.calculateDependence (createSrcDepSet i a.m_InstIdCounter) i
                DepResult.empty))).1 ++
          [OutInst.inst i
            { (processActiveSBID a.m_swsbMode
                (a.calculateDependence (createDstDepSet i a.m_InstIdCounter) i
                  (a.calculateDependence (createSrcDepSet i a.m_InstIdCounter) i
                    DepResult.empty))).2 with
              setToken := some (a.assignSBID (createSrcDepSet i a.m_InstIdCounter)
                (createDstDepSet i a.m_InstIdCounter)).sbid }]) := by
  unfold SWSBAnalyzer.processInst
  simp only [h, hw, if_false]

theorem SWSBAnalyzer.assignSBID_frame (a : SWSBAnalyzer) (input output : DepSet) :
    (a.assignSBID input output).analyzer =
      { a with
        m_buckets := (a.assignSBID input output).analyzer.m_buckets
        m_freeSBIDList := (a.assignSBID input output).analyzer.m_freeSBIDList
        m_SBIDRRCounter := (a.assignSBID input output).analyzer.m_SBIDRRCounter
        m_IdToDepSetMap := (a.assignSBID input output).analyzer.m_IdToDepSetMap } := by
  unfold SWSBAnalyzer.assignSBID
  cases firstFree a.m_freeSBIDList with
  | some i => rfl
  | none =>
      simp only
      cases a.m_IdToDepSetMap (a.m_SBIDRRCounter % a.m_SBIDCount) with
      | none => rfl
      | some p => rfl

/-- The projections of the analyzer after an out-of-order instruction. -/
theorem SWSBAnalyzer.processInst_outOfOrder_fields (a : SWSBAnalyzer) (i : Instruction)
    (u : Nat) (h : i.completion = CompletionClass.OutOfOrder u) :
    (a.processInst i).1.m_LatencyInOrderPipe = a.m_LatencyInOrderPipe ∧
    (a.processInst i).1.m_InstIdCounter.inOrder = a.m_InstIdCounter.inOrder ∧
    (a.processInst i).1.m_InstIdCounter.global = a.m_InstIdCounter.global + 1 ∧
    (a.processInst i).1.m_InstIdCounter.pipe = a.m_InstIdCounter.pipe ∧
    (a.processInst i).1.m_SBIDCount = a.m_SBIDCount ∧
    (a.processInst i).1.m_distanceTracker = a.m_distanceTracker := by
  by_cases hw : i.reads = [] ∧ i.writes = []
  · rw [SWSBAnalyzer.processInst_outOfOrder_nowrite a i u h hw]
    exact ⟨rfl, rfl, rfl, rfl, rfl, rfl⟩
  · rw [SWSBAnalyzer.processInst_outOfOrder_write a i u h hw]
    simp only
    rw [SWSBAnalyzer.clearSuperseded_frame, SWSBAnalyzer.assignSBID_frame]
    exact ⟨rfl, rfl, rfl, rfl, rfl, rfl⟩

/-! ## The invariant of the distance tracker -/

theorem SWSBAnalyzer.trackerInv_processInst (a : SWSBAnalyzer) (i : Instruction)
    (h : a.TrackerInv) : (a.processInst i).1.TrackerInv := by
  cases hc : i.completion with
  | OutOfOrder u =>
      obtain ⟨h1, h2, _, _, _, h6⟩ := SWSBAnalyzer.processInst_outOfOrder_fields a i u hc
      constructor
      · rw [h1, h2, h6]; exact h.live
      · rw [h2, h6]; exact h.before
      · rw [h6]; exact h.sorted
  | InOrder pipe =>
      obtain ⟨h1, h2, _, _, _, _, _, h8⟩ := SWSBAnalyzer.processInst_inOrder_fields a i pipe hc
      have hsorted : (if i.reads = [] ∧ i.writes = [] then a.m_distanceTracker
          else a.m_distanceTracker ++
            [⟨createSrcDepSet i a.m_InstIdCounter, createDstDepSet i a.m_InstIdCounter⟩]).Pairwise
          (fun x y => x.output.issuePos < y.output.issuePos) := by
        split
        · exact h.sorted
        · rw [List.pairwise_append]
          refine ⟨h.sorted, List.pairwise_singleton _ _, ?_⟩
          intro x hx y hy
          rw [List.mem_singleton] at hy
          subst hy
          exact h.before x hx
      have hbefore : ∀ n ∈ (if i.reads = [] ∧ i.writes = [] then a.m_distanceTracker
          else a.m_distanceTracker ++
            [⟨createSrcDepSet i a.m_InstIdCounter, createDstDepSet i a.m_InstIdCounter⟩]),
          n.output.issuePos < a.m_InstIdCounter.inOrder + 1 := by
        intro n hn
        split at hn
        · exact Nat.lt_succ_of_lt (h.before n hn)
        · rw [List.mem_append, List.mem_singleton] at hn
          rcases hn with hn | hn
          · exact Nat.lt_succ_of_lt (h.before n hn)
          · subst hn
            exact Nat.lt_succ_self _
      constructor
      · intro n hn
        rw [h8, List.mem_filter] at hn
        rw [h1, h2]
        exact of_decide_eq_true hn.2
      · intro n hn
        rw [h8, List.mem_filter] at hn
        rw [h2]
        exact hbefore n hn.1
      · rw [h8]
        exact List.Pairwise.filter _ hsorted

theorem SWSBAnalyzer.trackerInv_drain (a : SWSBAnalyzer) : a.drain.1.TrackerInv := by
  constructor <;> simp [SWSBAnalyzer.drain]

theorem SWSBAnalyzer.trackerInv_new (model : Model) (encode_mode : SWSB_ENCODE_MODE)
    (sbid_count : Int) : (SWSBAnalyzer.new model encode_mode sbid_count).TrackerInv := by
  constructor <;> simp [SWSBAnalyzer.new]

theorem SWSBAnalyzer.trackerInv_steps (evs : List Event) :
    ∀ a : SWSBAnalyzer, a.TrackerInv → (a.steps evs).TrackerInv := by
  induction evs with
  | nil => intro a h; exact h
  | cons ev evs ih =>
      intro a h
      unfold SWSBAnalyzer.steps
      rw [List.foldl_cons]
      apply ih
      cases ev with
      | inst i => exact SWSBAnalyzer.trackerInv_processInst a i h
      | blockExit => exact SWSBAnalyzer.trackerInv_drain a

theorem SWSBAnalyzer.latency_step (a : SWSBAnalyzer) (ev : Event) :
    (a.step ev).m_LatencyInOrderPipe = a.m_LatencyInOrderPipe := by
  cases ev with
  | inst i =>
      cases hc : i.completion with
      | OutOfOrder u => exact (SWSBAnalyzer.processInst_outOfOrder_fields a i u hc).1
      | InOrder pipe => exact (SWSBAnalyzer.processInst_inOrder_fields a i pipe hc).1
  | blockExit => rfl

theorem SWSBAnalyzer.latency_steps (evs : List Event) :
    ∀ a : SWSBAnalyzer, (a.steps evs).m_LatencyInOrderPipe = a.m_LatencyInOrderPipe := by
  induction evs with
  | nil => intro a; rfl
  | cons ev evs ih =>
      intro a
      unfold SWSBAnalyzer.steps
      rw [List.foldl_cons]
      exact (ih _).trans (SWSBAnalyzer.latency_step a ev)

/-- C8: in every state the analyzer reaches from its constructor, the distance tracker holds
no node with `currentPosition - issuePosition >= pipeLatency` (such a node was removed by the
trimming), the latency of the in-order pipe is 10, and the nodes are ordered by issue
position; the trimming after an in-order instruction keeps exactly the nodes (the new one
included) with `currentPosition - issuePosition < pipeLatency`. -/
theorem SWSBAnalyzer.distanceTracker_expiry (model : Model) (encode_mode : SWSB_ENCODE_MODE)
    (sbid_count : Int) (evs : List Event) :
    ((SWSBAnalyzer.new model encode_mode sbid_count).steps evs).m_LatencyInOrderPipe = 10 ∧
      (∀ n ∈ ((SWSBAnalyzer.new model encode_mode sbid_count).steps evs).m_distanceTracker,
        ¬ (((SWSBAnalyzer.new model encode_mode sbid_count).steps evs).m_InstIdCounter.inOrder
            - n.output.issuePos
          ≥ ((SWSBAnalyzer.new model encode_mode sbid_count).steps evs).m_LatencyInOrderPipe)) ∧
      ((SWSBAnalyzer.new model encode_mode sbid_count).steps evs).m_distanceTracker.Pairwise
        (fun x y => x.output.issuePos < y.output.issuePos) ∧
      (∀ (i : Instruction) (pipe : Nat), i.completion = CompletionClass.InOrder pipe →
        (((SWSBAnalyzer.new model encode_mode sbid_count).steps evs).processInst
            i).1.m_distanceTracker =
          (if i.reads = [] ∧ i.writes = [] then
              ((SWSBAnalyzer.new model encode_mode sbid_count).steps evs).m_distanceTracker
            else
              ((SWSBAnalyzer.new model encode_mode sbid_count).steps evs).m_distanceTracker ++
                [⟨createSrcDepSet i
                    ((SWSBAnalyzer.new model encode_mode sbid_count).steps evs).m_InstIdCounter,
                  createDstDepSet i
                    ((SWSBAnalyzer.new model encode_mode sbid_count).steps
                      evs).m_InstIdCounter⟩]).filter
            (fun n => decide
              (((SWSBAnalyzer.new model encode_mode sbid_count).steps
                  evs).m_InstIdCounter.inOrder + 1 - n.output.issuePos
                < ((SWSBAnalyzer.new model encode_mode sbid_count).steps
                  evs).m_LatencyInOrderPipe))) := by
  have hinv := SWSBAnalyzer.trackerInv_steps evs _
    (SWSBAnalyzer.trackerInv_new model encode_mode sbid_count)
  refine ⟨?_, ?_, hinv.sorted, ?_⟩
  · rw [SWSBAnalyzer.latency_steps]; rfl
  · intro n hn
    exact Nat.not_le.mpr (hinv.live n hn)
  · intro i pipe hc
    exact (SWSBAnalyzer.processInst_inOrder_fields _ i pipe hc).2.2.2.2.2.2.2

/-! ## Projections of the analyzer after each operation -/

@[simp]
theorem SWSBAnalyzer.clearDepBuckets_MAX_VALID_DISTANCE (a : SWSBAnalyzer) (x : DepSet) :
    (a.clearDepBuckets x).MAX_VALID_DISTANCE = a.MAX_VALID_DISTANCE := rfl

@[simp]
theorem SWSBAnalyzer.clearDepBuckets_m_swsbMode (a : SWSBAnalyzer) (x : DepSet) :
    (a.clearDepBuckets x).m_swsbMode = a.m_swsbMode := rfl

@[simp]
theorem SWSBAnalyzer.clearDepBuckets_m_LatencyInOrderPipe (a : SWSBAnalyzer) (x : DepSet) :
    (a.clearDepBuckets x).m_LatencyInOrderPipe = a.m_LatencyInOrderPipe := rfl

@[simp]
theorem SWSBAnalyzer.clearDepBuckets_m_SBIDCount (a : SWSBAnalyzer) (x : DepSet) :
    (a.clearDepBuckets x).m_SBIDCount = a.m_SBIDCount := rfl

@[simp]
theorem SWSBAnalyzer.clearDepBuckets_m_InstIdCounter (a : SWSBAnalyzer) (x : DepSet) :
    (a.clearDepBuckets x).m_InstIdCounter = a.m_InstIdCounter := rfl

@[simp]
theorem SWSBAnalyzer.clearDepBuckets_m_freeSBIDList (a : SWSBAnalyzer) (x : DepSet) :
    (a.clearDepBuckets x).m_freeSBIDList = a.m_freeSBIDList := rfl

@[simp]
theorem SWSBAnalyzer.clearDepBuckets_m_SBIDRRCounter (a : SWSBAnalyzer) (x : DepSet) :
    (a.clearDepBuckets x).m_SBIDRRCounter = a.m_SBIDRRCounter := rfl

@[simp]
theorem SWSBAnalyzer.clearDepBuckets_m_IdToDepSetMap (a : SWSBAnalyzer) (x : DepSet) :
    (a.clearDepBuckets x).m_IdToDepSetMap = a.m_IdToDepSetMap := rfl

@[simp]
theorem SWSBAnalyzer.clearDepBuckets_m_distanceTracker (a : SWSBAnalyzer) (x : DepSet) :
    (a.clearDepBuckets x).m_distanceTracker = a.m_distanceTracker := rfl

@[simp]
theorem SWSBAnalyzer.clearDepBuckets_TOTAL_BUCKETS (a : SWSBAnalyzer) (x : DepSet) :
    (a.clearDepBuckets x).TOTAL_BUCKETS = a.TOTAL_BUCKETS := rfl

@[simp]
theorem SWSBAnalyzer.clearSuperseded_MAX_VALID_DISTANCE (a : SWSBAnalyzer)
    (f : List DepSet) (i : Instruction) :
    (a.clearSuperseded f i).MAX_VALID_DISTANCE = a.MAX_VALID_DISTANCE := by
  rw [SWSBAnalyzer.clearSuperseded_frame]

@[simp]
theorem SWSBAnalyzer.clearSuperseded_m_swsbMode (a : SWSBAnalyzer)
    (f : List DepSet) (i : Instruction) :
    (a.clearSuperseded f i).m_swsbMode = a.m_swsbMode := by
  rw [SWSBAnalyzer.clearSuperseded_frame]

@[simp]
theorem SWSBAnalyzer.clearSuperseded_m_LatencyInOrderPipe (a : SWSBAnalyzer)
    (f : List DepSet) (i : Instruction) :
    (a.clearSuperseded f i).m_LatencyInOrderPipe = a.m_LatencyInOrderPipe := by
  rw [SWSBAnalyzer.clearSuperseded_frame]

@[simp]
theorem SWSBAnalyzer.clearSuperseded_m_SBIDCount (a : SWSBAnalyzer)
    (f : List DepSet) (i : Instruction) :
    (a.clearSuperseded f i).m_SBIDCount = a.m_SBIDCount := by
  rw [SWSBAnalyzer.clearSuperseded_frame]

@[simp]
theorem SWSBAnalyzer.clearSuperseded_m_InstIdCounter (a : SWSBAnalyzer)
    (f : List DepSet) (i : Instruction) :
    (a.clearSuperseded f i).m_InstIdCounter = a.m_InstIdCounter := by
  rw [SWSBAnalyzer.clearSuperseded_frame]

@[simp]
theorem SWSBAnalyzer.clearSuperseded_m_freeSBIDList (a : SWSBAnalyzer)
    (f : List DepSet) (i : Instruction) :
    (a.clearSuperseded f i).m_freeSBIDList = a.m_freeSBIDList := by
  rw [SWSBAnalyzer.clearSuperseded_frame]

@[simp]
theorem SWSBAnalyzer.clearSuperseded_m_SBIDRRCounter (a : SWSBAnalyzer)
    (f : List DepSet) (i : Instruction) :
    (a.clearSuperseded f i).m_SBIDRRCounter = a.m_SBIDRRCounter := by
  rw [SWSBAnalyzer.clearSuperseded_frame]

@[simp]
theorem SWSBAnalyzer.clearSuperseded_m_IdToDepSetMap (a : SWSBAnalyzer)
    (f : List DepSet) (i : Instruction) :
    (a.clearSuperseded f i).m_IdToDepSetMap = a.m_IdToDepSetMap := by
  rw [SWSBAnalyzer.clearSuperseded_frame]

@[simp]
theorem SWSBAnalyzer.clearSuperseded_m_distanceTracker (a : SWSBAnalyzer)
    (f : List DepSet) (i : Instruction) :
    (a.clearSuperseded f i).m_distanceTracker = a.m_distanceTracker := by
  rw [SWSBAnalyzer.clearSuperseded_frame]

@[simp]
theorem SWSBAnalyzer.clearSuperseded_TOTAL_BUCKETS (a : SWSBAnalyzer)
    (f : List DepSet) (i : Instruction) :
    (a.clearSuperseded f i).TOTAL_BUCKETS = a.TOTAL_BUCKETS := by
  rw [SWSBAnalyzer.clearSuperseded_frame]

@[simp]
theorem SWSBAnalyzer.addToBuckets_MAX_VALID_DISTANCE (a : SWSBAnalyzer) (x : DepSet) :
    (a.addToBuckets x).MAX_VALID_DISTANCE = a.MAX_VALID_DISTANCE := rfl

@[simp]
theorem SWSBAnalyzer.addToBuckets_m_swsbMode (a : SWSBAnalyzer) (x : DepSet) :
    (a.addToBuckets x).m_swsbMode = a.m_swsbMode := rfl

@[simp]
theorem SWSBAnalyzer.addToBuckets_m_LatencyInOrderPipe (a : SWSBAnalyzer) (x : DepSet) :
    (a.addToBuckets x).m_LatencyInOrderPipe = a.m_LatencyInOrderPipe := rfl

@[simp]
theorem SWSBAnalyzer.addToBuckets_m_SBIDCount (a : SWSBAnalyzer) (x : DepSet) :
    (a.addToBuckets x).m_SBIDCount = a.m_SBIDCount := rfl

@[simp]
theorem SWSBAnalyzer.addToBuckets_m_InstIdCounter (a : SWSBAnalyzer) (x : DepSet) :
    (a.addToBuckets x).m_InstIdCounter = a.m_InstIdCounter := rfl

@[simp]
theorem SWSBAnalyzer.addToBuckets_m_freeSBIDList (a : SWSBAnalyzer) (x : DepSet) :
    (a.addToBuckets x).m_freeSBIDList = a.m_freeSBIDList := rfl

@[simp]
theorem SWSBAnalyzer.addToBuckets_m_SBIDRRCounter (a : SWSBAnalyzer) (x : DepSet) :
    (a.addToBuckets x).m_SBIDRRCounter = a.m_SBIDRRCounter := rfl

@[simp]
theorem SWSBAnalyzer.addToBuckets_m_IdToDepSetMap (a : SWSBAnalyzer) (x : DepSet) :
    (a.addToBuckets x).m_IdToDepSetMap = a.m_IdToDepSetMap := rfl

@[simp]
theorem SWSBAnalyzer.addToBuckets_m_distanceTracker (a : SWSBAnalyzer) (x : DepSet) :
    (a.addToBuckets x).m_distanceTracker = a.m_distanceTracker := rfl

@[simp]
theorem SWSBAnalyzer.addToBuckets_TOTAL_BUCKETS (a : SWSBAnalyzer) (x : DepSet) :
    (a.addToBuckets x).TOTAL_BUCKETS = a.TOTAL_BUCKETS := rfl

@[simp]
theorem SWSBAnalyzer.advanceInorderInstCounter_MAX_VALID_DISTANCE (a : SWSBAnalyzer) (p : Nat) :
    (a.advanceInorderInstCounter p).MAX_VALID_DISTANCE = a.MAX_VALID_DISTANCE := rfl

@[simp]
theorem SWSBAnalyzer.advanceInorderInstCounter_m_swsbMode (a : SWSBAnalyzer) (p : Nat) :
    (a.advanceInorderInstCounter p).m_swsbMode = a.m_swsbMode := rfl

@[simp]
theorem SWSBAnalyzer.advanceInorderInstCounter_m_LatencyInOrderPipe (a : SWSBAnalyzer) (p : Nat) :
    (a.advanceInorderInstCounter p).m_LatencyInOrderPipe = a.m_LatencyInOrderPipe := rfl

@[simp]
theorem SWSBAnalyzer.advanceInorderInstCounter_m_SBIDCount (a : SWSBAnalyzer) (p : Nat) :
    (a.advanceInorderInstCounter p).m_SBIDCount = a.m_SBIDCount := rfl

@[simp]
theorem SWSBAnalyzer.advanceInorderInstCounter_m_freeSBIDList (a : SWSBAnalyzer) (p : Nat) :
    (a.advanceInorderInstCounter p).m_freeSBIDList = a.m_freeSBIDList := rfl

@[simp]
theorem SWSBAnalyzer.advanceInorderInstCounter_m_SBIDRRCounter (a : SWSBAnalyzer) (p : Nat) :
    (a.advanceInorderInstCounter p).m_SBIDRRCounter = a.m_SBIDRRCounter := rfl

@[simp]
theorem SWSBAnalyzer.advanceInorderInstCounter_m_IdToDepSetMap (a : SWSBAnalyzer) (p : Nat) :
    (a.advanceInorderInstCounter p).m_IdToDepSetMap = a.m_IdToDepSetMap := rfl

@[simp]
theorem SWSBAnalyzer.advanceInorderInstCounter_m_distanceTracker (a : SWSBAnalyzer) (p : Nat) :
    (a.advanceInorderInstCounter p).m_distanceTracker = a.m_distanceTracker := rfl

@[simp]
theorem SWSBAnalyzer.advanceInorderInstCounter_m_buckets (a : SWSBAnalyzer) (p : Nat) :
    (a.advanceInorderInstCounter p).m_buckets = a.m_buckets := rfl

@[simp]
theorem SWSBAnalyzer.advanceInorderInstCounter_TOTAL_BUCKETS (a : SWSBAnalyzer) (p : Nat) :
    (a.advanceInorderInstCounter p).TOTAL_BUCKETS = a.TOTAL_BUCKETS := rfl

@[simp]
theorem SWSBAnalyzer.trackInst_MAX_VALID_DISTANCE (a : SWSBAnalyzer)
    (i : Instruction) (x y : DepSet) :
    (a.trackInst i x y).MAX_VALID_DISTANCE = a.MAX_VALID_DISTANCE := by
  rw [SWSBAnalyzer.trackInst_frame]

@[simp]
theorem SWSBAnalyzer.trackInst_m_swsbMode (a : SWSBAnalyzer) (i : Instruction) (x y : DepSet) :
    (a.trackInst i x y).m_swsbMode = a.m_swsbMode := by
  rw [SWSBAnalyzer.trackInst_frame]

@[simp]
theorem SWSBAnalyzer.trackInst_m_LatencyInOrderPipe (a : SWSBAnalyzer)
    (i : Instruction) (x y : DepSet) :
    (a.trackInst i x y).m_LatencyInOrderPipe = a.m_LatencyInOrderPipe := by
  rw [SWSBAnalyzer.trackInst_frame]

@[simp]
theorem SWSBAnalyzer.trackInst_m_SBIDCount (a : SWSBAnalyzer) (i : Instruction) (x y : DepSet) :
    (a.trackInst i x y).m_SBIDCount = a.m_SBIDCount := by
  rw [SWSBAnalyzer.trackInst_frame]

@[simp]
theorem SWSBAnalyzer.trackInst_m_InstIdCounter (a : SWSBAnalyzer)
    (i : Instruction) (x y : DepSet) :
    (a.trackInst i x y).m_InstIdCounter = a.m_InstIdCounter := by
  rw [SWSBAnalyzer.trackInst_frame]

@[simp]
theorem SWSBAnalyzer.trackInst_m_freeSBIDList (a : SWSBAnalyzer)
    (i : Instruction) (x y : DepSet) :
    (a.trackInst i x y).m_freeSBIDList = a.m_freeSBIDList := by
  rw [SWSBAnalyzer.trackInst_frame]

@[simp]
theorem SWSBAnalyzer.trackInst_m_SBIDRRCounter (a : SWSBAnalyzer)
    (i : Instruction) (x y : DepSet) :
    (a.trackInst i x y).m_SBIDRRCounter = a.m_SBIDRRCounter := by
  rw [SWSBAnalyzer.trackInst_frame]

@[simp]
theorem SWSBAnalyzer.trackInst_m_IdToDepSetMap (a : SWSBAnalyzer)
    (i : Instruction) (x y : DepSet) :
    (a.trackInst i x y).m_IdToDepSetMap = a.m_IdToDepSetMap := by
  rw [SWSBAnalyzer.trackInst_frame]

@[simp]
theorem SWSBAnalyzer.trackInst_m_buckets (a : SWSBAnalyzer) (i : Instruction) (x y : DepSet) :
    (a.trackInst i x y).m_buckets = a.m_buckets := by
  rw [SWSBAnalyzer.trackInst_frame]

@[simp]
theorem SWSBAnalyzer.trackInst_TOTAL_BUCKETS (a : SWSBAnalyzer) (i : Instruction) (x y : DepSet) :
    (a.trackInst i x y).TOTAL_BUCKETS = a.TOTAL_BUCKETS := by
  rw [SWSBAnalyzer.trackInst_frame]

@[simp]
theorem SWSBAnalyzer.trimDistanceTracker_MAX_VALID_DISTANCE (a : SWSBAnalyzer) :
    (a.trimDistanceTracker).MAX_VALID_DISTANCE = a.MAX_VALID_DISTANCE := by
  rw [SWSBAnalyzer.trimDistanceTracker_frame]

@[simp]
theorem SWSBAnalyzer.trimDistanceTracker_m_swsbMode (a : SWSBAnalyzer) :
    (a.trimDistanceTracker).m_swsbMode = a.m_swsbMode := by
  rw [SWSBAnalyzer.trimDistanceTracker_frame]

@[simp]
theorem SWSBAnalyzer.trimDistanceTracker_m_LatencyInOrderPipe (a : SWSBAnalyzer) :
    (a.trimDistanceTracker).m_LatencyInOrderPipe = a.m_LatencyInOrderPipe := by
  rw [SWSBAnalyzer.trimDistanceTracker_frame]

@[simp]
theorem SWSBAnalyzer.trimDistanceTracker_m_SBIDCount (a : SWSBAnalyzer) :
    (a.trimDistanceTracker).m_SBIDCount = a.m_SBIDCount := by
  rw [SWSBAnalyzer.trimDistanceTracker_frame]

@[simp]
theorem SWSBAnalyzer.trimDistanceTracker_m_InstIdCounter (a : SWSBAnalyzer) :
    (a.trimDistanceTracker).m_InstIdCounter = a.m_InstIdCounter := by
  rw [SWSBAnalyzer.trimDistanceTracker_frame]

@[simp]
theorem SWSBAnalyzer.trimDistanceTracker_m_freeSBIDList (a : SWSBAnalyzer) :
    (a.trimDistanceTracker).m_freeSBIDList = a.m_freeSBIDList := by
  rw [SWSBAnalyzer.trimDistanceTracker_frame]

@[simp]
theorem SWSBAnalyzer.trimDistanceTracker_m_SBIDRRCounter (a : SWSBAnalyzer) :
    (a.trimDistanceTracker).m_SBIDRRCounter = a.m_SBIDRRCounter := by
  rw [SWSBAnalyzer.trimDistanceTracker_frame]

@[simp]
theorem SWSBAnalyzer.trimDistanceTracker_m_IdToDepSetMap (a : SWSBAnalyzer) :
    (a.trimDistanceTracker).m_IdToDepSetMap = a.m_IdToDepSetMap := by
  rw [SWSBAnalyzer.trimDistanceTracker_frame]

@[simp]
theorem SWSBAnalyzer.trimDistanceTracker_TOTAL_BUCKETS (a : SWSBAnalyzer) :
    (a.trimDistanceTracker).TOTAL_BUCKETS = a.TOTAL_BUCKETS := by
  rw [SWSBAnalyzer.trimDistanceTracker_frame]

@[simp]
theorem SWSBAnalyzer.nextInst_MAX_VALID_DISTANCE (a : SWSBAnalyzer) :
    (a.nextInst).MAX_VALID_DISTANCE = a.MAX_VALID_DISTANCE := rfl

@[simp]
theorem SWSBAnalyzer.nextInst_m_swsbMode (a : SWSBAnalyzer) :
    (a.nextInst).m_swsbMode = a.m_swsbMode := rfl

@[simp]
theorem SWSBAnalyzer.nextInst_m_LatencyInOrderPipe (a : SWSBAnalyzer) :
    (a.nextInst).m_LatencyInOrderPipe = a.m_LatencyInOrderPipe := rfl

@[simp]
theorem SWSBAnalyzer.nextInst_m_SBIDCount (a : SWSBAnalyzer) :
    (a.nextInst).m_SBIDCount = a.m_SBIDCount := rfl

@[simp]
theorem SWSBAnalyzer.nextInst_m_freeSBIDList (a : SWSBAnalyzer) :
    (a.nextInst).m_freeSBIDList = a.m_freeSBIDList := rfl

@[simp]
theorem SWSBAnalyzer.nextInst_m_SBIDRRCounter (a : SWSBAnalyzer) :
    (a.nextInst).m_SBIDRRCounter = a.m_SBIDRRCounter := rfl

@[simp]
theorem SWSBAnalyzer.nextInst_m_IdToDepSetMap (a : SWSBAnalyzer) :
    (a.nextInst).m_IdToDepSetMap = a.m_IdToDepSetMap := rfl

@[simp]
theorem SWSBAnalyzer.nextInst_m_distanceTracker (a : SWSBAnalyzer) :
    (a.nextInst).m_distanceTracker = a.m_distanceTracker := rfl

@[simp]
theorem SWSBAnalyzer.nextInst_m_buckets (a : SWSBAnalyzer) :
    (a.nextInst).m_buckets = a.m_buckets := rfl

@[simp]
theorem SWSBAnalyzer.nextInst_TOTAL_BUCKETS (a : SWSBAnalyzer) :
    (a.nextInst).TOTAL_BUCKETS = a.TOTAL_BUCKETS := rfl

@[simp]
theorem SWSBAnalyzer.assignSBID_MAX_VALID_DISTANCE (a : SWSBAnalyzer) (x y : DepSet) :
    ((a.assignSBID x y).analyzer).MAX_VALID_DISTANCE = a.MAX_VALID_DISTANCE := by
  rw [SWSBAnalyzer.assignSBID_frame]

@[simp]
theorem SWSBAnalyzer.assignSBID_m_swsbMode (a : SWSBAnalyzer) (x y : DepSet) :
    ((a.assignSBID x y).analyzer).m_swsbMode = a.m_swsbMode := by
  rw [SWSBAnalyzer.assignSBID_frame]

@[simp]
theorem SWSBAnalyzer.assignSBID_m_LatencyInOrderPipe (a : SWSBAnalyzer) (x y : DepSet) :
    ((a.assignSBID x y).analyzer).m_LatencyInOrderPipe = a.m_LatencyInOrderPipe := by
  rw [SWSBAnalyzer.assignSBID_frame]

@[simp]
theorem SWSBAnalyzer.assignSBID_m_SBIDCount (a : SWSBAnalyzer) (x y : DepSet) :
    ((a.assignSBID x y).analyzer).m_SBIDCount = a.m_SBIDCount := by
  rw [SWSBAnalyzer.assignSBID_frame]

@[simp]
theorem SWSBAnalyzer.assignSBID_m_InstIdCounter (a : SWSBAnalyzer) (x y : DepSet) :
    ((a.assignSBID x y).analyzer).m_InstIdCounter = a.m_InstIdCounter := by
  rw [SWSBAnalyzer.assignSBID_frame]

@[simp]
theorem SWSBAnalyzer.assignSBID_m_distanceTracker (a : SWSBAnalyzer) (x y : DepSet) :
    ((a.assignSBID x y).analyzer).m_distanceTracker = a.m_distanceTracker := by
  rw [SWSBAnalyzer.assignSBID_frame]

@[simp]
theorem SWSBAnalyzer.assignSBID_TOTAL_BUCKETS (a : SWSBAnalyzer) (x y : DepSet) :
    ((a.assignSBID x y).analyzer).TOTAL_BUCKETS = a.TOTAL_BUCKETS := by
  rw [SWSBAnalyzer.assignSBID_frame]

@[simp] theorem SWSBAnalyzer.advanceInorderInstCounter_counter (a : SWSBAnalyzer) (p : Nat) :
    (a.advanceInorderInstCounter p).m_InstIdCounter =
      ⟨a.m_InstIdCounter.global, a.m_InstIdCounter.inOrder + 1,
        fun q => if q = p then a.m_InstIdCounter.pipe q + 1 else a.m_InstIdCounter.pipe q⟩ := rfl

@[simp] theorem SWSBAnalyzer.nextInst_counter (a : SWSBAnalyzer) :
    a.nextInst.m_InstIdCounter =
      ⟨a.m_InstIdCounter.global + 1, a.m_InstIdCounter.inOrder, a.m_InstIdCounter.pipe⟩ := rfl

@[simp] theorem SWSBAnalyzer.trackInst_tracker (a : SWSBAnalyzer) (i : Instruction)
    (x y : DepSet) :
    (a.trackInst i x y).m_distanceTracker =
      if i.reads = [] ∧ i.writes = [] then a.m_distanceTracker
      else a.m_distanceTracker ++ [⟨x, y⟩] := by
  unfold SWSBAnalyzer.trackInst
  split <;> rfl

@[simp] theorem SWSBAnalyzer.trimDistanceTracker_tracker (a : SWSBAnalyzer) :
    a.trimDistanceTracker.m_distanceTracker =
      a.m_distanceTracker.filter (fun n => decide (a.m_InstIdCounter.inOrder - n.output.issuePos
        < a.m_LatencyInOrderPipe)) := by
  rw [SWSBAnalyzer.trimDistanceTracker_frame]
  simp only [SWSBAnalyzer.expired, not_decide_le_eq]

@[simp] theorem SWSBAnalyzer.expired_iff (a : SWSBAnalyzer) (n : distanceTrackerNode) :
    a.expired n = true ↔
      a.m_LatencyInOrderPipe ≤ a.m_InstIdCounter.inOrder - n.output.issuePos := by
  simp [SWSBAnalyzer.expired]

/-! ## The bucket table after one instruction -/

theorem SWSBAnalyzer.mem_live_processInst_inOrder (a : SWSBAnalyzer) (i : Instruction)
    (pipe : Nat) (h : i.completion = CompletionClass.InOrder pipe) (d : DepSet) (b : Nat) :
    d ∈ ((a.processInst i).1.m_buckets b).live ↔
      ((d ∈ (a.m_buckets b).live ∧
          ¬ (b ∈ d.buckets ∧ d ∈ a.found (createDstDepSet i a.m_InstIdCounter) ∧
            d.supersededBy i = true)) ∨
        (b ∈ (createSrcDepSet i a.m_InstIdCounter).buckets ∧
          d = createSrcDepSet i a.m_InstIdCounter) ∨
        (b ∈ (createDstDepSet i a.m_InstIdCounter).buckets ∧
          d = createDstDepSet i a.m_InstIdCounter)) ∧
      ∀ n ∈ (if i.reads = [] ∧ i.writes = [] then a.m_distanceTracker
          else a.m_distanceTracker ++
            [⟨createSrcDepSet i a.m_InstIdCounter, createDstDepSet i a.m_InstIdCounter⟩]),
        a.m_LatencyInOrderPipe ≤ a.m_InstIdCounter.inOrder + 1 - n.output.issuePos →
          ¬ (b ∈ d.buckets ∧ (d = n.input ∨ d = n.output)) := by
  rw [SWSBAnalyzer.processInst_inOrder a i pipe h]
  simp only [SWSBAnalyzer.nextInst_m_buckets]
  rw [SWSBAnalyzer.mem_live_trimDistanceTracker]
  simp only [SWSBAnalyzer.trackInst_m_buckets, SWSBAnalyzer.advanceInorderInstCounter_m_buckets,
    SWSBAnalyzer.mem_live_addToBuckets, SWSBAnalyzer.mem_live_clearSuperseded,
    SWSBAnalyzer.expired_iff, SWSBAnalyzer.trackInst_tracker,
    SWSBAnalyzer.advanceInorderInstCounter_m_distanceTracker,
    SWSBAnalyzer.addToBuckets_m_distanceTracker, SWSBAnalyzer.clearSuperseded_m_distanceTracker,
    SWSBAnalyzer.trackInst_m_LatencyInOrderPipe,
    SWSBAnalyzer.advanceInorderInstCounter_m_LatencyInOrderPipe,
    SWSBAnalyzer.addToBuckets_m_LatencyInOrderPipe,
    SWSBAnalyzer.clearSuperseded_m_LatencyInOrderPipe, SWSBAnalyzer.trackInst_m_InstIdCounter,
    SWSBAnalyzer.advanceInorderInstCounter_counter, SWSBAnalyzer.addToBuckets_m_InstIdCounter,
    SWSBAnalyzer.clearSuperseded_m_InstIdCounter, or_assoc]

theorem SWSBAnalyzer.mem_live_assignSBID (a : SWSBAnalyzer) (input output d : DepSet)
    (b : Nat) :
    d ∈ ((a.assignSBID input output).analyzer.m_buckets b).live ↔
      d ∈ (a.m_buckets b).live ∧
        (firstFree a.m_freeSBIDList = none →
          ∀ old, a.m_IdToDepSetMap (a.m_SBIDRRCounter % a.m_SBIDCount) = some old →
            ¬ (b ∈ d.buckets ∧ (d = old.1 ∨ d = old.2))) := by
  unfold SWSBAnalyzer.assignSBID
  cases hf : firstFree a.m_freeSBIDList with
  | some t => simp
  | none =>
      simp only
      cases hm : a.m_IdToDepSetMap (a.m_SBIDRRCounter % a.m_SBIDCount) with
      | none => simp
      | some old =>
          simp only [SWSBAnalyzer.mem_live_clearDepBuckets, true_implies, Option.some.injEq,
            forall_eq']
          constructor
          · rintro ⟨⟨h1, h2⟩, h3⟩
            refine ⟨h1, ?_⟩
            rintro ⟨hb, hd | hd⟩
            · exact h2 ⟨hd ▸ hb, hd⟩
            · exact h3 ⟨hd ▸ hb, hd⟩
          · rintro ⟨h1, h2⟩
            exact ⟨⟨h1, fun ⟨hb, hd⟩ => h2 ⟨hd ▸ hb, Or.inl hd⟩⟩,
              fun ⟨hb, hd⟩ => h2 ⟨hd ▸ hb, Or.inr hd⟩⟩

theorem SWSBAnalyzer.mem_live_processInst_outOfOrder (a : SWSBAnalyzer) (i : Instruction)
    (u : Nat) (h : i.completion = CompletionClass.OutOfOrder u)
    (hw : ¬ (i.reads = [] ∧ i.writes = [])) (d : DepSet) (b : Nat) :
    d ∈ ((a.processInst i).1.m_buckets b).live ↔
      (d ∈ ((a.assignSBID (createSrcDepSet i a.m_InstIdCounter)
            (createDstDepSet i a.m_InstIdCounter)).analyzer.m_buckets b).live ∧
          ¬ (b ∈ d.buckets ∧ d ∈ a.found (createDstDepSet i a.m_InstIdCounter) ∧
            d.supersededBy i = true)) ∨
        (b ∈ (a.assignSBID (createSrcDepSet i a.m_InstIdCounter)
            (createDstDepSet i a.m_InstIdCounter)).input.buckets ∧
          d = (a.assignSBID (createSrcDepSet i a.m_InstIdCounter)
            (createDstDepSet i a.m_InstIdCounter)).input) ∨
        (b ∈ (a.assignSBID (createSrcDepSet i a.m_InstIdCounter)
            (createDstDepSet i a.m_InstIdCounter)).output.buckets ∧
          d = (a.assignSBID (createSrcDepSet i a.m_InstIdCounter)
            (createDstDepSet i a.m_InstIdCounter)).output) := by
  rw [SWSBAnalyzer.processInst_outOfOrder_write a i u h hw]
  simp only [SWSBAnalyzer.nextInst_m_buckets]
  rw [SWSBAnalyzer.mem_live_addToBuckets, SWSBAnalyzer.mem_live_addToBuckets,
    SWSBAnalyzer.mem_live_clearSuperseded, or_assoc]

/-! ## The token pool -/

theorem SWSBAnalyzer.firstFree_some :
    ∀ (l : List SBID) (t : Nat), SWSBAnalyzer.firstFree l = some t →
      ∃ s, l.get? t = some s ∧ s.isFree = true
  | [], t, h => by simp [SWSBAnalyzer.firstFree] at h
  | s :: rest, t, h => by
      unfold SWSBAnalyzer.firstFree at h
      by_cases hs : s.isFree = true
      · simp only [hs, if_true, Option.some.injEq] at h
        subst h
        exact ⟨s, rfl, hs⟩
      · simp only [hs, if_false, Option.map_eq_some', Bool.false_eq_true] at h
        obtain ⟨j, hj, rfl⟩ := h
        obtain ⟨s1, h1, h2⟩ := SWSBAnalyzer.firstFree_some rest j hj
        exact ⟨s1, by simpa using h1, h2⟩

theorem SWSBAnalyzer.firstFree_none :
    ∀ (l : List SBID), SWSBAnalyzer.firstFree l = none → ∀ s ∈ l, s.isFree = false
  | [], _, s, hs => by simp at hs
  | x :: rest, h, s, hs => by
      unfold SWSBAnalyzer.firstFree at h
      by_cases hx : x.isFree = true
      · simp [hx] at h
      · simp only [hx, if_false, Option.map_eq_none', Bool.false_eq_true] at h
        rcases List.mem_cons.mp hs with rfl | hs1
        · simpa using hx
        · exact SWSBAnalyzer.firstFree_none rest h s hs1

theorem SWSBAnalyzer.assignSBID_spec (a : SWSBAnalyzer) (input output : DepSet) :
    (a.assignSBID input output).input = input.setSBID (a.assignSBID input output).sbid ∧
    (a.assignSBID input output).output = output.setSBID (a.assignSBID input output).sbid ∧
    (a.assignSBID input output).analyzer.m_freeSBIDList =
      a.m_freeSBIDList.set (a.assignSBID input output).sbid
        ⟨(a.assignSBID input output).sbid, false⟩ ∧
    (a.assignSBID input output).analyzer.m_IdToDepSetMap =
      (fun t => if t = (a.assignSBID input output).sbid then
          some (input.setSBID (a.assignSBID input output).sbid,
            output.setSBID (a.assignSBID input output).sbid)
        else a.m_IdToDepSetMap t) ∧
    (∀ t, firstFree a.m_freeSBIDList = some t →
      (a.assignSBID input output).sbid = t ∧ (a.assignSBID input output).stall = []) ∧
    (firstFree a.m_freeSBIDList = none →
      (a.assignSBID input output).sbid = a.m_SBIDRRCounter % a.m_SBIDCount ∧
      (a.assignSBID input output).stall =
        [OutInst.sync (SyncKind.token (a.assignSBID input output).sbid)]) := by
  unfold SWSBAnalyzer.assignSBID
  cases hf : firstFree a.m_freeSBIDList with
  | some t => simp
  | none =>
      simp only
      cases hm : a.m_IdToDepSetMap (a.m_SBIDRRCounter % a.m_SBIDCount) with
      | none => simp
      | some old => simp

/-! ## The invariant of the bucket table and the token pool -/

theorem SWSBAnalyzer.inv_new (model : Model) (encode_mode : SWSB_ENCODE_MODE)
    (sbid_count : Int) : (SWSBAnalyzer.new model encode_mode sbid_count).Inv := by
  constructor <;> simp [SWSBAnalyzer.new, Bucket.live, Bucket.empty]

theorem SWSBAnalyzer.inv_drain (a : SWSBAnalyzer) (h : a.Inv) : a.drain.1.Inv := by
  constructor
  · simp [SWSBAnalyzer.drain, Bucket.live, Bucket.clearDependency]
  · simp [SWSBAnalyzer.drain, Bucket.live, Bucket.clearDependency]
  · simp [SWSBAnalyzer.drain, Bucket.live, Bucket.clearDependency]
  · exact h.mapped
  · simp [SWSBAnalyzer.drain]

theorem SWSBAnalyzer.inv_processInst (a : SWSBAnalyzer) (i : Instruction) (h : a.Inv) :
    (a.processInst i).1.Inv := by
  cases hc : i.completion with
  | InOrder pipe =>
      have hmem := SWSBAnalyzer.mem_live_processInst_inOrder a i pipe hc
      obtain ⟨_, _, hg, _, hfree, hmap, _, htr⟩ :=
        SWSBAnalyzer.processInst_inOrder_fields a i pipe hc
      constructor
      · intro b d hd
        rcases ((hmem d b).mp hd).1 with ⟨h1, _⟩ | ⟨h1, h2⟩ | ⟨h1, h2⟩
        · exact h.own b d h1
        · rw [h2]; exact h1
        · rw [h2]; exact h1
      · intro b d t hd ht
        rw [hfree, hmap]
        rcases ((hmem d b).mp hd).1 with ⟨h1, _⟩ | ⟨_, h2⟩ | ⟨_, h2⟩
        · exact h.held b d t h1 ht
        · rw [h2] at ht
          simp [createSrcDepSet] at ht
        · rw [h2] at ht
          simp [createDstDepSet, createSrcDepSet] at ht
      · intro b d hd
        rw [hg]
        rcases ((hmem d b).mp hd).1 with ⟨h1, _⟩ | ⟨_, h2⟩ | ⟨_, h2⟩
        · exact Nat.lt_succ_of_lt (h.fresh b d h1)
        · rw [h2]
          simp [createSrcDepSet]
        · rw [h2]
          simp [createDstDepSet, createSrcDepSet]
      · rw [hmap]; exact h.mapped
      · intro n hn
        rw [htr, List.mem_filter] at hn
        have hn1 := hn.1
        split at hn1
        · exact h.nodes n hn1
        · rcases List.mem_append.mp hn1 with hn2 | hn2
          · exact h.nodes n hn2
          · rw [List.mem_singleton] at hn2
            subst hn2
            exact ⟨rfl, rfl, pipe, by simp [createDstDepSet, createSrcDepSet, hc]⟩
  | OutOfOrder u =>
      obtain ⟨_, _, hg, _, _, htr⟩ := SWSBAnalyzer.processInst_outOfOrder_fields a i u hc
      by_cases hw : i.reads = [] ∧ i.writes = []
      · have he := SWSBAnalyzer.processInst_outOfOrder_nowrite a i u hc hw
        constructor
        · intro b d hd
          rw [he] at hd
          exact h.own b d hd
        · intro b d t hd ht
          rw [he] at hd ⊢
          exact h.held b d t hd ht
        · intro b d hd
          rw [hg]
          rw [he] at hd
          exact Nat.lt_succ_of_lt (h.fresh b d hd)
        · rw [he]; exact h.mapped
        · rw [htr]; exact h.nodes
      · have hmem := SWSBAnalyzer.mem_live_processInst_outOfOrder a i u hc hw
        have he := SWSBAnalyzer.processInst_outOfOrder_write a i u hc hw
        obtain ⟨hsi, hso, hsf, hsm, hs1, hs2⟩ := SWSBAnalyzer.assignSBID_spec a
          (createSrcDepSet i a.m_InstIdCounter) (createDstDepSet i a.m_InstIdCounter)
        have hfree : (a.processInst i).1.m_freeSBIDList =
            (a.assignSBID (createSrcDepSet i a.m_InstIdCounter)
              (createDstDepSet i a.m_InstIdCounter)).analyzer.m_freeSBIDList := by
          rw [he]; simp
        have hmap : (a.processInst i).1.m_IdToDepSetMap =
            (a.assignSBID (createSrcDepSet i a.m_InstIdCounter)
              (createDstDepSet i a.m_InstIdCounter)).analyzer.m_IdToDepSetMap := by
          rw [he]; simp
        -- a `DepSet` of the instruction itself holds the token just assigned
        have hnew : ∀ d t,
            (d = (a.assignSBID (createSrcDepSet i a.m_InstIdCounter)
                (createDstDepSet i a.m_InstIdCounter)).input ∨
              d = (a.assignSBID (createSrcDepSet i a.m_InstIdCounter)
                (createDstDepSet i a.m_InstIdCounter)).output) → d.sbid = some t →
            (∀ s, (a.m_freeSBIDList.set (a.assignSBID (createSrcDepSet i a.m_InstIdCounter)
                (createDstDepSet i a.m_InstIdCounter)).sbid
                ⟨(a.assignSBID (createSrcDepSet i a.m_InstIdCounter)
                  (createDstDepSet i a.m_InstIdCounter)).sbid, false⟩).get? t = some s →
              s.isFree = false) ∧
            ∃ x y, (if t = (a.assignSBID (createSrcDepSet i a.m_InstIdCounter)
                  (createDstDepSet i a.m_InstIdCounter)).sbid then
                some ((createSrcDepSet i a.m_InstIdCounter).setSBID
                    (a.assignSBID (createSrcDepSet i a.m_InstIdCounter)
                      (createDstDepSet i a.m_InstIdCounter)).sbid,
                  (createDstDepSet i a.m_InstIdCounter).setSBID
                    (a.assignSBID (createSrcDepSet i a.m_InstIdCounter)
                      (createDstDepSet i a.m_InstIdCounter)).sbid)
              else a.m_IdToDepSetMap t) = some (x, y) ∧ (d = x ∨ d = y) := by
          intro d t hd ht
          have hts : t = (a.assignSBID (createSrcDepSet i a.m_InstIdCounter)
              (createDstDepSet i a.m_InstIdCounter)).sbid := by
            rcases hd with hd | hd
            · rw [hd, hsi] at ht
              simp only [DepSet.setSBID, Option.some.injEq] at ht
              exact ht.symm
            · rw [hd, hso] at ht
              simp only [DepSet.setSBID, Option.some.injEq] at ht
              exact ht.symm
          constructor
          · intro s hs
            rw [hts, List.get?_eq_getElem?, List.getElem?_set] at hs
            split at hs
            · split at hs
              · simp only [Option.some.injEq] at hs
                subst hs; rfl
              · simp at hs
            · exact absurd rfl ‹_›
          · refine ⟨_, _, if_pos hts, ?_⟩
            rcases hd with hd | hd
            · exact Or.inl (hd.trans hsi)
            · exact Or.inr (hd.trans hso)
        constructor
        · intro b d hd
          rcases (hmem d b).mp hd with ⟨h1, _⟩ | ⟨h1, h2⟩ | ⟨h1, h2⟩
          · exact h.own b d ((SWSBAnalyzer.mem_live_assignSBID a _ _ d b).mp h1).1
          · rw [h2]; exact h1
          · rw [h2]; exact h1
        · intro b d t hd ht
          rw [hfree, hmap, hsf, hsm]
          rcases (hmem d b).mp hd with ⟨h1, _⟩ | ⟨_, h2⟩ | ⟨_, h2⟩
          · obtain ⟨h3, h4⟩ := (SWSBAnalyzer.mem_live_assignSBID a _ _ d b).mp h1
            obtain ⟨h5, x, y, h6, h7⟩ := h.held b d t h3 ht
            have hne : t ≠ (a.assignSBID (createSrcDepSet i a.m_InstIdCounter)
                (createDstDepSet i a.m_InstIdCounter)).sbid := by
              intro heq
              cases hf : firstFree a.m_freeSBIDList with
              | some t1 =>
                  obtain ⟨s, hs, hsfree⟩ := SWSBAnalyzer.firstFree_some _ _ hf
                  have := (hs1 t1 hf).1
                  rw [← heq] at this
                  subst this
                  have := h5 s hs
                  rw [hsfree] at this
                  exact Bool.noConfusion this
              | none =>
                  have hidx := (hs2 hf).1
                  rw [← heq] at hidx
                  rw [hidx] at h6
                  exact h4 hf (x, y) h6 ⟨h.own b d h3, h7⟩
            constructor
            · intro s hs
              rw [List.get?_eq_getElem?, List.getElem?_set_ne (Ne.symm hne),
                ← List.get?_eq_getElem?] at hs
              exact h5 s hs
            · exact ⟨x, y, by simp [hne, h6], h7⟩
          · exact hnew d t (Or.inl h2) ht
          · exact hnew d t (Or.inr h2) ht
        · intro b d hd
          rw [hg]
          rcases (hmem d b).mp hd with ⟨h1, _⟩ | ⟨_, h2⟩ | ⟨_, h2⟩
          · exact Nat.lt_succ_of_lt
              (h.fresh b d ((SWSBAnalyzer.mem_live_assignSBID a _ _ d b).mp h1).1)
          · rw [h2, hsi]
            simp [createSrcDepSet, DepSet.setSBID]
          · rw [h2, hso]
            simp [createDstDepSet, createSrcDepSet, DepSet.setSBID]
        · intro t x y hxy
          rw [hmap, hsm] at hxy
          simp only at hxy
          split at hxy
          · simp only [Option.some.injEq, Prod.mk.injEq] at hxy
            obtain ⟨rfl, rfl⟩ := hxy
            subst_vars
            exact ⟨rfl, rfl, rfl, rfl, rfl⟩
          · exact h.mapped t x y hxy
        · rw [htr]; exact h.nodes

theorem SWSBAnalyzer.inv_steps (evs : List Event) :
    ∀ a : SWSBAnalyzer, a.Inv → (a.steps evs).Inv := by
  induction evs with
  | nil => intro a h; exact h
  | cons ev evs ih =>
      intro a h
      unfold SWSBAnalyzer.steps
      rw [List.foldl_cons]
      apply ih
      cases ev with
      | inst i => exact SWSBAnalyzer.inv_processInst a i h
      | blockExit => exact SWSBAnalyzer.inv_drain a h

/-- C3: in every state the analyzer reaches from its constructor, two `DepSet`s registered in
the bucket table that hold the same token belong to one producer (no two outstanding
producers share an SBID): they are `DepSet`s of the same instruction, and the same `DepSet`
when they are of the same access kind.  That token is not free, and the id-to-dependency-set
map records one (input, output) pair for it, of which both are members; a write `DepSet` is
the output of that pair. -/
theorem SWSBAnalyzer.token_invariant (model : Model) (encode_mode : SWSB_ENCODE_MODE)
    (sbid_count : Int) (evs : List Event) (b1 b2 t : Nat) (d1 d2 : DepSet)
    (h1 : d1 ∈ (((SWSBAnalyzer.new model encode_mode sbid_count).steps evs).m_buckets b1).live)
    (h2 : d2 ∈ (((SWSBAnalyzer.new model encode_mode sbid_count).steps evs).m_buckets b2).live)
    (ht1 : d1.sbid = some t) (ht2 : d2.sbid = some t) :
    (d1.instId = d2.instId ∧ (d1.depType = d2.depType → d1 = d2)) ∧
      (∀ s, ((SWSBAnalyzer.new model encode_mode sbid_count).steps evs).m_freeSBIDList.get? t
        = some s → s.isFree = false) ∧
      (∃ x y, ((SWSBAnalyzer.new model encode_mode sbid_count).steps evs).m_IdToDepSetMap t
        = some (x, y) ∧ (d1 = x ∨ d1 = y) ∧ (d2 = x ∨ d2 = y)) ∧
      (d1.depType = DEP_TYPE.WRITE →
        ∃ x, ((SWSBAnalyzer.new model encode_mode sbid_count).steps evs).m_IdToDepSetMap t
          = some (x, d1)) := by
  have hinv := SWSBAnalyzer.inv_steps evs _ (SWSBAnalyzer.inv_new model encode_mode sbid_count)
  obtain ⟨hf1, x1, y1, hx1, hm1⟩ := hinv.held b1 d1 t h1 ht1
  obtain ⟨_, x2, y2, hx2, hm2⟩ := hinv.held b2 d2 t h2 ht2
  rw [hx1] at hx2
  simp only [Option.some.injEq, Prod.mk.injEq] at hx2
  obtain ⟨rfl, rfl⟩ := hx2
  obtain ⟨_, _, hr, hw, hid⟩ := hinv.mapped t x1 y1 hx1
  have hxy : x1.depType ≠ y1.depType := by rw [hr, hw]; decide
  refine ⟨⟨?_, ?_⟩, hf1, ⟨x1, y1, hx1, hm1, hm2⟩, ?_⟩
  · rcases hm1 with rfl | rfl <;> rcases hm2 with rfl | rfl
    · rfl
    · exact hid
    · exact hid.symm
    · rfl
  · intro hty
    rcases hm1 with rfl | rfl <;> rcases hm2 with rfl | rfl
    · rfl
    · exact absurd hty hxy
    · exact absurd hty.symm hxy
    · rfl
  · intro hty
    rcases hm1 with rfl | rfl
    · rw [hr] at hty
      exact DEP_TYPE.noConfusion hty
    · exact ⟨x1, hx1⟩

/-- Witness of C3: after an out-of-order instruction that reads bucket 4 and writes buckets 5
and 6, its read `DepSet` in bucket 4 and its write `DepSet` in bucket 6 hold token 0; they
belong to the same instruction, and token 0 is not free. -/
theorem SWSBAnalyzer.token_invariant_witness :
    (⟨0, DEP_TYPE.READ, [4], CompletionClass.OutOfOrder 0, 0, 0, some 0, DepTag.Normal⟩ :
        DepSet) ∈
      (((SWSBAnalyzer.new ⟨7, SWSB_ENCODE_MODE.TokenOnly, 128⟩ SWSB_ENCODE_MODE.SWSBInvalidMode
        2).steps [Event.inst ⟨[4], [5, 6], CompletionClass.OutOfOrder 0, false⟩]).m_buckets
        4).live ∧
    (⟨0, DEP_TYPE.WRITE, [5, 6], CompletionClass.OutOfOrder 0, 0, 0, some 0, DepTag.Normal⟩ :
        DepSet) ∈
      (((SWSBAnalyzer.new ⟨7, SWSB_ENCODE_MODE.TokenOnly, 128⟩ SWSB_ENCODE_MODE.SWSBInvalidMode
        2).steps [Event.inst ⟨[4], [5, 6], CompletionClass.OutOfOrder 0, false⟩]).m_buckets
        6).live ∧
    ∀ s, ((SWSBAnalyzer.new ⟨7, SWSB_ENCODE_MODE.TokenOnly, 128⟩
        SWSB_ENCODE_MODE.SWSBInvalidMode 2).steps
        [Event.inst ⟨[4], [5, 6], CompletionClass.OutOfOrder 0, false⟩]).m_freeSBIDList.get? 0
      = some s → s.isFree = false :=
  ⟨by decide, by decide,
    (SWSBAnalyzer.token_invariant ⟨7, SWSB_ENCODE_MODE.TokenOnly, 128⟩
      SWSB_ENCODE_MODE.SWSBInvalidMode 2
      [Event.inst ⟨[4], [5, 6], CompletionClass.OutOfOrder 0, false⟩] 4 6 0
      ⟨0, DEP_TYPE.READ, [4], CompletionClass.OutOfOrder 0, 0, 0, some 0, DepTag.Normal⟩
      ⟨0, DEP_TYPE.WRITE, [5, 6], CompletionClass.OutOfOrder 0, 0, 0, some 0, DepTag.Normal⟩
      (by decide) (by decide) rfl rfl).2.1⟩

/-! ## Token reuse -/

theorem reuseOk_cons (busy : List Nat) (e : OutInst) (rest : List OutInst) :
    reuseOk busy (e :: rest) = (setOk busy e && reuseOk (inUseAfter busy e) rest) := rfl

theorem reuseOk_append (l1 : List OutInst) :
    ∀ (busy : List Nat) (l2 : List OutInst),
      reuseOk busy (l1 ++ l2) = (reuseOk busy l1 && reuseOk (l1.foldl inUseAfter busy) l2) := by
  induction l1 with
  | nil => intro busy l2; simp [reuseOk]
  | cons e l1 ih =>
      intro busy l2
      rw [List.cons_append, reuseOk_cons, reuseOk_cons, ih, List.foldl_cons, Bool.and_assoc]

theorem reuseOk_allSync (l : List OutInst) (hl : OutInst.allSync l) :
    ∀ busy : List Nat, reuseOk busy l = true ∧ (∀ t ∈ l.foldl inUseAfter busy, t ∈ busy) ∧
      ∀ t, OutInst.sync (SyncKind.token t) ∈ l → t ∉ l.foldl inUseAfter busy := by
  induction l with
  | nil => intro busy; simp [reuseOk]
  | cons e l ih =>
      intro busy
      obtain ⟨k, rfl⟩ := hl e (List.mem_cons_self _ _)
      obtain ⟨h1, h2, h3⟩ := ih (fun e he => hl e (List.mem_cons_of_mem _ he))
        (inUseAfter busy (OutInst.sync k))
      have hsub : ∀ t ∈ inUseAfter busy (OutInst.sync k), t ∈ busy := by
        intro t ht
        cases k <;> simp [inUseAfter] at ht <;> first | exact ht | exact ht.1
      refine ⟨by simp [reuseOk_cons, setOk, h1], fun t ht => hsub t (h2 t ht), ?_⟩
      intro t ht
      rcases List.mem_cons.mp ht with heq | hmem
      · simp only [OutInst.sync.injEq] at heq
        subst heq
        intro hc
        have := h2 t hc
        simp [inUseAfter] at this
      · exact h3 t hmem

theorem reuseOk_inner (l2 : List OutInst) :
    ∀ (busy : List Nat) (y : Instruction) (sy : SWSB) (l3 : List OutInst) (t : Nat),
      reuseOk busy (l2 ++ OutInst.inst y sy :: l3) = true → t ∈ busy → sy.setToken = some t →
        OutInst.sync (SyncKind.token t) ∈ l2 := by
  induction l2 with
  | nil =>
      intro busy y sy l3 t h hb hs
      simp [reuseOk_cons, setOk, hs, hb] at h
  | cons e l2 ih =>
      intro busy y sy l3 t h hb hs
      simp only [List.cons_append, reuseOk_cons, Bool.and_eq_true] at h
      by_cases he : e = OutInst.sync (SyncKind.token t)
      · exact he ▸ List.mem_cons_self _ _
      · refine List.mem_cons_of_mem _ (ih _ y sy l3 t h.2 ?_ hs)
        cases e with
        | inst z sz =>
            cases hz : sz.setToken <;> simp [inUseAfter, hz, hb]
        | sync k =>
            cases k with
            | token u =>
                have hne : t ≠ u := fun hc => he (by rw [hc])
                simp [inUseAfter, hb, hne]
            | distance d => simpa [inUseAfter] using hb
            | drain => simpa [inUseAfter] using hb
            | allRd => simpa [inUseAfter] using hb
            | allWr => simpa [inUseAfter] using hb

theorem reuseOk_sound (l1 : List OutInst) :
    ∀ (busy : List Nat) (x y : Instruction) (sx sy : SWSB) (l2 l3 : List OutInst) (t : Nat),
      reuseOk busy (l1 ++ OutInst.inst x sx :: (l2 ++ OutInst.inst y sy :: l3)) = true →
        sx.setToken = some t → sy.setToken = some t →
          OutInst.sync (SyncKind.token t) ∈ l2 := by
  induction l1 with
  | nil =>
      intro busy x y sx sy l2 l3 t h hx hy
      simp only [List.nil_append, reuseOk_cons, Bool.and_eq_true] at h
      exact reuseOk_inner l2 _ y sy l3 t h.2 (by simp [inUseAfter, hx]) hy
  | cons e l1 ih =>
      intro busy x y sx sy l2 l3 t h hx hy
      simp only [List.cons_append, reuseOk_cons, Bool.and_eq_true] at h
      exact ih _ x y sx sy l2 l3 t h.2 hx hy

theorem SWSBAnalyzer.processActiveSBID_allSync (mode : SWSB_ENCODE_MODE) (r : DepResult) :
    OutInst.allSync (SWSBAnalyzer.processActiveSBID mode r).1 ∧
      (SWSBAnalyzer.processActiveSBID mode r).2.setToken = none := by
  unfold SWSBAnalyzer.processActiveSBID OutInst.allSync
  cases r.activeSBID with
  | nil =>
      refine ⟨?_, rfl⟩
      intro e he
      simp only [List.mem_append, List.mem_map] at he
      rcases he with he | ⟨t, _, rfl⟩
      · split at he <;> simp at he
        exact ⟨_, he⟩
      · exact ⟨_, rfl⟩
  | cons t rest =>
      cases r.minDist with
      | none =>
          refine ⟨?_, rfl⟩
          intro e he
          simp only [List.mem_append, List.mem_map] at he
          rcases he with (he | ⟨t, _, rfl⟩) | ⟨t, _, rfl⟩
          · split at he <;> simp at he
            exact ⟨_, he⟩
          · exact ⟨_, rfl⟩
          · exact ⟨_, rfl⟩
      | some d =>
          simp only
          split
          · refine ⟨?_, rfl⟩
            intro e he
            simp only [List.mem_append, List.mem_map, List.mem_singleton] at he
            rcases he with ((he | ⟨t, _, rfl⟩) | ⟨t, _, rfl⟩) | rfl
            · split at he <;> simp at he
              exact ⟨_, he⟩
            · exact ⟨_, rfl⟩
            · exact ⟨_, rfl⟩
            · exact ⟨_, rfl⟩
          · refine ⟨?_, rfl⟩
            intro e he
            simp only [List.mem_append, List.mem_map] at he
            rcases he with (he | ⟨t, _, rfl⟩) | ⟨t, _, rfl⟩
            · split at he <;> simp at he
              exact ⟨_, he⟩
            · exact ⟨_, rfl⟩
            · exact ⟨_, rfl⟩

theorem reuseOk_syncs_then_inst (busy : List Nat) (l : List OutInst) (i : Instruction)
    (swsb : SWSB) (hl : OutInst.allSync l)
    (hs : ∀ t, swsb.setToken = some t → t ∉ l.foldl inUseAfter busy) :
    reuseOk busy (l ++ [OutInst.inst i swsb]) = true ∧
      ∀ u ∈ (l ++ [OutInst.inst i swsb]).foldl inUseAfter busy,
        swsb.setToken = some u ∨ u ∈ busy := by
  obtain ⟨h1, h2, _⟩ := reuseOk_allSync l hl busy
  constructor
  · rw [reuseOk_append, h1, reuseOk_cons]
    cases hst : swsb.setToken with
    | none => simp [setOk, hst, reuseOk]
    | some t => simp [setOk, hst, reuseOk, hs t hst]
  · intro u hu
    rw [List.foldl_append] at hu
    simp only [List.foldl_cons, List.foldl_nil, inUseAfter] at hu
    cases hst : swsb.setToken with
    | none =>
        rw [hst] at hu
        exact Or.inr (h2 u hu)
    | some t =>
        rw [hst] at hu
        rcases List.mem_cons.mp hu with rfl | hu1
        · exact Or.inl rfl
        · exact Or.inr (h2 u hu1)

theorem SWSBAnalyzer.reuseOk_processInst (a : SWSBAnalyzer) (i : Instruction)
    (busy : List Nat) (hb : a.Busy busy) :
    reuseOk busy (a.processInst i).2 = true ∧
      (a.processInst i).1.Busy ((a.processInst i).2.foldl inUseAfter busy) := by
  obtain ⟨hp1, hp2⟩ := SWSBAnalyzer.processActiveSBID_allSync a.m_swsbMode
    (a.calculateDependence (createDstDepSet i a.m_InstIdCounter) i
      (a.calculateDependence (createSrcDepSet i a.m_InstIdCounter) i DepResult.empty))
  cases hc : i.completion with
  | InOrder pipe =>
      have hfree := (SWSBAnalyzer.processInst_inOrder_fields a i pipe hc).2.2.2.2.1
      unfold SWSBAnalyzer.Busy
      rw [hfree, SWSBAnalyzer.processInst_inOrder a i pipe hc]
      obtain ⟨h1, h2⟩ := reuseOk_syncs_then_inst busy _ i _ hp1 (by rw [hp2]; simp)
      refine ⟨h1, ?_⟩
      intro t ht
      rcases h2 t ht with h3 | h3
      · rw [hp2] at h3; simp at h3
      · exact hb t h3
  | OutOfOrder u =>
      by_cases hw : i.reads = [] ∧ i.writes = []
      · unfold SWSBAnalyzer.Busy
        rw [SWSBAnalyzer.processInst_outOfOrder_nowrite a i u hc hw]
        obtain ⟨h1, h2⟩ := reuseOk_syncs_then_inst busy _ i _ hp1 (by rw [hp2]; simp)
        refine ⟨h1, ?_⟩
        intro t ht
        rcases h2 t ht with h3 | h3
        · rw [hp2] at h3; simp at h3
        · exact hb t h3
      · obtain ⟨_, _, hsf, _, hs1, hs2⟩ := SWSBAnalyzer.assignSBID_spec a
          (createSrcDepSet i a.m_InstIdCounter) (createDstDepSet i a.m_InstIdCounter)
        have hstall : OutInst.allSync ((a.assignSBID (createSrcDepSet i a.m_InstIdCounter)
            (createDstDepSet i a.m_InstIdCounter)).stall ++
            (processActiveSBID a.m_swsbMode
              (a.calculateDependence (createDstDepSet i a.m_InstIdCounter) i
                (a.calculateDependence (createSrcDepSet i a.m_InstIdCounter) i
                  DepResult.empty))).1) := by
          intro e he
          rcases List.mem_append.mp he with he1 | he1
          · cases hf : firstFree a.m_freeSBIDList with
            | some t => rw [(hs1 t hf).2] at he1; simp at he1
            | none =>
                rw [(hs2 hf).2, List.mem_singleton] at he1
                exact ⟨_, he1⟩
          · exact hp1 e he1
        have hnot : (a.assignSBID (createSrcDepSet i a.m_InstIdCounter)
            (createDstDepSet i a.m_InstIdCounter)).sbid ∉
            ((a.assignSBID (createSrcDepSet i a.m_InstIdCounter)
              (createDstDepSet i a.m_InstIdCounter)).stall ++
            (processActiveSBID a.m_swsbMode
              (a.calculateDependence (createDstDepSet i a.m_InstIdCounter) i
                (a.calculateDependence (createSrcDepSet i a.m_InstIdCounter) i
                  DepResult.empty))).1).foldl inUseAfter busy := by
          obtain ⟨_, g2, g3⟩ := reuseOk_allSync _ hstall busy
          cases hf : firstFree a.m_freeSBIDList with
          | some t =>
              intro hin
              have hin2 := g2 _ hin
              rw [(hs1 t hf).1] at hin2
              obtain ⟨s, hs, hsfree⟩ := SWSBAnalyzer.firstFree_some _ _ hf
              have := hb t hin2 s hs
              rw [hsfree] at this
              exact Bool.noConfusion this
          | none =>
              apply g3
              rw [(hs2 hf).2]
              simp
        have hfree : (a.processInst i).1.m_freeSBIDList =
            (a.assignSBID (createSrcDepSet i a.m_InstIdCounter)
              (createDstDepSet i a.m_InstIdCounter)).analyzer.m_freeSBIDList := by
          rw [SWSBAnalyzer.processInst_outOfOrder_write a i u hc hw]; simp
        unfold SWSBAnalyzer.Busy
        rw [hfree, hsf, SWSBAnalyzer.processInst_outOfOrder_write a i u hc hw]
        obtain ⟨h1, h2⟩ := reuseOk_syncs_then_inst busy _ i
          { (processActiveSBID a.m_swsbMode
              (a.calculateDependence (createDstDepSet i a.m_InstIdCounter) i
                (a.calculateDependence (createSrcDepSet i a.m_InstIdCounter) i
                  DepResult.empty))).2 with
            setToken := some (a.assignSBID (createSrcDepSet i a.m_InstIdCounter)
              (createDstDepSet i a.m_InstIdCounter)).sbid } hstall
          (by
            intro t ht
            simp only [Option.some.injEq] at ht
            rw [← ht]
            exact hnot)
        refine ⟨h1, ?_⟩
        intro t ht s hs
        rcases h2 t ht with h3 | h3
        · simp only [Option.some.injEq] at h3
          rw [← h3, List.get?_eq_getElem?, List.getElem?_set] at hs
          split at hs
          · split at hs
            · simp only [Option.some.injEq] at hs
              rw [← hs]
            · simp at hs
          · exact absurd rfl ‹_›
        · by_cases hne : t = (a.assignSBID (createSrcDepSet i a.m_InstIdCounter)
              (createDstDepSet i a.m_InstIdCounter)).sbid
          · rw [hne, List.get?_eq_getElem?, List.getElem?_set] at hs
            split at hs
            · split at hs
              · simp only [Option.some.injEq] at hs
                rw [← hs]
              · simp at hs
            · exact absurd rfl ‹_›
          · rw [List.get?_eq_getElem?, List.getElem?_set_ne (Ne.symm hne),
              ← List.get?_eq_getElem?] at hs
            exact hb t h3 s hs

theorem SWSBAnalyzer.reuseOk_runInsts (insts : List Instruction) :
    ∀ (a : SWSBAnalyzer) (busy : List Nat), a.Busy busy →
      reuseOk busy (a.runInsts insts).2 = true := by
  induction insts with
  | nil => intro a busy _; rfl
  | cons i rest ih =>
      intro a busy hb
      obtain ⟨h1, h2⟩ := SWSBAnalyzer.reuseOk_processInst a i busy hb
      simp only [SWSBAnalyzer.runInsts]
      rw [reuseOk_append, h1, ih _ _ h2]
      rfl

theorem SWSBAnalyzer.drain_allSync (a : SWSBAnalyzer) : OutInst.allSync a.drain.2 := by
  intro e he
  simp only [SWSBAnalyzer.drain, SWSBAnalyzer.clearSBIDDependence,
    SWSBAnalyzer.insertSyncAllRdWr, SWSBAnalyzer.insertSyncAllPipes, List.mem_append] at he
  rcases he with he | he
  · split at he
    · simp only [List.mem_cons, List.mem_singleton, List.not_mem_nil, or_false] at he
      rcases he with rfl | rfl <;> exact ⟨_, rfl⟩
    · simp at he
  · split at he
    · simp at he
    · rw [List.mem_singleton] at he
      exact ⟨_, he⟩

theorem SWSBAnalyzer.reuseOk_runBlocks (k : List Block) :
    ∀ (a : SWSBAnalyzer), ∀ blk ∈ (a.runBlocks k).2, reuseOk [] blk = true := by
  induction k with
  | nil => intro a blk hblk; simp [SWSBAnalyzer.runBlocks] at hblk
  | cons bb rest ih =>
      intro a blk hblk
      simp only [SWSBAnalyzer.runBlocks, List.mem_cons] at hblk
      rcases hblk with rfl | hblk
      · simp only [SWSBAnalyzer.runBlock]
        rw [reuseOk_append, SWSBAnalyzer.reuseOk_runInsts bb a [] (by intro t ht; simp at ht)]
        rw [(reuseOk_allSync _ (SWSBAnalyzer.drain_allSync _) _).1]
        rfl
      · exact ih _ blk hblk

theorem SWSBAnalyzer.assignSBID_stall_of_assigned (a : SWSBAnalyzer) (input output : DepSet)
    (s : SBID) (hs : a.m_freeSBIDList.get? (a.assignSBID input output).sbid = some s)
    (hfree : s.isFree = false) :
    (a.assignSBID input output).stall =
      [OutInst.sync (SyncKind.token (a.assignSBID input output).sbid)] := by
  obtain ⟨_, _, _, _, hs1, hs2⟩ := SWSBAnalyzer.assignSBID_spec a input output
  cases hf : firstFree a.m_freeSBIDList with
  | some t =>
      obtain ⟨s1, h1, h2⟩ := SWSBAnalyzer.firstFree_some _ _ hf
      rw [(hs1 t hf).1, h1] at hs
      simp only [Option.some.injEq] at hs
      subst hs
      rw [hfree] at h2
      exact Bool.noConfusion h2
  | none => exact (hs2 hf).2

/-- C2: whenever `assignSBID` hands out to an instruction an SBID that is still assigned (not
free in the token list), what the rewriter emits for the instruction starts with an explicit
wait for that token and ends with the instruction that receives it; and so, in every block
that `run` produces, when two instructions are assigned the same token, an explicit wait for
that token stands between them, strictly before the instruction that receives the reused
token. -/
theorem SWSBAnalyzer.token_reuse_wait :
    (∀ (a : SWSBAnalyzer) (i : Instruction) (u : Nat) (s : SBID),
      i.completion = CompletionClass.OutOfOrder u → ¬ (i.reads = [] ∧ i.writes = []) →
      a.m_freeSBIDList.get? (a.assignSBID (createSrcDepSet i a.m_InstIdCounter)
        (createDstDepSet i a.m_InstIdCounter)).sbid = some s → s.isFree = false →
      ∃ syncs swsb, (a.processInst i).2 =
          OutInst.sync (SyncKind.token (a.assignSBID (createSrcDepSet i a.m_InstIdCounter)
            (createDstDepSet i a.m_InstIdCounter)).sbid) :: (syncs ++ [OutInst.inst i swsb]) ∧
        OutInst.allSync syncs ∧
        swsb.setToken = some (a.assignSBID (createSrcDepSet i a.m_InstIdCounter)
          (createDstDepSet i a.m_InstIdCounter)).sbid) ∧
    (∀ (model : Model) (encode_mode : SWSB_ENCODE_MODE) (sbid_count : Int) (k : Kernel)
      (out : List (List OutInst)) (blk l1 l2 l3 : List OutInst) (x y : Instruction)
      (sx sy : SWSB) (t : Nat),
      (SWSBAnalyzer.new model encode_mode sbid_count).run k = Except.ok out → blk ∈ out →
      blk = l1 ++ OutInst.inst x sx :: (l2 ++ OutInst.inst y sy :: l3) →
      sx.setToken = some t → sy.setToken = some t →
      OutInst.sync (SyncKind.token t) ∈ l2) := by
  constructor
  · intro a i u s hc hw hs hfree
    rw [SWSBAnalyzer.processInst_outOfOrder_write a i u hc hw,
      SWSBAnalyzer.assignSBID_stall_of_assigned a _ _ s hs hfree]
    exact ⟨_, _, rfl, (SWSBAnalyzer.processActiveSBID_allSync _ _).1, rfl⟩
  · intro model encode_mode sbid_count k out blk l1 l2 l3 x y sx sy t hrun hblk hsplit hx hy
    unfold SWSBAnalyzer.run at hrun
    split at hrun
    · exact Except.noConfusion hrun
    · simp only [Except.ok.injEq] at hrun
      subst hrun
      have h := SWSBAnalyzer.reuseOk_runBlocks k _ blk hblk
      rw [hsplit] at h
      exact reuseOk_sound l1 [] x y sx sy l2 l3 t h hx hy

/-- Witness of C2: in the kernel of three out-of-order writers with a pool of 2 tokens, the
wait for token 0 stands between the first and the third instruction. -/
theorem SWSBAnalyzer.token_reuse_wait_witness :
    OutInst.sync (SyncKind.token 0) ∈
      [OutInst.inst ⟨[], [7], CompletionClass.OutOfOrder 0, false⟩ ⟨none, none, some 1⟩,
        OutInst.sync (SyncKind.token 0)] :=
  SWSBAnalyzer.token_reuse_wait.2 ⟨7, SWSB_ENCODE_MODE.TokenOnly, 128⟩
    SWSB_ENCODE_MODE.SWSBInvalidMode 2
    [[⟨[], [5], CompletionClass.OutOfOrder 0, false⟩,
      ⟨[], [7], CompletionClass.OutOfOrder 0, false⟩,
      ⟨[], [9], CompletionClass.OutOfOrder 0, false⟩]]
    [[OutInst.inst ⟨[], [5], CompletionClass.OutOfOrder 0, false⟩ ⟨none, none, some 0⟩,
      OutInst.inst ⟨[], [7], CompletionClass.OutOfOrder 0, false⟩ ⟨none, none, some 1⟩,
      OutInst.sync (SyncKind.token 0),
      OutInst.inst ⟨[], [9], CompletionClass.OutOfOrder 0, false⟩ ⟨none, none, some 0⟩,
      OutInst.sync SyncKind.allRd,
      OutInst.sync SyncKind.allWr]]
    [OutInst.inst ⟨[], [5], CompletionClass.OutOfOrder 0, false⟩ ⟨none, none, some 0⟩,
      OutInst.inst ⟨[], [7], CompletionClass.OutOfOrder 0, false⟩ ⟨none, none, some 1⟩,
      OutInst.sync (SyncKind.token 0),
      OutInst.inst ⟨[], [9], CompletionClass.OutOfOrder 0, false⟩ ⟨none, none, some 0⟩,
      OutInst.sync SyncKind.allRd,
      OutInst.sync SyncKind.allWr]
    []
    [OutInst.inst ⟨[], [7], CompletionClass.OutOfOrder 0, false⟩ ⟨none, none, some 1⟩,
      OutInst.sync (SyncKind.token 0)]
    [OutInst.sync SyncKind.allRd, OutInst.sync SyncKind.allWr]
    ⟨[], [5], CompletionClass.OutOfOrder 0, false⟩
    ⟨[], [9], CompletionClass.OutOfOrder 0, false⟩
    ⟨none, none, some 0⟩ ⟨none, none, some 0⟩ 0
    (by decide) (by decide) (by decide) rfl rfl

/-! ## The tie-break between a distance and a token -/

/-- C7: when the decisions accumulated for an instruction hold both a distance `d` and a
token `t` (first in `activeSBID`) and the encoding has a single slot, the rewriter keeps the
wait for `t` on the instruction, which carries no distance, and inserts a standalone sync
carrying the distance `d` immediately before the instruction. -/
theorem SWSBAnalyzer.tie_break (a : SWSBAnalyzer) (i : Instruction) (d t : Nat)
    (rest : List Nat)
    (hd : (a.calculateDependence (createDstDepSet i a.m_InstIdCounter) i
      (a.calculateDependence (createSrcDepSet i a.m_InstIdCounter) i
        DepResult.empty)).minDist = some d)
    (ht : (a.calculateDependence (createDstDepSet i a.m_InstIdCounter) i
      (a.calculateDependence (createSrcDepSet i a.m_InstIdCounter) i
        DepResult.empty)).activeSBID = t :: rest)
    (hs : singleSlot a.m_swsbMode = true) :
    (∃ pre, (processActiveSBID a.m_swsbMode
        (a.calculateDependence (createDstDepSet i a.m_InstIdCounter) i
          (a.calculateDependence (createSrcDepSet i a.m_InstIdCounter) i
            DepResult.empty))) =
        (pre ++ [OutInst.sync (SyncKind.distance d)], ⟨none, some t, none⟩)) ∧
    ∃ pre swsb, (a.processInst i).2 =
        pre ++ [OutInst.sync (SyncKind.distance d), OutInst.inst i swsb] ∧
      swsb.waitToken = some t ∧ swsb.distance = none := by
  have hp : ∃ pre, (processActiveSBID a.m_swsbMode
        (a.calculateDependence (createDstDepSet i a.m_InstIdCounter) i
          (a.calculateDependence (createSrcDepSet i a.m_InstIdCounter) i
            DepResult.empty))) =
        (pre ++ [OutInst.sync (SyncKind.distance d)], ⟨none, some t, none⟩) := by
    unfold SWSBAnalyzer.processActiveSBID
    rw [ht, hd]
    simp only [hs, if_true]
    exact ⟨_, rfl⟩
  refine ⟨hp, ?_⟩
  obtain ⟨pre, hpre⟩ := hp
  cases hc : i.completion with
  | InOrder pipe =>
      rw [SWSBAnalyzer.processInst_inOrder a i pipe hc, hpre]
      exact ⟨pre, ⟨none, some t, none⟩, by simp, rfl, rfl⟩
  | OutOfOrder u =>
      by_cases hw : i.reads = [] ∧ i.writes = []
      · rw [SWSBAnalyzer.processInst_outOfOrder_nowrite a i u hc hw, hpre]
        exact ⟨pre, ⟨none, some t, none⟩, by simp, rfl, rfl⟩
      · rw [SWSBAnalyzer.processInst_outOfOrder_write a i u hc hw, hpre]
        exact ⟨(a.assignSBID (createSrcDepSet i a.m_InstIdCounter)
            (createDstDepSet i a.m_InstIdCounter)).stall ++ pre,
          ⟨none, some t, some (a.assignSBID (createSrcDepSet i a.m_InstIdCounter)
            (createDstDepSet i a.m_InstIdCounter)).sbid⟩, by simp, rfl, rfl⟩

/-- Witness of C7: after an in-order write of bucket 3 and an out-of-order write of bucket
4, an instruction that reads both buckets needs distance 1 and token 0. -/
theorem SWSBAnalyzer.tie_break_witness :
    ∃ pre swsb,
      (((SWSBAnalyzer.new ⟨7, SWSB_ENCODE_MODE.TokenOnly, 128⟩
          SWSB_ENCODE_MODE.SWSBInvalidMode 2).steps
          [Event.inst ⟨[], [3], CompletionClass.InOrder 0, false⟩,
            Event.inst ⟨[], [4], CompletionClass.OutOfOrder 0, false⟩]).processInst
          ⟨[3, 4], [], CompletionClass.InOrder 0, false⟩).2 =
        pre ++ [OutInst.sync (SyncKind.distance 1),
          OutInst.inst ⟨[3, 4], [], CompletionClass.InOrder 0, false⟩ swsb] ∧
      swsb.waitToken = some 0 ∧ swsb.distance = none :=
  (SWSBAnalyzer.tie_break
    ((SWSBAnalyzer.new ⟨7, SWSB_ENCODE_MODE.TokenOnly, 128⟩
      SWSB_ENCODE_MODE.SWSBInvalidMode 2).steps
      [Event.inst ⟨[], [3], CompletionClass.InOrder 0, false⟩,
        Event.inst ⟨[], [4], CompletionClass.OutOfOrder 0, false⟩])
    ⟨[3, 4], [], CompletionClass.InOrder 0, false⟩ 1 0 [] (by decide) (by decide)
    (by decide)).2

/-! ## The distance of an in-order hazard -/

theorem SWSBAnalyzer.foldl_accumulate_distance (a : SWSBAnalyzer) (cur : DepSet)
    (i : Instruction) (dP : Nat) (l : List DepSet) :
    ∀ r0 : DepResult,
      (∀ p ∈ l, a.decision cur p = Decision.noSync ∨
        ∃ n, a.decision cur p = Decision.distance n ∧ dP ≤ n) →
      (r0.minDist = none ∨ ∃ m, r0.minDist = some m ∧ dP ≤ m) →
      (l.foldl (a.accumulate cur i) r0).activeSBID = r0.activeSBID ∧
      (l.foldl (a.accumulate cur i) r0).shootDown = r0.shootDown ∧
      (l.foldl (a.accumulate cur i) r0).needDrain = r0.needDrain ∧
      ((l.foldl (a.accumulate cur i) r0).minDist = none ∨
        ∃ m, (l.foldl (a.accumulate cur i) r0).minDist = some m ∧ dP ≤ m) ∧
      ((r0.minDist = some dP ∨ ∃ p ∈ l, a.decision cur p = Decision.distance dP) →
        (l.foldl (a.accumulate cur i) r0).minDist = some dP) := by
  induction l with
  | nil =>
      intro r0 _ h0
      refine ⟨rfl, rfl, rfl, h0, ?_⟩
      rintro (h | ⟨p, hp, _⟩)
      · exact h
      · simp at hp
  | cons p l ih =>
      intro r0 hall h0
      rw [List.foldl_cons]
      have hl : ∀ q ∈ l, a.decision cur q = Decision.noSync ∨
          ∃ n, a.decision cur q = Decision.distance n ∧ dP ≤ n :=
        fun q hq => hall q (List.mem_cons_of_mem _ hq)
      rcases hall p (List.mem_cons_self _ _) with hp | ⟨n, hp, hn⟩
      · have hacc : a.accumulate cur i r0 p = r0 := by
          unfold SWSBAnalyzer.accumulate; rw [hp]
        rw [hacc]
        obtain ⟨h1, h2, h3, h4, h5⟩ := ih r0 hl h0
        refine ⟨h1, h2, h3, h4, ?_⟩
        rintro (h | ⟨q, hq, hqd⟩)
        · exact h5 (Or.inl h)
        · rcases List.mem_cons.mp hq with rfl | hq1
          · rw [hp] at hqd; exact Decision.noConfusion hqd
          · exact h5 (Or.inr ⟨q, hq1, hqd⟩)
      · have hacc : a.accumulate cur i r0 p =
            ⟨some (match r0.minDist with
              | some m => min m n
              | none => n), r0.activeSBID, r0.shootDown, r0.needDrain⟩ := by
          unfold SWSBAnalyzer.accumulate; rw [hp]
        rw [hacc]
        have hmin : ∃ m, (some (match r0.minDist with
              | some m => min m n
              | none => n) : Option Nat) = some m ∧ dP ≤ m := by
          rcases h0 with h | ⟨m, h, hm⟩
          · rw [h]; exact ⟨n, rfl, hn⟩
          · rw [h]; exact ⟨min m n, rfl, Nat.le_min.mpr ⟨hm, hn⟩⟩
        obtain ⟨h1, h2, h3, h4, h5⟩ := ih ⟨some (match r0.minDist with
              | some m => min m n
              | none => n), r0.activeSBID, r0.shootDown, r0.needDrain⟩ hl (Or.inr hmin)
        refine ⟨h1, h2, h3, h4, ?_⟩
        rintro (h | ⟨q, hq, hqd⟩)
        · apply h5
          left
          show some (match r0.minDist with
              | some m => min m n
              | none => n) = some dP
          rw [h]
          simp only [Option.some.injEq]
          exact Nat.min_eq_left hn
        · rcases List.mem_cons.mp hq with rfl | hq1
          · rw [hp] at hqd
            simp only [Decision.distance.injEq] at hqd
            subst hqd
            apply h5
            left
            show some (match r0.minDist with
              | some m => min m n
              | none => n) = some n
            rcases h0 with h | ⟨m, h, hm⟩
            · rw [h]
            · rw [h]
              simp only [Option.some.injEq]
              exact Nat.min_eq_right hm
          · exact h5 (Or.inr ⟨q, hq1, hqd⟩)

theorem SWSBAnalyzer.decision_inOrder (a : SWSBAnalyzer) (cur p : DepSet) (pipe : Nat)
    (hid : p.instId ≠ cur.instId) (hz : isTrueHazard p.depType cur.depType = true)
    (hc : p.completion = CompletionClass.InOrder pipe)
    (hmax : ((a.m_InstIdCounter.pipe pipe - p.issueId : Nat) : Int) ≤ a.MAX_VALID_DISTANCE) :
    a.decision cur p = Decision.distance (a.m_InstIdCounter.pipe pipe - p.issueId) := by
  unfold SWSBAnalyzer.decision
  simp [hid, hz, hc, hmax]

theorem SWSBAnalyzer.calculateDependence_nearest (a : SWSBAnalyzer) (i : Instruction)
    (cur P : DepSet) (dP : Nat)
    (hcur : cur = createSrcDepSet i a.m_InstIdCounter ∨
      cur = createDstDepSet i a.m_InstIdCounter)
    (hP : P ∈ a.producers cur) (hdec : a.decision cur P = Decision.distance dP)
    (hall : ∀ c, (c = createSrcDepSet i a.m_InstIdCounter ∨
        c = createDstDepSet i a.m_InstIdCounter) →
      ∀ p ∈ a.producers c, a.decision c p = Decision.noSync ∨
        ∃ n, a.decision c p = Decision.distance n ∧ dP ≤ n) :
    a.calculateDependence (createDstDepSet i a.m_InstIdCounter) i
        (a.calculateDependence (createSrcDepSet i a.m_InstIdCounter) i DepResult.empty) =
      ⟨some dP, [], [], false⟩ := by
  unfold SWSBAnalyzer.calculateDependence
  obtain ⟨a1, a2, a3, a4, a5⟩ := SWSBAnalyzer.foldl_accumulate_distance a
    (createSrcDepSet i a.m_InstIdCounter) i dP
    (a.producers (createSrcDepSet i a.m_InstIdCounter)) DepResult.empty
    (hall _ (Or.inl rfl)) (Or.inl rfl)
  obtain ⟨b1, b2, b3, _, b5⟩ := SWSBAnalyzer.foldl_accumulate_distance a
    (createDstDepSet i a.m_InstIdCounter) i dP
    (a.producers (createDstDepSet i a.m_InstIdCounter)) _
    (hall _ (Or.inr rfl)) a4
  have hmin : (List.foldl (a.accumulate (createDstDepSet i a.m_InstIdCounter) i)
      (List.foldl (a.accumulate (createSrcDepSet i a.m_InstIdCounter) i) DepResult.empty
        (a.producers (createSrcDepSet i a.m_InstIdCounter)))
      (a.producers (createDstDepSet i a.m_InstIdCounter))).minDist = some dP := by
    rcases hcur with rfl | rfl
    · exact b5 (Or.inl (a5 (Or.inr ⟨P, hP, hdec⟩)))
    · exact b5 (Or.inr ⟨P, hP, hdec⟩)
  generalize (List.foldl (a.accumulate (createDstDepSet i a.m_InstIdCounter) i)
      (List.foldl (a.accumulate (createSrcDepSet i a.m_InstIdCounter) i) DepResult.empty
        (a.producers (createSrcDepSet i a.m_InstIdCounter)))
      (a.producers (createDstDepSet i a.m_InstIdCounter))) = r at *
  generalize (List.foldl (a.accumulate (createSrcDepSet i a.m_InstIdCounter) i)
      DepResult.empty (a.producers (createSrcDepSet i a.m_InstIdCounter))) = r1 at *
  cases r
  simp only at b1 b2 b3 hmin
  rw [b1, b2, b3, hmin, a1, a2, a3]
  rfl

/-- C6 (as amended): when the `DepSet` `P` of an in-order producer is still live in a bucket
of the footprint `cur` of the instruction `I` at the time `I` is analysed (it has not been
dropped from the distance tracker after 10 issue positions, cleared at a block exit or
superseded), the pair is a true hazard within the maximum distance, and every other decision
for `I` is "no sync" or a distance that is not smaller, then the distance recorded on `I` is
`I.issueId - P.issueId` on the counter of the pipe of `P` (the minimum of the distances of
its in-order hazards), and `I` carries no token wait.  In particular a producer at issue
position 0 that writes bucket 3 and a consumer at issue position 2 that reads bucket 3 give
distance 2. -/
theorem SWSBAnalyzer.in_order_distance :
    (∀ (a : SWSBAnalyzer) (i : Instruction) (cur P : DepSet) (pipe : Nat),
      (cur = createSrcDepSet i a.m_InstIdCounter ∨
        cur = createDstDepSet i a.m_InstIdCounter) →
      P ∈ a.producers cur → P.instId ≠ cur.instId →
      isTrueHazard P.depType cur.depType = true →
      P.completion = CompletionClass.InOrder pipe →
      ((a.m_InstIdCounter.pipe pipe - P.issueId : Nat) : Int) ≤ a.MAX_VALID_DISTANCE →
      (∀ c, (c = createSrcDepSet i a.m_InstIdCounter ∨
          c = createDstDepSet i a.m_InstIdCounter) →
        ∀ p ∈ a.producers c, a.decision c p = Decision.noSync ∨
          ∃ n, a.decision c p = Decision.distance n ∧
            a.m_InstIdCounter.pipe pipe - P.issueId ≤ n) →
      ∃ pre swsb, (a.processInst i).2 = pre ++ [OutInst.inst i swsb] ∧
        swsb.distance = some (a.m_InstIdCounter.pipe pipe - P.issueId) ∧
        swsb.waitToken = none ∧ ∀ e ∈ pre, ∃ t, e = OutInst.sync (SyncKind.token t)) ∧
    (SWSBAnalyzer.new ⟨7, SWSB_ENCODE_MODE.TokenOnly, 128⟩ SWSB_ENCODE_MODE.SWSBInvalidMode
        0).run
        [[⟨[], [3], CompletionClass.InOrder 0, false⟩,
          ⟨[], [4], CompletionClass.InOrder 0, false⟩,
          ⟨[3], [], CompletionClass.InOrder 0, false⟩]]
      = Except.ok
        [[OutInst.inst ⟨[], [3], CompletionClass.InOrder 0, false⟩ ⟨none, none, none⟩,
          OutInst.inst ⟨[], [4], CompletionClass.InOrder 0, false⟩ ⟨none, none, none⟩,
          OutInst.inst ⟨[3], [], CompletionClass.InOrder 0, false⟩ ⟨some 2, none, none⟩,
          OutInst.sync (SyncKind.distance 1)]] := by
  refine ⟨?_, by decide⟩
  intro a i cur P pipe hcur hP hid hz hc hmax hall
  have hdec := SWSBAnalyzer.decision_inOrder a cur P pipe hid hz hc hmax
  have hr := SWSBAnalyzer.calculateDependence_nearest a i cur P _ hcur hP hdec hall
  have hp : processActiveSBID a.m_swsbMode
      (⟨some (a.m_InstIdCounter.pipe pipe - P.issueId), [], [], false⟩ : DepResult) =
      ([], ⟨some (a.m_InstIdCounter.pipe pipe - P.issueId), none, none⟩) := by
    simp [SWSBAnalyzer.processActiveSBID]
  cases hci : i.completion with
  | InOrder q =>
      rw [SWSBAnalyzer.processInst_inOrder a i q hci, hr, hp]
      exact ⟨[], ⟨some (a.m_InstIdCounter.pipe pipe - P.issueId), none, none⟩, rfl, rfl, rfl,
        by simp⟩
  | OutOfOrder u =>
      by_cases hw : i.reads = [] ∧ i.writes = []
      · rw [SWSBAnalyzer.processInst_outOfOrder_nowrite a i u hci hw, hr, hp]
        exact ⟨[], ⟨some (a.m_InstIdCounter.pipe pipe - P.issueId), none, none⟩, rfl, rfl,
          rfl, by simp⟩
      · rw [SWSBAnalyzer.processInst_outOfOrder_write a i u hci hw, hr, hp]
        obtain ⟨_, _, _, _, hs1, hs2⟩ := SWSBAnalyzer.assignSBID_spec a
          (createSrcDepSet i a.m_InstIdCounter) (createDstDepSet i a.m_InstIdCounter)
        refine ⟨(a.assignSBID (createSrcDepSet i a.m_InstIdCounter)
            (createDstDepSet i a.m_InstIdCounter)).stall,
          ⟨some (a.m_InstIdCounter.pipe pipe - P.issueId), none,
            some (a.assignSBID (createSrcDepSet i a.m_InstIdCounter)
              (createDstDepSet i a.m_InstIdCounter)).sbid⟩, by simp, rfl, rfl, ?_⟩
        intro e he
        cases hf : firstFree a.m_freeSBIDList with
        | some t => rw [(hs1 t hf).2] at he; simp at he
        | none =>
            rw [(hs2 hf).2, List.mem_singleton] at he
            exact ⟨_, he⟩

/-- Witness of C6: the producer at issue position 0 writes bucket 3, the consumer at issue
position 2 reads bucket 3, and the general statement gives the distance `2 - 0`. -/
theorem SWSBAnalyzer.in_order_distance_witness :
    ∃ pre swsb,
      (((SWSBAnalyzer.new ⟨7, SWSB_ENCODE_MODE.TokenOnly, 128⟩
          SWSB_ENCODE_MODE.SWSBInvalidMode 0).steps
          [Event.inst ⟨[], [3], CompletionClass.InOrder 0, false⟩,
            Event.inst ⟨[], [4], CompletionClass.InOrder 0, false⟩]).processInst
          ⟨[3], [], CompletionClass.InOrder 0, false⟩).2 =
        pre ++ [OutInst.inst ⟨[3], [], CompletionClass.InOrder 0, false⟩ swsb] ∧
      swsb.distance = some 2 ∧ swsb.waitToken = none ∧
      ∀ e ∈ pre, ∃ t, e = OutInst.sync (SyncKind.token t) :=
  SWSBAnalyzer.in_order_distance.1
    ((SWSBAnalyzer.new ⟨7, SWSB_ENCODE_MODE.TokenOnly, 128⟩
      SWSB_ENCODE_MODE.SWSBInvalidMode 0).steps
      [Event.inst ⟨[], [3], CompletionClass.InOrder 0, false⟩,
        Event.inst ⟨[], [4], CompletionClass.InOrder 0, false⟩])
    ⟨[3], [], CompletionClass.InOrder 0, false⟩
    ⟨2, DEP_TYPE.READ, [3], CompletionClass.InOrder 0, 2, 2, none, DepTag.Normal⟩
    ⟨0, DEP_TYPE.WRITE, [3], CompletionClass.InOrder 0, 0, 0, none, DepTag.Normal⟩ 0
    (Or.inl (by decide)) (by decide) (by decide) (by decide) rfl (by decide)
    (by
      intro c hc p hp
      rcases hc with rfl | rfl
      · have hp1 : p ∈ [(⟨0, DEP_TYPE.WRITE, [3], CompletionClass.InOrder 0, 0, 0, none,
            DepTag.Normal⟩ : DepSet)] := by
          have he : ((SWSBAnalyzer.new ⟨7, SWSB_ENCODE_MODE.TokenOnly, 128⟩
              SWSB_ENCODE_MODE.SWSBInvalidMode 0).steps
              [Event.inst ⟨[], [3], CompletionClass.InOrder 0, false⟩,
                Event.inst ⟨[], [4], CompletionClass.InOrder 0, false⟩]).producers
              (createSrcDepSet ⟨[3], [], CompletionClass.InOrder 0, false⟩
                ((SWSBAnalyzer.new ⟨7, SWSB_ENCODE_MODE.TokenOnly, 128⟩
                  SWSB_ENCODE_MODE.SWSBInvalidMode 0).steps
                  [Event.inst ⟨[], [3], CompletionClass.InOrder 0, false⟩,
                    Event.inst ⟨[], [4], CompletionClass.InOrder 0, false⟩]).m_InstIdCounter) =
              [⟨0, DEP_TYPE.WRITE, [3], CompletionClass.InOrder 0, 0, 0, none,
                DepTag.Normal⟩] := by decide
          rw [he] at hp
          exact hp
        rw [List.mem_singleton] at hp1
        subst hp1
        exact Or.inr ⟨2, by decide, by decide⟩
      · have he : ((SWSBAnalyzer.new ⟨7, SWSB_ENCODE_MODE.TokenOnly, 128⟩
            SWSB_ENCODE_MODE.SWSBInvalidMode 0).steps
            [Event.inst ⟨[], [3], CompletionClass.InOrder 0, false⟩,
              Event.inst ⟨[], [4], CompletionClass.InOrder 0, false⟩]).producers
            (createDstDepSet ⟨[3], [], CompletionClass.InOrder 0, false⟩
              ((SWSBAnalyzer.new ⟨7, SWSB_ENCODE_MODE.TokenOnly, 128⟩
                SWSB_ENCODE_MODE.SWSBInvalidMode 0).steps
                [Event.inst ⟨[], [3], CompletionClass.InOrder 0, false⟩,
                  Event.inst ⟨[], [4], CompletionClass.InOrder 0, false⟩]).m_InstIdCounter) =
            [] := by decide
        rw [he] at hp
        simp at hp)

/-- Counterexample to C6 as stated, in four kernels.  In each the in-order producer P at
issue id 0 of pipe 0 writes bucket 3 and the consumer I of pipe 0 reads bucket 3, and the
distance recorded on I is not the issue id of I minus the issue id of P.
Nearer producer: a second producer at issue id 1 writes bucket 4, which I reads too; I
records 1, the minimum, and not `2 - 0`.
Expired producer: nine in-order instructions of pipe 1 stand between P and I; P was dropped
from the distance tracker after 10 issue positions, and I records no distance although the
issue ids on pipe 0 differ by 1.
Beyond the maximum distance: seven in-order instructions of pipe 0 stand between P and I;
the distance 8 exceeds the maximum 7, the hazard is escalated to an explicit drain sync, and
I records no distance.
Token as well: an out-of-order producer writes bucket 4, which I reads too; the encoding has
a single slot, I carries the token wait and the distance 1 is on a standalone sync. -/
theorem SWSBAnalyzer.distance_is_minimum :
    (SWSBAnalyzer.new ⟨7, SWSB_ENCODE_MODE.TokenOnly, 128⟩ SWSB_ENCODE_MODE.SWSBInvalidMode
        0).run
        [[⟨[], [3], CompletionClass.InOrder 0, false⟩,
          ⟨[], [4], CompletionClass.InOrder 0, false⟩,
          ⟨[3, 4], [], CompletionClass.InOrder 0, false⟩]]
      = Except.ok
        [[OutInst.inst ⟨[], [3], CompletionClass.InOrder 0, false⟩ ⟨none, none, none⟩,
          OutInst.inst ⟨[], [4], CompletionClass.InOrder 0, false⟩ ⟨none, none, none⟩,
          OutInst.inst ⟨[3, 4], [], CompletionClass.InOrder 0, false⟩ ⟨some 1, none, none⟩,
          OutInst.sync (SyncKind.distance 1)]] ∧
      (some 1 : Option Nat) ≠ some (2 - 0) ∧
    (SWSBAnalyzer.new ⟨7, SWSB_ENCODE_MODE.TokenOnly, 128⟩ SWSB_ENCODE_MODE.SWSBInvalidMode
        0).run
        [[⟨[], [3], CompletionClass.InOrder 0, false⟩,
          ⟨[], [10], CompletionClass.InOrder 1, false⟩,
          ⟨[], [11], CompletionClass.InOrder 1, false⟩,
          ⟨[], [12], CompletionClass.InOrder 1, false⟩,
          ⟨[], [13], CompletionClass.InOrder 1, false⟩,
          ⟨[], [14], CompletionClass.InOrder 1, false⟩,
          ⟨[], [15], CompletionClass.InOrder 1, false⟩,
          ⟨[], [16], CompletionClass.InOrder 1, false⟩,
          ⟨[], [17], CompletionClass.InOrder 1, false⟩,
          ⟨[], [18], CompletionClass.InOrder 1, false⟩,
          ⟨[3], [], CompletionClass.InOrder 0, false⟩]]
      = Except.ok
        [[OutInst.inst ⟨[], [3], CompletionClass.InOrder 0, false⟩ ⟨none, none, none⟩,
          OutInst.inst ⟨[], [10], CompletionClass.InOrder 1, false⟩ ⟨none, none, none⟩,
          OutInst.inst ⟨[], [11], CompletionClass.InOrder 1, false⟩ ⟨none, none, none⟩,
          OutInst.inst ⟨[], [12], CompletionClass.InOrder 1, false⟩ ⟨none, none, none⟩,
          OutInst.inst ⟨[], [13], CompletionClass.InOrder 1, false⟩ ⟨none, none, none⟩,
          OutInst.inst ⟨[], [14], CompletionClass.InOrder 1, false⟩ ⟨none, none, none⟩,
          OutInst.inst ⟨[], [15], CompletionClass.InOrder 1, false⟩ ⟨none, none, none⟩,
          OutInst.inst ⟨[], [16], CompletionClass.InOrder 1, false⟩ ⟨none, none, none⟩,
          OutInst.inst ⟨[], [17], CompletionClass.InOrder 1, false⟩ ⟨none, none, none⟩,
          OutInst.inst ⟨[], [18], CompletionClass.InOrder 1, false⟩ ⟨none, none, none⟩,
          OutInst.inst ⟨[3], [], CompletionClass.InOrder 0, false⟩ ⟨none, none, none⟩,
          OutInst.sync (SyncKind.distance 1)]] ∧
    (SWSBAnalyzer.new ⟨7, SWSB_ENCODE_MODE.TokenOnly, 128⟩ SWSB_ENCODE_MODE.SWSBInvalidMode
        0).run
        [[⟨[], [3], CompletionClass.InOrder 0, false⟩,
          ⟨[], [10], CompletionClass.InOrder 0, false⟩,
          ⟨[], [11], CompletionClass.InOrder 0, false⟩,
          ⟨[], [12], CompletionClass.InOrder 0, false⟩,
          ⟨[], [13], CompletionClass.InOrder 0, false⟩,
          ⟨[], [14], CompletionClass.InOrder 0, false⟩,
          ⟨[], [15], CompletionClass.InOrder 0, false⟩,
          ⟨[], [16], CompletionClass.InOrder 0, false⟩,
          ⟨[3], [], CompletionClass.InOrder 0, false⟩]]
      = Except.ok
        [[OutInst.inst ⟨[], [3], CompletionClass.InOrder 0, false⟩ ⟨none, none, none⟩,
          OutInst.inst ⟨[], [10], CompletionClass.InOrder 0, false⟩ ⟨none, none, none⟩,
          OutInst.inst ⟨[], [11], CompletionClass.InOrder 0, false⟩ ⟨none, none, none⟩,
          OutInst.inst ⟨[], [12], CompletionClass.InOrder 0, false⟩ ⟨none, none, none⟩,
          OutInst.inst ⟨[], [13], CompletionClass.InOrder 0, false⟩ ⟨none, none, none⟩,
          OutInst.inst ⟨[], [14], CompletionClass.InOrder 0, false⟩ ⟨none, none, none⟩,
          OutInst.inst ⟨[], [15], CompletionClass.InOrder 0, false⟩ ⟨none, none, none⟩,
          OutInst.inst ⟨[], [16], CompletionClass.InOrder 0, false⟩ ⟨none, none, none⟩,
          OutInst.sync SyncKind.drain,
          OutInst.inst ⟨[3], [], CompletionClass.InOrder 0, false⟩ ⟨none, none, none⟩,
          OutInst.sync (SyncKind.distance 1)]] ∧
    (SWSBAnalyzer.new ⟨7, SWSB_ENCODE_MODE.TokenOnly, 128⟩ SWSB_ENCODE_MODE.SWSBInvalidMode
        0).run
        [[⟨[], [3], CompletionClass.InOrder 0, false⟩,
          ⟨[], [4], CompletionClass.OutOfOrder 0, false⟩,
          ⟨[3, 4], [], CompletionClass.InOrder 0, false⟩]]
      = Except.ok
        [[OutInst.inst ⟨[], [3], CompletionClass.InOrder 0, false⟩ ⟨none, none, none⟩,
          OutInst.inst ⟨[], [4], CompletionClass.OutOfOrder 0, false⟩ ⟨none, none, some 0⟩,
          OutInst.sync (SyncKind.distance 1),
          OutInst.inst ⟨[3, 4], [], CompletionClass.InOrder 0, false⟩ ⟨none, some 0, none⟩,
          OutInst.sync SyncKind.allRd,
          OutInst.sync SyncKind.allWr,
          OutInst.sync (SyncKind.distance 1)]] := by
  refine ⟨by decide, by decide, by decide, by decide, by decide⟩

/-! ## Hazard safety: the decisions cover every hazard -/

theorem SWSBAnalyzer.covers_accumulate_mono (a : SWSBAnalyzer) (cur : DepSet)
    (i : Instruction) (r : DepResult) (p : DepSet) (dec : Decision) (h : r.Covers dec) :
    (a.accumulate cur i r p).Covers dec := by
  unfold SWSBAnalyzer.accumulate
  cases hd : a.decision cur p with
  | noSync => exact h
  | distance n =>
      cases dec with
      | noSync => trivial
      | distance k =>
          obtain ⟨m, hm, hmk⟩ := h
          simp only [DepResult.Covers, hm]
          exact ⟨min m n, rfl, le_trans (Nat.min_le_left _ _) hmk⟩
      | token t => exact h
      | explicitDrainSync => exact h
  | token t =>
      cases dec with
      | noSync => trivial
      | distance k => exact h
      | token u =>
          simp only [DepResult.Covers, SWSBAnalyzer.setSbidDependency] at h ⊢
          split
          · exact h
          · exact List.mem_append_left _ h
      | explicitDrainSync => exact h
  | explicitDrainSync =>
      cases dec with
      | noSync => trivial
      | distance k => exact h
      | token u => exact h
      | explicitDrainSync => rfl

theorem SWSBAnalyzer.covers_accumulate_self (a : SWSBAnalyzer) (cur : DepSet)
    (i : Instruction) (r : DepResult) (p : DepSet) :
    (a.accumulate cur i r p).Covers (a.decision cur p) := by
  unfold SWSBAnalyzer.accumulate
  cases hd : a.decision cur p with
  | noSync => trivial
  | distance n =>
      simp only [DepResult.Covers]
      cases r.minDist with
      | none => exact ⟨n, rfl, le_refl _⟩
      | some m => exact ⟨min m n, rfl, Nat.min_le_right _ _⟩
  | token t =>
      simp only [DepResult.Covers, SWSBAnalyzer.setSbidDependency]
      split
      · assumption
      · simp
  | explicitDrainSync => rfl

theorem SWSBAnalyzer.covers_foldl (a : SWSBAnalyzer) (cur : DepSet) (i : Instruction)
    (l : List DepSet) :
    ∀ r : DepResult,
      (∀ dec, r.Covers dec → (l.foldl (a.accumulate cur i) r).Covers dec) ∧
      (∀ p ∈ l, (l.foldl (a.accumulate cur i) r).Covers (a.decision cur p)) := by
  induction l with
  | nil => intro r; exact ⟨fun _ h => h, fun p hp => by simp at hp⟩
  | cons x l ih =>
      intro r
      obtain ⟨h1, h2⟩ := ih (a.accumulate cur i r x)
      rw [List.foldl_cons]
      refine ⟨fun dec h => h1 dec (SWSBAnalyzer.covers_accumulate_mono a cur i r x dec h), ?_⟩
      intro p hp
      rcases List.mem_cons.mp hp with rfl | hp1
      · exact h1 _ (SWSBAnalyzer.covers_accumulate_self a cur i r p)
      · exact h2 p hp1

theorem SWSBAnalyzer.covers_calculateDependence (a : SWSBAnalyzer) (i : Instruction)
    (cur p : DepSet)
    (hcur : cur = createSrcDepSet i a.m_InstIdCounter ∨
      cur = createDstDepSet i a.m_InstIdCounter)
    (hp : p ∈ a.producers cur) :
    (a.calculateDependence (createDstDepSet i a.m_InstIdCounter) i
      (a.calculateDependence (createSrcDepSet i a.m_InstIdCounter) i
        DepResult.empty)).Covers (a.decision cur p) := by
  unfold SWSBAnalyzer.calculateDependence
  rcases hcur with rfl | rfl
  · exact (SWSBAnalyzer.covers_foldl a _ i _ _).1 _
      ((SWSBAnalyzer.covers_foldl a _ i _ _).2 p hp)
  · exact (SWSBAnalyzer.covers_foldl a _ i _ _).2 p hp

theorem SWSBAnalyzer.enforced_processActiveSBID (mode : SWSB_ENCODE_MODE) (r : DepResult)
    (dec : Decision) (h : r.Covers dec) :
    Enforced (processActiveSBID mode r).1 (processActiveSBID mode r).2 dec := by
  unfold SWSBAnalyzer.processActiveSBID
  cases dec with
  | noSync => trivial
  | explicitDrainSync =>
      simp only [DepResult.Covers] at h
      simp only [Enforced, h, if_true]
      cases r.activeSBID with
      | nil => simp
      | cons t rest =>
          cases r.minDist with
          | none => simp
          | some d => simp only; split <;> simp
  | token t =>
      simp only [DepResult.Covers] at h
      simp only [Enforced]
      cases hact : r.activeSBID with
      | nil => rw [hact] at h; simp at h
      | cons u rest =>
          rw [hact] at h
          rcases List.mem_cons.mp h with rfl | h1
          · left
            cases r.minDist with
            | none => rfl
            | some d => simp only; split <;> rfl
          · right
            cases r.minDist with
            | none => simp [h1]
            | some d => simp only; split <;> simp [h1]
  | distance n =>
      obtain ⟨m, hm, hmn⟩ := h
      simp only [Enforced]
      refine ⟨m, hmn, ?_⟩
      rw [hm]
      cases r.activeSBID with
      | nil => left; rfl
      | cons u rest =>
          simp only
          split
          · right; simp
          · left; rfl

/-! ## Hazard safety: the effect of the syncs in the execution model -/

theorem applySync_spec (st : ExecState) (k : SyncKind) :
    (applySync st k).inOrder = st.inOrder ∧ (applySync st k).pipe = st.pipe ∧
      (∀ q ∈ (applySync st k).pending, q ∈ st.pending ∧ Survives st.pipe q k) := by
  cases k with
  | token t =>
      refine ⟨rfl, rfl, ?_⟩
      intro q hq
      simp only [applySync, waitToken, List.mem_filter, decide_eq_true_eq] at hq
      exact ⟨hq.1, hq.2⟩
  | distance d =>
      refine ⟨rfl, rfl, ?_⟩
      intro q hq
      simp only [applySync, waitDistance, List.mem_filter] at hq
      refine ⟨hq.1, ?_⟩
      intro p hp
      have := hq.2
      rw [hp] at this
      exact of_decide_eq_true this
  | drain =>
      refine ⟨rfl, rfl, ?_⟩
      intro q hq
      simp [applySync] at hq
  | allRd =>
      refine ⟨rfl, rfl, ?_⟩
      intro q hq
      simp only [applySync, List.mem_filter, Bool.or_eq_true, Option.isNone_iff_eq_none,
        Bool.not_eq_true', List.isEmpty_eq_false] at hq
      exact ⟨hq.1, hq.2⟩
  | allWr =>
      refine ⟨rfl, rfl, ?_⟩
      intro q hq
      simp only [applySync, List.mem_filter, Bool.or_eq_true, Option.isNone_iff_eq_none,
        List.isEmpty_iff] at hq
      exact ⟨hq.1, hq.2⟩

theorem ExecState.afterSyncs_spec (l : List OutInst) :
    ∀ st : ExecState, OutInst.allSync l →
      (st.afterSyncs l).inOrder = st.inOrder ∧ (st.afterSyncs l).pipe = st.pipe ∧
      (∀ q ∈ (st.afterSyncs l).pending, q ∈ st.pending) ∧
      (∀ k, OutInst.sync k ∈ l → ∀ q ∈ (st.afterSyncs l).pending, Survives st.pipe q k) := by
  induction l with
  | nil => intro st _; exact ⟨rfl, rfl, fun q hq => hq, fun k hk => by simp at hk⟩
  | cons e l ih =>
      intro st hl
      obtain ⟨k0, rfl⟩ := hl e (List.mem_cons_self _ _)
      obtain ⟨a1, a2, a3⟩ := applySync_spec st k0
      obtain ⟨b1, b2, b3, b4⟩ := ih (applySync st k0)
        (fun e he => hl e (List.mem_cons_of_mem _ he))
      have hstep : st.afterSyncs (OutInst.sync k0 :: l) = (applySync st k0).afterSyncs l := rfl
      rw [hstep]
      refine ⟨b1.trans a1, b2.trans a2, fun q hq => (a3 q (b3 q hq)).1, ?_⟩
      intro k hk q hq
      rcases List.mem_cons.mp hk with heq | hk1
      · simp only [OutInst.sync.injEq] at heq
        subst heq
        exact (a3 q (b3 q hq)).2
      · have := b4 k hk1 q hq
        rw [a2] at this
        exact this

theorem execBlock_syncs (conflict : Outstanding → Nat → Instruction → Bool)
    (latency block : Nat) (l : List OutInst) :
    ∀ (st : ExecState) (rest : List OutInst), OutInst.allSync l →
      execBlock conflict latency block st (l ++ rest) =
        execBlock conflict latency block (st.afterSyncs l) rest := by
  induction l with
  | nil => intro st rest _; rfl
  | cons e l ih =>
      intro st rest hl
      obtain ⟨k0, rfl⟩ := hl e (List.mem_cons_self _ _)
      rw [List.cons_append, execBlock]
      exact ih _ rest (fun e he => hl e (List.mem_cons_of_mem _ he))

theorem afterWaits_spec (st : ExecState) (swsb : SWSB) (q : Outstanding)
    (hq : q ∈ afterWaits st swsb) :
    q ∈ st.pending ∧
      (∀ m, swsb.distance = some m → Survives st.pipe q (SyncKind.distance m)) ∧
      (∀ t, swsb.waitToken = some t → Survives st.pipe q (SyncKind.token t)) := by
  unfold afterWaits at hq
  have hd : q ∈ (match swsb.distance with
      | some d => waitDistance st.pipe d st.pending
      | none => st.pending) := by
    cases hw : swsb.waitToken with
    | none => rw [hw] at hq; exact hq
    | some t =>
        rw [hw] at hq
        simp only [waitToken, List.mem_filter] at hq
        exact hq.1
  refine ⟨?_, ?_, ?_⟩
  · cases hdist : swsb.distance with
    | none => rw [hdist] at hd; exact hd
    | some d =>
        rw [hdist] at hd
        simp only [waitDistance, List.mem_filter] at hd
        exact hd.1
  · intro m hm p hp
    rw [hm] at hd
    simp only [waitDistance, List.mem_filter] at hd
    have := hd.2
    rw [hp] at this
    exact of_decide_eq_true this
  · intro t ht
    rw [ht] at hq
    simp only [waitToken, List.mem_filter, decide_eq_true_eq] at hq
    exact hq.2

theorem not_pending_of_enforced (a : SWSBAnalyzer) (st : ExecState) (pre : List OutInst)
    (swsb : SWSB) (cur d : DepSet) (q : Outstanding) (ty : DEP_TYPE)
    (hpre : OutInst.allSync pre)
    (hpipe : st.pipe = a.m_InstIdCounter.pipe) (hdesc : Describes q ty d)
    (hne : a.decision cur d ≠ Decision.noSync)
    (henf : Enforced pre swsb (a.decision cur d)) :
    q ∉ afterWaits (st.afterSyncs pre) swsb := by
  intro hq
  obtain ⟨s1, s2, s3, s4⟩ := ExecState.afterSyncs_spec pre st hpre
  obtain ⟨w1, w2, w3⟩ := afterWaits_spec _ swsb q hq
  rw [s2] at w2 w3
  obtain ⟨_, hcomp, hissue, _, hsbid⟩ := hdesc
  unfold SWSBAnalyzer.decision at hne henf
  split at henf
  · rename_i hcond
    exact hne (if_pos hcond)
  · cases hc : d.completion with
    | InOrder p =>
        rw [hc] at henf
        simp only at henf
        split at henf
        · obtain ⟨m, hm, hcase⟩ := henf
          have hlt : st.pipe p - q.issueId < m := by
            rcases hcase with h1 | h1
            · exact w2 m h1 p (hcomp ▸ hc)
            · exact s4 _ h1 q w1 p (hcomp ▸ hc)
          rw [hpipe, ← hissue] at hlt
          exact absurd hlt (Nat.not_lt.mpr hm)
        · exact s4 _ henf q w1
    | OutOfOrder u =>
        rw [hc] at henf
        simp only at henf
        cases hs : d.sbid with
        | none =>
            rw [hs] at henf
            exact s4 _ henf q w1
        | some t =>
            rw [hs] at henf
            rcases henf with h1 | h1
            · exact w3 t h1 (hsbid ▸ hs)
            · exact s4 _ h1 q w1 (hsbid ▸ hs)

/-! ## Hazard safety: one instruction -/

theorem SWSBAnalyzer.mem_producers (a : SWSBAnalyzer) (cur d : DepSet) :
    d ∈ a.producers cur ↔ ∃ b ∈ cur.buckets, d ∈ (a.m_buckets b).live := by
  simp [SWSBAnalyzer.producers, List.mem_flatMap]

theorem SWSBAnalyzer.decision_ne_noSync (a : SWSBAnalyzer) (cur d : DepSet)
    (hz : isTrueHazard d.depType cur.depType = true) (hid : d.instId ≠ cur.instId) :
    a.decision cur d ≠ Decision.noSync := by
  unfold SWSBAnalyzer.decision
  rw [if_neg (by simp [hid, hz])]
  cases d.completion with
  | InOrder p => simp only; split <;> exact Decision.noConfusion
  | OutOfOrder u => cases d.sbid <;> exact Decision.noConfusion

theorem enforced_mono (pre pre1 : List OutInst) (swsb swsb1 : SWSB) (dec : Decision)
    (hsub : ∀ e ∈ pre, e ∈ pre1) (hd : swsb1.distance = swsb.distance)
    (ht : swsb1.waitToken = swsb.waitToken) (h : Enforced pre swsb dec) :
    Enforced pre1 swsb1 dec := by
  cases dec with
  | noSync => trivial
  | distance n =>
      obtain ⟨m, hm, hcase⟩ := h
      refine ⟨m, hm, ?_⟩
      rcases hcase with h1 | h1
      · left; rw [hd]; exact h1
      · right; exact hsub _ h1
  | token t =>
      rcases h with h1 | h1
      · left; rw [ht]; exact h1
      · right; exact hsub _ h1
  | explicitDrainSync => exact hsub _ h

/-- What the rewriter emits for one instruction: syncs followed by the instruction, which
enforce every decision the analysis accumulated. -/
theorem SWSBAnalyzer.processInst_emit (a : SWSBAnalyzer) (i : Instruction) :
    ∃ pre swsb, (a.processInst i).2 = pre ++ [OutInst.inst i swsb] ∧ OutInst.allSync pre ∧
      (∀ dec, (a.calculateDependence (createDstDepSet i a.m_InstIdCounter) i
          (a.calculateDependence (createSrcDepSet i a.m_InstIdCounter) i
            DepResult.empty)).Covers dec → Enforced pre swsb dec) ∧
      (((∃ u, i.completion = CompletionClass.OutOfOrder u) ∧
          ¬ (i.reads = [] ∧ i.writes = []) ∧
          swsb.setToken = some (a.assignSBID (createSrcDepSet i a.m_InstIdCounter)
            (createDstDepSet i a.m_InstIdCounter)).sbid ∧
          ∀ e ∈ (a.assignSBID (createSrcDepSet i a.m_InstIdCounter)
            (createDstDepSet i a.m_InstIdCounter)).stall, e ∈ pre) ∨
        (¬ ((∃ u, i.completion = CompletionClass.OutOfOrder u) ∧
            ¬ (i.reads = [] ∧ i.writes = [])) ∧
          swsb.setToken = none)) := by
  obtain ⟨hp1, hp2⟩ := SWSBAnalyzer.processActiveSBID_allSync a.m_swsbMode
    (a.calculateDependence (createDstDepSet i a.m_InstIdCounter) i
      (a.calculateDependence (createSrcDepSet i a.m_InstIdCounter) i DepResult.empty))
  have henf := SWSBAnalyzer.enforced_processActiveSBID a.m_swsbMode
    (a.calculateDependence (createDstDepSet i a.m_InstIdCounter) i
      (a.calculateDependence (createSrcDepSet i a.m_InstIdCounter) i DepResult.empty))
  cases hc : i.completion with
  | InOrder pipe =>
      rw [SWSBAnalyzer.processInst_inOrder a i pipe hc]
      refine ⟨_, _, rfl, hp1, henf, Or.inr ⟨?_, hp2⟩⟩
      rintro ⟨⟨u, hu⟩, _⟩
      exact CompletionClass.noConfusion hu
  | OutOfOrder u =>
      by_cases hw : i.reads = [] ∧ i.writes = []
      · rw [SWSBAnalyzer.processInst_outOfOrder_nowrite a i u hc hw]
        exact ⟨_, _, rfl, hp1, henf, Or.inr ⟨fun h => h.2 hw, hp2⟩⟩
      · rw [SWSBAnalyzer.processInst_outOfOrder_write a i u hc hw]
        obtain ⟨_, _, _, _, hs1, hs2⟩ := SWSBAnalyzer.assignSBID_spec a
          (createSrcDepSet i a.m_InstIdCounter) (createDstDepSet i a.m_InstIdCounter)
        refine ⟨_, _, rfl, ?_, ?_, Or.inl ⟨⟨u, rfl⟩, hw, rfl, ?_⟩⟩
        · intro e he
          rcases List.mem_append.mp he with he1 | he1
          · cases hf : firstFree a.m_freeSBIDList with
            | some t => rw [(hs1 t hf).2] at he1; simp at he1
            | none =>
                rw [(hs2 hf).2, List.mem_singleton] at he1
                exact ⟨_, he1⟩
          · exact hp1 e he1
        · intro dec hdec
          exact enforced_mono _ _ _ _ dec (fun e he => List.mem_append_right _ he) rfl rfl
            (henf dec hdec)
        · intro e he
          exact List.mem_append_left _ he

/-- Every outstanding instruction described by a `DepSet` that is live in a bucket of the
footprint of the instruction is waited for before the instruction issues. -/
theorem SWSBAnalyzer.waited (a : SWSBAnalyzer) (st : ExecState) (i : Instruction)
    (pre : List OutInst) (swsb : SWSB) (hinv : a.Inv)
    (hpipe : st.pipe = a.m_InstIdCounter.pipe) (hpre : OutInst.allSync pre)
    (henf : ∀ dec, (a.calculateDependence (createDstDepSet i a.m_InstIdCounter) i
        (a.calculateDependence (createSrcDepSet i a.m_InstIdCounter) i
          DepResult.empty)).Covers dec → Enforced pre swsb dec)
    (q : Outstanding) (d cur : DepSet) (ty : DEP_TYPE) (hdesc : Describes q ty d)
    (hcur : cur = createSrcDepSet i a.m_InstIdCounter ∨
      cur = createDstDepSet i a.m_InstIdCounter)
    (hz : isTrueHazard ty cur.depType = true)
    (hd : d ∈ a.producers cur) :
    q ∉ afterWaits (st.afterSyncs pre) swsb := by
  obtain ⟨b, _, hb⟩ := (SWSBAnalyzer.mem_producers a cur d).mp hd
  have hfresh := hinv.fresh b d hb
  have hid : d.instId ≠ cur.instId := by
    rcases hcur with rfl | rfl
    · exact Nat.ne_of_lt hfresh
    · exact Nat.ne_of_lt hfresh
  have hne := SWSBAnalyzer.decision_ne_noSync a cur d (by rw [hdesc.1]; exact hz) hid
  exact not_pending_of_enforced a st pre swsb cur d q ty hpre hpipe hdesc hne
    (henf _ (SWSBAnalyzer.covers_calculateDependence a i cur d hcur hd))

theorem isTrueHazard_write (ty : DEP_TYPE) : isTrueHazard ty DEP_TYPE.WRITE = true := by
  cases ty <;> rfl

/-- A conflict is a bucket in a footprint of the outstanding instruction and in a footprint
of the instruction, the two access kinds not being both reads. -/
theorem anyConflict_bucket (q : Outstanding) (blk : Nat) (i : Instruction)
    (h : anyConflict q blk i = true) :
    ∃ b ty cur, b ∈ q.inst.footprint ty ∧ b ∈ i.footprint cur ∧
      isTrueHazard ty cur = true := by
  unfold anyConflict at h
  simp only [Bool.or_eq_true] at h
  rcases h with (h1 | h1) | h1
  · simp only [hazardRAW, List.any_eq_true, decide_eq_true_eq] at h1
    obtain ⟨b, hb1, hb2⟩ := h1
    exact ⟨b, DEP_TYPE.WRITE, DEP_TYPE.READ, hb2, hb1, rfl⟩
  · simp only [hazardWAR, List.any_eq_true, decide_eq_true_eq] at h1
    obtain ⟨b, hb1, hb2⟩ := h1
    exact ⟨b, DEP_TYPE.READ, DEP_TYPE.WRITE, hb2, hb1, rfl⟩
  · simp only [hazardWAW, List.any_eq_true, decide_eq_true_eq] at h1
    obtain ⟨b, hb1, hb2⟩ := h1
    exact ⟨b, DEP_TYPE.WRITE, DEP_TYPE.WRITE, hb2, hb1, rfl⟩

/-- The `DepSet` of an instruction for an access kind: the read or the write `DepSet`, whose
buckets are the footprint. -/
theorem createDepSet_footprint (i : Instruction) (ids : InstIDs) (ty : DEP_TYPE) :
    ∃ cur, (cur = createSrcDepSet i ids ∨ cur = createDstDepSet i ids) ∧ cur.depType = ty ∧
      ∀ b, b ∈ i.footprint ty ↔ b ∈ cur.buckets := by
  cases ty with
  | READ =>
      exact ⟨createSrcDepSet i ids, Or.inl rfl, rfl, fun b => by
        simp [createSrcDepSet, Instruction.footprint]⟩
  | WRITE =>
      exact ⟨createDstDepSet i ids, Or.inr rfl, rfl, fun b => by
        simp [createDstDepSet, Instruction.footprint]⟩

theorem Instruction.footprint_ne_nil (i : Instruction) (ty : DEP_TYPE)
    (h : i.footprint ty ≠ []) : ¬ (i.reads = [] ∧ i.writes = []) := by
  rintro ⟨h1, h2⟩
  cases ty with
  | READ => exact h h1
  | WRITE => exact h h2

/-- The instruction may issue after the syncs the rewriter inserted before it. -/
theorem SWSBAnalyzer.issueOk_processInst (a : SWSBAnalyzer) (st : ExecState) (blk : Nat)
    (i : Instruction) (pre : List OutInst) (swsb : SWSB) (hinv : a.Inv)
    (hsim : Sim a st) (hpre : OutInst.allSync pre)
    (henf : ∀ dec, (a.calculateDependence (createDstDepSet i a.m_InstIdCounter) i
        (a.calculateDependence (createSrcDepSet i a.m_InstIdCounter) i
          DepResult.empty)).Covers dec → Enforced pre swsb dec)
    (hset : ((∃ u, i.completion = CompletionClass.OutOfOrder u) ∧
          ¬ (i.reads = [] ∧ i.writes = []) ∧
          swsb.setToken = some (a.assignSBID (createSrcDepSet i a.m_InstIdCounter)
            (createDstDepSet i a.m_InstIdCounter)).sbid ∧
          ∀ e ∈ (a.assignSBID (createSrcDepSet i a.m_InstIdCounter)
            (createDstDepSet i a.m_InstIdCounter)).stall, e ∈ pre) ∨
        (¬ ((∃ u, i.completion = CompletionClass.OutOfOrder u) ∧
            ¬ (i.reads = [] ∧ i.writes = [])) ∧
          swsb.setToken = none)) :
    issueOk anyConflict blk (st.afterSyncs pre) i swsb = true := by
  obtain ⟨s1, s2, s3, s4⟩ := ExecState.afterSyncs_spec pre st hpre
  unfold issueOk
  rw [List.all_eq_true]
  intro q hq
  have hq0 : q ∈ st.pending := s3 q (afterWaits_spec _ swsb q hq).1
  simp only [Bool.and_eq_true, Bool.not_eq_true', decide_eq_true_eq]
  constructor
  · by_contra hconf
    have hconf1 : anyConflict q blk i = true := by
      cases h : anyConflict q blk i with
      | true => rfl
      | false => exact absurd h hconf
    obtain ⟨b, ty, tcur, hbq, hbi, hz⟩ := anyConflict_bucket q blk i hconf1
    obtain ⟨d, hdesc, hlive⟩ := hsim.tracked q hq0 ty (List.ne_nil_of_mem hbq)
    obtain ⟨cur, hcur, hcty, hcb⟩ := createDepSet_footprint i a.m_InstIdCounter tcur
    exact SWSBAnalyzer.waited a st i pre swsb hinv hsim.pipe hpre henf q d cur ty hdesc hcur
      (by rw [hcty]; exact hz)
      ((SWSBAnalyzer.mem_producers a _ d).mpr ⟨b, (hcb b).mp hbi, hlive b hbq⟩) hq
  · rcases hset with ⟨_, _, htok, hstall⟩ | ⟨_, htok⟩
    · right
      rw [htok]
      intro hqt
      obtain ⟨_, _, _, _, hs1, hs2⟩ := SWSBAnalyzer.assignSBID_spec a
        (createSrcDepSet i a.m_InstIdCounter) (createDstDepSet i a.m_InstIdCounter)
      cases hf : firstFree a.m_freeSBIDList with
      | some t =>
          rw [(hs1 t hf).1] at hqt
          obtain ⟨s, hs, hsfree⟩ := hsim.tok q hq0 t hqt
          obtain ⟨s', hs', hsfree'⟩ := SWSBAnalyzer.firstFree_some _ _ hf
          rw [hs] at hs'
          simp only [Option.some.injEq] at hs'
          subst hs'
          rw [hsfree] at hsfree'
          exact Bool.noConfusion hsfree'
      | none =>
          have hmem := hstall _ (by rw [(hs2 hf).2]; exact List.mem_singleton.mpr rfl)
          exact s4 _ hmem q (afterWaits_spec _ swsb q hq).1 hqt
    · left; exact htok

theorem mem_elapse (latency inOrder : Nat) (pending : List Outstanding) (q : Outstanding) :
    q ∈ elapse latency inOrder pending ↔
      q ∈ pending ∧ ∀ p, q.inst.completion = CompletionClass.InOrder p →
        inOrder - q.issuePos < latency := by
  unfold elapse
  rw [List.mem_filter]
  cases hc : q.inst.completion with
  | InOrder p => simp
  | OutOfOrder u => simp

/-- The outstanding instructions after an instruction has issued. -/
theorem issue_spec (latency blk : Nat) (st : ExecState) (i : Instruction) (swsb : SWSB) :
    (∀ q ∈ (issue latency blk st i swsb).pending,
      (q ∈ afterWaits st swsb ∨
        q = ⟨i, blk, (match i.completion with
            | CompletionClass.InOrder p => st.pipe p
            | CompletionClass.OutOfOrder _ => 0), st.inOrder, swsb.setToken⟩) ∧
      ∀ p, q.inst.completion = CompletionClass.InOrder p →
        (issue latency blk st i swsb).inOrder - q.issuePos < latency) ∧
    (issue latency blk st i swsb).inOrder = (match i.completion with
      | CompletionClass.InOrder _ => st.inOrder + 1
      | CompletionClass.OutOfOrder _ => st.inOrder) ∧
    (issue latency blk st i swsb).pipe = (match i.completion with
      | CompletionClass.InOrder pp => fun x => if x = pp then st.pipe x + 1 else st.pipe x
      | CompletionClass.OutOfOrder _ => st.pipe) := by
  unfold issue
  cases hc : i.completion with
  | InOrder pp =>
      refine ⟨?_, rfl, rfl⟩
      intro q hq
      simp only [mem_elapse, List.mem_append, List.mem_singleton] at hq
      exact ⟨hq.1, hq.2⟩
  | OutOfOrder u =>
      refine ⟨?_, rfl, rfl⟩
      intro q hq
      simp only [mem_elapse, List.mem_append, List.mem_singleton] at hq
      exact ⟨hq.1, hq.2⟩

theorem SWSBAnalyzer.assignSBID_lt (a : SWSBAnalyzer) (input output : DepSet)
    (hpool : a.PoolInv) : (a.assignSBID input output).sbid < a.m_freeSBIDList.length := by
  obtain ⟨_, _, _, _, hs1, hs2⟩ := SWSBAnalyzer.assignSBID_spec a input output
  cases hf : firstFree a.m_freeSBIDList with
  | some t =>
      rw [(hs1 t hf).1]
      obtain ⟨s, hs, _⟩ := SWSBAnalyzer.firstFree_some _ _ hf
      rw [List.get?_eq_getElem?] at hs
      exact (List.getElem?_eq_some_iff.mp hs).1
  | none =>
      rw [(hs2 hf).1, hpool.count]
      exact Nat.mod_lt _ hpool.pos

theorem SWSBAnalyzer.poolInv_processInst (a : SWSBAnalyzer) (i : Instruction)
    (h : a.PoolInv) : (a.processInst i).1.PoolInv := by
  cases hc : i.completion with
  | InOrder pipe =>
      obtain ⟨_, _, _, _, h5, _, h7, _⟩ := SWSBAnalyzer.processInst_inOrder_fields a i pipe hc
      exact ⟨by rw [h5, h7]; exact h.count, by rw [h7]; exact h.pos⟩
  | OutOfOrder u =>
      obtain ⟨_, _, _, _, h5, _⟩ := SWSBAnalyzer.processInst_outOfOrder_fields a i u hc
      by_cases hw : i.reads = [] ∧ i.writes = []
      · have he := SWSBAnalyzer.processInst_outOfOrder_nowrite a i u hc hw
        refine ⟨?_, by rw [h5]; exact h.pos⟩
        rw [h5, he]
        exact h.count
      · have he := SWSBAnalyzer.processInst_outOfOrder_write a i u hc hw
        refine ⟨?_, by rw [h5]; exact h.pos⟩
        rw [h5, he]
        simp only [SWSBAnalyzer.nextInst_m_freeSBIDList, SWSBAnalyzer.addToBuckets_m_freeSBIDList,
          SWSBAnalyzer.clearSuperseded_m_freeSBIDList]
        rw [(SWSBAnalyzer.assignSBID_spec a _ _).2.2.1, List.length_set]
        exact h.count

theorem SWSBAnalyzer.poolInv_drain (a : SWSBAnalyzer) (h : a.PoolInv) : a.drain.1.PoolInv := by
  constructor
  · simp only [SWSBAnalyzer.drain, SWSBAnalyzer.clearSBIDDependence, List.length_map]
    exact h.count
  · exact h.pos

theorem SWSBAnalyzer.poolInv_new (model : Model) (encode_mode : SWSB_ENCODE_MODE)
    (sbid_count : Int) (hlo : 0 ≤ sbid_count) (hhi : sbid_count < 2147483648) :
    (SWSBAnalyzer.new model encode_mode sbid_count).PoolInv := by
  constructor
  · simp [SWSBAnalyzer.new]
  · simp only [SWSBAnalyzer.new]
    split
    · rename_i hne
      have := toUInt32_of_pos sbid_count (lt_of_le_of_ne hlo (Ne.symm hne)) hhi
      omega
    · norm_num

theorem not_trimmed (q : Outstanding) (ty : DEP_TYPE) (d : DepSet) (n : distanceTrackerNode)
    (x l : Nat) (hdesc : Describes q ty d) (hd : d = n.input ∨ d = n.output)
    (hnode : n.input.issuePos = n.output.issuePos ∧ n.input.completion = n.output.completion ∧
      ∃ p, n.output.completion = CompletionClass.InOrder p)
    (hq : ∀ p, q.inst.completion = CompletionClass.InOrder p → x - q.issuePos < l) :
    ¬ (l ≤ x - n.output.issuePos) := by
  obtain ⟨_, hcomp, _, hpos, _⟩ := hdesc
  obtain ⟨h1, h2, p, h3⟩ := hnode
  have hdpos : d.issuePos = n.output.issuePos := by
    rcases hd with rfl | rfl
    · exact h1
    · rfl
  have hdcomp : d.completion = CompletionClass.InOrder p := by
    rcases hd with rfl | rfl
    · rw [h2]; exact h3
    · exact h3
  have := hq p (hcomp ▸ hdcomp)
  rw [← hdpos, hpos]
  exact Nat.not_le.mpr this

/-- The simulation relation after an in-order instruction. -/
theorem SWSBAnalyzer.sim_issue_inOrder (a : SWSBAnalyzer) (st : ExecState) (blk : Nat)
    (i : Instruction) (pipe : Nat) (hc : i.completion = CompletionClass.InOrder pipe)
    (pre : List OutInst) (swsb : SWSB) (hinv : a.Inv) (hsim : Sim a st)
    (hpre : OutInst.allSync pre)
    (henf : ∀ dec, (a.calculateDependence (createDstDepSet i a.m_InstIdCounter) i
        (a.calculateDependence (createSrcDepSet i a.m_InstIdCounter) i
          DepResult.empty)).Covers dec → Enforced pre swsb dec)
    (htok : swsb.setToken = none) :
    Sim (a.processInst i).1
      (issue a.m_LatencyInOrderPipe blk (st.afterSyncs pre) i swsb) := by
  obtain ⟨s1, s2, s3, s4⟩ := ExecState.afterSyncs_spec pre st hpre
  obtain ⟨_, f2, _, f4, f5, _, _, f8⟩ := SWSBAnalyzer.processInst_inOrder_fields a i pipe hc
  obtain ⟨i1, i2, i3⟩ := issue_spec a.m_LatencyInOrderPipe blk (st.afterSyncs pre) i swsb
  simp only [hc] at i1 i2 i3
  have hmem := SWSBAnalyzer.mem_live_processInst_inOrder a i pipe hc
  have hnodes : ∀ n ∈ (if i.reads = [] ∧ i.writes = [] then a.m_distanceTracker
      else a.m_distanceTracker ++
        [⟨createSrcDepSet i a.m_InstIdCounter, createDstDepSet i a.m_InstIdCounter⟩]),
      n.input.issuePos = n.output.issuePos ∧ n.input.completion = n.output.completion ∧
        ∃ p, n.output.completion = CompletionClass.InOrder p := by
    intro n hn
    split at hn
    · exact hinv.nodes n hn
    · rcases List.mem_append.mp hn with hn1 | hn1
      · exact hinv.nodes n hn1
      · rw [List.mem_singleton] at hn1
        subst hn1
        exact ⟨rfl, rfl, pipe, by simp [createDstDepSet, createSrcDepSet, hc]⟩
  have hio : (issue a.m_LatencyInOrderPipe blk (st.afterSyncs pre) i swsb).inOrder =
      a.m_InstIdCounter.inOrder + 1 := by rw [i2, s1, hsim.inOrder]
  have hqI : ∀ ty, ∃ d, (d = createSrcDepSet i a.m_InstIdCounter ∨
        d = createDstDepSet i a.m_InstIdCounter) ∧
      Describes ⟨i, blk, (st.afterSyncs pre).pipe pipe, (st.afterSyncs pre).inOrder,
        swsb.setToken⟩ ty d ∧ ∀ b, b ∈ i.footprint ty ↔ b ∈ d.buckets := by
    intro ty
    obtain ⟨d, hd, hty, hb⟩ := createDepSet_footprint i a.m_InstIdCounter ty
    refine ⟨d, hd, ⟨hty, ?_, ?_, ?_, ?_⟩, hb⟩
    · rcases hd with rfl | rfl <;> rfl
    · rcases hd with rfl | rfl <;>
        simp [createDstDepSet, createSrcDepSet, hc, s2, hsim.pipe]
    · rcases hd with rfl | rfl <;>
        simp [createDstDepSet, createSrcDepSet, s1, hsim.inOrder]
    · rcases hd with rfl | rfl <;>
        simp [createDstDepSet, createSrcDepSet, htok]
  constructor
  · rw [f2]; exact hio
  · rw [f4, i3, s2, hsim.pipe]
  · intro q hq ty hw
    obtain ⟨hcase, hsurv⟩ := i1 q hq
    rw [hio] at hsurv
    rcases hcase with hold | hnew
    · have hq0 : q ∈ st.pending := s3 q (afterWaits_spec _ swsb q hold).1
      obtain ⟨d, hdesc, hlive⟩ := hsim.tracked q hq0 ty hw
      refine ⟨d, hdesc, ?_⟩
      intro b hb
      rw [hmem]
      refine ⟨Or.inl ⟨hlive b hb, ?_⟩, ?_⟩
      · rintro ⟨_, hfound, _⟩
        have hprod : d ∈ a.producers (createDstDepSet i a.m_InstIdCounter) := by
          simp only [SWSBAnalyzer.found, List.mem_filter] at hfound
          exact hfound.1
        exact SWSBAnalyzer.waited a st i pre swsb hinv hsim.pipe hpre henf q d _ ty hdesc
          (Or.inr rfl) (isTrueHazard_write ty) hprod hold
      · intro n hn hexp hbad
        exact not_trimmed q ty d n _ _ hdesc hbad.2 (hnodes n hn) hsurv hexp
    · subst hnew
      obtain ⟨d, hd, hdesc, hbuckets⟩ := hqI ty
      refine ⟨d, hdesc, ?_⟩
      intro b hb
      rw [hmem]
      refine ⟨?_, ?_⟩
      · rcases hd with rfl | rfl
        · exact Or.inr (Or.inl ⟨(hbuckets b).mp hb, rfl⟩)
        · exact Or.inr (Or.inr ⟨(hbuckets b).mp hb, rfl⟩)
      · intro n hn hexp hbad
        exact not_trimmed _ ty _ n _ _ hdesc hbad.2 (hnodes n hn) hsurv hexp
  · intro q hq t ht
    rw [f5]
    rcases (i1 q hq).1 with hold | hnew
    · exact hsim.tok q (s3 q (afterWaits_spec _ swsb q hold).1) t ht
    · subst hnew
      simp only [htok] at ht
      exact Option.noConfusion ht
  · intro q hq hooo hw
    rcases (i1 q hq).1 with hold | hnew
    · exact hsim.hasTok q (s3 q (afterWaits_spec _ swsb q hold).1) hooo hw
    · subst hnew
      obtain ⟨u, hu⟩ := hooo
      simp only [hc] at hu
      exact CompletionClass.noConfusion hu
  · intro q hq hio1 hw
    obtain ⟨hcase, hsurv⟩ := i1 q hq
    rw [hio] at hsurv
    obtain ⟨p, hp⟩ := hio1
    rw [f8]
    rcases hcase with hold | hnew
    · obtain ⟨n, hn, hnpos⟩ := hsim.inTracker q (s3 q (afterWaits_spec _ swsb q hold).1)
        ⟨p, hp⟩ hw
      refine ⟨n, ?_, hnpos⟩
      rw [List.mem_filter]
      refine ⟨?_, ?_⟩
      · split
        · exact hn
        · exact List.mem_append_left _ hn
      · rw [hnpos]
        exact decide_eq_true (hsurv p hp)
    · subst hnew
      refine ⟨⟨createSrcDepSet i a.m_InstIdCounter, createDstDepSet i a.m_InstIdCounter⟩,
        ?_, ?_⟩
      · rw [List.mem_filter]
        refine ⟨?_, ?_⟩
        · rw [if_neg hw]
          exact List.mem_append_right _ (List.mem_singleton.mpr rfl)
        · have := hsurv p hp
          simp only [s1, hsim.inOrder] at this
          simpa [createDstDepSet, createSrcDepSet] using this
      · simp [createDstDepSet, createSrcDepSet, s1, hsim.inOrder]
  · intro q hq p hp
    rw [i3]
    rcases (i1 q hq).1 with hold | hnew
    · have := hsim.issued q (s3 q (afterWaits_spec _ swsb q hold).1) p hp
      rw [s2]
      simp only
      split
      · exact Nat.lt_succ_of_lt this
      · exact this
    · subst hnew
      simp only [hc, CompletionClass.InOrder.injEq] at hp
      subst hp
      simp

/-- The simulation relation after an out-of-order instruction. -/
theorem SWSBAnalyzer.sim_issue_outOfOrder (a : SWSBAnalyzer) (st : ExecState) (blk : Nat)
    (i : Instruction) (u : Nat) (hc : i.completion = CompletionClass.OutOfOrder u)
    (pre : List OutInst) (swsb : SWSB) (hinv : a.Inv) (hpool : a.PoolInv)
    (hsim : Sim a st) (hpre : OutInst.allSync pre)
    (henf : ∀ dec, (a.calculateDependence (createDstDepSet i a.m_InstIdCounter) i
        (a.calculateDependence (createSrcDepSet i a.m_InstIdCounter) i
          DepResult.empty)).Covers dec → Enforced pre swsb dec)
    (hset : (¬ (i.reads = [] ∧ i.writes = []) ∧
          swsb.setToken = some (a.assignSBID (createSrcDepSet i a.m_InstIdCounter)
            (createDstDepSet i a.m_InstIdCounter)).sbid ∧
          ∀ e ∈ (a.assignSBID (createSrcDepSet i a.m_InstIdCounter)
            (createDstDepSet i a.m_InstIdCounter)).stall, e ∈ pre) ∨
        ((i.reads = [] ∧ i.writes = []) ∧ swsb.setToken = none)) :
    Sim (a.processInst i).1
      (issue a.m_LatencyInOrderPipe blk (st.afterSyncs pre) i swsb) := by
  obtain ⟨s1, s2, s3, s4⟩ := ExecState.afterSyncs_spec pre st hpre
  obtain ⟨_, f2, _, f4, _, f6⟩ := SWSBAnalyzer.processInst_outOfOrder_fields a i u hc
  obtain ⟨i1, i2, i3⟩ := issue_spec a.m_LatencyInOrderPipe blk (st.afterSyncs pre) i swsb
  simp only [hc] at i1 i2 i3
  have hcommon1 : (issue a.m_LatencyInOrderPipe blk (st.afterSyncs pre) i swsb).inOrder =
      (a.processInst i).1.m_InstIdCounter.inOrder := by rw [f2, i2, s1, hsim.inOrder]
  have hcommon2 : (issue a.m_LatencyInOrderPipe blk (st.afterSyncs pre) i swsb).pipe =
      (a.processInst i).1.m_InstIdCounter.pipe := by rw [f4, i3, s2, hsim.pipe]
  have hinTracker : ∀ q ∈ (issue a.m_LatencyInOrderPipe blk (st.afterSyncs pre) i
        swsb).pending,
      (∃ p, q.inst.completion = CompletionClass.InOrder p) →
      ¬ (q.inst.reads = [] ∧ q.inst.writes = []) →
      ∃ n ∈ (a.processInst i).1.m_distanceTracker, n.output.issuePos = q.issuePos := by
    intro q hq hio hw
    rw [f6]
    rcases (i1 q hq).1 with hold | hnew
    · exact hsim.inTracker q (s3 q (afterWaits_spec _ swsb q hold).1) hio hw
    · subst hnew
      obtain ⟨p, hp⟩ := hio
      simp only [hc] at hp
      exact CompletionClass.noConfusion hp
  have hissued : ∀ q ∈ (issue a.m_LatencyInOrderPipe blk (st.afterSyncs pre) i
        swsb).pending,
      ∀ p, q.inst.completion = CompletionClass.InOrder p →
      q.issueId < (issue a.m_LatencyInOrderPipe blk (st.afterSyncs pre) i swsb).pipe p := by
    intro q hq p hp
    rw [i3, s2]
    rcases (i1 q hq).1 with hold | hnew
    · exact hsim.issued q (s3 q (afterWaits_spec _ swsb q hold).1) p hp
    · subst hnew
      simp only [hc] at hp
      exact CompletionClass.noConfusion hp
  rcases hset with ⟨hw, htok, hstall⟩ | ⟨hw, htok⟩
  · -- the instruction has a footprint and is assigned a token
    have hmem := SWSBAnalyzer.mem_live_processInst_outOfOrder a i u hc hw
    have he := SWSBAnalyzer.processInst_outOfOrder_write a i u hc hw
    obtain ⟨hsi, hso, hsf, _, hs1, hs2⟩ := SWSBAnalyzer.assignSBID_spec a
      (createSrcDepSet i a.m_InstIdCounter) (createDstDepSet i a.m_InstIdCounter)
    have hlt := SWSBAnalyzer.assignSBID_lt a (createSrcDepSet i a.m_InstIdCounter)
      (createDstDepSet i a.m_InstIdCounter) hpool
    have hfree : (a.processInst i).1.m_freeSBIDList =
        a.m_freeSBIDList.set (a.assignSBID (createSrcDepSet i a.m_InstIdCounter)
            (createDstDepSet i a.m_InstIdCounter)).sbid
          ⟨(a.assignSBID (createSrcDepSet i a.m_InstIdCounter)
            (createDstDepSet i a.m_InstIdCounter)).sbid, false⟩ := by
      rw [he, ← hsf]; simp
    refine ⟨hcommon1, hcommon2, ?_, ?_, ?_, hinTracker, hissued⟩
    · intro q hq ty hwq
      rcases (i1 q hq).1 with hold | hnew
      · have hq1 := (afterWaits_spec _ swsb q hold).1
        have hq0 : q ∈ st.pending := s3 q hq1
        obtain ⟨d, hdesc, hlive⟩ := hsim.tracked q hq0 ty hwq
        refine ⟨d, hdesc, ?_⟩
        intro b hb
        rw [hmem]
        refine Or.inl ⟨?_, ?_⟩
        · rw [SWSBAnalyzer.mem_live_assignSBID]
          refine ⟨hlive b hb, ?_⟩
          intro hf old hold1 hbad
          have hsb : d.sbid = some (a.m_SBIDRRCounter % a.m_SBIDCount) := by
            obtain ⟨m1, m2, _⟩ := hinv.mapped _ old.1 old.2 hold1
            rcases hbad.2 with rfl | rfl
            · exact m1
            · exact m2
          have hmemstall := hstall _ (by rw [(hs2 hf).2]; exact List.mem_singleton.mpr rfl)
          have hsurv := s4 _ hmemstall q hq1
          rw [(hs2 hf).1] at hsurv
          exact hsurv (hdesc.2.2.2.2 ▸ hsb)
        · rintro ⟨_, hfound, _⟩
          have hprod : d ∈ a.producers (createDstDepSet i a.m_InstIdCounter) := by
            simp only [SWSBAnalyzer.found, List.mem_filter] at hfound
            exact hfound.1
          exact SWSBAnalyzer.waited a st i pre swsb hinv hsim.pipe hpre henf q d _ ty hdesc
            (Or.inr rfl) (isTrueHazard_write ty) hprod hold
      · subst hnew
        cases ty with
        | READ =>
            refine ⟨(a.assignSBID (createSrcDepSet i a.m_InstIdCounter)
              (createDstDepSet i a.m_InstIdCounter)).input, ?_, ?_⟩
            · rw [hsi]
              refine ⟨rfl, rfl, ?_, ?_, ?_⟩
              · simp [DepSet.setSBID, createSrcDepSet, hc]
              · simp [DepSet.setSBID, createSrcDepSet, s1, hsim.inOrder]
              · simp [DepSet.setSBID, htok]
            · intro b hb
              rw [hmem]
              refine Or.inr (Or.inl ⟨?_, rfl⟩)
              rw [hsi]
              simpa [DepSet.setSBID, createSrcDepSet, Instruction.footprint] using hb
        | WRITE =>
            refine ⟨(a.assignSBID (createSrcDepSet i a.m_InstIdCounter)
              (createDstDepSet i a.m_InstIdCounter)).output, ?_, ?_⟩
            · rw [hso]
              refine ⟨rfl, rfl, ?_, ?_, ?_⟩
              · simp [DepSet.setSBID, createDstDepSet, createSrcDepSet, hc]
              · simp [DepSet.setSBID, createDstDepSet, createSrcDepSet, s1, hsim.inOrder]
              · simp [DepSet.setSBID, htok]
            · intro b hb
              rw [hmem]
              refine Or.inr (Or.inr ⟨?_, rfl⟩)
              rw [hso]
              simpa [DepSet.setSBID, createDstDepSet, Instruction.footprint] using hb
    · intro q hq t ht
      rw [hfree]
      by_cases hT : t = (a.assignSBID (createSrcDepSet i a.m_InstIdCounter)
          (createDstDepSet i a.m_InstIdCounter)).sbid
      · refine ⟨⟨t, false⟩, ?_, rfl⟩
        rw [hT, List.get?_eq_getElem?, List.getElem?_set_self hlt]
      · rcases (i1 q hq).1 with hold | hnew
        · obtain ⟨s, hs, hsf1⟩ := hsim.tok q (s3 q (afterWaits_spec _ swsb q hold).1) t ht
          refine ⟨s, ?_, hsf1⟩
          rw [List.get?_eq_getElem?, List.getElem?_set_ne (Ne.symm hT),
            ← List.get?_eq_getElem?]
          exact hs
        · subst hnew
          simp only [htok, Option.some.injEq] at ht
          exact absurd ht.symm hT
    · intro q hq hooo hwq
      rcases (i1 q hq).1 with hold | hnew
      · exact hsim.hasTok q (s3 q (afterWaits_spec _ swsb q hold).1) hooo hwq
      · subst hnew
        simp [htok]
  · -- no footprint: no token, nothing registered
    have he := SWSBAnalyzer.processInst_outOfOrder_nowrite a i u hc hw
    refine ⟨hcommon1, hcommon2, ?_, ?_, ?_, hinTracker, hissued⟩
    · intro q hq ty hwq
      rcases (i1 q hq).1 with hold | hnew
      · obtain ⟨d, hdesc, hlive⟩ := hsim.tracked q (s3 q (afterWaits_spec _ swsb q hold).1)
          ty hwq
        refine ⟨d, hdesc, ?_⟩
        intro b hb
        rw [he]
        exact hlive b hb
      · subst hnew
        exact absurd hw (Instruction.footprint_ne_nil i ty hwq)
    · intro q hq t ht
      rw [he]
      rcases (i1 q hq).1 with hold | hnew
      · exact hsim.tok q (s3 q (afterWaits_spec _ swsb q hold).1) t ht
      · subst hnew
        simp only [htok] at ht
        exact Option.noConfusion ht
    · intro q hq hooo hwq
      rcases (i1 q hq).1 with hold | hnew
      · exact hsim.hasTok q (s3 q (afterWaits_spec _ swsb q hold).1) hooo hwq
      · subst hnew
        exact absurd hw hwq

/-! ## Hazard safety: blocks and kernels -/

theorem SWSBAnalyzer.sim_processInst (a : SWSBAnalyzer) (st : ExecState) (blk : Nat)
    (i : Instruction) (hinv : a.Inv) (hpool : a.PoolInv) (hsim : Sim a st) :
    ∃ st1, (∀ rest, execBlock anyConflict a.m_LatencyInOrderPipe blk st
          ((a.processInst i).2 ++ rest) =
        execBlock anyConflict a.m_LatencyInOrderPipe blk st1 rest) ∧
      Sim (a.processInst i).1 st1 := by
  obtain ⟨pre, swsb, hout, hpre, henf, hset⟩ := SWSBAnalyzer.processInst_emit a i
  have hok := SWSBAnalyzer.issueOk_processInst a st blk i pre swsb hinv hsim hpre henf hset
  refine ⟨issue a.m_LatencyInOrderPipe blk (st.afterSyncs pre) i swsb, ?_, ?_⟩
  · intro rest
    rw [hout, List.append_assoc, execBlock_syncs _ _ _ _ _ _ hpre]
    show execBlock anyConflict a.m_LatencyInOrderPipe blk (st.afterSyncs pre)
      (OutInst.inst i swsb :: rest) = _
    simp only [execBlock, hok, Bool.true_and]
  · cases hc : i.completion with
    | InOrder pipe =>
        have htok : swsb.setToken = none := by
          rcases hset with ⟨⟨u, hu⟩, _⟩ | ⟨_, h⟩
          · rw [hc] at hu; exact CompletionClass.noConfusion hu
          · exact h
        exact SWSBAnalyzer.sim_issue_inOrder a st blk i pipe hc pre swsb hinv hsim hpre henf
          htok
    | OutOfOrder u =>
        refine SWSBAnalyzer.sim_issue_outOfOrder a st blk i u hc pre swsb hinv hpool hsim hpre
          henf ?_
        rcases hset with ⟨_, h1, h2, h3⟩ | ⟨h1, h2⟩
        · exact Or.inl ⟨h1, h2, h3⟩
        · refine Or.inr ⟨?_, h2⟩
          by_contra hw
          exact h1 ⟨⟨u, hc⟩, hw⟩

theorem SWSBAnalyzer.latency_processInst (a : SWSBAnalyzer) (i : Instruction) :
    (a.processInst i).1.m_LatencyInOrderPipe = a.m_LatencyInOrderPipe :=
  SWSBAnalyzer.latency_step a (Event.inst i)

theorem SWSBAnalyzer.sim_runInsts (blk : Nat) (insts : List Instruction) :
    ∀ (a : SWSBAnalyzer) (st : ExecState), a.Inv → a.PoolInv → Sim a st →
      ∃ st1, (∀ rest, execBlock anyConflict a.m_LatencyInOrderPipe blk st
            ((a.runInsts insts).2 ++ rest) =
          execBlock anyConflict a.m_LatencyInOrderPipe blk st1 rest) ∧
        Sim (a.runInsts insts).1 st1 ∧ (a.runInsts insts).1.Inv ∧
        (a.runInsts insts).1.PoolInv ∧
        (a.runInsts insts).1.m_LatencyInOrderPipe = a.m_LatencyInOrderPipe := by
  induction insts with
  | nil => intro a st hinv hpool hsim; exact ⟨st, fun _ => rfl, hsim, hinv, hpool, rfl⟩
  | cons i insts ih =>
      intro a st hinv hpool hsim
      obtain ⟨st1, h1, hsim1⟩ := SWSBAnalyzer.sim_processInst a st blk i hinv hpool hsim
      obtain ⟨st2, h2, hsim2, hinv2, hpool2, hl2⟩ := ih (a.processInst i).1 st1
        (SWSBAnalyzer.inv_processInst a i hinv) (SWSBAnalyzer.poolInv_processInst a i hpool)
        hsim1
      refine ⟨st2, ?_, hsim2, hinv2, hpool2, ?_⟩
      · intro rest
        simp only [SWSBAnalyzer.runInsts]
        rw [List.append_assoc, h1, ← SWSBAnalyzer.latency_processInst a i, h2]
      · simp only [SWSBAnalyzer.runInsts]
        rw [hl2, SWSBAnalyzer.latency_processInst]

/-- After the syncs of the drain no instruction with a footprint is outstanding, and no
outstanding instruction holds a token. -/
theorem SWSBAnalyzer.drained (a : SWSBAnalyzer) (st : ExecState) (hsim : Sim a st) :
    ∀ q ∈ (st.afterSyncs a.drain.2).pending,
      q.token = none ∧ q.inst.reads = [] ∧ q.inst.writes = [] := by
  obtain ⟨s1, s2, s3, s4⟩ := ExecState.afterSyncs_spec a.drain.2 st
    (SWSBAnalyzer.drain_allSync a)
  have hnotok : ∀ q ∈ (st.afterSyncs a.drain.2).pending, q.token = none := by
    intro q hq
    cases ht : q.token with
    | none => rfl
    | some t =>
        obtain ⟨s, hs, hsf⟩ := hsim.tok q (s3 q hq) t ht
        have hany : a.m_freeSBIDList.any (fun s => !s.isFree) = true := by
          rw [List.any_eq_true]
          exact ⟨s, List.get?_mem hs, by simp [hsf]⟩
        have hwr : OutInst.sync SyncKind.allWr ∈ a.drain.2 := by
          simp [SWSBAnalyzer.drain, SWSBAnalyzer.clearSBIDDependence,
            SWSBAnalyzer.insertSyncAllRdWr, hany]
        have hrd : OutInst.sync SyncKind.allRd ∈ a.drain.2 := by
          simp [SWSBAnalyzer.drain, SWSBAnalyzer.clearSBIDDependence,
            SWSBAnalyzer.insertSyncAllRdWr, hany]
        have h1 := s4 _ hwr q hq
        have h2 := s4 _ hrd q hq
        simp only [Survives] at h1 h2
        rcases h1 with h1 | h1
        · rw [h1] at ht
          exact Option.noConfusion ht
        · rcases h2 with h2 | h2
          · rw [h2] at ht
            exact Option.noConfusion ht
          · exact absurd h1 h2
  intro q hq
  refine ⟨hnotok q hq, ?_⟩
  by_contra hw
  cases hc : q.inst.completion with
  | OutOfOrder u => exact hsim.hasTok q (s3 q hq) ⟨u, hc⟩ hw (hnotok q hq)
  | InOrder p =>
      obtain ⟨n, hn, _⟩ := hsim.inTracker q (s3 q hq) ⟨p, hc⟩ hw
      have hne : a.m_distanceTracker ≠ [] := List.ne_nil_of_mem hn
      have hmem : OutInst.sync (SyncKind.distance 1) ∈ a.drain.2 := by
        simp [SWSBAnalyzer.drain, SWSBAnalyzer.clearSBIDDependence,
          SWSBAnalyzer.insertSyncAllPipes, hne]
      have hsurv := s4 _ hmem q hq p hc
      have := hsim.issued q (s3 q hq) p hc
      omega

theorem SWSBAnalyzer.sim_drain (a : SWSBAnalyzer) (st : ExecState)
    (hsim : Sim a st) : Sim a.drain.1 (st.afterSyncs a.drain.2) := by
  obtain ⟨s1, s2, s3, s4⟩ := ExecState.afterSyncs_spec a.drain.2 st
    (SWSBAnalyzer.drain_allSync a)
  have hdr := SWSBAnalyzer.drained a st hsim
  constructor
  · rw [s1, hsim.inOrder]; rfl
  · rw [s2, hsim.pipe]; rfl
  · intro q hq ty hw
    exact absurd (hdr q hq).2 (Instruction.footprint_ne_nil _ ty hw)
  · intro q hq t ht
    rw [(hdr q hq).1] at ht
    exact Option.noConfusion ht
  · intro q hq _ hw
    exact absurd (hdr q hq).2 hw
  · intro q hq _ hw
    exact absurd (hdr q hq).2 hw
  · intro q hq p hp
    rw [s2]
    exact hsim.issued q (s3 q hq) p hp

theorem SWSBAnalyzer.sim_runBlocks (k : List Block) :
    ∀ (a : SWSBAnalyzer) (st : ExecState) (blk : Nat), a.Inv → a.PoolInv → Sim a st →
      execBlocks anyConflict a.m_LatencyInOrderPipe blk st (a.runBlocks k).2 = true := by
  induction k with
  | nil => intro a st blk _ _ _; rfl
  | cons bb k ih =>
      intro a st blk hinv hpool hsim
      obtain ⟨st1, h1, hsim1, hinv1, hpool1, hl1⟩ :=
        SWSBAnalyzer.sim_runInsts blk bb a st hinv hpool hsim
      have hblock : execBlock anyConflict a.m_LatencyInOrderPipe blk st (a.runBlock bb).2 =
          (true, st1.afterSyncs (a.runInsts bb).1.drain.2) := by
        simp only [SWSBAnalyzer.runBlock]
        rw [h1]
        have := execBlock_syncs anyConflict a.m_LatencyInOrderPipe blk
          (a.runInsts bb).1.drain.2 st1 [] (SWSBAnalyzer.drain_allSync _)
        rw [List.append_nil] at this
        rw [this]
        rfl
      simp only [SWSBAnalyzer.runBlocks, execBlocks]
      rw [hblock]
      simp only [Bool.true_and]
      have hl : (a.runBlock bb).1.m_LatencyInOrderPipe = a.m_LatencyInOrderPipe := by
        simp only [SWSBAnalyzer.runBlock]
        exact hl1
      rw [← hl]
      exact ih (a.runBlock bb).1 _ (blk + 1) (SWSBAnalyzer.inv_drain _ hinv1)
        (SWSBAnalyzer.poolInv_drain _ hpool1) (SWSBAnalyzer.sim_drain _ st1 hsim1)

theorem sim_init (a : SWSBAnalyzer) (h1 : a.m_InstIdCounter.inOrder = 0)
    (h2 : a.m_InstIdCounter.pipe = fun _ => 0) : Sim a ExecState.init := by
  constructor
  · exact h1.symm
  · exact h2.symm
  · intro q hq; simp [ExecState.init] at hq
  · intro q hq; simp [ExecState.init] at hq
  · intro q hq; simp [ExecState.init] at hq
  · intro q hq; simp [ExecState.init] at hq
  · intro q hq; simp [ExecState.init] at hq

/-- C11: the constructor sets `m_swsbMode` to the caller-supplied `encode_mode` whenever that
differs from `SWSBInvalidMode`, and to the default encode mode of the kernel model when it is
`SWSBInvalidMode`; the mode is the model's default for every model exactly when
`encode_mode` is `SWSBInvalidMode`. -/
theorem SWSBAnalyzer.new_encode_mode (model : Model) (encode_mode : SWSB_ENCODE_MODE)
    (sbid_count : Int) :
    (encode_mode ≠ SWSB_ENCODE_MODE.SWSBInvalidMode →
        (SWSBAnalyzer.new model encode_mode sbid_count).m_swsbMode = encode_mode) ∧
      (encode_mode = SWSB_ENCODE_MODE.SWSBInvalidMode →
        (SWSBAnalyzer.new model encode_mode sbid_count).m_swsbMode = model.SWSBEncodeMode) ∧
      ((∀ m : Model, (SWSBAnalyzer.new m encode_mode sbid_count).m_swsbMode = m.SWSBEncodeMode) ↔
        encode_mode = SWSB_ENCODE_MODE.SWSBInvalidMode) := by
  refine ⟨?_, ?_, ?_, ?_⟩
  · intro h
    simp [SWSBAnalyzer.new, h]
  · intro h
    simp [SWSBAnalyzer.new, h]
  · intro h
    by_contra hne
    have h1 := h ⟨0, SWSB_ENCODE_MODE.TokenOnly, 0⟩
    have h2 := h ⟨0, SWSB_ENCODE_MODE.DistanceOnly, 0⟩
    simp only [SWSBAnalyzer.new, ne_eq, hne, not_false_eq_true, if_true] at h1 h2
    rw [h1] at h2
    exact SWSB_ENCODE_MODE.noConfusion h2
  · intro h m
    simp [SWSBAnalyzer.new, h]

end iga

namespace IGC

/-! ## The builtin that replaces `frem` -/

theorem Module.getOrInsertFunction_callee (m : Module) (name : String) (t : FunctionType) :
    (m.getOrInsertFunction name t).2 = ⟨name, t⟩ := by
  unfold Module.getOrInsertFunction
  split <;> rfl

theorem Module.getOrInsertFunction_declared (m : Module) (name : String) (t : FunctionType) :
    ∃ f ∈ (m.getOrInsertFunction name t).1.functions, f.1 = name := by
  unfold Module.getOrInsertFunction
  split
  · rename_i h
    simp only [List.any_eq_true, beq_iff_eq] at h
    obtain ⟨f, hf, hn⟩ := h
    exact ⟨f, hf, hn⟩
  · exact ⟨_, List.mem_append_right _ (List.mem_singleton_self _), rfl⟩

/-- C12: for every `frem` instruction whose operands have one type, of scalar type half,
float or double (width `W` = 16, 32, 64), scalar or a vector of `N` in 2, 3, 4, 8, 16
elements, `visitFRem` replaces it by a call to the function named
`__builtin_spirv_OpFRem` followed by `T` twice, where `T` is `_`, then `v` and the decimal
`N` for a vector, then `f` and the decimal `W`; the arguments are the two operands in their
order and the return type is the operand type. -/
theorem HandleFRemInstructions.visitFRem_builtin (p : HandleFRemInstructions)
    (I : BinaryOperator) (hty : I.operand0.type = I.operand1.type)
    (hfp : I.operand0.type.getScalarType = ScalarType.half ∨
      I.operand0.type.getScalarType = ScalarType.float ∨
      I.operand0.type.getScalarType = ScalarType.double)
    (hvec : I.operand0.type.isVectorTy = true →
      I.operand0.type.getNumElements = 2 ∨ I.operand0.type.getNumElements = 3 ∨
      I.operand0.type.getNumElements = 4 ∨ I.operand0.type.getNumElements = 8 ∨
      I.operand0.type.getNumElements = 16) :
    ∃ q call, p.visitFRem I = Except.ok (q, call) ∧
      call.callee.name =
        "__builtin_spirv_OpFRem" ++
          ("_" ++ (if I.operand0.type.isVectorTy = true then
              "v" ++ toString I.operand0.type.getNumElements else "") ++
            ("f" ++ toString I.operand0.type.getScalarType.getScalarSizeInBits)) ++
          ("_" ++ (if I.operand0.type.isVectorTy = true then
              "v" ++ toString I.operand0.type.getNumElements else "") ++
            ("f" ++ toString I.operand0.type.getScalarType.getScalarSizeInBits)) ∧
      (I.operand0.type.getScalarType.getScalarSizeInBits = 16 ∨
        I.operand0.type.getScalarType.getScalarSizeInBits = 32 ∨
        I.operand0.type.getScalarType.getScalarSizeInBits = 64) ∧
      call.args = [I.operand0, I.operand1] ∧
      call.callee.functionType.result = I.operand0.type ∧
      call.callee.functionType.params = [I.operand0.type, I.operand0.type] ∧
      q.m_changed = true ∧
      (∃ f ∈ q.m_module.functions, f.1 = call.callee.name) := by
  have hfp1 : I.operand0.type.getScalarType.isFloatingPointTy = true := by
    rcases hfp with h | h | h <;> rw [h] <;> rfl
  have hfp2 : (I.operand0.type.getScalarType.isHalfTy ||
      I.operand0.type.getScalarType.isFloatTy ||
      I.operand0.type.getScalarType.isDoubleTy) = true := by
    rcases hfp with h | h | h <;> rw [h] <;> rfl
  have hw : I.operand0.type.getScalarType.getScalarSizeInBits = 16 ∨
      I.operand0.type.getScalarType.getScalarSizeInBits = 32 ∨
      I.operand0.type.getScalarType.getScalarSizeInBits = 64 := by
    rcases hfp with h | h | h <;> rw [h] <;> simp [ScalarType.getScalarSizeInBits]
  have hv : ¬ (I.operand0.type.isVectorTy = true ∧
      ¬ (I.operand0.type.getNumElements = 2 ∨ I.operand0.type.getNumElements = 3 ∨
        I.operand0.type.getNumElements = 4 ∨ I.operand0.type.getNumElements = 8 ∨
        I.operand0.type.getNumElements = 16)) := fun h => h.2 (hvec h.1)
  refine ⟨?_, ?_, ?h, ?r⟩
  case h =>
    unfold HandleFRemInstructions.visitFRem
    dsimp only
    rw [if_neg (not_not.mpr hty), if_neg (by rw [hfp1]; decide), if_neg (by rw [hfp2]; decide),
      if_neg hv]
    exact rfl
  case r =>
    refine ⟨?_, hw, rfl, ?_, ?_, rfl, ?_⟩
    · simp only [Module.getOrInsertFunction_callee]
    · simp only [Module.getOrInsertFunction_callee]
    · simp only [Module.getOrInsertFunction_callee]
    · simp only [Module.getOrInsertFunction_callee]
      exact Module.getOrInsertFunction_declared _ _ _

/-- Witness of C12: the remainder of two vectors of 4 floats becomes a call of
`__builtin_spirv_OpFRem_v4f32_v4f32`. -/
theorem HandleFRemInstructions.visitFRem_builtin_witness :
    ∃ q call, (HandleFRemInstructions.mk false ⟨[]⟩).visitFRem
        ⟨⟨1, ValueType.vector 4 ScalarType.float⟩, ⟨2, ValueType.vector 4 ScalarType.float⟩⟩
          = Except.ok (q, call) ∧
      call.callee.name = "__builtin_spirv_OpFRem_v4f32_v4f32" ∧
      call.args = [⟨1, ValueType.vector 4 ScalarType.float⟩,
        ⟨2, ValueType.vector 4 ScalarType.float⟩] := by
  obtain ⟨q, call, h, hn, _, ha, _⟩ := HandleFRemInstructions.visitFRem_builtin
    (HandleFRemInstructions.mk false ⟨[]⟩)
    ⟨⟨1, ValueType.vector 4 ScalarType.float⟩, ⟨2, ValueType.vector 4 ScalarType.float⟩⟩
    rfl (Or.inr (Or.inl rfl)) (fun _ => Or.inr (Or.inr (Or.inl rfl)))
  refine ⟨q, call, h, ?_, ha⟩
  rw [hn]
  decide

/-! ## The vISA linker driver -/

namespace VLD

theorem append_ne_empty (a b : String) (h : a ≠ "") : a ++ b ≠ "" := by
  intro hab
  have h1 := congrArg String.length hab
  rw [String.length_append] at h1
  have h0 : a.length = 0 := by
    simp only [String.length_empty] at h1
    omega
  apply h
  cases a with
  | mk l =>
    simp only [String.length, List.length_eq_zero] at h0
    simp [h0]

theorem updateSimdSize_error (env : Env) (flavour : SPIRVTypeEnum) (bin : StringRef) (z : Int)
    (e : String) (h : updateSimdSize env flavour bin z = Except.error e) : e ≠ "" := by
  unfold updateSimdSize at h
  split at h
  · split at h
    · simp only [Except.error.injEq] at h
      rw [← h]
      exact append_ne_empty _ _ (by decide)
    · split at h
      · simp only [Except.error.injEq] at h
        rw [← h]
        exact append_ne_empty _ _ (by decide)
      · split at h <;> exact Except.noConfusion h
  · exact Except.noConfusion h

/-- One iteration of the loop over the modules: the ways it can end. -/
theorem translateModules_cons (env : Env) (pOut : STB_TranslateOutputArgs) (err : String)
    (m : SPVTranslationPair) (rest : List SPVTranslationPair) (visa : List String) (z : Int) :
    (NewInternalOptions m.1 m.2.pInternalOptions z = none ∧
      translateModules env pOut err (m :: rest) visa z =
        ⟨false, pOut, "Unsupported SPIR-V flavour detected!", []⟩) ∨
    ∃ options, NewInternalOptions m.1 m.2.pInternalOptions z = some options ∧
      (((env.translate (backendOf m.1) (NewInputArgs m.2 visa options)
            STB_TranslateOutputArgs.zero).1 = false ∧
          ∃ msg, msg ≠ "" ∧ translateModules env pOut err (m :: rest) visa z =
            ⟨false, pOut, msg, [(backendOf m.1, NewInputArgs m.2 visa options)]⟩) ∨
        ((env.translate (backendOf m.1) (NewInputArgs m.2 visa options)
            STB_TranslateOutputArgs.zero).1 = true ∧ rest = [] ∧
          translateModules env pOut err (m :: rest) visa z =
            ⟨true, (env.translate (backendOf m.1) (NewInputArgs m.2 visa options)
              STB_TranslateOutputArgs.zero).2, err,
              [(backendOf m.1, NewInputArgs m.2 visa options)]⟩) ∨
        ((env.translate (backendOf m.1) (NewInputArgs m.2 visa options)
            STB_TranslateOutputArgs.zero).1 = true ∧ rest ≠ [] ∧
          ∃ msg, msg ≠ "" ∧ translateModules env pOut err (m :: rest) visa z =
            ⟨false, pOut, msg, [(backendOf m.1, NewInputArgs m.2 visa options)]⟩) ∨
        ((env.translate (backendOf m.1) (NewInputArgs m.2 visa options)
            STB_TranslateOutputArgs.zero).1 = true ∧ rest ≠ [] ∧
          ∃ z1 VISAAsm,
            updateSimdSize env m.1
              ⟨(env.translate (backendOf m.1) (NewInputArgs m.2 visa options)
                  STB_TranslateOutputArgs.zero).2.pOutput,
                (env.translate (backendOf m.1) (NewInputArgs m.2 visa options)
                  STB_TranslateOutputArgs.zero).2.OutputSize⟩ z = Except.ok z1 ∧
            VISAAsm ≠ [] ∧
            translateModules env pOut err (m :: rest) visa z =
              TranslateResult.after (backendOf m.1, NewInputArgs m.2 visa options)
                (translateModules env pOut err rest (visa ++ VISAAsm) z1))) := by
  rw [translateModules]
  cases hopt : NewInternalOptions m.1 m.2.pInternalOptions z with
  | none => exact Or.inl ⟨rfl, rfl⟩
  | some options =>
    right
    refine ⟨options, rfl, ?_⟩
    simp only []
    by_cases hout : (env.translate (backendOf m.1) (NewInputArgs m.2 visa options)
        STB_TranslateOutputArgs.zero).1 = false
    · left
      refine ⟨hout, "VLD: Failed to compile SPIR-V with following error: \n" ++
        (env.translate (backendOf m.1) (NewInputArgs m.2 visa options)
          STB_TranslateOutputArgs.zero).2.pErrorString.getD "",
        append_ne_empty _ _ (by decide), ?_⟩
      rw [if_pos hout]
      rfl
    · right
      have hout1 : (env.translate (backendOf m.1) (NewInputArgs m.2 visa options)
          STB_TranslateOutputArgs.zero).1 = true := by
        simpa using hout
      rw [if_neg hout]
      by_cases hrest : rest = []
      · left
        refine ⟨hout1, hrest, ?_⟩
        rw [if_pos hrest]
        rfl
      · right
        rw [if_neg hrest]
        cases hz : updateSimdSize env m.1
            ⟨(env.translate (backendOf m.1) (NewInputArgs m.2 visa options)
                STB_TranslateOutputArgs.zero).2.pOutput,
              (env.translate (backendOf m.1) (NewInputArgs m.2 visa options)
                STB_TranslateOutputArgs.zero).2.OutputSize⟩ z with
        | error e =>
          left
          exact ⟨hout1, hrest, e, updateSimdSize_error _ _ _ _ _ hz, rfl⟩
        | ok z1 =>
          simp only []
          cases hv : GetVISAAsmFromZEBinary env
              ⟨(env.translate (backendOf m.1) (NewInputArgs m.2 visa options)
                  STB_TranslateOutputArgs.zero).2.pOutput,
                (env.translate (backendOf m.1) (NewInputArgs m.2 visa options)
                  STB_TranslateOutputArgs.zero).2.OutputSize⟩ with
          | error e =>
            left
            exact ⟨hout1, hrest, "VLD: Failed to compile SPIR-V with following error: \n" ++ e,
              append_ne_empty _ _ (by decide), rfl⟩
          | ok VISAAsm =>
            simp only []
            by_cases hV : VISAAsm = []
            · left
              refine ⟨hout1, hrest, "VLD: ZeBinary did not contain any .visaasm sections!",
                by decide, ?_⟩
              rw [if_pos hV]
              rfl
            · right
              refine ⟨hout1, hrest, z1, VISAAsm, rfl, hV, ?_⟩
              rw [if_neg hV]

theorem getZeBinSectionsDataLoop_ok (ty : SHT_ZEBIN) :
    ∀ (secs : List ElfSection) (acc l : List String),
      getZeBinSectionsDataLoop ty secs acc = Except.ok l ↔
        ∃ l1, l = acc ++ l1 ∧
          (secs.filter (fun Sect => decide (Sect.sh_type = ty))).map (fun Sect => Sect.contents)
            = l1.map Except.ok := by
  intro secs
  induction secs with
  | nil =>
    intro acc l
    simp only [getZeBinSectionsDataLoop, Except.ok.injEq, List.filter_nil, List.map_nil]
    constructor
    · intro h
      exact ⟨[], by simp [h], rfl⟩
    · rintro ⟨l1, h1, h2⟩
      have : l1 = [] := by
        cases l1 with
        | nil => rfl
        | cons a t => simp at h2
      simp [h1, this]
  | cons Sect rest ih =>
    intro acc l
    rw [getZeBinSectionsDataLoop]
    by_cases hty : Sect.sh_type = ty
    · rw [if_pos hty]
      cases hc : Sect.contents with
      | error e =>
        simp only [List.filter_cons, hty, decide_True, if_true, List.map_cons, hc]
        constructor
        · intro h
          exact Except.noConfusion h
        · rintro ⟨l1, _, h2⟩
          cases l1 with
          | nil => simp at h2
          | cons a t =>
            simp only [List.map_cons, List.cons.injEq] at h2
            exact Except.noConfusion h2.1
      | ok Data =>
        simp only [List.filter_cons, hty, decide_True, if_true, List.map_cons, hc]
        rw [ih]
        constructor
        · rintro ⟨l1, h1, h2⟩
          exact ⟨Data :: l1, by simp [h1], by simp [h2]⟩
        · rintro ⟨l1, h1, h2⟩
          cases l1 with
          | nil => simp at h2
          | cons a t =>
            simp only [List.map_cons, List.cons.injEq, Except.ok.injEq] at h2
            exact ⟨t, by simp [h1, h2.1], h2.2⟩
    · rw [if_neg hty]
      simp only [List.filter_cons, hty, decide_False, Bool.false_eq_true, if_false]
      exact ih acc l

/-- The sections that `getZeBinSectionsData` returns are the contents of the sections of the
given type, in their order, when the file and each of these sections can be read. -/
theorem getZeBinSectionsData_ok (env : Env) (bin : StringRef) (ty : SHT_ZEBIN)
    (l : List String) :
    getZeBinSectionsData env bin ty = Except.ok l ↔
      ∃ elf secs, env.createELFObjectFile bin = Except.ok elf ∧
        elf.sections = Except.ok secs ∧
        (secs.filter (fun Sect => decide (Sect.sh_type = ty))).map (fun Sect => Sect.contents)
          = l.map Except.ok := by
  unfold getZeBinSectionsData
  cases h1 : env.createELFObjectFile bin with
  | error e =>
    simp only []
    constructor
    · intro h
      exact Except.noConfusion h
    · rintro ⟨elf, secs, h, _⟩
      exact Except.noConfusion h
  | ok elf =>
    simp only []
    cases h2 : elf.sections with
    | error e =>
      simp only []
      constructor
      · intro h
        exact Except.noConfusion h
      · rintro ⟨elf1, secs, h, h3, _⟩
        simp only [Except.ok.injEq] at h
        subst h
        rw [h2] at h3
        exact Except.noConfusion h3
    | ok secs =>
      simp only []
      rw [getZeBinSectionsDataLoop_ok]
      constructor
      · rintro ⟨l1, h3, h4⟩
        simp only [List.nil_append] at h3
        subst h3
        exact ⟨elf, secs, rfl, h2, h4⟩
      · rintro ⟨elf1, secs1, h, h3, h4⟩
        simp only [Except.ok.injEq] at h
        subst h
        rw [h2] at h3
        simp only [Except.ok.injEq] at h3
        subst h3
        exact ⟨l, by simp, h4⟩

theorem all_eq_headD (l : List Int) :
    l.all (fun SimdSize => decide (SimdSize = l.headD 0)) = true ↔ ∀ x ∈ l, x = l.headD 0 := by
  simp [List.all_eq_true]

/-- C14: `GetSIMDSizeFromZeBinary` returns the value `s` if and only if the binary can be read
and has exactly one `.ze_info` section, the section parses, the list of the SIMD sizes of its
kernels followed by its functions is not empty and every entry of the list is `s`; in every
other case it returns an error: the one of the reader of the binary, or the message for a
wrong number of sections, a section that does not parse, no kernel or function, or sizes
that are not uniform. -/
theorem GetSIMDSizeFromZeBinary_spec (env : Env) (bin : StringRef) :
    (∀ s, GetSIMDSizeFromZeBinary env bin = Except.ok s ↔
      ∃ elf secs sect info, env.createELFObjectFile bin = Except.ok elf ∧
        elf.sections = Except.ok secs ∧
        (secs.filter (fun Sect => decide (Sect.sh_type = SHT_ZEBIN.SHT_ZEBIN_ZEINFO))).map
          (fun Sect => Sect.contents) = [Except.ok sect] ∧
        env.readZeInfo sect = some info ∧
        (info.kernels.map (fun k => k.execution_env.simd_size) ++
          info.functions.map (fun f => f.execution_env.simd_size)) ≠ [] ∧
        ∀ x ∈ info.kernels.map (fun k => k.execution_env.simd_size) ++
          info.functions.map (fun f => f.execution_env.simd_size), x = s) ∧
    ((∀ s, GetSIMDSizeFromZeBinary env bin ≠ Except.ok s) →
      ∃ e, GetSIMDSizeFromZeBinary env bin = Except.error e) ∧
    (∀ e, getZeBinSectionsData env bin SHT_ZEBIN.SHT_ZEBIN_ZEINFO = Except.error e →
      GetSIMDSizeFromZeBinary env bin = Except.error e) ∧
    (∀ l, getZeBinSectionsData env bin SHT_ZEBIN.SHT_ZEBIN_ZEINFO = Except.ok l →
      l.length ≠ 1 → GetSIMDSizeFromZeBinary env bin =
        Except.error "ZEBinary expected to contain exactly one .ze_info section!") ∧
    (∀ sect, getZeBinSectionsData env bin SHT_ZEBIN.SHT_ZEBIN_ZEINFO = Except.ok [sect] →
      env.readZeInfo sect = none → GetSIMDSizeFromZeBinary env bin =
        Except.error "Failed to parse .ze_info section!") ∧
    (∀ sect info, getZeBinSectionsData env bin SHT_ZEBIN.SHT_ZEBIN_ZEINFO = Except.ok [sect] →
      env.readZeInfo sect = some info → SimdSizes info = [] →
      GetSIMDSizeFromZeBinary env bin =
        Except.error "Couldn't find any compiled kernel or function SIMD size!") ∧
    (∀ sect info x y, getZeBinSectionsData env bin SHT_ZEBIN.SHT_ZEBIN_ZEINFO = Except.ok [sect] →
      env.readZeInfo sect = some info → x ∈ SimdSizes info → y ∈ SimdSizes info → x ≠ y →
      GetSIMDSizeFromZeBinary env bin =
        Except.error "SIMD sizes in the module are not uniform!") := by
  refine ⟨?_, ?_, ?_, ?_, ?_, ?_, ?_⟩
  · intro s
    constructor
    · intro h
      unfold GetSIMDSizeFromZeBinary at h
      cases h1 : getZeBinSectionsData env bin SHT_ZEBIN.SHT_ZEBIN_ZEINFO with
      | error e =>
        rw [h1] at h
        exact Except.noConfusion h
      | ok l =>
        rw [h1] at h
        simp only [] at h
        by_cases hl : l.length ≠ 1
        · rw [if_pos hl] at h
          exact Except.noConfusion h
        · rw [if_neg hl] at h
          have hl1 : l.length = 1 := not_not.mp hl
          obtain ⟨sect, rfl⟩ := List.length_eq_one.mp hl1
          simp only [List.headD_cons] at h
          cases h2 : env.readZeInfo sect with
          | none =>
            rw [h2] at h
            exact Except.noConfusion h
          | some info =>
            rw [h2] at h
            simp only [] at h
            by_cases h3 : (SimdSizes info).length = 0
            · rw [if_pos h3] at h
              exact Except.noConfusion h
            · rw [if_neg h3] at h
              by_cases h4 : ¬ (SimdSizes info).all (fun SimdSize =>
                  decide (SimdSize = (SimdSizes info).headD 0)) = true
              · rw [if_pos h4] at h
                exact Except.noConfusion h
              · rw [if_neg h4] at h
                simp only [Except.ok.injEq] at h
                have h5 := (all_eq_headD _).mp (not_not.mp h4)
                obtain ⟨elf, secs, e1, e2, e3⟩ := (getZeBinSectionsData_ok _ _ _ _).mp h1
                refine ⟨elf, secs, sect, info, e1, e2, e3, h2, ?_, ?_⟩
                · intro h6
                  exact h3 (by rw [SimdSizes, h6]; rfl)
                · intro x hx
                  rw [← h]
                  exact h5 x hx
    · rintro ⟨elf, secs, sect, info, e1, e2, e3, h2, h3, h4⟩
      have h1 : getZeBinSectionsData env bin SHT_ZEBIN.SHT_ZEBIN_ZEINFO = Except.ok [sect] :=
        (getZeBinSectionsData_ok _ _ _ _).mpr ⟨elf, secs, e1, e2, e3⟩
      unfold GetSIMDSizeFromZeBinary
      rw [h1]
      simp only [List.length_singleton, ne_eq, not_true_eq_false, if_false, List.headD_cons, h2]
      have h5 : (SimdSizes info).length ≠ 0 := by
        intro h6
        exact h3 (List.length_eq_zero.mp h6)
      rw [if_neg h5]
      have h7 : (SimdSizes info).headD 0 = s := by
        cases h8 : SimdSizes info with
        | nil => exact absurd (by rw [h8]; rfl) h5
        | cons a t =>
          simp only [List.headD_cons]
          exact h4 a (by rw [← SimdSizes, h8]; exact List.mem_cons_self _ _)
      have h6 : (SimdSizes info).all (fun SimdSize =>
          decide (SimdSize = (SimdSizes info).headD 0)) = true := by
        rw [all_eq_headD]
        intro x hx
        rw [h7]
        exact h4 x hx
      rw [if_neg (not_not.mpr h6), h7]
  · intro h
    cases h1 : GetSIMDSizeFromZeBinary env bin with
    | error e => exact ⟨e, rfl⟩
    | ok s => exact absurd h1 (h s)
  · intro e h
    unfold GetSIMDSizeFromZeBinary
    rw [h]
  · intro l h hl
    unfold GetSIMDSizeFromZeBinary
    rw [h]
    simp only []
    rw [if_pos hl]
  · intro sect h h2
    unfold GetSIMDSizeFromZeBinary
    rw [h]
    simp only [List.length_singleton, ne_eq, not_true_eq_false, if_false, List.headD_cons, h2]
  · intro sect info h h2 h3
    unfold GetSIMDSizeFromZeBinary
    rw [h]
    simp only [List.length_singleton, ne_eq, not_true_eq_false, if_false, List.headD_cons, h2,
      h3, List.length_nil, if_true]
  · intro sect info x y h h2 hx hy hxy
    unfold GetSIMDSizeFromZeBinary
    rw [h]
    simp only [List.length_singleton, ne_eq, not_true_eq_false, if_false, List.headD_cons, h2]
    have h5 : (SimdSizes info).length ≠ 0 := by
      intro h6
      rw [List.length_eq_zero.mp h6] at hx
      exact List.not_mem_nil _ hx
    rw [if_neg h5]
    have h6 : ¬ (SimdSizes info).all (fun SimdSize =>
        decide (SimdSize = (SimdSizes info).headD 0)) = true := by
      rw [all_eq_headD]
      intro h7
      exact hxy ((h7 x hx).trans (h7 y hy).symm)
    rw [if_pos h6]

@[simp]
theorem TranslateResult.after_ret (c : Backend × STB_TranslateInputArgs) (r : TranslateResult) :
    (TranslateResult.after c r).ret = r.ret := rfl

@[simp]
theorem TranslateResult.after_outputArgs (c : Backend × STB_TranslateInputArgs)
    (r : TranslateResult) : (TranslateResult.after c r).outputArgs = r.outputArgs := rfl

@[simp]
theorem TranslateResult.after_errorMessage (c : Backend × STB_TranslateInputArgs)
    (r : TranslateResult) : (TranslateResult.after c r).errorMessage = r.errorMessage := rfl

@[simp]
theorem TranslateResult.after_compiled (c : Backend × STB_TranslateInputArgs)
    (r : TranslateResult) : (TranslateResult.after c r).compiled = c :: r.compiled := rfl

/-- A run of the loop that fails leaves `*pOutputArgs` alone and sets a message. -/
theorem translateModules_false (env : Env) (pOut : STB_TranslateOutputArgs) (err : String) :
    ∀ (mods : List SPVTranslationPair) (visa : List String) (z : Int),
      (translateModules env pOut err mods visa z).ret = false →
      (translateModules env pOut err mods visa z).outputArgs = pOut ∧
        (translateModules env pOut err mods visa z).errorMessage ≠ "" := by
  intro mods
  induction mods with
  | nil =>
    intro visa z h
    rw [translateModules] at h
    exact Bool.noConfusion h
  | cons m rest ih =>
    intro visa z h
    rcases translateModules_cons env pOut err m rest visa z with
      ⟨_, h1⟩ | ⟨options, _, ⟨_, msg, hm, h1⟩ | ⟨_, _, h1⟩ | ⟨_, _, msg, hm, h1⟩ |
        ⟨_, _, z1, V, _, _, h1⟩⟩
    · rw [h1]
      exact ⟨rfl, show ("Unsupported SPIR-V flavour detected!" : String) ≠ "" by decide⟩
    · rw [h1]
      exact ⟨rfl, hm⟩
    · rw [h1] at h
      exact Bool.noConfusion h
    · rw [h1]
      exact ⟨rfl, hm⟩
    · rw [h1] at h ⊢
      exact ih _ _ h

/-- A run of the loop that succeeds has compiled every module, each with success, and has
written the output of the last one. -/
theorem translateModules_true (env : Env) (pOut : STB_TranslateOutputArgs) (err : String) :
    ∀ (mods : List SPVTranslationPair) (visa : List String) (z : Int),
      (translateModules env pOut err mods visa z).ret = true → mods ≠ [] →
      (translateModules env pOut err mods visa z).compiled.length = mods.length ∧
        (∀ c ∈ (translateModules env pOut err mods visa z).compiled,
          (env.translate c.1 c.2 STB_TranslateOutputArgs.zero).1 = true) ∧
        (translateModules env pOut err mods visa z).errorMessage = err ∧
        ∃ c m, (translateModules env pOut err mods visa z).compiled.getLast? = some c ∧
          mods.getLast? = some m ∧ c.1 = backendOf m.1 ∧
          (∃ visa1 options, c.2 = NewInputArgs m.2 visa1 options) ∧
          (translateModules env pOut err mods visa z).outputArgs =
            (env.translate c.1 c.2 STB_TranslateOutputArgs.zero).2 := by
  intro mods
  induction mods with
  | nil =>
    intro visa z _ h
    exact absurd rfl h
  | cons m rest ih =>
    intro visa z h _
    rcases translateModules_cons env pOut err m rest visa z with
      ⟨_, h1⟩ | ⟨options, _, ⟨_, msg, hm, h1⟩ | ⟨hs, hr, h1⟩ | ⟨_, _, msg, hm, h1⟩ |
        ⟨hs, hr, z1, V, _, _, h1⟩⟩
    · rw [h1] at h
      exact Bool.noConfusion h
    · rw [h1] at h
      exact Bool.noConfusion h
    · rw [h1, hr]
      refine ⟨rfl, ?_, rfl, _, m, rfl, rfl, rfl, ⟨visa, options, rfl⟩, rfl⟩
      intro c hc
      simp only [List.mem_singleton] at hc
      rw [hc]
      exact hs
    · rw [h1] at h
      exact Bool.noConfusion h
    · rw [h1] at h ⊢
      obtain ⟨i1, i2, i3, c, m1, i4, i5, i6, i7, i8⟩ := ih (visa ++ V) z1 h hr
      refine ⟨by simp [i1], ?_, i3, c, m1, ?_, ?_, i6, i7, i8⟩
      · intro c1 hc1
        simp only [TranslateResult.after_compiled, List.mem_cons] at hc1
        rcases hc1 with hc1 | hc1
        · rw [hc1]
          exact hs
        · exact i2 c1 hc1
      · simp only [TranslateResult.after_compiled]
        cases hcomp : (translateModules env pOut err rest (visa ++ V) z1).compiled with
        | nil =>
          rw [hcomp] at i4
          exact Option.noConfusion i4
        | cons a t =>
          rw [hcomp] at i4
          rw [List.getLast?_cons_cons]
          exact i4
      · cases rest with
        | nil => exact absurd rfl hr
        | cons a t =>
          rw [List.getLast?_cons_cons]
          exact i5

/-- C15: the array overload of `TranslateBuildSPMDAndESIMD` writes `*pOutputArgs` only with
the output of the last module of `InputModules`, and only after every module was compiled
with success; whenever it returns false, `*pOutputArgs` is unchanged and `errorMessage` is not
empty. -/
theorem TranslateBuildSPMDAndESIMDArray_output (env : Env)
    (InputModules : List SPVTranslationPair) (pOutputArgs : STB_TranslateOutputArgs)
    (errorMessage : String) :
    ((TranslateBuildSPMDAndESIMDArray env InputModules pOutputArgs errorMessage).ret = false →
      (TranslateBuildSPMDAndESIMDArray env InputModules pOutputArgs errorMessage).outputArgs
          = pOutputArgs ∧
        (TranslateBuildSPMDAndESIMDArray env InputModules pOutputArgs
          errorMessage).errorMessage ≠ "") ∧
    ((TranslateBuildSPMDAndESIMDArray env InputModules pOutputArgs errorMessage).ret = true →
      InputModules = [] →
      (TranslateBuildSPMDAndESIMDArray env InputModules pOutputArgs errorMessage).outputArgs
          = pOutputArgs) ∧
    ((TranslateBuildSPMDAndESIMDArray env InputModules pOutputArgs errorMessage).ret = true →
      InputModules ≠ [] →
      (TranslateBuildSPMDAndESIMDArray env InputModules pOutputArgs
          errorMessage).compiled.length = InputModules.length ∧
        (∀ c ∈ (TranslateBuildSPMDAndESIMDArray env InputModules pOutputArgs
            errorMessage).compiled,
          (env.translate c.1 c.2 STB_TranslateOutputArgs.zero).1 = true) ∧
        ∃ c m, (TranslateBuildSPMDAndESIMDArray env InputModules pOutputArgs
            errorMessage).compiled.getLast? = some c ∧
          InputModules.getLast? = some m ∧ c.1 = backendOf m.1 ∧
          c.2.pInput = m.2.pInput ∧ c.2.InputSize = m.2.InputSize ∧
          c.2.pOptions = m.2.pOptions ∧
          (TranslateBuildSPMDAndESIMDArray env InputModules pOutputArgs
              errorMessage).outputArgs =
            (env.translate c.1 c.2 STB_TranslateOutputArgs.zero).2) := by
  unfold TranslateBuildSPMDAndESIMDArray
  by_cases hvc : env.IGC_VC_ENABLED = true
  · rw [if_pos hvc]
    refine ⟨translateModules_false env _ _ _ _ _, ?_, ?_⟩
    · intro _ h
      rw [h, translateModules]
    · intro h hne
      obtain ⟨i1, i2, _, c, m, i4, i5, i6, ⟨visa1, options, i7⟩, i8⟩ :=
        translateModules_true env _ _ _ _ _ h hne
      refine ⟨i1, i2, c, m, i4, i5, i6, ?_, ?_, ?_, i8⟩ <;> rw [i7] <;> rfl
  · rw [if_neg hvc]
    refine ⟨fun _ => ⟨rfl, ?_⟩, fun h => Bool.noConfusion h, fun h => Bool.noConfusion h⟩
    show ("Could not compile ESIMD part of SPIR-V module, as VC is not included in this build."
      : String) ≠ ""
    decide

/-- The calls of the backends follow the modules: the call at position `j` compiles the
module at position `j`, with the backend of its flavour and with its input and options. -/
theorem translateModules_get (env : Env) (pOut : STB_TranslateOutputArgs) (err : String) :
    ∀ (mods : List SPVTranslationPair) (visa : List String) (z : Int) (j : Nat)
      (c : Backend × STB_TranslateInputArgs),
      (translateModules env pOut err mods visa z).compiled.get? j = some c →
      ∃ m, mods.get? j = some m ∧ c.1 = backendOf m.1 ∧
        ∃ visa1 z1 options, NewInternalOptions m.1 m.2.pInternalOptions z1 = some options ∧
          c.2 = NewInputArgs m.2 visa1 options := by
  intro mods
  induction mods with
  | nil =>
    intro visa z j c h
    rw [translateModules] at h
    simp at h
  | cons m rest ih =>
    intro visa z j c h
    have hhead : ∀ options, NewInternalOptions m.1 m.2.pInternalOptions z = some options →
        ∀ c1, [(backendOf m.1, NewInputArgs m.2 visa options)].get? j = some c1 →
        ∃ m1, (m :: rest).get? j = some m1 ∧ c1.1 = backendOf m1.1 ∧
          ∃ visa1 z1 options, NewInternalOptions m1.1 m1.2.pInternalOptions z1 = some options ∧
            c1.2 = NewInputArgs m1.2 visa1 options := by
      intro options ho c1 hc1
      cases j with
      | zero =>
        simp only [List.get?_cons_zero, Option.some.injEq] at hc1
        subst hc1
        exact ⟨m, rfl, rfl, visa, z, options, ho, rfl⟩
      | succ j => simp at hc1
    rcases translateModules_cons env pOut err m rest visa z with
      ⟨_, h1⟩ | ⟨options, ho, ⟨_, msg, hm, h1⟩ | ⟨hs, hr, h1⟩ | ⟨_, _, msg, hm, h1⟩ |
        ⟨hs, hr, z1, V, _, _, h1⟩⟩
    · rw [h1] at h
      simp at h
    · rw [h1] at h
      exact hhead options ho c h
    · rw [h1] at h
      exact hhead options ho c h
    · rw [h1] at h
      exact hhead options ho c h
    · rw [h1] at h
      cases j with
      | zero =>
        simp only [TranslateResult.after_compiled, List.get?_cons_zero, Option.some.injEq] at h
        subst h
        exact ⟨m, rfl, rfl, visa, z, options, ho, rfl⟩
      | succ j =>
        simp only [TranslateResult.after_compiled, List.get?_cons_succ] at h
        obtain ⟨m1, e1, e2⟩ := ih _ _ j c h
        exact ⟨m1, by simpa using e1, e2⟩

theorem translateModules_length_le (env : Env) (pOut : STB_TranslateOutputArgs) (err : String)
    (mods : List SPVTranslationPair) (visa : List String) (z : Int) :
    (translateModules env pOut err mods visa z).compiled.length ≤ mods.length := by
  by_contra h
  have h1 : mods.length < (translateModules env pOut err mods visa z).compiled.length := by
    omega
  obtain ⟨c, hc⟩ : ∃ c, (translateModules env pOut err mods visa z).compiled.get? mods.length
      = some c := ⟨_, List.get?_eq_get h1⟩
  obtain ⟨m, hm, _⟩ := translateModules_get env pOut err mods visa z _ c hc
  rw [List.get?_eq_none.mpr (le_refl _)] at hm
  exact Option.noConfusion hm

/-- C13: on an input of the SPIR-V format, `TranslateBuildSPMDAndESIMD` returns the result of
the SPMD backend on the unmodified input when splitting fails or when the ESIMD part is empty
(the parts are asserted not to be both empty); when the SPMD part is empty it calls the VC
backend with the options extended by ` -vc-codegen`, or returns false with a message when VC
is not enabled; and only when both parts are non-empty does it compile two modules, the ESIMD
part first and the SPMD part second. -/
theorem TranslateBuildSPMDAndESIMD_dispatch (env : Env) (pInputArgs : STB_TranslateInputArgs)
    (pOutputArgs : STB_TranslateOutputArgs) (errorMessage : String) :
    (∀ e, env.SplitSPMDAndESIMD pInputArgs.pInput pInputArgs.InputSize = Except.error e →
      TranslateBuildSPMDAndESIMD env pInputArgs pOutputArgs
          TB_DATA_FORMAT.TB_DATA_FORMAT_SPIR_V errorMessage =
        Except.ok ⟨(env.TranslateBuildSPMD pInputArgs pOutputArgs).1,
          (env.TranslateBuildSPMD pInputArgs pOutputArgs).2, errorMessage,
          [(Backend.TranslateBuildSPMD, pInputArgs)]⟩) ∧
    (∀ spmdProg, env.SplitSPMDAndESIMD pInputArgs.pInput pInputArgs.InputSize =
        Except.ok (spmdProg, []) → spmdProg ≠ [] →
      TranslateBuildSPMDAndESIMD env pInputArgs pOutputArgs
          TB_DATA_FORMAT.TB_DATA_FORMAT_SPIR_V errorMessage =
        Except.ok ⟨(env.TranslateBuildSPMD pInputArgs pOutputArgs).1,
          (env.TranslateBuildSPMD pInputArgs pOutputArgs).2, errorMessage,
          [(Backend.TranslateBuildSPMD, pInputArgs)]⟩) ∧
    (∀ esimdProg, env.SplitSPMDAndESIMD pInputArgs.pInput pInputArgs.InputSize =
        Except.ok ([], esimdProg) → esimdProg ≠ [] → env.IGC_VC_ENABLED = true →
      TranslateBuildSPMDAndESIMD env pInputArgs pOutputArgs
          TB_DATA_FORMAT.TB_DATA_FORMAT_SPIR_V errorMessage =
        Except.ok ⟨(env.TranslateBuildVC { pInputArgs with
              pOptions := some (pInputArgs.pOptions.getD "" ++ " -vc-codegen")
              OptionsSize := (pInputArgs.pOptions.getD "" ++ " -vc-codegen").length }
            pOutputArgs).1,
          (env.TranslateBuildVC { pInputArgs with
              pOptions := some (pInputArgs.pOptions.getD "" ++ " -vc-codegen")
              OptionsSize := (pInputArgs.pOptions.getD "" ++ " -vc-codegen").length }
            pOutputArgs).2, errorMessage,
          [(Backend.TranslateBuildVC, { pInputArgs with
              pOptions := some (pInputArgs.pOptions.getD "" ++ " -vc-codegen")
              OptionsSize := (pInputArgs.pOptions.getD "" ++ " -vc-codegen").length })]⟩) ∧
    (∀ esimdProg, env.SplitSPMDAndESIMD pInputArgs.pInput pInputArgs.InputSize =
        Except.ok ([], esimdProg) → esimdProg ≠ [] → env.IGC_VC_ENABLED = false →
      ∃ msg, msg ≠ "" ∧
        TranslateBuildSPMDAndESIMD env pInputArgs pOutputArgs
            TB_DATA_FORMAT.TB_DATA_FORMAT_SPIR_V errorMessage =
          Except.ok ⟨false, pOutputArgs, msg, []⟩) ∧
    (∀ spmdProg esimdProg, env.SplitSPMDAndESIMD pInputArgs.pInput pInputArgs.InputSize =
        Except.ok (spmdProg, esimdProg) → spmdProg ≠ [] → esimdProg ≠ [] →
      TranslateBuildSPMDAndESIMD env pInputArgs pOutputArgs
          TB_DATA_FORMAT.TB_DATA_FORMAT_SPIR_V errorMessage =
        Except.ok (TranslateBuildSPMDAndESIMDArray env
          [(SPIRVTypeEnum.SPIRV_ESIMD, { pInputArgs with
              pInput := esimdProg
              InputSize := esimdProg.length * 4
              pOptions := some (pInputArgs.pOptions.getD "" ++ " -vc-codegen")
              OptionsSize := (pInputArgs.pOptions.getD "" ++ " -vc-codegen").length }),
            (SPIRVTypeEnum.SPIRV_SPMD, { pInputArgs with
              pInput := spmdProg
              InputSize := spmdProg.length * 4 })]
          pOutputArgs errorMessage)) ∧
    (∀ r, TranslateBuildSPMDAndESIMD env pInputArgs pOutputArgs
          TB_DATA_FORMAT.TB_DATA_FORMAT_SPIR_V errorMessage = Except.ok r →
      2 ≤ r.compiled.length →
      ∃ spmdProg esimdProg a b,
        env.SplitSPMDAndESIMD pInputArgs.pInput pInputArgs.InputSize =
          Except.ok (spmdProg, esimdProg) ∧ spmdProg ≠ [] ∧ esimdProg ≠ [] ∧
        r.compiled = [(Backend.TranslateBuildVC, a), (Backend.TranslateBuildSPMD, b)] ∧
        a.pInput = esimdProg ∧
        a.pOptions = some (pInputArgs.pOptions.getD "" ++ " -vc-codegen") ∧
        b.pInput = spmdProg ∧ b.pOptions = pInputArgs.pOptions) := by
  refine ⟨?_, ?_, ?_, ?_, ?_, ?_⟩
  · intro e h
    simp [TranslateBuildSPMDAndESIMD, h]
  · intro spmdProg h hne
    simp [TranslateBuildSPMDAndESIMD, h, hne]
  · intro esimdProg h hne hvc
    simp [TranslateBuildSPMDAndESIMD, h, hne, hvc]
  · intro esimdProg h hne hvc
    exact ⟨"ESIMD code detected, but VC not enabled in this build.", by decide,
      by simp [TranslateBuildSPMDAndESIMD, h, hne, hvc]⟩
  · intro spmdProg esimdProg h hs he
    simp [TranslateBuildSPMDAndESIMD, h, hs, he]
  · intro r h hlen
    unfold TranslateBuildSPMDAndESIMD at h
    simp only [ne_eq, not_true_eq_false, if_false] at h
    cases hsplit : env.SplitSPMDAndESIMD pInputArgs.pInput pInputArgs.InputSize with
    | error e =>
      rw [hsplit] at h
      simp only [Except.ok.injEq] at h
      rw [← h] at hlen
      simp at hlen
    | ok progs =>
      obtain ⟨spmdProg, esimdProg⟩ := progs
      rw [hsplit] at h
      simp only [] at h
      by_cases hboth : spmdProg = [] ∧ esimdProg = []
      · rw [if_pos hboth] at h
        exact Except.noConfusion h
      · rw [if_neg hboth] at h
        by_cases hs : spmdProg = []
        · rw [if_pos hs] at h
          by_cases hvc : env.IGC_VC_ENABLED = true
          · rw [if_pos hvc] at h
            simp only [Except.ok.injEq] at h
            rw [← h] at hlen
            simp at hlen
          · rw [if_neg hvc] at h
            simp only [Except.ok.injEq] at h
            rw [← h] at hlen
            simp at hlen
        · rw [if_neg hs] at h
          by_cases he : esimdProg = []
          · rw [if_pos he] at h
            simp only [Except.ok.injEq] at h
            rw [← h] at hlen
            simp at hlen
          · rw [if_neg he] at h
            simp only [Except.ok.injEq] at h
            subst h
            unfold TranslateBuildSPMDAndESIMDArray at hlen ⊢
            by_cases hvc : env.IGC_VC_ENABLED = true
            · rw [if_pos hvc] at hlen ⊢
              have hle := translateModules_length_le env pOutputArgs errorMessage
                [(SPIRVTypeEnum.SPIRV_ESIMD, { pInputArgs with
                    pInput := esimdProg
                    InputSize := esimdProg.length * 4
                    pOptions := some (pInputArgs.pOptions.getD "" ++ " -vc-codegen")
                    OptionsSize := (pInputArgs.pOptions.getD "" ++ " -vc-codegen").length }),
                  (SPIRVTypeEnum.SPIRV_SPMD, { pInputArgs with
                    pInput := spmdProg
                    InputSize := spmdProg.length * 4 })] [] 0
              have hget := translateModules_get env pOutputArgs errorMessage
                [(SPIRVTypeEnum.SPIRV_ESIMD, { pInputArgs with
                    pInput := esimdProg
                    InputSize := esimdProg.length * 4
                    pOptions := some (pInputArgs.pOptions.getD "" ++ " -vc-codegen")
                    OptionsSize := (pInputArgs.pOptions.getD "" ++ " -vc-codegen").length }),
                  (SPIRVTypeEnum.SPIRV_SPMD, { pInputArgs with
                    pInput := spmdProg
                    InputSize := spmdProg.length * 4 })] [] 0
              generalize (translateModules env pOutputArgs errorMessage
                [(SPIRVTypeEnum.SPIRV_ESIMD, { pInputArgs with
                    pInput := esimdProg
                    InputSize := esimdProg.length * 4
                    pOptions := some (pInputArgs.pOptions.getD "" ++ " -vc-codegen")
                    OptionsSize := (pInputArgs.pOptions.getD "" ++ " -vc-codegen").length }),
                  (SPIRVTypeEnum.SPIRV_SPMD, { pInputArgs with
                    pInput := spmdProg
                    InputSize := spmdProg.length * 4 })] [] 0).compiled = l at hle hget hlen ⊢
              match l, hle, hlen, hget with
              | [c0, c1], _, _, hget =>
                obtain ⟨m0, g0, b0, v0, z0, o0, _, a0⟩ := hget 0 c0 rfl
                obtain ⟨m1, g1, b1, v1, z1, o1, _, a1⟩ := hget 1 c1 rfl
                simp only [List.get?_cons_zero, Option.some.injEq] at g0
                simp only [List.get?_cons_succ, List.get?_cons_zero, Option.some.injEq] at g1
                subst g0
                subst g1
                refine ⟨spmdProg, esimdProg, c0.2, c1.2, rfl, hs, he, ?_, ?_, ?_, ?_, ?_⟩
                · have e0 : c0 = (Backend.TranslateBuildVC, c0.2) := Prod.ext b0 rfl
                  have e1 : c1 = (Backend.TranslateBuildSPMD, c1.2) := Prod.ext b1 rfl
                  rw [← e0, ← e1]
                · rw [a0]; rfl
                · rw [a0]; rfl
                · rw [a1]; rfl
                · rw [a1]; rfl
              | [], _, hlen, _ => simp at hlen
              | [_], _, hlen, _ => simp at hlen
              | _ :: _ :: _ :: _, hle, _, _ => simp at hle
            · rw [if_neg hvc] at hlen
              simp at hlen

theorem backendOf_eq_SPMD (flavour : SPIRVTypeEnum)
    (h : backendOf flavour = Backend.TranslateBuildSPMD) :
    flavour = SPIRVTypeEnum.SPIRV_SPMD := by
  unfold backendOf at h
  split at h
  · assumption
  · exact Backend.noConfusion h

theorem backendOf_eq_VC (flavour : SPIRVTypeEnum) (options : String) (p : Option String)
    (z : Int) (ho : NewInternalOptions flavour p z = some options)
    (h : backendOf flavour = Backend.TranslateBuildVC) :
    flavour = SPIRVTypeEnum.SPIRV_ESIMD := by
  cases flavour with
  | SPIRV_SPMD => exact Backend.noConfusion h
  | SPIRV_ESIMD => rfl
  | other v => exact Option.noConfusion ho

theorem updateSimdSize_SPMD (env : Env) (bin : StringRef) (z z1 : Int)
    (h : updateSimdSize env SPIRVTypeEnum.SPIRV_SPMD bin z = Except.ok z1) :
    ∃ s, GetSIMDSizeFromZeBinary env bin = Except.ok s ∧ (z = 0 → z1 = s) ∧
      (z ≠ 0 → z1 = z ∧ s = z) := by
  unfold updateSimdSize at h
  rw [if_pos rfl] at h
  cases hs : GetSIMDSizeFromZeBinary env bin with
  | error e =>
    rw [hs] at h
    exact Except.noConfusion h
  | ok s =>
    rw [hs] at h
    simp only [] at h
    refine ⟨s, rfl, ?_, ?_⟩
    · intro hz
      rw [if_neg (fun hc => hc.1 hz), if_pos hz] at h
      exact (Except.ok.inj h).symm
    · intro hz
      by_cases hzs : z ≠ s
      · rw [if_pos ⟨hz, hzs⟩] at h
        exact Except.noConfusion h
      · rw [if_neg (fun hc => hzs hc.2), if_neg hz] at h
        exact ⟨(Except.ok.inj h).symm, (not_not.mp hzs).symm⟩

theorem updateSimdSize_ESIMD (env : Env) (bin : StringRef) (z z1 : Int)
    (h : updateSimdSize env SPIRVTypeEnum.SPIRV_ESIMD bin z = Except.ok z1) : z1 = z := by
  unfold updateSimdSize at h
  rw [if_neg (by decide)] at h
  exact (Except.ok.inj h).symm

/-- Once `SimdSize` is not zero it stays: every later ESIMD module gets the option with this
size, and a later SPMD module, not the last, of another SIMD size makes the loop fail. -/
theorem translateModules_simd_set (env : Env) (pOut : STB_TranslateOutputArgs) (err : String) :
    ∀ (mods : List SPVTranslationPair) (visa : List String) (z : Int), z ≠ 0 →
      (∀ j b, (translateModules env pOut err mods visa z).compiled.get? j
          = some (Backend.TranslateBuildVC, b) →
        ∃ m, mods.get? j = some m ∧ b.pInternalOptions =
          some (m.2.pInternalOptions.getD "" ++ " -emit-zebin-visa-sections" ++
            " -binary-format=ze" ++ " -vc-interop-subgroup-size " ++ toString z)) ∧
      (∀ j c s1, j + 1 < mods.length →
        (translateModules env pOut err mods visa z).compiled.get? j
          = some (Backend.TranslateBuildSPMD, c) →
        env.simdSizeOfSPMD c = Except.ok s1 → s1 ≠ z →
        (translateModules env pOut err mods visa z).ret = false) := by
  intro mods
  induction mods with
  | nil =>
    intro visa z _
    rw [translateModules]
    exact ⟨fun j b h => by simp at h, fun j c s1 h => by simp at h⟩
  | cons m rest ih =>
    intro visa z hz
    have hhead0 : ∀ options b, NewInternalOptions m.1 m.2.pInternalOptions z = some options →
        (backendOf m.1, NewInputArgs m.2 visa options) = (Backend.TranslateBuildVC, b) →
        b.pInternalOptions =
          some (m.2.pInternalOptions.getD "" ++ " -emit-zebin-visa-sections" ++
            " -binary-format=ze" ++ " -vc-interop-subgroup-size " ++ toString z) := by
      intro options b ho hb
      have hb1 := (Prod.ext_iff.mp hb).1
      have hb2 := (Prod.ext_iff.mp hb).2
      simp only at hb1 hb2
      have hm := backendOf_eq_VC _ _ _ _ ho hb1
      rw [hm] at ho
      simp only [NewInternalOptions, ne_eq, hz, not_false_eq_true, if_true,
        Option.some.injEq] at ho
      rw [← hb2, ← ho]
      rfl
    have hhead : ∀ options, NewInternalOptions m.1 m.2.pInternalOptions z = some options →
        ∀ j b, [(backendOf m.1, NewInputArgs m.2 visa options)].get? j
          = some (Backend.TranslateBuildVC, b) →
        ∃ m1, (m :: rest).get? j = some m1 ∧ b.pInternalOptions =
          some (m1.2.pInternalOptions.getD "" ++ " -emit-zebin-visa-sections" ++
            " -binary-format=ze" ++ " -vc-interop-subgroup-size " ++ toString z) := by
      intro options ho j b hb
      cases j with
      | zero =>
        simp only [List.get?_cons_zero, Option.some.injEq] at hb
        exact ⟨m, rfl, hhead0 options b ho hb⟩
      | succ j => simp at hb
    rcases translateModules_cons env pOut err m rest visa z with
      ⟨_, h1⟩ | ⟨options, ho, ⟨_, msg, hm, h1⟩ | ⟨hs, hr, h1⟩ | ⟨_, _, msg, hm, h1⟩ |
        ⟨hs, hr, z1, V, hu, _, h1⟩⟩
    · rw [h1]
      exact ⟨fun j b h => by simp at h, fun _ _ _ _ _ _ _ => rfl⟩
    · rw [h1]
      exact ⟨hhead options ho, fun _ _ _ _ _ _ _ => rfl⟩
    · rw [h1]
      refine ⟨hhead options ho, ?_⟩
      intro j c s1 hj
      rw [hr] at hj
      simp at hj
    · rw [h1]
      exact ⟨hhead options ho, fun _ _ _ _ _ _ _ => rfl⟩
    · rw [h1]
      have hz1 : z1 = z := by
        rcases (show m.1 = SPIRVTypeEnum.SPIRV_SPMD ∨ m.1 = SPIRVTypeEnum.SPIRV_ESIMD by
          cases hm1 : m.1 with
          | SPIRV_SPMD => exact Or.inl rfl
          | SPIRV_ESIMD => exact Or.inr rfl
          | other v =>
            rw [hm1] at ho
            exact Option.noConfusion ho) with hm1 | hm1
        · rw [hm1] at hu
          obtain ⟨s, _, _, h3⟩ := updateSimdSize_SPMD _ _ _ _ hu
          exact (h3 hz).1
        · rw [hm1] at hu
          exact updateSimdSize_ESIMD _ _ _ _ hu
      subst hz1
      obtain ⟨ih1, ih2⟩ := ih (visa ++ V) z1 hz
      constructor
      · intro j b hb
        cases j with
        | zero =>
          simp only [TranslateResult.after_compiled, List.get?_cons_zero,
            Option.some.injEq] at hb
          exact ⟨m, rfl, hhead0 options b ho hb⟩
        | succ j =>
          simp only [TranslateResult.after_compiled, List.get?_cons_succ] at hb
          obtain ⟨m1, e1, e2⟩ := ih1 j b hb
          exact ⟨m1, by simpa using e1, e2⟩
      · intro j c s1 hj hc hs1 hne
        cases j with
        | zero =>
          exfalso
          simp only [TranslateResult.after_compiled, List.get?_cons_zero,
            Option.some.injEq] at hc
          have hb1 := (Prod.ext_iff.mp hc).1
          have hb2 := (Prod.ext_iff.mp hc).2
          simp only at hb1 hb2
          have hm1 := backendOf_eq_SPMD _ hb1
          rw [hm1] at hu
          obtain ⟨s, h2, _, h3⟩ := updateSimdSize_SPMD _ _ _ _ hu
          rw [← hb2] at hs1
          have h4 : env.simdSizeOfSPMD (NewInputArgs m.2 visa options) = Except.ok s := h2
          rw [hs1] at h4
          exact hne ((Except.ok.inj h4).trans (h3 hz).2)
        | succ j =>
          simp only [TranslateResult.after_compiled, List.get?_cons_succ] at hc
          simp only [TranslateResult.after_ret]
          exact ih2 j c s1 (by simpa using hj) hc hs1 hne

/-- While `SimdSize` is zero: up to the first SPMD module whose output has a SIMD size other
than zero the ESIMD modules get no subgroup size; after it the size is set. -/
theorem translateModules_simd_unset (env : Env) (pOut : STB_TranslateOutputArgs)
    (err : String) :
    ∀ (mods : List SPVTranslationPair) (visa : List String) (i : Nat)
      (a : STB_TranslateInputArgs) (s : Int),
      (translateModules env pOut err mods visa 0).compiled.get? i
        = some (Backend.TranslateBuildSPMD, a) →
      env.simdSizeOfSPMD a = Except.ok s → s ≠ 0 →
      (∀ k b, k < i → (translateModules env pOut err mods visa 0).compiled.get? k
          = some (Backend.TranslateBuildSPMD, b) → env.simdSizeOfSPMD b = Except.ok 0) →
      (∀ j b, i < j → (translateModules env pOut err mods visa 0).compiled.get? j
          = some (Backend.TranslateBuildVC, b) →
        ∃ m, mods.get? j = some m ∧ b.pInternalOptions =
          some (m.2.pInternalOptions.getD "" ++ " -emit-zebin-visa-sections" ++
            " -binary-format=ze" ++ " -vc-interop-subgroup-size " ++ toString s)) ∧
      (∀ j b, j < i → (translateModules env pOut err mods visa 0).compiled.get? j
          = some (Backend.TranslateBuildVC, b) →
        ∃ m, mods.get? j = some m ∧ b.pInternalOptions =
          some (m.2.pInternalOptions.getD "" ++ " -emit-zebin-visa-sections" ++
            " -binary-format=ze")) ∧
      (∀ j c s1, i < j → j + 1 < mods.length →
        (translateModules env pOut err mods visa 0).compiled.get? j
          = some (Backend.TranslateBuildSPMD, c) →
        env.simdSizeOfSPMD c = Except.ok s1 → s1 ≠ s →
        (translateModules env pOut err mods visa 0).ret = false) := by
  intro mods
  induction mods with
  | nil =>
    intro visa i a s h
    rw [translateModules] at h
    simp at h
  | cons m rest ih =>
    intro visa i a s hi hs hs0 hbefore
    have hshort : ∀ (c0 : Backend × STB_TranslateInputArgs) (j : Nat)
        (x : Backend × STB_TranslateInputArgs), [c0].get? j = some x → j = 0 := by
      intro c0 j x hx
      cases j with
      | zero => rfl
      | succ j => simp at hx
    have hhead0 : ∀ options b, NewInternalOptions m.1 m.2.pInternalOptions 0 = some options →
        (backendOf m.1, NewInputArgs m.2 visa options) = (Backend.TranslateBuildVC, b) →
        b.pInternalOptions =
          some (m.2.pInternalOptions.getD "" ++ " -emit-zebin-visa-sections" ++
            " -binary-format=ze") := by
      intro options b ho hb
      have hb1 := (Prod.ext_iff.mp hb).1
      have hb2 := (Prod.ext_iff.mp hb).2
      simp only at hb1 hb2
      have hm := backendOf_eq_VC _ _ _ _ ho hb1
      rw [hm] at ho
      simp only [NewInternalOptions, ne_eq, not_true_eq_false, if_false,
        Option.some.injEq] at ho
      rw [← hb2, ← ho]
      rfl
    -- the cases in which the loop stops at this module
    have hstop : ∀ (r : TranslateResult) (options : String),
        NewInternalOptions m.1 m.2.pInternalOptions 0 = some options →
        translateModules env pOut err (m :: rest) visa 0 = r →
        r.compiled = [(backendOf m.1, NewInputArgs m.2 visa options)] →
        (r.ret = true → rest = []) →
        (∀ j b, i < j → r.compiled.get? j = some (Backend.TranslateBuildVC, b) →
          ∃ m1, (m :: rest).get? j = some m1 ∧ b.pInternalOptions =
            some (m1.2.pInternalOptions.getD "" ++ " -emit-zebin-visa-sections" ++
              " -binary-format=ze" ++ " -vc-interop-subgroup-size " ++ toString s)) ∧
        (∀ j b, j < i → r.compiled.get? j = some (Backend.TranslateBuildVC, b) →
          ∃ m1, (m :: rest).get? j = some m1 ∧ b.pInternalOptions =
            some (m1.2.pInternalOptions.getD "" ++ " -emit-zebin-visa-sections" ++
              " -binary-format=ze")) ∧
        (∀ j c s1, i < j → j + 1 < (m :: rest).length →
          r.compiled.get? j = some (Backend.TranslateBuildSPMD, c) →
          env.simdSizeOfSPMD c = Except.ok s1 → s1 ≠ s → r.ret = false) := by
      intro r options ho _ hc hret
      rw [hc]
      refine ⟨?_, ?_, ?_⟩
      · intro j b hij hb
        have := hshort _ j _ hb
        omega
      · intro j b hji hb
        have hj := hshort _ j _ hb
        subst hj
        simp only [List.get?_cons_zero, Option.some.injEq] at hb
        exact ⟨m, rfl, hhead0 options b ho hb⟩
      · intro j c s1 hij _ hb
        have := hshort _ j _ hb
        omega
    rcases translateModules_cons env pOut err m rest visa 0 with
      ⟨_, h1⟩ | ⟨options, ho, ⟨_, msg, hm, h1⟩ | ⟨hsucc, hr, h1⟩ | ⟨_, _, msg, hm, h1⟩ |
        ⟨hsucc, hr, z1, V, hu, _, h1⟩⟩
    · rw [h1] at hi
      simp at hi
    · exact hstop _ options ho rfl (by rw [h1]) (by rw [h1]; intro h; exact Bool.noConfusion h)
    · exact hstop _ options ho rfl (by rw [h1]) (by rw [h1]; intro _; exact hr)
    · exact hstop _ options ho rfl (by rw [h1]) (by rw [h1]; intro h; exact Bool.noConfusion h)
    · rw [h1] at hi hbefore ⊢
      simp only [TranslateResult.after_compiled, TranslateResult.after_ret] at hi hbefore ⊢
      cases i with
      | zero =>
        simp only [List.get?_cons_zero, Option.some.injEq] at hi
        have hb1 := (Prod.ext_iff.mp hi).1
        have hb2 := (Prod.ext_iff.mp hi).2
        simp only at hb1 hb2
        have hm1 := backendOf_eq_SPMD _ hb1
        rw [hm1] at hu
        obtain ⟨s2, h2, h3, _⟩ := updateSimdSize_SPMD _ _ _ _ hu
        rw [← hb2] at hs
        have h4 : env.simdSizeOfSPMD (NewInputArgs m.2 visa options) = Except.ok s2 := h2
        rw [hs] at h4
        have hz1 : z1 = s := (h3 rfl).trans (Except.ok.inj h4).symm
        subst hz1
        obtain ⟨A1, A2⟩ := translateModules_simd_set env pOut err rest (visa ++ V) z1 hs0
        refine ⟨?_, ?_, ?_⟩
        · intro j b hij hb
          cases j with
          | zero => omega
          | succ j =>
            simp only [List.get?_cons_succ] at hb
            obtain ⟨m1, e1, e2⟩ := A1 j b hb
            exact ⟨m1, by simpa using e1, e2⟩
        · intro j b hji
          omega
        · intro j c s1 hij hj hc hs1 hne
          cases j with
          | zero => omega
          | succ j =>
            simp only [List.get?_cons_succ] at hc
            exact A2 j c s1 (by simpa using hj) hc hs1 hne
      | succ i =>
        simp only [List.get?_cons_succ] at hi
        have hz1 : z1 = 0 := by
          rcases (show m.1 = SPIRVTypeEnum.SPIRV_SPMD ∨ m.1 = SPIRVTypeEnum.SPIRV_ESIMD by
            cases hm1 : m.1 with
            | SPIRV_SPMD => exact Or.inl rfl
            | SPIRV_ESIMD => exact Or.inr rfl
            | other v =>
              rw [hm1] at ho
              exact Option.noConfusion ho) with hm1 | hm1
          · have h0 := hbefore 0 (NewInputArgs m.2 visa options) (Nat.succ_pos _)
              (by rw [hm1]; rfl)
            rw [hm1] at hu
            obtain ⟨s2, h2, h3, _⟩ := updateSimdSize_SPMD _ _ _ _ hu
            have h4 : env.simdSizeOfSPMD (NewInputArgs m.2 visa options) = Except.ok s2 := h2
            rw [h0] at h4
            exact (h3 rfl).trans (Except.ok.inj h4).symm
          · rw [hm1] at hu
            exact updateSimdSize_ESIMD _ _ _ _ hu
        subst hz1
        obtain ⟨B1, B2, B3⟩ := ih (visa ++ V) i a s hi hs hs0
          (fun k b hk hb => hbefore (k + 1) b (by omega) (by simpa using hb))
        refine ⟨?_, ?_, ?_⟩
        · intro j b hij hb
          cases j with
          | zero => omega
          | succ j =>
            simp only [List.get?_cons_succ] at hb
            obtain ⟨m1, e1, e2⟩ := B1 j b (by omega) hb
            exact ⟨m1, by simpa using e1, e2⟩
        · intro j b hji hb
          cases j with
          | zero =>
            simp only [List.get?_cons_zero, Option.some.injEq] at hb
            exact ⟨m, rfl, hhead0 options b ho hb⟩
          | succ j =>
            simp only [List.get?_cons_succ] at hb
            obtain ⟨m1, e1, e2⟩ := B2 j b (by omega) hb
            exact ⟨m1, by simpa using e1, e2⟩
        · intro j c s1 hij hj hc hs1 hne
          cases j with
          | zero => omega
          | succ j =>
            simp only [List.get?_cons_succ] at hc
            exact B3 j c s1 (by omega) (by simpa using hj) hc hs1 hne

/-- While `SimdSize` is zero, an ESIMD module gets no subgroup size: this is so for every
ESIMD module that is compiled before any SPMD module whose output has a SIMD size other than
zero. -/
theorem translateModules_simd_zero (env : Env) (pOut : STB_TranslateOutputArgs)
    (err : String) :
    ∀ (mods : List SPVTranslationPair) (visa : List String) (j : Nat)
      (b : STB_TranslateInputArgs),
      (translateModules env pOut err mods visa 0).compiled.get? j
        = some (Backend.TranslateBuildVC, b) →
      (∀ k c, k < j → (translateModules env pOut err mods visa 0).compiled.get? k
          = some (Backend.TranslateBuildSPMD, c) → env.simdSizeOfSPMD c = Except.ok 0) →
      ∃ m, mods.get? j = some m ∧ b.pInternalOptions =
        some (m.2.pInternalOptions.getD "" ++ " -emit-zebin-visa-sections" ++
          " -binary-format=ze") := by
  intro mods
  induction mods with
  | nil =>
    intro visa j b h
    rw [translateModules] at h
    simp at h
  | cons m rest ih =>
    intro visa j b hj hbefore
    have hhead0 : ∀ options b, NewInternalOptions m.1 m.2.pInternalOptions 0 = some options →
        (backendOf m.1, NewInputArgs m.2 visa options) = (Backend.TranslateBuildVC, b) →
        b.pInternalOptions =
          some (m.2.pInternalOptions.getD "" ++ " -emit-zebin-visa-sections" ++
            " -binary-format=ze") := by
      intro options b ho hb
      have hb1 := (Prod.ext_iff.mp hb).1
      have hb2 := (Prod.ext_iff.mp hb).2
      simp only at hb1 hb2
      have hm := backendOf_eq_VC _ _ _ _ ho hb1
      rw [hm] at ho
      simp only [NewInternalOptions, ne_eq, not_true_eq_false, if_false,
        Option.some.injEq] at ho
      rw [← hb2, ← ho]
      rfl
    have hstop : ∀ (options : String),
        NewInternalOptions m.1 m.2.pInternalOptions 0 = some options →
        [(backendOf m.1, NewInputArgs m.2 visa options)].get? j
          = some (Backend.TranslateBuildVC, b) →
        ∃ m1, (m :: rest).get? j = some m1 ∧ b.pInternalOptions =
          some (m1.2.pInternalOptions.getD "" ++ " -emit-zebin-visa-sections" ++
            " -binary-format=ze") := by
      intro options ho hb
      cases j with
      | zero =>
        simp only [List.get?_cons_zero, Option.some.injEq] at hb
        exact ⟨m, rfl, hhead0 options b ho hb⟩
      | succ j => simp at hb
    rcases translateModules_cons env pOut err m rest visa 0 with
      ⟨_, h1⟩ | ⟨options, ho, ⟨_, msg, hm, h1⟩ | ⟨hsucc, hr, h1⟩ | ⟨_, _, msg, hm, h1⟩ |
        ⟨hsucc, hr, z1, V, hu, _, h1⟩⟩
    · rw [h1] at hj
      simp at hj
    · rw [h1] at hj
      exact hstop options ho hj
    · rw [h1] at hj
      exact hstop options ho hj
    · rw [h1] at hj
      exact hstop options ho hj
    · rw [h1] at hj hbefore
      simp only [TranslateResult.after_compiled] at hj hbefore
      cases j with
      | zero =>
        simp only [List.get?_cons_zero, Option.some.injEq] at hj
        exact ⟨m, rfl, hhead0 options b ho hj⟩
      | succ j =>
        simp only [List.get?_cons_succ] at hj
        have hz1 : z1 = 0 := by
          rcases (show m.1 = SPIRVTypeEnum.SPIRV_SPMD ∨ m.1 = SPIRVTypeEnum.SPIRV_ESIMD by
            cases hm1 : m.1 with
            | SPIRV_SPMD => exact Or.inl rfl
            | SPIRV_ESIMD => exact Or.inr rfl
            | other v =>
              rw [hm1] at ho
              exact Option.noConfusion ho) with hm1 | hm1
          · have h0 := hbefore 0 (NewInputArgs m.2 visa options) (Nat.succ_pos _)
              (by rw [hm1]; rfl)
            rw [hm1] at hu
            obtain ⟨s2, h2, h3, _⟩ := updateSimdSize_SPMD _ _ _ _ hu
            have h4 : env.simdSizeOfSPMD (NewInputArgs m.2 visa options) = Except.ok s2 := h2
            rw [h0] at h4
            exact (h3 rfl).trans (Except.ok.inj h4).symm
          · rw [hm1] at hu
            exact updateSimdSize_ESIMD _ _ _ _ hu
        subst hz1
        obtain ⟨m1, e1, e2⟩ := ih (visa ++ V) j b hj
          (fun k c hk hc => hbefore (k + 1) c (by omega) (by simpa using hc))
        exact ⟨m1, by simpa using e1, e2⟩

/-- The SIMD size of the first SPMD module is handed on: let the SPMD module compiled at
position `i` be the first one whose output has a SIMD size `s` (a value other than the 0 that
stands for "not set").  Then every ESIMD module compiled after it gets
` -vc-interop-subgroup-size s` appended to its internal options, every ESIMD module compiled
before it (while `SimdSize` is still 0) gets no such option, and a later SPMD module, not the
last one, whose SIMD size differs from `s` makes the function return false. -/
theorem TranslateBuildSPMDAndESIMDArray_simd_size (env : Env)
    (InputModules : List SPVTranslationPair) (pOutputArgs : STB_TranslateOutputArgs)
    (errorMessage : String) (i : Nat) (a : STB_TranslateInputArgs) (s : Int)
    (hi : (TranslateBuildSPMDAndESIMDArray env InputModules pOutputArgs
      errorMessage).compiled.get? i = some (Backend.TranslateBuildSPMD, a))
    (hs : env.simdSizeOfSPMD a = Except.ok s) (hs0 : s ≠ 0)
    (hbefore : ∀ k b, k < i →
      (TranslateBuildSPMDAndESIMDArray env InputModules pOutputArgs
        errorMessage).compiled.get? k = some (Backend.TranslateBuildSPMD, b) →
      env.simdSizeOfSPMD b = Except.ok 0) :
    (∀ j b, i < j →
      (TranslateBuildSPMDAndESIMDArray env InputModules pOutputArgs
        errorMessage).compiled.get? j = some (Backend.TranslateBuildVC, b) →
      ∃ m, InputModules.get? j = some m ∧ b.pInternalOptions =
        some (m.2.pInternalOptions.getD "" ++ " -emit-zebin-visa-sections" ++
          " -binary-format=ze" ++ " -vc-interop-subgroup-size " ++ toString s)) ∧
    (∀ j b, j < i →
      (TranslateBuildSPMDAndESIMDArray env InputModules pOutputArgs
        errorMessage).compiled.get? j = some (Backend.TranslateBuildVC, b) →
      ∃ m, InputModules.get? j = some m ∧ b.pInternalOptions =
        some (m.2.pInternalOptions.getD "" ++ " -emit-zebin-visa-sections" ++
          " -binary-format=ze")) ∧
    (∀ j c s1, i < j → j + 1 < InputModules.length →
      (TranslateBuildSPMDAndESIMDArray env InputModules pOutputArgs
        errorMessage).compiled.get? j = some (Backend.TranslateBuildSPMD, c) →
      env.simdSizeOfSPMD c = Except.ok s1 → s1 ≠ s →
      (TranslateBuildSPMDAndESIMDArray env InputModules pOutputArgs
        errorMessage).ret = false) := by
  unfold TranslateBuildSPMDAndESIMDArray at hi hbefore ⊢
  by_cases hvc : env.IGC_VC_ENABLED = true
  · rw [if_pos hvc] at hi hbefore ⊢
    exact translateModules_simd_unset env pOutputArgs errorMessage InputModules [] i a s hi hs
      hs0 hbefore
  · rw [if_neg hvc] at hi
    simp at hi

/-- An SPMD module of SIMD size 16 followed by an ESIMD module and one more module: the ESIMD
module is compiled with the subgroup size 16. -/
theorem TranslateBuildSPMDAndESIMDArray_simd_size_witness :
    ∃ m, [(SPIRVTypeEnum.SPIRV_SPMD, (⟨[1], 1, none, 0, none, 0, none, 0⟩ :
          STB_TranslateInputArgs)),
        (SPIRVTypeEnum.SPIRV_ESIMD, ⟨[2], 1, none, 0, some "-x", 2, none, 0⟩),
        (SPIRVTypeEnum.SPIRV_SPMD, ⟨[3], 1, none, 0, none, 0, none, 0⟩)].get? 1 = some m ∧
      (NewInputArgs ⟨[2], 1, none, 0, some "-x", 2, none, 0⟩ ["visaasm"]
        "-x -emit-zebin-visa-sections -binary-format=ze -vc-interop-subgroup-size 16"
        ).pInternalOptions =
        some (m.2.pInternalOptions.getD "" ++ " -emit-zebin-visa-sections" ++
          " -binary-format=ze" ++ " -vc-interop-subgroup-size " ++ toString (16 : Int)) :=
  (TranslateBuildSPMDAndESIMDArray_simd_size exampleEnv
    [(SPIRVTypeEnum.SPIRV_SPMD, ⟨[1], 1, none, 0, none, 0, none, 0⟩),
      (SPIRVTypeEnum.SPIRV_ESIMD, ⟨[2], 1, none, 0, some "-x", 2, none, 0⟩),
      (SPIRVTypeEnum.SPIRV_SPMD, ⟨[3], 1, none, 0, none, 0, none, 0⟩)]
    STB_TranslateOutputArgs.zero "" 0
    (NewInputArgs ⟨[1], 1, none, 0, none, 0, none, 0⟩ [] " -ze-emit-zebin-visa-sections")
    16 (by decide) (by decide) (by decide) (fun k b hk => absurd hk (Nat.not_lt_zero k))).1 1
    (NewInputArgs ⟨[2], 1, none, 0, some "-x", 2, none, 0⟩ ["visaasm"]
      "-x -emit-zebin-visa-sections -binary-format=ze -vc-interop-subgroup-size 16")
    (by decide) (by decide)

/-- An ESIMD module that is compiled while `SimdSize` is still 0, that is, before any SPMD
module whose output has a SIMD size (other than the value 0 that stands for "not set"), gets
no ` -vc-interop-subgroup-size` option: its internal options are the ones of the module with
` -emit-zebin-visa-sections -binary-format=ze` appended.  This holds in particular when no
SPMD module was compiled before it. -/
theorem TranslateBuildSPMDAndESIMDArray_simd_unset (env : Env)
    (InputModules : List SPVTranslationPair) (pOutputArgs : STB_TranslateOutputArgs)
    (errorMessage : String) (j : Nat) (b : STB_TranslateInputArgs)
    (hj : (TranslateBuildSPMDAndESIMDArray env InputModules pOutputArgs
      errorMessage).compiled.get? j = some (Backend.TranslateBuildVC, b))
    (hbefore : ∀ k c, k < j →
      (TranslateBuildSPMDAndESIMDArray env InputModules pOutputArgs
        errorMessage).compiled.get? k = some (Backend.TranslateBuildSPMD, c) →
      env.simdSizeOfSPMD c = Except.ok 0) :
    ∃ m, InputModules.get? j = some m ∧ b.pInternalOptions =
      some (m.2.pInternalOptions.getD "" ++ " -emit-zebin-visa-sections" ++
        " -binary-format=ze") := by
  unfold TranslateBuildSPMDAndESIMDArray at hj hbefore
  by_cases hvc : env.IGC_VC_ENABLED = true
  · rw [if_pos hvc] at hj hbefore
    exact translateModules_simd_zero env pOutputArgs errorMessage InputModules [] j b hj hbefore
  · rw [if_neg hvc] at hj
    simp at hj

/-- An ESIMD module alone: it is compiled without a subgroup size. -/
theorem TranslateBuildSPMDAndESIMDArray_simd_unset_witness :
    ∃ m, [(SPIRVTypeEnum.SPIRV_ESIMD, (⟨[2], 1, none, 0, some "-x", 2, none, 0⟩ :
          STB_TranslateInputArgs))].get? 0 = some m ∧
      (NewInputArgs ⟨[2], 1, none, 0, some "-x", 2, none, 0⟩ []
        "-x -emit-zebin-visa-sections -binary-format=ze").pInternalOptions =
        some (m.2.pInternalOptions.getD "" ++ " -emit-zebin-visa-sections" ++
          " -binary-format=ze") :=
  TranslateBuildSPMDAndESIMDArray_simd_unset exampleEnv
    [(SPIRVTypeEnum.SPIRV_ESIMD, ⟨[2], 1, none, 0, some "-x", 2, none, 0⟩)]
    STB_TranslateOutputArgs.zero "" 0
    (NewInputArgs ⟨[2], 1, none, 0, some "-x", 2, none, 0⟩ []
      "-x -emit-zebin-visa-sections -binary-format=ze")
    (by decide) (fun k c hk => absurd hk (Nat.not_lt_zero k))

end VLD

namespace ScalarArgAsPointer

/-! ## The search for the alloca behind a pointer -/

theorem Function.asInstruction_some (F : Function) (V : Value) (id : Nat) (I : Instruction)
    (h : F.asInstruction V = some (id, I)) :
    V = Value.instruction id ∧ F.body.get? id = some I ∧ id < F.body.length := by
  cases V with
  | instruction j =>
    simp only [Function.asInstruction, Option.map_eq_some', Prod.mk.injEq] at h
    obtain ⟨I1, h1, h2, h3⟩ := h
    subst h2
    subst h3
    exact ⟨rfl, h1, (List.get?_eq_some.mp h1).1⟩
  | argument a => exact Option.noConfusion h
  | constantInt c => exact Option.noConfusion h
  | other t => exact Option.noConfusion h

/-- The ways in which one iteration of the loop of `findAllocaWithOffset` can go. -/
theorem findAllocaWithOffsetStep_cases (F : Function) (tmp : Value) (outAI : Option Nat)
    (outGEPI : Option (Nat × GetElementPtrInst)) :
    (∃ id src type, F.asInstruction tmp = some (id, ⟨InstKind.bitCast src, type⟩) ∧
      findAllocaWithOffsetStep F tmp outAI outGEPI = Sum.inr (src, outGEPI)) ∨
    (∃ id gep type, F.asInstruction tmp = some (id, ⟨InstKind.getElementPtr gep, type⟩) ∧
      outGEPI.isSome = true ∧
      findAllocaWithOffsetStep F tmp outAI outGEPI = Sum.inl (false, outAI, outGEPI)) ∨
    (∃ id gep type, F.asInstruction tmp = some (id, ⟨InstKind.getElementPtr gep, type⟩) ∧
      outGEPI = none ∧
      findAllocaWithOffsetStep F tmp outAI outGEPI =
        Sum.inr (gep.pointerOperand, some (id, gep))) ∨
    (∃ id arraySize type, F.asInstruction tmp = some (id, ⟨InstKind.alloca arraySize, type⟩) ∧
      findAllocaWithOffsetStep F tmp outAI outGEPI = Sum.inl (true, some id, outGEPI)) ∨
    ((∀ id src type, F.asInstruction tmp ≠ some (id, ⟨InstKind.bitCast src, type⟩)) ∧
      (∀ id gep type, F.asInstruction tmp ≠ some (id, ⟨InstKind.getElementPtr gep, type⟩)) ∧
      (∀ id arraySize type,
        F.asInstruction tmp ≠ some (id, ⟨InstKind.alloca arraySize, type⟩)) ∧
      findAllocaWithOffsetStep F tmp outAI outGEPI = Sum.inl (false, outAI, outGEPI)) := by
  unfold findAllocaWithOffsetStep
  cases h : F.asInstruction tmp with
  | none =>
    right; right; right; right
    exact ⟨fun _ _ _ hc => Option.noConfusion hc, fun _ _ _ hc => Option.noConfusion hc,
      fun _ _ _ hc => Option.noConfusion hc, rfl⟩
  | some x =>
    obtain ⟨id, kind, type⟩ := x
    cases kind with
    | bitCast src => exact Or.inl ⟨id, src, type, rfl, rfl⟩
    | getElementPtr gep =>
      cases hg : outGEPI with
      | none => exact Or.inr (Or.inr (Or.inl ⟨id, gep, type, rfl, rfl, rfl⟩))
      | some g => exact Or.inr (Or.inl ⟨id, gep, type, rfl, rfl, rfl⟩)
    | alloca arraySize => exact Or.inr (Or.inr (Or.inr (Or.inl ⟨id, arraySize, type, rfl, rfl⟩)))
    | load p =>
      right; right; right; right
      refine ⟨?_, ?_, ?_, rfl⟩ <;> intro _ _ _ hc <;> simp at hc
    | store v p =>
      right; right; right; right
      refine ⟨?_, ?_, ?_, rfl⟩ <;> intro _ _ _ hc <;> simp at hc
    | call b ops =>
      right; right; right; right
      refine ⟨?_, ?_, ?_, rfl⟩ <;> intro _ _ _ hc <;> simp at hc
    | other ops =>
      right; right; right; right
      refine ⟨?_, ?_, ?_, rfl⟩ <;> intro _ _ _ hc <;> simp at hc

theorem findAllocaWithOffsetLoop_succ (F : Function) (fuel : Nat) (tmp : Value)
    (outAI : Option Nat) (outGEPI : Option (Nat × GetElementPtrInst)) :
    findAllocaWithOffsetLoop F (fuel + 1) tmp outAI outGEPI =
      match findAllocaWithOffsetStep F tmp outAI outGEPI with
      | Sum.inl result => some result
      | Sum.inr (tmp1, outGEPI1) => findAllocaWithOffsetLoop F fuel tmp1 outAI outGEPI1 := rfl

/-- More iterations do not change the result of the loop. -/
theorem findAllocaWithOffsetLoop_mono (F : Function) (outAI : Option Nat) :
    ∀ (fuel : Nat) (tmp : Value) (outGEPI : Option (Nat × GetElementPtrInst))
      (r : Bool × Option Nat × Option (Nat × GetElementPtrInst)),
      findAllocaWithOffsetLoop F fuel tmp outAI outGEPI = some r →
      ∀ fuel1, fuel ≤ fuel1 → findAllocaWithOffsetLoop F fuel1 tmp outAI outGEPI = some r := by
  intro fuel
  induction fuel with
  | zero =>
    intro tmp g r h
    exact Option.noConfusion h
  | succ f ih =>
    intro tmp g r h fuel1 hle
    obtain ⟨f1, rfl⟩ : ∃ f1, fuel1 = f1 + 1 := ⟨fuel1 - 1, by omega⟩
    rw [findAllocaWithOffsetLoop_succ] at h ⊢
    cases hs : findAllocaWithOffsetStep F tmp outAI g with
    | inl result =>
      rw [hs] at h
      exact h
    | inr state =>
      rw [hs] at h
      exact ih _ _ _ h f1 (by omega)

/-- The loop has not returned after `fuel` iterations exactly when the state after `fuel`
iterations exists. -/
theorem findAllocaWithOffsetLoop_eq_none (F : Function) (outAI : Option Nat) :
    ∀ (fuel : Nat) (tmp : Value) (outGEPI : Option (Nat × GetElementPtrInst)),
      findAllocaWithOffsetLoop F fuel tmp outAI outGEPI = none ↔
        (findAllocaWithOffsetIter F outAI fuel (tmp, outGEPI)).isSome = true := by
  intro fuel
  induction fuel with
  | zero =>
    intro tmp g
    simp [findAllocaWithOffsetLoop, findAllocaWithOffsetIter]
  | succ f ih =>
    intro tmp g
    rw [findAllocaWithOffsetLoop_succ, findAllocaWithOffsetIter]
    cases hs : findAllocaWithOffsetStep F tmp outAI g with
    | inl result => simp
    | inr state =>
      obtain ⟨tmp1, g1⟩ := state
      exact ih tmp1 g1

theorem findAllocaWithOffsetIter_add (F : Function) (outAI : Option Nat) :
    ∀ (a b : Nat) (state : Value × Option (Nat × GetElementPtrInst)),
      findAllocaWithOffsetIter F outAI (a + b) state =
        (findAllocaWithOffsetIter F outAI a state).bind (findAllocaWithOffsetIter F outAI b) := by
  intro a
  induction a with
  | zero =>
    intro b state
    simp [findAllocaWithOffsetIter]
  | succ a ih =>
    intro b state
    rw [show a + 1 + b = (a + b) + 1 by omega, findAllocaWithOffsetIter,
      findAllocaWithOffsetIter]
    cases hs : findAllocaWithOffsetStep F state.1 outAI state.2 with
    | inl result => rfl
    | inr state1 => exact ih b state1

theorem findAllocaWithOffsetIter_isSome_le (F : Function) (outAI : Option Nat) (a b : Nat)
    (state : Value × Option (Nat × GetElementPtrInst)) (hab : a ≤ b)
    (h : (findAllocaWithOffsetIter F outAI b state).isSome = true) :
    (findAllocaWithOffsetIter F outAI a state).isSome = true := by
  obtain ⟨c, rfl⟩ : ∃ c, b = a + c := ⟨b - a, by omega⟩
  rw [findAllocaWithOffsetIter_add] at h
  cases h1 : findAllocaWithOffsetIter F outAI a state with
  | none =>
    rw [h1] at h
    exact h
  | some s => rfl

theorem findAllocaWithOffsetStep_inr (F : Function) (tmp : Value) (outAI : Option Nat)
    (g : Option (Nat × GetElementPtrInst)) (state : Value × Option (Nat × GetElementPtrInst))
    (h : findAllocaWithOffsetStep F tmp outAI g = Sum.inr state) :
    (∃ id, tmp = Value.instruction id ∧ id < F.body.length) ∧
      (∀ G, g = some G → state.2 = some G) := by
  rcases findAllocaWithOffsetStep_cases F tmp outAI g with
    ⟨id, src, type, h1, h2⟩ | ⟨id, gep, type, h1, h2, h3⟩ | ⟨id, gep, type, h1, h2, h3⟩ |
      ⟨id, sz, type, h1, h2⟩ | ⟨_, _, _, h2⟩
  · rw [h2] at h
    obtain ⟨e1, _, e3⟩ := Function.asInstruction_some F tmp id _ h1
    refine ⟨⟨id, e1, e3⟩, ?_⟩
    intro G hG
    rw [← Sum.inr.inj h]
    exact hG
  · rw [h3] at h
    exact Sum.noConfusion h
  · rw [h3] at h
    obtain ⟨e1, _, e3⟩ := Function.asInstruction_some F tmp id _ h1
    refine ⟨⟨id, e1, e3⟩, ?_⟩
    intro G hG
    rw [h2] at hG
    exact Option.noConfusion hG
  · rw [h2] at h
    exact Sum.noConfusion h
  · rw [h2] at h
    exact Sum.noConfusion h

theorem findAllocaWithOffsetIter_succ_some (F : Function) (outAI : Option Nat) (k : Nat)
    (state : Value × Option (Nat × GetElementPtrInst))
    (h : (findAllocaWithOffsetIter F outAI (k + 1) state).isSome = true) :
    ∃ s s1, findAllocaWithOffsetIter F outAI k state = some s ∧
      findAllocaWithOffsetIter F outAI (k + 1) state = some s1 ∧
      findAllocaWithOffsetStep F s.1 outAI s.2 = Sum.inr s1 := by
  rw [findAllocaWithOffsetIter_add] at h ⊢
  cases h1 : findAllocaWithOffsetIter F outAI k state with
  | none =>
    rw [h1] at h
    exact Bool.noConfusion h
  | some s =>
    rw [h1] at h
    simp only [Option.some_bind, findAllocaWithOffsetIter] at h ⊢
    cases hs : findAllocaWithOffsetStep F s.1 outAI s.2 with
    | inl r =>
      rw [hs] at h
      exact Bool.noConfusion h
    | inr s1 =>
      refine ⟨s, s1, rfl, ?_, hs⟩
      simp [findAllocaWithOffsetIter, hs]

/-- Once `outGEPI` is set it stays as it is. -/
theorem findAllocaWithOffsetIter_gep (F : Function) (outAI : Option Nat)
    (state : Value × Option (Nat × GetElementPtrInst)) (k : Nat)
    (s : Value × Option (Nat × GetElementPtrInst)) (G : Nat × GetElementPtrInst)
    (hk : findAllocaWithOffsetIter F outAI k state = some s) (hG : s.2 = some G) :
    ∀ (m : Nat) (s1 : Value × Option (Nat × GetElementPtrInst)),
      findAllocaWithOffsetIter F outAI (k + m) state = some s1 → s1.2 = some G := by
  intro m
  induction m with
  | zero =>
    intro s1 h1
    rw [Nat.add_zero, hk] at h1
    rw [← Option.some.inj h1]
    exact hG
  | succ m ih =>
    intro s1 h1
    obtain ⟨s2, s3, e1, e2, e3⟩ := findAllocaWithOffsetIter_succ_some F outAI (k + m) state
      (by rw [show k + m + 1 = k + (m + 1) by omega, h1]; rfl)
    rw [show k + m + 1 = k + (m + 1) by omega, h1] at e2
    rw [Option.some.inj e2]
    exact (findAllocaWithOffsetStep_inr F _ _ _ _ e3).2 G (ih s2 e1)

/-- A loop that has not returned after two iterations for each instruction and one more
never returns: it has been twice in the same state. -/
theorem findAllocaWithOffsetIter_forever (F : Function) (outAI : Option Nat)
    (state : Value × Option (Nat × GetElementPtrInst))
    (h : (findAllocaWithOffsetIter F outAI (2 * F.body.length + 1) state).isSome = true) :
    ∀ k, (findAllocaWithOffsetIter F outAI k state).isSome = true := by
  have hstate : ∀ k : Fin (2 * F.body.length + 1),
      ∃ (s : Value × Option (Nat × GetElementPtrInst)) (id : Fin F.body.length),
        findAllocaWithOffsetIter F outAI k.1 state = some s ∧
        s.1 = Value.instruction id.1 := by
    intro k
    obtain ⟨s, s1, e1, _, e3⟩ := findAllocaWithOffsetIter_succ_some F outAI k.1 state
      (findAllocaWithOffsetIter_isSome_le F outAI _ _ state (by omega) h)
    obtain ⟨⟨id, hid, hlt⟩, _⟩ := findAllocaWithOffsetStep_inr F _ _ _ _ e3
    exact ⟨s, ⟨id, hlt⟩, e1, hid⟩
  choose st ids hst hids using hstate
  obtain ⟨i, j, hij, hf⟩ := Fintype.exists_ne_map_eq_of_card_lt
    (fun k : Fin (2 * F.body.length + 1) => (ids k, (st k).2.isSome))
    (by simp only [Fintype.card_fin, Fintype.card_prod, Fintype.card_bool]; omega)
  simp only [Prod.mk.injEq] at hf
  -- the two positions in their order
  have key : ∀ i j : Fin (2 * F.body.length + 1), i.1 < j.1 → ids i = ids j →
      (st i).2.isSome = (st j).2.isSome →
      ∀ k, (findAllocaWithOffsetIter F outAI k state).isSome = true := by
    intro i j hlt hid hsome
    have hsame : st i = st j := by
      apply Prod.ext
      · rw [hids i, hids j, hid]
      · cases hg : (st i).2 with
        | none =>
          rw [hg] at hsome
          cases hg1 : (st j).2 with
          | none => rfl
          | some G =>
            rw [hg1] at hsome
            exact Bool.noConfusion hsome
        | some G =>
          have := findAllocaWithOffsetIter_gep F outAI state i.1 (st i) G (hst i) hg
            (j.1 - i.1) (st j) (by rw [show i.1 + (j.1 - i.1) = j.1 by omega]; exact hst j)
          rw [this]
    have hper : ∀ t, findAllocaWithOffsetIter F outAI (j.1 + t) state =
        findAllocaWithOffsetIter F outAI (i.1 + t) state := by
      intro t
      rw [findAllocaWithOffsetIter_add, findAllocaWithOffsetIter_add, hst i, hst j, hsame]
    have hall : ∀ m, (findAllocaWithOffsetIter F outAI (i.1 + m) state).isSome = true := by
      intro m
      induction m using Nat.strong_induction_on with
      | _ m ih =>
        by_cases hm : m < j.1 - i.1
        · exact findAllocaWithOffsetIter_isSome_le F outAI _ _ state
            (by have := j.2; omega) h
        · have := ih (m - (j.1 - i.1)) (by omega)
          rw [← hper, show j.1 + (m - (j.1 - i.1)) = i.1 + m by omega] at this
          exact this
    intro k
    exact findAllocaWithOffsetIter_isSome_le F outAI k (i.1 + k) state (by omega) (hall k)
  rcases Nat.lt_or_gt_of_ne (fun hc => hij (Fin.ext hc)) with hlt | hlt
  · exact key i j hlt hf.1 hf.2
  · exact key j i hlt hf.1.symm hf.2.symm

/-- The loop of `findAllocaWithOffset`, when it returns at all, returns within two iterations
for each instruction of the function and one more. -/
theorem findAllocaWithOffsetLoop_bound (F : Function) (outAI : Option Nat) (fuel : Nat)
    (tmp : Value) (outGEPI : Option (Nat × GetElementPtrInst))
    (r : Bool × Option Nat × Option (Nat × GetElementPtrInst))
    (h : findAllocaWithOffsetLoop F fuel tmp outAI outGEPI = some r) :
    findAllocaWithOffsetLoop F (2 * F.body.length + 1) tmp outAI outGEPI = some r := by
  cases h1 : findAllocaWithOffsetLoop F (2 * F.body.length + 1) tmp outAI outGEPI with
  | none =>
    have h2 := findAllocaWithOffsetIter_forever F outAI (tmp, outGEPI)
      ((findAllocaWithOffsetLoop_eq_none F outAI _ _ _).mp h1) fuel
    rw [(findAllocaWithOffsetLoop_eq_none F outAI _ _ _).mpr h2] at h
    exact Option.noConfusion h
  | some r1 =>
    rcases Nat.le_total fuel (2 * F.body.length + 1) with hle | hle
    · rw [findAllocaWithOffsetLoop_mono F outAI _ _ _ _ h _ hle] at h1
      exact h1.symm
    · rw [findAllocaWithOffsetLoop_mono F outAI _ _ _ _ h1 _ hle] at h
      exact h

/-- Along a chain of casts the loop of `findAllocaWithOffset` comes from the pointer to the
value at the end of the chain, with the first getelementptr of the chain in `outGEPI`, as
long as it meets at most one getelementptr. -/
theorem findAllocaWithOffsetLoop_chain (F : Function) (outAI : Option Nat) (V W : Value)
    (geps : List (Nat × GetElementPtrInst)) (hc : CastChain F V geps W) :
    ∀ g0 : Option (Nat × GetElementPtrInst), (g0.isSome = true → geps = []) →
      geps.length ≤ 1 →
      ∃ k, ∀ fuel, findAllocaWithOffsetLoop F (k + fuel) V outAI g0 =
        findAllocaWithOffsetLoop F fuel W outAI
          (match g0 with
            | some G => some G
            | none => geps.head?) := by
  induction hc with
  | here V =>
    intro g0 _ _
    refine ⟨0, fun fuel => ?_⟩
    rw [Nat.zero_add]
    cases g0 <;> rfl
  | bitCast V src W geps id type hV _ ih =>
    intro g0 h1 h2
    obtain ⟨k, hk⟩ := ih g0 h1 h2
    refine ⟨k + 1, fun fuel => ?_⟩
    rw [show k + 1 + fuel = (k + fuel) + 1 by omega, findAllocaWithOffsetLoop_succ]
    have hs : findAllocaWithOffsetStep F V outAI g0 = Sum.inr (src, g0) := by
      unfold findAllocaWithOffsetStep
      rw [hV]
    rw [hs]
    exact hk fuel
  | getElementPtr V W geps id gep type hV _ ih =>
    intro g0 h1 h2
    have hg0 : g0 = none := by
      cases g0 with
      | none => rfl
      | some G => exact absurd (h1 rfl) (List.cons_ne_nil _ _)
    subst hg0
    have hgeps : geps = [] := by
      cases geps with
      | nil => rfl
      | cons a t => simp at h2
    subst hgeps
    obtain ⟨k, hk⟩ := ih (some (id, gep)) (fun _ => rfl) (by simp)
    refine ⟨k + 1, fun fuel => ?_⟩
    rw [show k + 1 + fuel = (k + fuel) + 1 by omega, findAllocaWithOffsetLoop_succ]
    have hs : findAllocaWithOffsetStep F V outAI none =
        Sum.inr (gep.pointerOperand, some (id, gep)) := by
      unfold findAllocaWithOffsetStep
      rw [hV]
      rfl
    rw [hs]
    exact hk fuel

/-- What the loop of `findAllocaWithOffset` has done when it returns: it has followed a chain
of casts and has stopped at its end. -/
theorem findAllocaWithOffsetLoop_some (F : Function) (outAI : Option Nat) :
    ∀ (fuel : Nat) (tmp : Value) (g0 : Option (Nat × GetElementPtrInst))
      (r : Bool × Option Nat × Option (Nat × GetElementPtrInst)),
      findAllocaWithOffsetLoop F fuel tmp outAI g0 = some r →
      ∃ geps W, CastChain F tmp geps W ∧ (g0.isSome = true → geps = []) ∧ geps.length ≤ 1 ∧
        findAllocaWithOffsetStep F W outAI
          (match g0 with
            | some G => some G
            | none => geps.head?) = Sum.inl r := by
  intro fuel
  induction fuel with
  | zero =>
    intro tmp g0 r h
    exact Option.noConfusion h
  | succ f ih =>
    intro tmp g0 r h
    rw [findAllocaWithOffsetLoop_succ] at h
    rcases findAllocaWithOffsetStep_cases F tmp outAI g0 with
      ⟨id, src, type, h1, h2⟩ | ⟨id, gep, type, h1, h2, h3⟩ | ⟨id, gep, type, h1, h2, h3⟩ |
        ⟨id, sz, type, h1, h2⟩ | ⟨_, _, _, h2⟩
    · rw [h2] at h
      obtain ⟨geps, W, c1, c2, c3, c4⟩ := ih _ _ _ h
      exact ⟨geps, W, CastChain.bitCast tmp src W geps id type h1 c1, c2, c3, c4⟩
    · rw [h3] at h
      simp only [Option.some.injEq] at h
      refine ⟨[], tmp, CastChain.here tmp, fun _ => rfl, by simp, ?_⟩
      rw [← h, ← h3]
      cases g0 <;> rfl
    · rw [h3] at h
      subst h2
      obtain ⟨geps, W, c1, c2, c3, c4⟩ := ih _ _ _ h
      have hgeps := c2 rfl
      subst hgeps
      exact ⟨[(id, gep)], W, CastChain.getElementPtr tmp W [] id gep type h1 c1,
        fun hc => Bool.noConfusion hc, by simp, c4⟩
    · rw [h2] at h
      simp only [Option.some.injEq] at h
      refine ⟨[], tmp, CastChain.here tmp, fun _ => rfl, by simp, ?_⟩
      rw [← h, ← h2]
      cases g0 <;> rfl
    · rw [h2] at h
      simp only [Option.some.injEq] at h
      refine ⟨[], tmp, CastChain.here tmp, fun _ => rfl, by simp, ?_⟩
      rw [← h, ← h2]
      cases g0 <;> rfl

theorem findAllocaWithOffset_eq_loop (F : Function) (V : Value) (outAI : Option Nat)
    (addressSpace : ADDRESS_SPACE) (hV : F.typeOf V = IRType.pointer addressSpace) :
    findAllocaWithOffset F V outAI =
      findAllocaWithOffsetLoop F (2 * F.body.length + 1) V outAI none := by
  unfold findAllocaWithOffset
  rw [hV]

/-- A chain of casts with at most one getelementptr whose end makes the loop return makes
`findAllocaWithOffset` return just that. -/
theorem findAllocaWithOffset_of_chain (F : Function) (V : Value) (outAI : Option Nat)
    (addressSpace : ADDRESS_SPACE) (hV : F.typeOf V = IRType.pointer addressSpace)
    (geps : List (Nat × GetElementPtrInst)) (W : Value) (hc : CastChain F V geps W)
    (hlen : geps.length ≤ 1) (r : Bool × Option Nat × Option (Nat × GetElementPtrInst))
    (hr : findAllocaWithOffsetStep F W outAI geps.head? = Sum.inl r) :
    findAllocaWithOffset F V outAI = some r := by
  rw [findAllocaWithOffset_eq_loop F V outAI addressSpace hV]
  obtain ⟨k, hk⟩ := findAllocaWithOffsetLoop_chain F outAI V W geps hc none
    (fun h => Bool.noConfusion h) hlen
  apply findAllocaWithOffsetLoop_bound F outAI (k + 1)
  rw [hk 1, findAllocaWithOffsetLoop_succ]
  simp only []
  rw [hr]

/-- C18: on a pointer `V`, `findAllocaWithOffset` returns true if and only if following `V`
backwards through bitcast instructions and at most one getelementptr instruction reaches an
alloca; then `outAI` is that alloca and `outGEPI` is the getelementptr of the chain, null
when there is none.  It returns false when the chain comes to a second getelementptr or to a
value that is not a bitcast, a getelementptr or an alloca, and only then; and it has no
result only if the loop never returns. -/
theorem findAllocaWithOffset_spec (F : Function) (V : Value) (outAI : Option Nat)
    (addressSpace : ADDRESS_SPACE) (hV : F.typeOf V = IRType.pointer addressSpace) :
    (∀ ai g, findAllocaWithOffset F V outAI = some (true, ai, g) ↔
      ∃ geps W id arraySize type, CastChain F V geps W ∧ geps.length ≤ 1 ∧
        F.asInstruction W = some (id, ⟨InstKind.alloca arraySize, type⟩) ∧
        ai = some id ∧ g = geps.head?) ∧
    (∀ geps W id gep type, CastChain F V geps W → geps.length = 1 →
      F.asInstruction W = some (id, ⟨InstKind.getElementPtr gep, type⟩) →
      findAllocaWithOffset F V outAI = some (false, outAI, geps.head?)) ∧
    (∀ geps W, CastChain F V geps W → geps.length ≤ 1 →
      (∀ id src type, F.asInstruction W ≠ some (id, ⟨InstKind.bitCast src, type⟩)) →
      (∀ id gep type, F.asInstruction W ≠ some (id, ⟨InstKind.getElementPtr gep, type⟩)) →
      (∀ id arraySize type,
        F.asInstruction W ≠ some (id, ⟨InstKind.alloca arraySize, type⟩)) →
      findAllocaWithOffset F V outAI = some (false, outAI, geps.head?)) ∧
    (∀ ai g, findAllocaWithOffset F V outAI = some (false, ai, g) →
      ai = outAI ∧ ∃ geps W, CastChain F V geps W ∧ geps.length ≤ 1 ∧ g = geps.head? ∧
        ((geps.length = 1 ∧
            ∃ id gep type, F.asInstruction W = some (id, ⟨InstKind.getElementPtr gep, type⟩)) ∨
          ((∀ id src type, F.asInstruction W ≠ some (id, ⟨InstKind.bitCast src, type⟩)) ∧
            (∀ id gep type,
              F.asInstruction W ≠ some (id, ⟨InstKind.getElementPtr gep, type⟩)) ∧
            (∀ id arraySize type,
              F.asInstruction W ≠ some (id, ⟨InstKind.alloca arraySize, type⟩))))) ∧
    (findAllocaWithOffset F V outAI = none ↔
      ∀ fuel, findAllocaWithOffsetLoop F fuel V outAI none = none) := by
  have hsome : ∀ r, findAllocaWithOffset F V outAI = some r →
      ∃ geps W, CastChain F V geps W ∧ geps.length ≤ 1 ∧
        findAllocaWithOffsetStep F W outAI geps.head? = Sum.inl r := by
    intro r h
    rw [findAllocaWithOffset_eq_loop F V outAI addressSpace hV] at h
    obtain ⟨geps, W, c1, _, c3, c4⟩ := findAllocaWithOffsetLoop_some F outAI _ _ _ _ h
    exact ⟨geps, W, c1, c3, c4⟩
  refine ⟨?_, ?_, ?_, ?_, ?_⟩
  · intro ai g
    constructor
    · intro h
      obtain ⟨geps, W, c1, c3, c4⟩ := hsome _ h
      rcases findAllocaWithOffsetStep_cases F W outAI geps.head? with
        ⟨id, src, type, h1, h2⟩ | ⟨id, gep, type, h1, h2, h3⟩ | ⟨id, gep, type, h1, h2, h3⟩ |
          ⟨id, sz, type, h1, h2⟩ | ⟨_, _, _, h2⟩
      · rw [h2] at c4
        exact Sum.noConfusion c4
      · rw [h3] at c4
        simp at c4
      · rw [h3] at c4
        exact Sum.noConfusion c4
      · rw [h2] at c4
        simp only [Sum.inl.injEq, Prod.mk.injEq, true_and] at c4
        exact ⟨geps, W, id, sz, type, c1, c3, h1, c4.1.symm, c4.2.symm⟩
      · rw [h2] at c4
        simp at c4
    · rintro ⟨geps, W, id, sz, type, c1, c3, h1, rfl, rfl⟩
      apply findAllocaWithOffset_of_chain F V outAI addressSpace hV geps W c1 c3
      unfold findAllocaWithOffsetStep
      rw [h1]
  · intro geps W id gep type c1 c3 h1
    apply findAllocaWithOffset_of_chain F V outAI addressSpace hV geps W c1 (le_of_eq c3)
    unfold findAllocaWithOffsetStep
    rw [h1]
    obtain ⟨G, rfl⟩ := List.length_eq_one.mp c3
    rfl
  · intro geps W c1 c3 n1 n2 n3
    apply findAllocaWithOffset_of_chain F V outAI addressSpace hV geps W c1 c3
    rcases findAllocaWithOffsetStep_cases F W outAI geps.head? with
      ⟨id, src, type, h1, _⟩ | ⟨id, gep, type, h1, _, _⟩ | ⟨id, gep, type, h1, _, _⟩ |
        ⟨id, sz, type, h1, _⟩ | ⟨_, _, _, h2⟩
    · exact absurd h1 (n1 _ _ _)
    · exact absurd h1 (n2 _ _ _)
    · exact absurd h1 (n2 _ _ _)
    · exact absurd h1 (n3 _ _ _)
    · exact h2
  · intro ai g h
    obtain ⟨geps, W, c1, c3, c4⟩ := hsome _ h
    rcases findAllocaWithOffsetStep_cases F W outAI geps.head? with
      ⟨id, src, type, h1, h2⟩ | ⟨id, gep, type, h1, h2, h3⟩ | ⟨id, gep, type, h1, h2, h3⟩ |
        ⟨id, sz, type, h1, h2⟩ | ⟨n1, n2, n3, h2⟩
    · rw [h2] at c4
      exact Sum.noConfusion c4
    · rw [h3] at c4
      simp only [Sum.inl.injEq, Prod.mk.injEq, true_and] at c4
      refine ⟨c4.1.symm, geps, W, c1, c3, c4.2.symm, Or.inl ⟨?_, id, gep, type, h1⟩⟩
      cases geps with
      | nil => exact Bool.noConfusion h2
      | cons a t =>
        simp only [List.length_cons] at c3 ⊢
        omega
    · rw [h3] at c4
      exact Sum.noConfusion c4
    · rw [h2] at c4
      simp at c4
    · rw [h2] at c4
      simp only [Sum.inl.injEq, Prod.mk.injEq, true_and] at c4
      exact ⟨c4.1.symm, geps, W, c1, c3, c4.2.symm, Or.inr ⟨n1, n2, n3⟩⟩
  · rw [findAllocaWithOffset_eq_loop F V outAI addressSpace hV]
    constructor
    · intro h fuel
      cases h1 : findAllocaWithOffsetLoop F fuel V outAI none with
      | none => rfl
      | some r =>
        rw [findAllocaWithOffsetLoop_bound F outAI fuel V none r h1] at h
        exact Option.noConfusion h
    · intro h
      exact h _

/-- Witness of C18: a load through a bitcast of a getelementptr of an alloca. -/
theorem findAllocaWithOffset_spec_witness :
    findAllocaWithOffset
      ⟨0, [⟨InstKind.alloca (Value.constantInt 1), IRType.pointer (ADDRESS_SPACE.other 0)⟩,
        ⟨InstKind.getElementPtr ⟨Value.instruction 0, [], some 0⟩,
          IRType.pointer (ADDRESS_SPACE.other 0)⟩,
        ⟨InstKind.bitCast (Value.instruction 1), IRType.pointer (ADDRESS_SPACE.other 0)⟩]⟩
      (Value.instruction 2) none =
        some (true, some 0, some (1, ⟨Value.instruction 0, [], some 0⟩)) :=
  ((findAllocaWithOffset_spec
    ⟨0, [⟨InstKind.alloca (Value.constantInt 1), IRType.pointer (ADDRESS_SPACE.other 0)⟩,
      ⟨InstKind.getElementPtr ⟨Value.instruction 0, [], some 0⟩,
        IRType.pointer (ADDRESS_SPACE.other 0)⟩,
      ⟨InstKind.bitCast (Value.instruction 1), IRType.pointer (ADDRESS_SPACE.other 0)⟩]⟩
    (Value.instruction 2) none (ADDRESS_SPACE.other 0) rfl).1 (some 0)
      (some (1, ⟨Value.instruction 0, [], some 0⟩))).mpr
    ⟨[(1, ⟨Value.instruction 0, [], some 0⟩)], Value.instruction 0, 0, Value.constantInt 1,
      IRType.pointer (ADDRESS_SPACE.other 0),
      CastChain.bitCast _ (Value.instruction 1) _ _ 2 (IRType.pointer (ADDRESS_SPACE.other 0))
        rfl
        (CastChain.getElementPtr _ _ [] 1 ⟨Value.instruction 0, [], some 0⟩
          (IRType.pointer (ADDRESS_SPACE.other 0)) rfl (CastChain.here _)),
      by decide, rfl, rfl, rfl⟩

/-! ## The offsets that a load through a GEP may read -/

theorem findStoredArgsOffsets_constant (prev : Option GEPStep) (GTI : GEPStep)
    (rest : List GEPStep) (offsets : List Nat) (C : Nat)
    (hC : GTI.operand = Value.constantInt C) :
    findStoredArgsOffsets prev (GTI :: rest) offsets =
      findStoredArgsOffsets (some GTI) rest
        (offsets.map (fun it => (it + constantIndexOffset GTI) % 18446744073709551616)) ∨
    (constantIndexOffset GTI = 0 ∧
      findStoredArgsOffsets prev (GTI :: rest) offsets =
        findStoredArgsOffsets (some GTI) rest offsets) := by
  rw [findStoredArgsOffsets]
  unfold findStoredArgsOffsetsStep constantIndexOffset
  rw [hC]
  by_cases h0 : C = 0
  · right
    simp [h0]
  · left
    simp only [h0, if_false]

theorem findStoredArgsOffsets_variable (prev : Option GEPStep) (GTI : GEPStep)
    (rest : List GEPStep) (offsets : List Nat)
    (hC : ∀ C, GTI.operand ≠ Value.constantInt C) :
    constantIndexOffset GTI = 0 ∧
    variableIndices prev (GTI :: rest) =
      (prev.bind (fun p => p.indexedType.arrayNumElements), GTI.indexedType.allocSize) ::
        variableIndices (some GTI) rest ∧
    ((prev.bind (fun p => p.indexedType.arrayNumElements) = none ∧
        findStoredArgsOffsets prev (GTI :: rest) offsets = none) ∨
      ∃ N, prev.bind (fun p => p.indexedType.arrayNumElements) = some N ∧
        findStoredArgsOffsets prev (GTI :: rest) offsets =
          findStoredArgsOffsets (some GTI) rest
            ((List.range N).flatMap (fun i => offsets.map (fun it =>
              (it + i * GTI.indexedType.allocSize) % 18446744073709551616)))) := by
  have hstep : findStoredArgsOffsetsStep prev GTI offsets =
      (prev.bind (fun p => p.indexedType.arrayNumElements)).map (fun N =>
        (List.range N).flatMap (fun i => offsets.map (fun it =>
          (it + i * GTI.indexedType.allocSize) % 18446744073709551616))) := by
    unfold findStoredArgsOffsetsStep
    cases hop : GTI.operand with
    | constantInt C => exact absurd hop (hC C)
    | argument a =>
      cases prev with
      | none => rfl
      | some p => cases hN : p.indexedType.arrayNumElements <;> simp [hN]
    | instruction id =>
      cases prev with
      | none => rfl
      | some p => cases hN : p.indexedType.arrayNumElements <;> simp [hN]
    | other t =>
      cases prev with
      | none => rfl
      | some p => cases hN : p.indexedType.arrayNumElements <;> simp [hN]
  refine ⟨?_, ?_, ?_⟩
  · unfold constantIndexOffset
    cases hop : GTI.operand with
    | constantInt C => exact absurd hop (hC C)
    | argument a => rfl
    | instruction id => rfl
    | other t => rfl
  · rw [variableIndices]
    cases hop : GTI.operand with
    | constantInt C => exact absurd hop (hC C)
    | argument a => rfl
    | instruction id => rfl
    | other t => rfl
  · rw [findStoredArgsOffsets, hstep]
    cases hN : prev.bind (fun p => p.indexedType.arrayNumElements) with
    | none => exact Or.inl ⟨rfl, rfl⟩
    | some N => exact Or.inr ⟨N, rfl, rfl⟩

theorem variableIndices_constant (prev : Option GEPStep) (GTI : GEPStep)
    (rest : List GEPStep) (C : Nat) (hC : GTI.operand = Value.constantInt C) :
    variableIndices prev (GTI :: rest) = variableIndices (some GTI) rest := by
  rw [variableIndices, hC]

theorem GEPStep.index_cases (GTI : GEPStep) :
    (∃ C, GTI.operand = Value.constantInt C) ∨ ∀ C, GTI.operand ≠ Value.constantInt C := by
  cases h : GTI.operand with
  | constantInt C => exact Or.inl ⟨C, rfl⟩
  | argument a => exact Or.inr (fun C hc => Value.noConfusion hc)
  | instruction id => exact Or.inr (fun C hc => Value.noConfusion hc)
  | other t => exact Or.inr (fun C hc => Value.noConfusion hc)

/-- The loop over the indices fails exactly when some variable index is the first index or
indexes a type that is not an array. -/
theorem findStoredArgsOffsets_eq_none :
    ∀ (steps : List GEPStep) (prev : Option GEPStep) (offsets : List Nat),
      findStoredArgsOffsets prev steps offsets = none ↔
        ∃ d ∈ variableIndices prev steps, d.1 = none := by
  intro steps
  induction steps with
  | nil =>
    intro prev offsets
    simp [findStoredArgsOffsets, variableIndices]
  | cons GTI rest ih =>
    intro prev offsets
    rcases GEPStep.index_cases GTI with ⟨C, hC⟩ | hC
    · rw [variableIndices_constant prev GTI rest C hC]
      rcases findStoredArgsOffsets_constant prev GTI rest offsets C hC with h | ⟨_, h⟩
      · rw [h]
        exact ih _ _
      · rw [h]
        exact ih _ _
    · obtain ⟨_, hv, hcase⟩ := findStoredArgsOffsets_variable prev GTI rest offsets hC
      rw [hv]
      rcases hcase with ⟨hN, h⟩ | ⟨N, hN, h⟩
      · rw [h]
        simp only [true_iff]
        exact ⟨_, List.mem_cons_self _ _, hN⟩
      · rw [h, ih, hN]
        simp

theorem validIndices_nil (idx : List Nat) : ValidIndices idx [] ↔ idx = [] := by
  unfold ValidIndices
  constructor
  · intro h
    cases h
    rfl
  · intro h
    subst h
    exact List.Forall₂.nil

theorem validIndices_cons (idx : List Nat) (d : Option Nat × Nat)
    (dims : List (Option Nat × Nat)) :
    ValidIndices idx (d :: dims) ↔
      ∃ i idx1 N, idx = i :: idx1 ∧ d.1 = some N ∧ i < N ∧ ValidIndices idx1 dims := by
  unfold ValidIndices
  constructor
  · intro h
    cases h with
    | cons h1 h2 =>
      obtain ⟨N, hN, hi⟩ := h1
      exact ⟨_, _, N, rfl, hN, hi, h2⟩
  · rintro ⟨i, idx1, N, rfl, hN, hi, h2⟩
    exact List.Forall₂.cons ⟨N, hN, hi⟩ h2

theorem length_flatMap_range_map (N : Nat) (offsets : List Nat) (f : Nat → Nat → Nat) :
    ((List.range N).flatMap (fun i => offsets.map (f i))).length = N * offsets.length := by
  induction N with
  | zero => simp
  | succ n ih =>
    rw [List.range_succ, List.flatMap_append, List.length_append, ih]
    simp only [List.flatMap_cons, List.flatMap_nil, List.append_nil, List.length_map]
    ring

/-- The list of offsets after the loop over the indices: its length and its entries. -/
theorem findStoredArgsOffsets_some :
    ∀ (steps : List GEPStep) (prev : Option GEPStep) (offsets0 offsets : List Nat),
      (∀ o ∈ offsets0, o < 18446744073709551616) →
      findStoredArgsOffsets prev steps offsets0 = some offsets →
      offsets.length =
          offsets0.length * ((variableIndices prev steps).map (fun d => d.1.getD 0)).prod ∧
        (∀ o ∈ offsets, o < 18446744073709551616) ∧
        ∀ x, x ∈ offsets ↔ ∃ o ∈ offsets0, ∃ idx,
          ValidIndices idx (variableIndices prev steps) ∧
          x = (o + constantOffsetSum steps + variableOffset idx (variableIndices prev steps))
            % 18446744073709551616 := by
  intro steps
  induction steps with
  | nil =>
    intro prev offsets0 offsets hlt h
    simp only [findStoredArgsOffsets, Option.some.injEq] at h
    subst h
    refine ⟨by simp [variableIndices], hlt, ?_⟩
    intro x
    simp only [variableIndices, validIndices_nil]
    constructor
    · intro hx
      refine ⟨x, hx, [], rfl, ?_⟩
      have := hlt x hx
      simp only [constantOffsetSum, variableOffset, List.map_nil, List.sum_nil,
        List.zipWith_nil_left, Nat.add_zero]
      omega
    · rintro ⟨o, ho, idx, rfl, hx⟩
      have := hlt o ho
      simp only [constantOffsetSum, variableOffset, List.map_nil, List.sum_nil,
        List.zipWith_nil_left, Nat.add_zero] at hx
      have hxo : x = o := by omega
      rw [hxo]
      exact ho
  | cons GTI rest ih =>
    intro prev offsets0 offsets hlt h
    have hsum : constantOffsetSum (GTI :: rest) =
        constantIndexOffset GTI + constantOffsetSum rest := by
      simp [constantOffsetSum]
    rcases GEPStep.index_cases GTI with ⟨C, hC⟩ | hC
    · rw [variableIndices_constant prev GTI rest C hC, hsum]
      have hmap : findStoredArgsOffsets (some GTI) rest
          (offsets0.map (fun it => (it + constantIndexOffset GTI) % 18446744073709551616))
            = some offsets := by
        rcases findStoredArgsOffsets_constant prev GTI rest offsets0 C hC with h1 | ⟨h0, h1⟩
        · rw [← h1]
          exact h
        · rw [← h, h1]
          congr 1
          rw [h0]
          conv_rhs => rw [← List.map_id offsets0]
          apply List.map_congr_left
          intro o ho
          have := hlt o ho
          simp only [id]
          omega
      obtain ⟨i1, i2, i3⟩ := ih (some GTI) _ offsets (by
        intro o ho
        simp only [List.mem_map] at ho
        obtain ⟨o1, _, rfl⟩ := ho
        exact Nat.mod_lt _ (by decide)) hmap
      refine ⟨by simpa using i1, i2, ?_⟩
      intro x
      rw [i3]
      generalize constantIndexOffset GTI = d
      generalize constantOffsetSum rest = c
      constructor
      · rintro ⟨o1, ho1, idx, hv, hx⟩
        simp only [List.mem_map] at ho1
        obtain ⟨o, ho, rfl⟩ := ho1
        refine ⟨o, ho, idx, hv, ?_⟩
        generalize variableOffset idx (variableIndices (some GTI) rest) = v at hx
        omega
      · rintro ⟨o, ho, idx, hv, hx⟩
        refine ⟨(o + d) % 18446744073709551616, List.mem_map.mpr ⟨o, ho, rfl⟩, idx, hv, ?_⟩
        generalize variableOffset idx (variableIndices (some GTI) rest) = v at hx
        omega
    · obtain ⟨h0, hv, hcase⟩ := findStoredArgsOffsets_variable prev GTI rest offsets0 hC
      rw [hv, hsum, h0]
      rcases hcase with ⟨_, h1⟩ | ⟨N, hN, h1⟩
      · rw [h1] at h
        exact Option.noConfusion h
      · rw [h1] at h
        obtain ⟨i1, i2, i3⟩ := ih (some GTI) _ offsets (by
          intro o ho
          simp only [List.mem_flatMap, List.mem_map] at ho
          obtain ⟨i, _, o1, _, rfl⟩ := ho
          exact Nat.mod_lt _ (by decide)) h
        refine ⟨?_, i2, ?_⟩
        · rw [i1, length_flatMap_range_map N offsets0
            (fun i it => (it + i * GTI.indexedType.allocSize) % 18446744073709551616), hN]
          simp only [List.map_cons, List.prod_cons, Option.getD_some]
          ring
        · intro x
          rw [i3]
          generalize constantOffsetSum rest = c
          constructor
          · rintro ⟨o1, ho1, idx, hvalid, hx⟩
            simp only [List.mem_flatMap, List.mem_range, List.mem_map] at ho1
            obtain ⟨i, hi, o, ho, rfl⟩ := ho1
            refine ⟨o, ho, i :: idx, ?_, ?_⟩
            · rw [validIndices_cons]
              exact ⟨i, idx, N, rfl, hN, hi, hvalid⟩
            · have hvo : variableOffset (i :: idx)
                  ((prev.bind (fun p => p.indexedType.arrayNumElements),
                    GTI.indexedType.allocSize) :: variableIndices (some GTI) rest) =
                  i * GTI.indexedType.allocSize +
                    variableOffset idx (variableIndices (some GTI) rest) := by
                simp [variableOffset]
              rw [hvo]
              generalize variableOffset idx (variableIndices (some GTI) rest) = v at hx
              generalize i * GTI.indexedType.allocSize = w at hx ⊢
              omega
          · rintro ⟨o, ho, idx, hvalid, hx⟩
            rw [validIndices_cons] at hvalid
            obtain ⟨i, idx1, N1, rfl, hN1, hi, hvalid1⟩ := hvalid
            simp only at hN1
            rw [hN] at hN1
            have hNN : N = N1 := Option.some.inj hN1
            subst hNN
            refine ⟨(o + i * GTI.indexedType.allocSize) % 18446744073709551616, ?_, idx1,
              hvalid1, ?_⟩
            · simp only [List.mem_flatMap, List.mem_range, List.mem_map]
              exact ⟨i, hi, o, ho, rfl⟩
            · have hvo : variableOffset (i :: idx1)
                  ((prev.bind (fun p => p.indexedType.arrayNumElements),
                    GTI.indexedType.allocSize) :: variableIndices (some GTI) rest) =
                  i * GTI.indexedType.allocSize +
                    variableOffset idx1 (variableIndices (some GTI) rest) := by
                simp [variableOffset]
              rw [hvo] at hx
              generalize variableOffset idx1 (variableIndices (some GTI) rest) = v at hx ⊢
              generalize i * GTI.indexedType.allocSize = w at hx ⊢
              omega

theorem variableOffset_le (idx : List Nat) (dims : List (Option Nat × Nat))
    (h : ValidIndices idx dims) :
    variableOffset idx dims ≤ (dims.map (fun d => (d.1.getD 0 - 1) * d.2)).sum := by
  unfold ValidIndices at h
  induction h with
  | nil => simp [variableOffset]
  | @cons i d idx1 dims1 h1 _ ih =>
    obtain ⟨N, hN, hi⟩ := h1
    simp only [variableOffset, List.zipWith_cons_cons, List.sum_cons, List.map_cons, hN,
      Option.getD_some] at ih ⊢
    have : i * d.2 ≤ (N - 1) * d.2 := Nat.mul_le_mul_right _ (show i ≤ N - 1 by omega)
    exact Nat.add_le_add this ih

theorem mem_insertStoredArgs (m_allocas : Option Nat × Nat → Option Argument)
    (AI : Option Nat) :
    ∀ (offsets : List Nat) (args : ArgSet) (a : Argument),
      a ∈ insertStoredArgs m_allocas AI offsets args ↔
        a ∈ args ∨ ∃ it ∈ offsets, m_allocas (AI, it) = some a := by
  intro offsets
  induction offsets with
  | nil =>
    intro args a
    simp [insertStoredArgs]
  | cons it rest ih =>
    intro args a
    rw [insertStoredArgs]
    cases hm : m_allocas (AI, it) with
    | none =>
      simp only [ih, List.mem_cons, exists_eq_or_imp, hm]
      constructor
      · rintro (h | h)
        · exact Or.inl h
        · exact Or.inr (Or.inr h)
      · rintro (h | h | h)
        · exact Or.inl h
        · exact Option.noConfusion h
        · exact Or.inr h
    | some A =>
      simp only [ih, List.mem_cons, exists_eq_or_imp, hm, List.mem_insert_iff,
        Option.some.injEq]
      constructor
      · rintro ((h | h) | h)
        · exact Or.inr (Or.inl h.symm)
        · exact Or.inl h
        · exact Or.inr (Or.inr h)
      · rintro (h | h | h)
        · exact Or.inl (Or.inr h)
        · exact Or.inl (Or.inl h.symm)
        · exact Or.inr h

/-- C19: for a load through a GEP, the loop of `findStoredArgs` over the indices fails exactly
when a variable index is the first index of the GEP or indexes a type that is not an array,
and `findStoredArgs` then returns false.  Otherwise the list of candidate offsets has as many
entries as the product of the numbers of elements `N_k` of the arrays that the variable
indices index, and its entries are the values `C + sum_k i_k * s_k` with `0 <= i_k < N_k`,
as 64-bit unsigned numbers, exactly these values when the largest of them is below `2^64`;
`C` is the sum of the offsets of the non-zero constant indices and `s_k` the alloc size of
the element of the array of the k-th variable index.  The arguments that `findStoredArgs`
adds are those stored at these offsets. -/
theorem findStoredArgs_offsets (steps : List GEPStep) :
    (findStoredArgsOffsets none steps [0] = none ↔
      ∃ d ∈ variableIndices none steps, d.1 = none) ∧
    (∀ offsets, findStoredArgsOffsets none steps [0] = some offsets →
      offsets.length = ((variableIndices none steps).map (fun d => d.1.getD 0)).prod ∧
      (∀ x, x ∈ offsets ↔ ∃ idx, ValidIndices idx (variableIndices none steps) ∧
        x = (constantOffsetSum steps + variableOffset idx (variableIndices none steps))
          % 18446744073709551616) ∧
      (constantOffsetSum steps +
          ((variableIndices none steps).map (fun d => (d.1.getD 0 - 1) * d.2)).sum
            < 18446744073709551616 →
        ∀ x, x ∈ offsets ↔ ∃ idx, ValidIndices idx (variableIndices none steps) ∧
          x = constantOffsetSum steps + variableOffset idx (variableIndices none steps))) ∧
    (∀ (p : ScalarArgAsPointerAnalysis) (F : Function) (pointerOperand : Value)
      (args : ArgSet) (AI : Option Nat) (id : Nat) (gep : GetElementPtrInst),
      findAllocaWithOffset F pointerOperand none = some (true, AI, some (id, gep)) →
      gep.steps = steps →
      ((∃ d ∈ variableIndices none steps, d.1 = none) →
        p.findStoredArgs F pointerOperand args = some (false, args)) ∧
      ((¬ ∃ d ∈ variableIndices none steps, d.1 = none) →
        ∃ args1, p.findStoredArgs F pointerOperand args = some (!args1.isEmpty, args1) ∧
          ∀ a, a ∈ args1 ↔ a ∈ args ∨
            ∃ idx, ValidIndices idx (variableIndices none steps) ∧
              p.m_allocas (AI, (constantOffsetSum steps +
                variableOffset idx (variableIndices none steps)) % 18446744073709551616)
                  = some a)) := by
  have hmem : ∀ offsets, findStoredArgsOffsets none steps [0] = some offsets →
      offsets.length = ((variableIndices none steps).map (fun d => d.1.getD 0)).prod ∧
      (∀ x, x ∈ offsets ↔ ∃ idx, ValidIndices idx (variableIndices none steps) ∧
        x = (constantOffsetSum steps + variableOffset idx (variableIndices none steps))
          % 18446744073709551616) := by
    intro offsets h
    obtain ⟨i1, _, i3⟩ := findStoredArgsOffsets_some steps none [0] offsets
      (by intro o ho; simp only [List.mem_singleton] at ho; subst ho; decide) h
    refine ⟨by simpa using i1, ?_⟩
    intro x
    rw [i3]
    simp
  refine ⟨findStoredArgsOffsets_eq_none steps none [0], ?_, ?_⟩
  · intro offsets h
    obtain ⟨h1, h2⟩ := hmem offsets h
    refine ⟨h1, h2, ?_⟩
    intro hbound x
    rw [h2]
    constructor
    · rintro ⟨idx, hv, hx⟩
      refine ⟨idx, hv, ?_⟩
      have := variableOffset_le idx _ hv
      rw [hx]
      exact Nat.mod_eq_of_lt (by omega)
    · rintro ⟨idx, hv, hx⟩
      refine ⟨idx, hv, ?_⟩
      have := variableOffset_le idx _ hv
      rw [hx]
      exact (Nat.mod_eq_of_lt (by omega)).symm
  · intro p F pointerOperand args AI id gep hfind hsteps
    subst hsteps
    constructor
    · intro hbad
      unfold ScalarArgAsPointerAnalysis.findStoredArgs
      rw [hfind]
      simp only [Option.elim]
      rw [(findStoredArgsOffsets_eq_none gep.steps none [0]).mpr hbad]
    · intro hgood
      cases hoff : findStoredArgsOffsets none gep.steps [0] with
      | none => exact absurd ((findStoredArgsOffsets_eq_none gep.steps none [0]).mp hoff) hgood
      | some offsets =>
        refine ⟨insertStoredArgs p.m_allocas AI offsets args, ?_, ?_⟩
        · unfold ScalarArgAsPointerAnalysis.findStoredArgs
          rw [hfind]
          simp only [Option.elim]
          rw [hoff]
        · intro a
          rw [mem_insertStoredArgs]
          obtain ⟨_, h2⟩ := hmem offsets hoff
          constructor
          · rintro (h | ⟨it, hit, hm⟩)
            · exact Or.inl h
            · obtain ⟨idx, hv, rfl⟩ := (h2 it).mp hit
              exact Or.inr ⟨idx, hv, hm⟩
          · rintro (h | ⟨idx, hv, hm⟩)
            · exact Or.inl h
            · exact Or.inr ⟨_, (h2 _).mpr ⟨idx, hv, rfl⟩, hm⟩

/-! ## The search for the arguments behind an instruction -/

theorem Grows.refl (p : ScalarArgAsPointerAnalysis) : Grows p p :=
  ⟨fun _ h => h, rfl, rfl⟩

theorem Grows.trans {p q r : ScalarArgAsPointerAnalysis} (h1 : Grows p q) (h2 : Grows q r) :
    Grows p r :=
  ⟨fun i h => h2.visited i (h1.visited i h), h2.allocas.trans h1.allocas,
    h2.matching.trans h1.matching⟩

theorem Grows.setVisited (p : ScalarArgAsPointerAnalysis) (inst : Nat)
    (value : Option ArgSet) : Grows p (p.setVisited inst value) := by
  refine ⟨?_, rfl, rfl⟩
  intro i h
  simp only [ScalarArgAsPointerAnalysis.setVisited]
  split
  · exact fun hc => Option.noConfusion hc
  · exact h

theorem Grows.unvisited_le {p q : ScalarArgAsPointerAnalysis} (h : Grows p q) (F : Function) :
    q.unvisited F ≤ p.unvisited F := by
  unfold ScalarArgAsPointerAnalysis.unvisited
  apply List.Sublist.length_le
  apply List.monotone_filter_right
  intro i hi
  simp only [Option.isNone_iff_eq_none] at hi ⊢
  by_contra hc
  exact h.visited i hc hi

theorem unvisited_setVisited_lt (p : ScalarArgAsPointerAnalysis) (F : Function) (inst : Nat)
    (value : Option ArgSet) (hv : p.m_visitedInst inst = none) (hlt : inst < F.body.length) :
    (p.setVisited inst value).unvisited F < p.unvisited F := by
  unfold ScalarArgAsPointerAnalysis.unvisited
  have h1 : (List.range F.body.length).filter
      (fun i => ((p.setVisited inst value).m_visitedInst i).isNone) =
      ((List.range F.body.length).filter (fun i => (p.m_visitedInst i).isNone)).filter
        (fun i => ((p.setVisited inst value).m_visitedInst i).isNone) := by
    rw [List.filter_filter]
    apply List.filter_congr
    intro i _
    simp only [ScalarArgAsPointerAnalysis.setVisited]
    by_cases hi : i = inst
    · simp [hi]
    · simp [hi]
  rw [h1]
  apply List.length_filter_lt_length_iff_exists.mpr
  refine ⟨inst, ?_, ?_⟩
  · simp only [List.mem_filter, List.mem_range]
    exact ⟨hlt, by simp [hv]⟩
  · simp [ScalarArgAsPointerAnalysis.setVisited]

theorem Value.operand_kind_cases (F : Function) (op : Value) :
    (∃ arg, op = Value.argument arg) ∨
    ((∀ a, op ≠ Value.argument a) ∧ ∃ id I, F.asInstruction op = some (id, I)) ∨
    ((∀ a, op ≠ Value.argument a) ∧ F.asInstruction op = none) := by
  cases op with
  | argument arg => exact Or.inl ⟨arg, rfl⟩
  | instruction id =>
    right
    cases h : F.asInstruction (Value.instruction id) with
    | none => exact Or.inr ⟨fun a hc => Value.noConfusion hc, rfl⟩
    | some x => exact Or.inl ⟨fun a hc => Value.noConfusion hc, x.1, x.2, rfl⟩
  | constantInt c => exact Or.inr (Or.inr ⟨fun a hc => Value.noConfusion hc, rfl⟩)
  | other t => exact Or.inr (Or.inr ⟨fun a hc => Value.noConfusion hc, rfl⟩)

theorem findArgsOperands_argument (F : Function)
    (rec : ScalarArgAsPointerAnalysis → Nat →
      Option (Option ArgSet × ScalarArgAsPointerAnalysis))
    (arg : Argument) (rest : List Value) (result : ArgSet) (p : ScalarArgAsPointerAnalysis) :
    findArgsOperands F rec (Value.argument arg :: rest) result p =
      if arg.isIntegerTy then findArgsOperands F rec rest (result.insert arg) p
      else some (none, p) := by
  rw [findArgsOperands]

theorem findArgsOperands_instruction (F : Function)
    (rec : ScalarArgAsPointerAnalysis → Nat →
      Option (Option ArgSet × ScalarArgAsPointerAnalysis))
    (op : Value) (rest : List Value) (result : ArgSet) (p : ScalarArgAsPointerAnalysis)
    (hop : ∀ a, op ≠ Value.argument a) (id : Nat) (I : Instruction)
    (ha : F.asInstruction op = some (id, I)) :
    findArgsOperands F rec (op :: rest) result p =
      match rec p id with
      | none => none
      | some (none, p1) => some (none, p1)
      | some (some args, p1) => findArgsOperands F rec rest (args ∪ result) p1 := by
  cases op with
  | argument arg => exact absurd rfl (hop arg)
  | instruction j =>
    simp only [findArgsOperands]
    rw [ha]
  | constantInt c => exact Option.noConfusion ha
  | other t => exact Option.noConfusion ha

theorem findArgsOperands_skip (F : Function)
    (rec : ScalarArgAsPointerAnalysis → Nat →
      Option (Option ArgSet × ScalarArgAsPointerAnalysis))
    (op : Value) (rest : List Value) (result : ArgSet) (p : ScalarArgAsPointerAnalysis)
    (hop : ∀ a, op ≠ Value.argument a) (ha : F.asInstruction op = none) :
    findArgsOperands F rec (op :: rest) result p = findArgsOperands F rec rest result p := by
  cases op with
  | argument arg => exact absurd rfl (hop arg)
  | instruction j =>
    simp only [findArgsOperands]
    rw [ha]
  | constantInt c => simp only [findArgsOperands, Function.asInstruction]
  | other t => simp only [findArgsOperands, Function.asInstruction]

/-- The loop over the operands keeps the working sets growing when the function it calls
does. -/
theorem findArgsOperands_grows (F : Function)
    (rec : ScalarArgAsPointerAnalysis → Nat →
      Option (Option ArgSet × ScalarArgAsPointerAnalysis))
    (hrec : ∀ p i r q, rec p i = some (r, q) → Grows p q) :
    ∀ (ops : List Value) (result : ArgSet) (p : ScalarArgAsPointerAnalysis)
      (r : Option ArgSet) (q : ScalarArgAsPointerAnalysis),
      findArgsOperands F rec ops result p = some (r, q) → Grows p q := by
  intro ops
  induction ops with
  | nil =>
    intro result p r q h
    simp only [findArgsOperands, Option.some.injEq, Prod.mk.injEq] at h
    rw [← h.2]
    exact Grows.refl p
  | cons op rest ih =>
    intro result p r q h
    rcases Value.operand_kind_cases F op with ⟨arg, rfl⟩ | ⟨hop, id, I, ha⟩ | ⟨hop, ha⟩
    · rw [findArgsOperands_argument] at h
      by_cases hint : arg.isIntegerTy = true
      · rw [if_pos hint] at h
        exact ih _ _ _ _ h
      · rw [if_neg hint] at h
        simp only [Option.some.injEq, Prod.mk.injEq] at h
        rw [← h.2]
        exact Grows.refl p
    · rw [findArgsOperands_instruction F rec op rest result p hop id I ha] at h
      cases hr : rec p id with
      | none =>
        rw [hr] at h
        exact Option.noConfusion h
      | some y =>
        obtain ⟨r1, p1⟩ := y
        rw [hr] at h
        have hg := hrec _ _ _ _ hr
        cases r1 with
        | none =>
          simp only [Option.some.injEq, Prod.mk.injEq] at h
          rw [← h.2]
          exact hg
        | some args => exact hg.trans (ih _ _ _ _ h)
    · rw [findArgsOperands_skip F rec op rest result p hop ha] at h
      exact ih _ _ _ _ h

theorem findArgsFuel_visited (F : Function) (fuel : Nat) (p : ScalarArgAsPointerAnalysis)
    (inst : Nat) (v : Option ArgSet) (hv : p.m_visitedInst inst = some v) :
    findArgsFuel F (fuel + 1) p inst = some (v, p) := by
  rw [findArgsFuel, hv]

theorem findArgsFuel_call (F : Function) (fuel : Nat) (p : ScalarArgAsPointerAnalysis)
    (inst : Nat) (hv : p.m_visitedInst inst = none) (I : Instruction)
    (hI : F.body.get? inst = some I) (ops : List Value)
    (hk : I.kind = InstKind.call false ops) :
    findArgsFuel F (fuel + 1) p inst = some (none, p.setVisited inst none) := by
  rw [findArgsFuel, hv]
  simp only [hI, hk]

theorem findArgsFuel_load (F : Function) (fuel : Nat) (p : ScalarArgAsPointerAnalysis)
    (inst : Nat) (hv : p.m_visitedInst inst = none) (I : Instruction)
    (hI : F.body.get? inst = some I) (pointerOperand : Value)
    (hk : I.kind = InstKind.load pointerOperand) :
    findArgsFuel F (fuel + 1) p inst =
      match (p.setVisited inst none).findStoredArgs F pointerOperand [] with
      | none => none
      | some (false, _) => some (none, p.setVisited inst none)
      | some (true, result) =>
          some (some result, (p.setVisited inst none).setVisited inst (some result)) := by
  rw [findArgsFuel, hv]
  simp only [hI, hk]

theorem findArgsFuel_operands (F : Function) (fuel : Nat) (p : ScalarArgAsPointerAnalysis)
    (inst : Nat) (hv : p.m_visitedInst inst = none) (I : Instruction)
    (hI : F.body.get? inst = some I) (hcall : ∀ ops, I.kind ≠ InstKind.call false ops)
    (hload : ∀ pointerOperand, I.kind ≠ InstKind.load pointerOperand) :
    findArgsFuel F (fuel + 1) p inst =
      match findArgsOperands F (findArgsFuel F fuel) I.operands [] (p.setVisited inst none) with
      | none => none
      | some (none, p2) => some (none, p2)
      | some (some result, p2) => some (some result, p2.setVisited inst (some result)) := by
  rw [findArgsFuel, hv]
  simp only [hI]

theorem findArgsFuel_missing (F : Function) (fuel : Nat) (p : ScalarArgAsPointerAnalysis)
    (inst : Nat) (hv : p.m_visitedInst inst = none) (hI : F.body.get? inst = none) :
    findArgsFuel F (fuel + 1) p inst = some (none, p.setVisited inst none) := by
  rw [findArgsFuel, hv]
  simp only [hI]

/-- The kinds of instruction, as `findArgs` tells them apart. -/
theorem Instruction.kind_cases (I : Instruction) :
    (∃ ops, I.kind = InstKind.call false ops) ∨
    (∃ pointerOperand, I.kind = InstKind.load pointerOperand) ∨
    ((∀ ops, I.kind ≠ InstKind.call false ops) ∧
      (∀ pointerOperand, I.kind ≠ InstKind.load pointerOperand)) := by
  cases hk : I.kind with
  | call b ops =>
    cases b with
    | false => exact Or.inl ⟨ops, rfl⟩
    | true => exact Or.inr (Or.inr ⟨fun _ hc => by simp at hc, fun _ hc => by simp at hc⟩)
  | load ptr => exact Or.inr (Or.inl ⟨ptr, rfl⟩)
  | alloca sz => exact Or.inr (Or.inr ⟨fun _ hc => by simp at hc, fun _ hc => by simp at hc⟩)
  | bitCast src => exact Or.inr (Or.inr ⟨fun _ hc => by simp at hc, fun _ hc => by simp at hc⟩)
  | getElementPtr gep =>
    exact Or.inr (Or.inr ⟨fun _ hc => by simp at hc, fun _ hc => by simp at hc⟩)
  | store v ptr => exact Or.inr (Or.inr ⟨fun _ hc => by simp at hc, fun _ hc => by simp at hc⟩)
  | other ops => exact Or.inr (Or.inr ⟨fun _ hc => by simp at hc, fun _ hc => by simp at hc⟩)

/-- A call of `findArgs` only adds entries to `m_visitedInst`. -/
theorem findArgsFuel_grows (F : Function) :
    ∀ (fuel : Nat) (p : ScalarArgAsPointerAnalysis) (inst : Nat) (r : Option ArgSet)
      (q : ScalarArgAsPointerAnalysis),
      findArgsFuel F fuel p inst = some (r, q) → Grows p q := by
  intro fuel
  induction fuel with
  | zero =>
    intro p inst r q h
    exact Option.noConfusion h
  | succ f ih =>
    intro p inst r q h
    cases hv : p.m_visitedInst inst with
    | some v =>
      rw [findArgsFuel_visited F f p inst v hv] at h
      simp only [Option.some.injEq, Prod.mk.injEq] at h
      rw [← h.2]
      exact Grows.refl p
    | none =>
      cases hI : F.body.get? inst with
      | none =>
        rw [findArgsFuel_missing F f p inst hv hI] at h
        simp only [Option.some.injEq, Prod.mk.injEq] at h
        rw [← h.2]
        exact Grows.setVisited p inst none
      | some I =>
        rcases Instruction.kind_cases I with ⟨ops, hk⟩ | ⟨ptr, hk⟩ | ⟨hcall, hload⟩
        · rw [findArgsFuel_call F f p inst hv I hI ops hk] at h
          simp only [Option.some.injEq, Prod.mk.injEq] at h
          rw [← h.2]
          exact Grows.setVisited p inst none
        · rw [findArgsFuel_load F f p inst hv I hI ptr hk] at h
          cases hs : (p.setVisited inst none).findStoredArgs F ptr [] with
          | none =>
            rw [hs] at h
            exact Option.noConfusion h
          | some x =>
            obtain ⟨b, result⟩ := x
            rw [hs] at h
            cases b with
            | false =>
              simp only [Option.some.injEq, Prod.mk.injEq] at h
              rw [← h.2]
              exact Grows.setVisited p inst none
            | true =>
              simp only [Option.some.injEq, Prod.mk.injEq] at h
              rw [← h.2]
              exact (Grows.setVisited p inst none).trans (Grows.setVisited _ inst _)
        · rw [findArgsFuel_operands F f p inst hv I hI hcall hload] at h
          cases ho : findArgsOperands F (findArgsFuel F f) I.operands []
              (p.setVisited inst none) with
          | none =>
            rw [ho] at h
            exact Option.noConfusion h
          | some x =>
            obtain ⟨r1, p2⟩ := x
            rw [ho] at h
            have hg := findArgsOperands_grows F (findArgsFuel F f) ih _ _ _ _ _ ho
            cases r1 with
            | none =>
              simp only [Option.some.injEq, Prod.mk.injEq] at h
              rw [← h.2]
              exact (Grows.setVisited p inst none).trans hg
            | some result =>
              simp only [Option.some.injEq, Prod.mk.injEq] at h
              rw [← h.2]
              exact ((Grows.setVisited p inst none).trans hg).trans (Grows.setVisited _ inst _)

/-- The loop over the operands does not depend on the function it calls beyond the working
sets that it can reach. -/
theorem findArgsOperands_congr (F : Function)
    (rec1 rec2 : ScalarArgAsPointerAnalysis → Nat →
      Option (Option ArgSet × ScalarArgAsPointerAnalysis))
    (bound : Nat)
    (hrec : ∀ p i r q, rec1 p i = some (r, q) → Grows p q)
    (heq : ∀ p i, p.unvisited F ≤ bound → rec1 p i = rec2 p i) :
    ∀ (ops : List Value) (result : ArgSet) (p : ScalarArgAsPointerAnalysis),
      p.unvisited F ≤ bound →
      findArgsOperands F rec1 ops result p = findArgsOperands F rec2 ops result p := by
  intro ops
  induction ops with
  | nil =>
    intro result p _
    simp only [findArgsOperands]
  | cons op rest ih =>
    intro result p hp
    rcases Value.operand_kind_cases F op with ⟨arg, rfl⟩ | ⟨hop, id, I, ha⟩ | ⟨hop, ha⟩
    · rw [findArgsOperands_argument, findArgsOperands_argument, ih _ _ hp]
    · rw [findArgsOperands_instruction F rec1 op rest result p hop id I ha,
        findArgsOperands_instruction F rec2 op rest result p hop id I ha, ← heq p id hp]
      cases hr : rec1 p id with
      | none => rfl
      | some y =>
        obtain ⟨r1, p1⟩ := y
        cases r1 with
        | none => rfl
        | some args =>
          exact ih _ _ (le_trans ((hrec _ _ _ _ hr).unvisited_le F) hp)
    · rw [findArgsOperands_skip F rec1 op rest result p hop ha,
        findArgsOperands_skip F rec2 op rest result p hop ha, ih _ _ hp]

/-- More depth than the number of instructions without an entry does not change the result
of `findArgs`. -/
theorem findArgsFuel_succ (F : Function) :
    ∀ (fuel : Nat) (p : ScalarArgAsPointerAnalysis) (inst : Nat),
      p.unvisited F < fuel → findArgsFuel F fuel p inst = findArgsFuel F (fuel + 1) p inst := by
  intro fuel
  induction fuel with
  | zero =>
    intro p inst h
    exact absurd h (Nat.not_lt_zero _)
  | succ f ih =>
    intro p inst h
    cases hv : p.m_visitedInst inst with
    | some v => rw [findArgsFuel_visited F f p inst v hv, findArgsFuel_visited F _ p inst v hv]
    | none =>
      cases hI : F.body.get? inst with
      | none => rw [findArgsFuel_missing F f p inst hv hI, findArgsFuel_missing F _ p inst hv hI]
      | some I =>
        rcases Instruction.kind_cases I with ⟨ops, hk⟩ | ⟨ptr, hk⟩ | ⟨hcall, hload⟩
        · rw [findArgsFuel_call F f p inst hv I hI ops hk,
            findArgsFuel_call F _ p inst hv I hI ops hk]
        · rw [findArgsFuel_load F f p inst hv I hI ptr hk,
            findArgsFuel_load F _ p inst hv I hI ptr hk]
        · rw [findArgsFuel_operands F f p inst hv I hI hcall hload,
            findArgsFuel_operands F _ p inst hv I hI hcall hload]
          have hlt := unvisited_setVisited_lt p F inst none hv (List.get?_eq_some.mp hI).1
          rw [findArgsOperands_congr F (findArgsFuel F f) (findArgsFuel F (f + 1))
            ((p.setVisited inst none).unvisited F) (findArgsFuel_grows F f)
            (fun q i hq => ih q i (by omega)) _ _ _ (le_refl _)]

theorem findArgsFuel_eq_findArgs (F : Function) (p : ScalarArgAsPointerAnalysis) (inst : Nat) :
    ∀ fuel, p.unvisited F < fuel → findArgsFuel F fuel p inst = p.findArgs F inst := by
  intro fuel
  induction fuel with
  | zero =>
    intro h
    exact absurd h (Nat.not_lt_zero _)
  | succ f ih =>
    intro h
    rcases Nat.lt_or_ge (p.unvisited F) f with hlt | hge
    · rw [← findArgsFuel_succ F f p inst hlt]
      exact ih hlt
    · have : f = p.unvisited F := by omega
      rw [this]
      rfl

theorem operandSets_argument (F : Function)
    (rec : ScalarArgAsPointerAnalysis → Nat →
      Option (Option ArgSet × ScalarArgAsPointerAnalysis))
    (arg : Argument) (rest : List Value) (p : ScalarArgAsPointerAnalysis) :
    operandSets F rec (Value.argument arg :: rest) p =
      if arg.isIntegerTy then (operandSets F rec rest p).map (fun l => some [arg] :: l)
      else some [none] := by
  rw [operandSets]

theorem operandSets_instruction (F : Function)
    (rec : ScalarArgAsPointerAnalysis → Nat →
      Option (Option ArgSet × ScalarArgAsPointerAnalysis))
    (op : Value) (rest : List Value) (p : ScalarArgAsPointerAnalysis)
    (hop : ∀ a, op ≠ Value.argument a) (id : Nat) (I : Instruction)
    (ha : F.asInstruction op = some (id, I)) :
    operandSets F rec (op :: rest) p =
      match rec p id with
      | none => none
      | some (none, _) => some [none]
      | some (some args, p1) => (operandSets F rec rest p1).map (fun l => some args :: l) := by
  cases op with
  | argument arg => exact absurd rfl (hop arg)
  | instruction j =>
    simp only [operandSets]
    rw [ha]
  | constantInt c => exact Option.noConfusion ha
  | other t => exact Option.noConfusion ha

theorem operandSets_skip (F : Function)
    (rec : ScalarArgAsPointerAnalysis → Nat →
      Option (Option ArgSet × ScalarArgAsPointerAnalysis))
    (op : Value) (rest : List Value) (p : ScalarArgAsPointerAnalysis)
    (hop : ∀ a, op ≠ Value.argument a) (ha : F.asInstruction op = none) :
    operandSets F rec (op :: rest) p = operandSets F rec rest p := by
  cases op with
  | argument arg => exact absurd rfl (hop arg)
  | instruction j =>
    simp only [operandSets]
    rw [ha]
  | constantInt c => simp only [operandSets, Function.asInstruction]
  | other t => simp only [operandSets, Function.asInstruction]

/-- The loop over the operands in terms of what the operands contribute: it does not return
exactly when a call on an operand does not; it fails exactly when an operand is a failure;
and otherwise its result holds what it held before and what the operands contribute. -/
theorem findArgsOperands_spec (F : Function)
    (rec : ScalarArgAsPointerAnalysis → Nat →
      Option (Option ArgSet × ScalarArgAsPointerAnalysis)) :
    ∀ (ops : List Value) (result : ArgSet) (p : ScalarArgAsPointerAnalysis),
      (findArgsOperands F rec ops result p = none ↔ operandSets F rec ops p = none) ∧
      ∀ l, operandSets F rec ops p = some l →
        ∃ r q, findArgsOperands F rec ops result p = some (r, q) ∧
          (r = none ↔ none ∈ l) ∧
          ∀ s, r = some s → ∀ a, a ∈ s ↔ a ∈ result ∨ ∃ t, some t ∈ l ∧ a ∈ t := by
  intro ops
  induction ops with
  | nil =>
    intro result p
    refine ⟨by simp [findArgsOperands, operandSets], ?_⟩
    intro l hl
    simp only [operandSets, Option.some.injEq] at hl
    subst hl
    refine ⟨some result, p, rfl, by simp, ?_⟩
    intro s hs a
    simp only [Option.some.injEq] at hs
    subst hs
    simp
  | cons op rest ih =>
    intro result p
    -- the step from the rest of the operands to all of them
    have hstep : ∀ (result1 : ArgSet) (p1 : ScalarArgAsPointerAnalysis) (t0 : ArgSet),
        (∀ a, a ∈ result1 ↔ a ∈ result ∨ a ∈ t0) →
        (findArgsOperands F rec rest result1 p1 = none ↔
          (operandSets F rec rest p1).map (fun l => some t0 :: l) = none) ∧
        ∀ l, (operandSets F rec rest p1).map (fun l => some t0 :: l) = some l →
          ∃ r q, findArgsOperands F rec rest result1 p1 = some (r, q) ∧
            (r = none ↔ none ∈ l) ∧
            ∀ s, r = some s → ∀ a, a ∈ s ↔ a ∈ result ∨ ∃ t, some t ∈ l ∧ a ∈ t := by
      intro result1 p1 t0 hres
      obtain ⟨ih1, ih2⟩ := ih result1 p1
      refine ⟨by rw [ih1]; simp, ?_⟩
      intro l hl
      simp only [Option.map_eq_some'] at hl
      obtain ⟨l1, hl1, rfl⟩ := hl
      obtain ⟨r, q, e1, e2, e3⟩ := ih2 l1 hl1
      refine ⟨r, q, e1, by simp [e2], ?_⟩
      intro s hs a
      rw [e3 s hs a, hres a]
      simp only [List.mem_cons, Option.some.injEq]
      constructor
      · rintro ((h | h) | ⟨t, ht, ha⟩)
        · exact Or.inl h
        · exact Or.inr ⟨t0, Or.inl rfl, h⟩
        · exact Or.inr ⟨t, Or.inr ht, ha⟩
      · rintro (h | ⟨t, (ht | ht), ha⟩)
        · exact Or.inl (Or.inl h)
        · rw [ht] at ha
          exact Or.inl (Or.inr ha)
        · exact Or.inr ⟨t, ht, ha⟩
    have hfail : ∀ (q : ScalarArgAsPointerAnalysis),
        ∀ l : List (Option ArgSet), some [none] = some l →
          ∃ (r : Option ArgSet) (q1 : ScalarArgAsPointerAnalysis),
            (some (none, q) : Option (Option ArgSet × ScalarArgAsPointerAnalysis))
              = some (r, q1) ∧
            (r = none ↔ none ∈ l) ∧
            ∀ s : ArgSet, r = some s →
              ∀ a, a ∈ s ↔ a ∈ result ∨ ∃ t : ArgSet, some t ∈ l ∧ a ∈ t := by
      intro q l hl
      simp only [Option.some.injEq] at hl
      subst hl
      exact ⟨none, q, rfl, by simp, fun s hs => Option.noConfusion hs⟩
    rcases Value.operand_kind_cases F op with ⟨arg, rfl⟩ | ⟨hop, id, I, ha⟩ | ⟨hop, ha⟩
    · rw [findArgsOperands_argument, operandSets_argument]
      by_cases hint : arg.isIntegerTy = true
      · rw [if_pos hint, if_pos hint]
        apply hstep
        intro a
        simp only [List.mem_insert_iff, List.mem_singleton]
        tauto
      · rw [if_neg hint, if_neg hint]
        exact ⟨by simp, hfail p⟩
    · rw [findArgsOperands_instruction F rec op rest result p hop id I ha,
        operandSets_instruction F rec op rest p hop id I ha]
      cases hr : rec p id with
      | none => exact ⟨by simp, fun l hl => Option.noConfusion hl⟩
      | some y =>
        obtain ⟨r1, p1⟩ := y
        cases r1 with
        | none => exact ⟨by simp, hfail p1⟩
        | some args =>
          apply hstep
          intro a
          simp only [List.mem_union_iff]
          tauto
    · rw [findArgsOperands_skip F rec op rest result p hop ha,
        operandSets_skip F rec op rest p hop ha]
      exact ih result p

/-- The call of `findArgs` on an instruction without an entry that is neither a call that is
not a GenIntrinsic nor a load: the loop over the operands, with `findArgs` on the operands. -/
theorem findArgs_operands (F : Function) (p : ScalarArgAsPointerAnalysis) (inst : Nat)
    (hv : p.m_visitedInst inst = none) (I : Instruction) (hI : F.body.get? inst = some I)
    (hcall : ∀ ops, I.kind ≠ InstKind.call false ops)
    (hload : ∀ pointerOperand, I.kind ≠ InstKind.load pointerOperand) :
    p.findArgs F inst =
      match findArgsOperands F (fun q i => q.findArgs F i) I.operands []
          (p.setVisited inst none) with
      | none => none
      | some (none, p2) => some (none, p2)
      | some (some result, p2) => some (some result, p2.setVisited inst (some result)) := by
  unfold ScalarArgAsPointerAnalysis.findArgs
  rw [findArgsFuel_operands F _ p inst hv I hI hcall hload]
  have hlt := unvisited_setVisited_lt p F inst none hv (List.get?_eq_some.mp hI).1
  rw [findArgsOperands_congr F (findArgsFuel F (p.unvisited F))
    (fun q i => findArgsFuel F (q.unvisited F + 1) q i)
    ((p.setVisited inst none).unvisited F) (findArgsFuel_grows F _)
    (fun q i hq => findArgsFuel_eq_findArgs F q i _ (by omega)) _ _ _ (le_refl _)]

theorem findStoredArgs_isSome (p : ScalarArgAsPointerAnalysis) (F : Function)
    (pointerOperand : Value) (args : ArgSet)
    (h : (findAllocaWithOffset F pointerOperand none).isSome = true) :
    (p.findStoredArgs F pointerOperand args).isSome = true := by
  unfold ScalarArgAsPointerAnalysis.findStoredArgs
  cases hf : findAllocaWithOffset F pointerOperand none with
  | none =>
    rw [hf] at h
    exact Bool.noConfusion h
  | some x =>
    obtain ⟨b, AI, GEPI⟩ := x
    cases b with
    | false => rfl
    | true =>
      simp only []
      cases findStoredArgsOffsets none (GEPI.elim [] (fun g => g.2.steps)) [0] <;> rfl

theorem findStoredArgs_eq_none (p : ScalarArgAsPointerAnalysis) (F : Function)
    (pointerOperand : Value) (args : ArgSet) :
    p.findStoredArgs F pointerOperand args = none ↔
      findAllocaWithOffset F pointerOperand none = none := by
  constructor
  · intro h
    cases hf : findAllocaWithOffset F pointerOperand none with
    | none => rfl
    | some x =>
      have := findStoredArgs_isSome p F pointerOperand args (by rw [hf]; rfl)
      rw [h] at this
      exact Bool.noConfusion this
  · intro h
    unfold ScalarArgAsPointerAnalysis.findStoredArgs
    rw [h]

/-- The loop over the operands returns when the function it calls does on the working sets
that the loop can reach. -/
theorem findArgsOperands_isSome (F : Function)
    (rec : ScalarArgAsPointerAnalysis → Nat →
      Option (Option ArgSet × ScalarArgAsPointerAnalysis))
    (bound : Nat)
    (hrec : ∀ p i r q, rec p i = some (r, q) → Grows p q)
    (hsome : ∀ p i, p.unvisited F ≤ bound → (rec p i).isSome = true) :
    ∀ (ops : List Value) (result : ArgSet) (p : ScalarArgAsPointerAnalysis),
      p.unvisited F ≤ bound → (findArgsOperands F rec ops result p).isSome = true := by
  intro ops
  induction ops with
  | nil =>
    intro result p _
    rfl
  | cons op rest ih =>
    intro result p hp
    rcases Value.operand_kind_cases F op with ⟨arg, rfl⟩ | ⟨hop, id, I, ha⟩ | ⟨hop, ha⟩
    · rw [findArgsOperands_argument]
      by_cases hint : arg.isIntegerTy = true
      · rw [if_pos hint]
        exact ih _ _ hp
      · rw [if_neg hint]
        rfl
    · rw [findArgsOperands_instruction F rec op rest result p hop id I ha]
      cases hr : rec p id with
      | none =>
        have := hsome p id hp
        rw [hr] at this
        exact Bool.noConfusion this
      | some y =>
        obtain ⟨r1, p1⟩ := y
        cases r1 with
        | none => rfl
        | some args => exact ih _ _ (le_trans ((hrec _ _ _ _ hr).unvisited_le F) hp)
    · rw [findArgsOperands_skip F rec op rest result p hop ha]
      exact ih _ _ hp

/-- In a well-formed function `findArgs` returns. -/
theorem findArgsFuel_isSome (F : Function) (hF : F.wellFormed) :
    ∀ (fuel : Nat) (p : ScalarArgAsPointerAnalysis) (inst : Nat),
      p.unvisited F < fuel → (findArgsFuel F fuel p inst).isSome = true := by
  intro fuel
  induction fuel with
  | zero =>
    intro p inst h
    exact absurd h (Nat.not_lt_zero _)
  | succ f ih =>
    intro p inst h
    cases hv : p.m_visitedInst inst with
    | some v =>
      rw [findArgsFuel_visited F f p inst v hv]
      rfl
    | none =>
      cases hI : F.body.get? inst with
      | none =>
        rw [findArgsFuel_missing F f p inst hv hI]
        rfl
      | some I =>
        rcases Instruction.kind_cases I with ⟨ops, hk⟩ | ⟨ptr, hk⟩ | ⟨hcall, hload⟩
        · rw [findArgsFuel_call F f p inst hv I hI ops hk]
          rfl
        · rw [findArgsFuel_load F f p inst hv I hI ptr hk]
          have hs := findStoredArgs_isSome (p.setVisited inst none) F ptr []
            (hF I (List.get?_mem hI) ptr (by simp [Instruction.pointerOperand, hk]))
          cases hfs : (p.setVisited inst none).findStoredArgs F ptr [] with
          | none =>
            rw [hfs] at hs
            exact Bool.noConfusion hs
          | some x =>
            obtain ⟨b, result⟩ := x
            cases b <;> rfl
        · rw [findArgsFuel_operands F f p inst hv I hI hcall hload]
          have hlt := unvisited_setVisited_lt p F inst none hv (List.get?_eq_some.mp hI).1
          have ho := findArgsOperands_isSome F (findArgsFuel F f)
            ((p.setVisited inst none).unvisited F) (findArgsFuel_grows F f)
            (fun q i hq => ih q i (by omega)) I.operands [] _ (le_refl _)
          cases hfo : findArgsOperands F (findArgsFuel F f) I.operands []
              (p.setVisited inst none) with
          | none =>
            rw [hfo] at ho
            exact Bool.noConfusion ho
          | some x =>
            obtain ⟨r1, p2⟩ := x
            cases r1 <;> rfl

theorem findArgs_isSome (F : Function) (hF : F.wellFormed) (p : ScalarArgAsPointerAnalysis)
    (inst : Nat) : (p.findArgs F inst).isSome = true :=
  findArgsFuel_isSome F hF _ p inst (Nat.lt_succ_self _)

theorem findArgs_grows (F : Function) (p : ScalarArgAsPointerAnalysis) (inst : Nat)
    (r : Option ArgSet) (q : ScalarArgAsPointerAnalysis)
    (h : p.findArgs F inst = some (r, q)) : Grows p q :=
  findArgsFuel_grows F _ p inst r q h

/-- C20: `findArgs` on an instruction that has no entry in `m_visitedInst` fails, returning
null, for a call that is not a GenIntrinsic; for a load it fails exactly when
`findStoredArgs` returns false, and returns the set that `findStoredArgs` found otherwise; for
any other instruction it fails if and only if some operand is an argument of a type that is
not an integer type or is an instruction for which `findArgs` fails, and otherwise it returns
the union of the integer arguments among its operands and of the sets that `findArgs` returns
for the operands that are instructions.  In a well-formed function it returns. -/
theorem findArgs_spec (F : Function) (p : ScalarArgAsPointerAnalysis) (inst : Nat)
    (I : Instruction) (hv : p.m_visitedInst inst = none) (hI : F.body.get? inst = some I) :
    (∀ ops, I.kind = InstKind.call false ops →
      p.findArgs F inst = some (none, p.setVisited inst none)) ∧
    (∀ pointerOperand, I.kind = InstKind.load pointerOperand →
      (p.findArgs F inst = none ↔
        (p.setVisited inst none).findStoredArgs F pointerOperand [] = none) ∧
      ∀ b args, (p.setVisited inst none).findStoredArgs F pointerOperand [] = some (b, args) →
        ∃ r q, p.findArgs F inst = some (r, q) ∧ (r = none ↔ b = false) ∧
          (b = true → r = some args)) ∧
    ((∀ ops, I.kind ≠ InstKind.call false ops) →
      (∀ pointerOperand, I.kind ≠ InstKind.load pointerOperand) →
      (p.findArgs F inst = none ↔
        operandSets F (fun q i => q.findArgs F i) I.operands (p.setVisited inst none) = none) ∧
      ∀ l, operandSets F (fun q i => q.findArgs F i) I.operands (p.setVisited inst none)
          = some l →
        ∃ r q, p.findArgs F inst = some (r, q) ∧ (r = none ↔ none ∈ l) ∧
          ∀ s, r = some s → ∀ a, a ∈ s ↔ ∃ t, some t ∈ l ∧ a ∈ t) ∧
    (F.wellFormed → (p.findArgs F inst).isSome = true) := by
  refine ⟨?_, ?_, ?_, fun hF => findArgs_isSome F hF p inst⟩
  · intro ops hk
    exact findArgsFuel_call F _ p inst hv I hI ops hk
  · intro ptr hk
    have heq := findArgsFuel_load F (p.unvisited F) p inst hv I hI ptr hk
    constructor
    · unfold ScalarArgAsPointerAnalysis.findArgs
      rw [heq]
      cases hfs : (p.setVisited inst none).findStoredArgs F ptr [] with
      | none => simp
      | some x =>
        obtain ⟨b, result⟩ := x
        cases b <;> simp
    · intro b args hfs
      unfold ScalarArgAsPointerAnalysis.findArgs
      rw [heq, hfs]
      cases b with
      | false => exact ⟨none, _, rfl, by simp, fun h => Bool.noConfusion h⟩
      | true => exact ⟨some args, _, rfl, by simp, fun _ => rfl⟩
  · intro hcall hload
    rw [findArgs_operands F p inst hv I hI hcall hload]
    obtain ⟨h1, h2⟩ := findArgsOperands_spec F (fun q i => q.findArgs F i) I.operands []
      (p.setVisited inst none)
    constructor
    · rw [← h1]
      cases hfo : findArgsOperands F (fun q i => q.findArgs F i) I.operands []
          (p.setVisited inst none) with
      | none => simp
      | some x =>
        obtain ⟨r1, p2⟩ := x
        cases r1 <;> simp
    · intro l hl
      obtain ⟨r, q, e1, e2, e3⟩ := h2 l hl
      rw [e1]
      cases r with
      | none => exact ⟨none, q, rfl, e2, fun s hs => Option.noConfusion hs⟩
      | some s0 =>
        refine ⟨some s0, _, rfl, e2, ?_⟩
        intro s hs a
        rw [e3 s hs a]
        simp

/-- Witness of C20: an instruction whose operands are the result of an instruction on the
integer argument 0, the integer argument 1 and a constant; `findArgs` returns a set that holds
just these two arguments. -/
theorem findArgs_spec_witness :
    ∃ r q, ScalarArgAsPointerAnalysis.findArgs ⟨[], fun _ => none, fun _ => none⟩
        ⟨0, [⟨InstKind.other [Value.argument ⟨0, IRType.integer⟩], IRType.integer⟩,
          ⟨InstKind.other [Value.instruction 0, Value.argument ⟨1, IRType.integer⟩,
            Value.constantInt 4], IRType.integer⟩]⟩ 1 = some (r, q) ∧
      (r = none ↔ none ∈ [some [(⟨0, IRType.integer⟩ : Argument)], some [⟨1, IRType.integer⟩]]) ∧
      ∀ s, r = some s → ∀ a, a ∈ s ↔
        ∃ t, some t ∈ [some [(⟨0, IRType.integer⟩ : Argument)], some [⟨1, IRType.integer⟩]] ∧
          a ∈ t :=
  ((findArgs_spec
    ⟨0, [⟨InstKind.other [Value.argument ⟨0, IRType.integer⟩], IRType.integer⟩,
      ⟨InstKind.other [Value.instruction 0, Value.argument ⟨1, IRType.integer⟩,
        Value.constantInt 4], IRType.integer⟩]⟩
    ⟨[], fun _ => none, fun _ => none⟩ 1
    ⟨InstKind.other [Value.instruction 0, Value.argument ⟨1, IRType.integer⟩,
      Value.constantInt 4], IRType.integer⟩ rfl rfl).2.2.1
    (fun _ h => InstKind.noConfusion h) (fun _ h => InstKind.noConfusion h)).2
    [some [⟨0, IRType.integer⟩], some [⟨1, IRType.integer⟩]] (by decide)

/-! ## The analysis of a function -/

theorem mem_insertArgNos :
    ∀ (args : ArgSet) (set : List Nat) (n : Nat),
      n ∈ insertArgNos args set ↔ n ∈ set ∨ ∃ a ∈ args, a.argNo = n := by
  intro args
  induction args with
  | nil =>
    intro set n
    simp [insertArgNos]
  | cons it rest ih =>
    intro set n
    rw [insertArgNos, ih]
    simp only [List.mem_insert_iff, List.mem_cons, exists_eq_or_imp]
    constructor
    · rintro ((h | h) | h)
      · exact Or.inr (Or.inl h.symm)
      · exact Or.inl h
      · exact Or.inr (Or.inr h)
    · rintro (h | h | h)
      · exact Or.inl (Or.inr h)
      · exact Or.inl (Or.inl h.symm)
      · exact Or.inr h

theorem wellFormed_typeOf (F : Function) (V : Value)
    (h : (findAllocaWithOffset F V none).isSome = true) :
    ∃ addressSpace, F.typeOf V = IRType.pointer addressSpace := by
  unfold findAllocaWithOffset at h
  cases ht : F.typeOf V with
  | pointer addressSpace => exact ⟨addressSpace, rfl⟩
  | integer =>
    rw [ht] at h
    exact Bool.noConfusion h
  | other =>
    rw [ht] at h
    exact Bool.noConfusion h

theorem analyzePointer_isSome (F : Function) (hF : F.wellFormed)
    (p : ScalarArgAsPointerAnalysis) (V : Value)
    (h : (findAllocaWithOffset F V none).isSome = true) :
    (p.analyzePointer F V).isSome = true := by
  obtain ⟨addressSpace, ht⟩ := wellFormed_typeOf F V h
  unfold ScalarArgAsPointerAnalysis.analyzePointer
  rw [ht]
  simp only []
  split
  · rfl
  · cases ha : F.asInstruction V with
    | none => rfl
    | some x =>
      obtain ⟨inst, I⟩ := x
      simp only []
      have hs := findArgs_isSome F hF p inst
      cases hfa : p.findArgs F inst with
      | none =>
        rw [hfa] at hs
        exact Bool.noConfusion hs
      | some y =>
        obtain ⟨r, q⟩ := y
        cases r <;> rfl

theorem analyzeStoredArg_isSome (F : Function) (p : ScalarArgAsPointerAnalysis)
    (valueOperand pointerOperand : Value)
    (h : (findAllocaWithOffset F pointerOperand none).isSome = true) :
    (p.analyzeStoredArg F valueOperand pointerOperand).isSome = true := by
  unfold ScalarArgAsPointerAnalysis.analyzeStoredArg
  cases valueOperand with
  | argument A =>
    simp only []
    cases hf : findAllocaWithOffset F pointerOperand none with
    | none =>
      rw [hf] at h
      exact Bool.noConfusion h
    | some x =>
      obtain ⟨b, AI, GEPI⟩ := x
      cases b with
      | false => rfl
      | true =>
        simp only []
        split <;> rfl
  | instruction id => rfl
  | constantInt c => rfl
  | other t => rfl

theorem visitInst_isSome (F : Function) (hF : F.wellFormed) (p : ScalarArgAsPointerAnalysis)
    (I : Instruction) (hI : I ∈ F.body) : (p.visitInst F I).isSome = true := by
  unfold ScalarArgAsPointerAnalysis.visitInst
  cases hk : I.kind with
  | store v ptr =>
    simp only []
    have hp := hF I hI ptr (by simp [Instruction.pointerOperand, hk])
    have hs := analyzeStoredArg_isSome F p v ptr hp
    cases hsa : p.analyzeStoredArg F v ptr with
    | none =>
      rw [hsa] at hs
      exact Bool.noConfusion hs
    | some p1 => exact analyzePointer_isSome F hF p1 ptr hp
  | load ptr =>
    exact analyzePointer_isSome F hF p ptr
      (hF I hI ptr (by simp [Instruction.pointerOperand, hk]))
  | alloca sz => rfl
  | bitCast src => rfl
  | getElementPtr gep => rfl
  | call b ops => rfl
  | other ops => rfl

theorem visitInsts_isSome (F : Function) (hF : F.wellFormed) :
    ∀ (insts : List Instruction) (p : ScalarArgAsPointerAnalysis),
      (∀ I ∈ insts, I ∈ F.body) →
      (ScalarArgAsPointerAnalysis.visitInsts F insts p).isSome = true := by
  intro insts
  induction insts with
  | nil =>
    intro p _
    rfl
  | cons I rest ih =>
    intro p hsub
    rw [ScalarArgAsPointerAnalysis.visitInsts]
    have hs := visitInst_isSome F hF p I (hsub I (List.mem_cons_self _ _))
    cases hv : p.visitInst F I with
    | none =>
      rw [hv] at hs
      exact Bool.noConfusion hs
    | some p1 => exact ih p1 (fun J hJ => hsub J (List.mem_cons_of_mem _ hJ))

/-- C17: `analyzeFunction` clears its working sets on entry, so that its result does not
depend on the working sets left by the function analyzed before; it returns true if and only
if the set of matching arguments is not empty after the visit of the function.  When it
returns true the set `m_OpenCLArgScalarAsPointers` of the function holds what it held before
and the argument numbers of the matching arguments, and the metadata of the other functions
is unchanged; when it returns false the metadata is unchanged.  It returns whenever the visit
does, and the visit of a well-formed function does. -/
theorem analyzeFunction_spec (p : ScalarArgAsPointerAnalysis) (md : ModuleMetaData)
    (F : Function) :
    (p.clear.m_matchingArgs = [] ∧ (∀ i, p.clear.m_visitedInst i = none) ∧
      ∀ key, p.clear.m_allocas key = none) ∧
    (∀ p2 : ScalarArgAsPointerAnalysis, p2.analyzeFunction md F = p.analyzeFunction md F) ∧
    (p.analyzeFunction md F = none ↔ p.clear.visit F = none) ∧
    (∀ q, p.clear.visit F = some q →
      ∃ ret md1, p.analyzeFunction md F = some (ret, q, md1) ∧
        (ret = true ↔ q.m_matchingArgs ≠ []) ∧
        (ret = true →
          (∀ k, k ≠ F.key → md1.FuncMD k = md.FuncMD k) ∧
          ∃ funcMD, md1.FuncMD F.key = some funcMD ∧
            ∀ n, n ∈ funcMD.m_OpenCLArgScalarAsPointers ↔
              n ∈ ((md.FuncMD F.key).getD ⟨[]⟩).m_OpenCLArgScalarAsPointers ∨
                ∃ a ∈ q.m_matchingArgs, a.argNo = n) ∧
        (ret = false → md1 = md)) ∧
    (F.wellFormed → (p.analyzeFunction md F).isSome = true) := by
  have hvisit : ∀ q, p.clear.visit F = some q →
      ∃ ret md1, p.analyzeFunction md F = some (ret, q, md1) ∧
        (ret = true ↔ q.m_matchingArgs ≠ []) ∧
        (ret = true →
          (∀ k, k ≠ F.key → md1.FuncMD k = md.FuncMD k) ∧
          ∃ funcMD, md1.FuncMD F.key = some funcMD ∧
            ∀ n, n ∈ funcMD.m_OpenCLArgScalarAsPointers ↔
              n ∈ ((md.FuncMD F.key).getD ⟨[]⟩).m_OpenCLArgScalarAsPointers ∨
                ∃ a ∈ q.m_matchingArgs, a.argNo = n) ∧
        (ret = false → md1 = md) := by
    intro q hq
    unfold ScalarArgAsPointerAnalysis.analyzeFunction
    rw [hq]
    simp only []
    by_cases he : q.m_matchingArgs.isEmpty = true
    · rw [if_pos he]
      refine ⟨false, md, rfl, ?_, fun h => Bool.noConfusion h, fun _ => rfl⟩
      simp only [List.isEmpty_iff] at he
      simp [he]
    · rw [if_neg he]
      refine ⟨true, _, rfl, ?_, fun _ => ⟨?_,
        ⟨insertArgNos q.m_matchingArgs
          ((md.FuncMD F.key).getD ⟨[]⟩).m_OpenCLArgScalarAsPointers⟩, ?_, ?_⟩,
        fun h => Bool.noConfusion h⟩
      · simp only [List.isEmpty_iff] at he
        simp [he]
      · intro k hk
        simp only [hk, if_false]
      · simp only [if_true]
      · intro n
        exact mem_insertArgNos _ _ n
  refine ⟨⟨rfl, fun _ => rfl, fun _ => rfl⟩, fun p2 => rfl, ?_, hvisit, ?_⟩
  · constructor
    · intro h
      cases hq : p.clear.visit F with
      | none => rfl
      | some q =>
        obtain ⟨ret, md1, e, _⟩ := hvisit q hq
        rw [e] at h
        exact Option.noConfusion h
    · intro h
      unfold ScalarArgAsPointerAnalysis.analyzeFunction
      rw [h]
  · intro hF
    have hs := visitInsts_isSome F hF F.body p.clear (fun I hI => hI)
    cases hq : p.clear.visit F with
    | none =>
      unfold ScalarArgAsPointerAnalysis.visit at hq
      rw [hq] at hs
      exact Bool.noConfusion hs
    | some q =>
      obtain ⟨ret, md1, e, _⟩ := hvisit q hq
      rw [e]
      rfl

/-- An example of the analysis: a load from the global pointer made of the integer argument 0
matches the argument, and the argument number 0 is put into the metadata of the function. -/
theorem analyzeFunction_example :
    (ScalarArgAsPointerAnalysis.analyzeFunction ⟨[], fun _ => none, fun _ => none⟩
        ⟨fun _ => none⟩
        ⟨7, [⟨InstKind.other [Value.argument ⟨0, IRType.integer⟩],
            IRType.pointer ADDRESS_SPACE.ADDRESS_SPACE_GLOBAL⟩,
          ⟨InstKind.load (Value.instruction 0), IRType.integer⟩]⟩).map
      (fun r => (r.1, r.2.1.m_matchingArgs, r.2.2.FuncMD 7)) =
      some (true, [⟨0, IRType.integer⟩], some ⟨[0]⟩) := by
  decide

end ScalarArgAsPointer

end IGC
